import Mathlib

/-!
# KFS: file-id registry, mount table and NFSv3 request engine

A shallow embedding of `Source/kfslib` (`fileid.c`, `internal.c`, `kfslib.c`,
`backends/nfs/nfs3.c`) together with theorems about it.

Conventions of the embedding.

* A C string is the list of the characters that precede its terminating NUL;
  a `char *` that may be `NULL` is an `Option CStr`.
* Unsigned 64-bit values are natural numbers reduced modulo `2 ^ 64` wherever
  the C code can overflow.  The build is the `__LP64__` one, so a `uintptr_t`
  holds a `uint64_t` without loss.
* Static and global variables of a translation unit become fields of an
  explicit state record that every function takes and gives back.
* A function whose C execution is undefined (a `NULL` dereference, an array
  access out of bounds) returns `none`.
-/

namespace KFS

/-- A NUL-terminated C string, without its terminator. -/
abbrev CStr := List Char

/-! ## CoreFoundation dictionaries -/

/-- `CFDictionaryGetValue`: the value stored under a key, if any. -/
def CFDictionaryGetValue {κ ν : Type} [DecidableEq κ] : List (κ × ν) → κ → Option ν
  | [], _ => none
  | (k', v) :: rest, k => if k' = k then some v else CFDictionaryGetValue rest k

/-- `CFDictionarySetValue`: replace the value of a key that is present, add the
pair otherwise. -/
def CFDictionarySetValue {κ ν : Type} [DecidableEq κ] : List (κ × ν) → κ → ν → List (κ × ν)
  | [], k, v => [(k, v)]
  | (k', v') :: rest, k, v =>
    if k' = k then (k', v) :: rest else (k', v') :: CFDictionarySetValue rest k v

/-- `CFDictionaryRemoveValue`: drop a key. -/
def CFDictionaryRemoveValue {κ ν : Type} [DecidableEq κ] : List (κ × ν) → κ → List (κ × ν)
  | [], _ => []
  | (k', v') :: rest, k =>
    if k' = k then CFDictionaryRemoveValue rest k else (k', v') :: CFDictionaryRemoveValue rest k

/-! ## fileid.c -/

/-- The pair of dictionaries kept per filesystem: `idMap` (file id to path) and
`pathMap` (path to file id, keys compared with `CStringEqual`). -/
structure FsDictionaries where
  idMap : List (Nat × CStr)
  pathMap : List (CStr × Nat)
deriving DecidableEq, Repr

/-- The statics of `fileid.c`: `filesystemMap` and the counter `id` of
`kfs_fileid`. -/
structure Registry where
  filesystemMap : List (Nat × FsDictionaries)
  id : Nat
deriving DecidableEq, Repr

/-- State after the constructor `Initiailize` ran: an empty `filesystemMap`, and
`static uint64_t id = 1`. -/
def Registry.init : Registry := { filesystemMap := [], id := 1 }

/-- `GetDictionariesForFilesystemWithID`: the dictionaries of a filesystem,
created empty (and stored) when the filesystem has none yet. -/
def GetDictionariesForFilesystemWithID (r : Registry) (identifier : Nat) :
    FsDictionaries × Registry :=
  match CFDictionaryGetValue r.filesystemMap identifier with
  | some d => (d, r)
  | none =>
    let d : FsDictionaries := { idMap := [], pathMap := [] }
    (d, { r with filesystemMap := CFDictionarySetValue r.filesystemMap identifier d })

/-- `kfs_fileid`: the id bound to `path`, a fresh one (the counter, then
incremented as a `uint64_t`) when `CFDictionaryGetValue` gives `NULL`. -/
def kfs_fileid (r : Registry) (fs : Nat) (path : CStr) : Nat × Registry :=
  let (d, r1) := GetDictionariesForFilesystemWithID r fs
  let result := (CFDictionaryGetValue d.pathMap path).getD 0
  if result = 0 then
    let d1 : FsDictionaries :=
      { pathMap := CFDictionarySetValue d.pathMap path r1.id
        idMap := CFDictionarySetValue d.idMap r1.id path }
    (r1.id, { filesystemMap := CFDictionarySetValue r1.filesystemMap fs d1
              id := (r1.id + 1) % 2 ^ 64 })
  else (result, r1)

/-- `path_fromid`: the path bound to a file id, `none` for `NULL`. -/
def path_fromid (r : Registry) (fs : Nat) (fileid : Nat) : Option CStr × Registry :=
  let (d, r1) := GetDictionariesForFilesystemWithID r fs
  (CFDictionaryGetValue d.idMap fileid, r1)

/-- `kfs_idswap`: exchange the paths of two ids.  With an id that has no path
the first `CFDictionarySetValue` hands `NULL` to `CStringHash`, which
dereferences it. -/
def kfs_idswap (r : Registry) (fs : Nat) (id_one id_two : Nat) : Option Registry :=
  let (path_one, r1) := path_fromid r fs id_one
  let (path_two, r2) := path_fromid r1 fs id_two
  let (d, r3) := GetDictionariesForFilesystemWithID r2 fs
  match path_one, path_two with
  | some p1, some p2 =>
    let pathMap1 := CFDictionarySetValue d.pathMap p1 id_two
    let idMap1 := CFDictionarySetValue d.idMap id_two p1
    let pathMap2 := CFDictionarySetValue pathMap1 p2 id_one
    let idMap2 := CFDictionarySetValue idMap1 id_one p2
    some { r3 with filesystemMap :=
      CFDictionarySetValue r3.filesystemMap fs { idMap := idMap2, pathMap := pathMap2 } }
  | _, _ => none

/-- `kfs_idclear`: free the path strings and drop the filesystem's entry. -/
def kfs_idclear (r : Registry) (fs : Nat) : Registry :=
  let (_, r1) := GetDictionariesForFilesystemWithID r fs
  { r1 with filesystemMap := CFDictionaryRemoveValue r1.filesystemMap fs }

/-- One call on the registry's public interface. -/
inductive RegistryCall where
  | fileid (fs : Nat) (path : CStr)
  | path_from (fs : Nat) (fileid : Nat)
  | swap (fs : Nat) (id_one id_two : Nat)
  | clear (fs : Nat)
deriving DecidableEq, Repr

/-- The registry after one call; `none` when the call is a swap of an id that is
not live. -/
def RegistryCall.apply (c : RegistryCall) (r : Registry) : Option Registry :=
  match c with
  | .fileid fs path => some (kfs_fileid r fs path).2
  | .path_from fs i => some (path_fromid r fs i).2
  | .swap fs a b => kfs_idswap r fs a b
  | .clear fs => some (kfs_idclear r fs)

/-- The registry after a sequence of calls, in order. -/
def runCalls (r : Registry) : List RegistryCall → Option Registry
  | [] => some r
  | c :: cs => (c.apply r).bind fun r1 => runCalls r1 cs

/-- Consistency of one filesystem's dictionaries: they are inverse of each
other, and every bound id is positive and below `bound`. -/
structure FsDictionaries.Inverse (d : FsDictionaries) (bound : Nat) : Prop where
  to_id : ∀ p i, CFDictionaryGetValue d.pathMap p = some i → CFDictionaryGetValue d.idMap i = some p
  to_path : ∀ i p, CFDictionaryGetValue d.idMap i = some p → CFDictionaryGetValue d.pathMap p = some i
  range : ∀ i p, CFDictionaryGetValue d.idMap i = some p → 0 < i ∧ i < bound

/-- Consistency of the registry: the counter has not wrapped, and the
dictionaries of every filesystem are inverse with ids below the counter. -/
def Registry.Consistent (r : Registry) : Prop :=
  0 < r.id ∧ r.id < 2 ^ 64 ∧
    ∀ fs, (GetDictionariesForFilesystemWithID r fs).1.Inverse r.id

/-! ## The host -/

/-- Constants and identities the code takes from the host's headers and
process: the `errno` values named by `kfserror_t` and `ELAST` (`<errno.h>`),
`PATH_MAX`, `NAME_MAX` and `LINK_MAX` (`<limits.h>`), and what `getuid()` and
`getgid()` return. -/
structure Host where
  EPERM : Int
  ENOENT : Int
  EIO : Int
  ENXIO : Int
  EACCES : Int
  EEXIST : Int
  EXDEV : Int
  ENODEV : Int
  ENOTDIR : Int
  EISDIR : Int
  EINVAL : Int
  EFBIG : Int
  ENOSPC : Int
  EROFS : Int
  EMLINK : Int
  ENAMETOOLONG : Int
  ENOTEMPTY : Int
  EDQUOT : Int
  ELAST : Int
  PATH_MAX : Nat
  NAME_MAX : Nat
  LINK_MAX : Nat
  uid : Nat
  gid : Nat

/-- The values of Darwin (the platform `fileid.c` is written for), for a
process of user 501 and group 20. -/
def darwin : Host :=
  { EPERM := 1, ENOENT := 2, EIO := 5, ENXIO := 6, EACCES := 13, EEXIST := 17, EXDEV := 18,
    ENODEV := 19, ENOTDIR := 20, EISDIR := 21, EINVAL := 22, EFBIG := 27, ENOSPC := 28,
    EROFS := 30, EMLINK := 31, ENAMETOOLONG := 63, ENOTEMPTY := 66, EDQUOT := 69,
    ELAST := 106, PATH_MAX := 1024, NAME_MAX := 255, LINK_MAX := 32767,
    uid := 501, gid := 20 }

/-- The eighteen host codes `kfserror_t` names, in the order of its
declaration. -/
def Host.codes (H : Host) : List Int :=
  [H.EPERM, H.ENOENT, H.EIO, H.ENXIO, H.EACCES, H.EEXIST, H.EXDEV, H.ENODEV, H.ENOTDIR,
   H.EISDIR, H.EINVAL, H.EFBIG, H.ENOSPC, H.EROFS, H.EMLINK, H.ENAMETOOLONG, H.ENOTEMPTY,
   H.EDQUOT]

/-- `EKFS_INTR`, `ELAST + 1`. -/
def EKFS_INTR (H : Host) : Int := H.ELAST + 1

/-- `EKFS_EMFS`, `ELAST + 2`. -/
def EKFS_EMFS (H : Host) : Int := H.ELAST + 2

/-! ## kfslib.h -/

/-- `kfstype_t`. -/
inductive kfstype_t where
  | KFS_REG | KFS_DIR | KFS_BLK | KFS_CHR | KFS_LNK | KFS_SOCK | KFS_FIFO
deriving DecidableEq, Repr

def KFS_IRUSR : Nat := 0x400
def KFS_IWUSR : Nat := 0x200
def KFS_IXUSR : Nat := 0x100
def KFS_IRGRP : Nat := 0x040
def KFS_IWGRP : Nat := 0x020
def KFS_IXGRP : Nat := 0x010
def KFS_IROTH : Nat := 0x004
def KFS_IWOTH : Nat := 0x002
def KFS_IXOTH : Nat := 0x001

/-- `struct kfstime`. -/
structure kfstime where
  sec : Nat
  nsec : Nat
deriving DecidableEq, Repr

/-- `struct kfsstat`; a zero-initialised one has type `KFS_REG` (enumerator 0). -/
structure kfsstat where
  type : kfstype_t
  mode : Nat
  size : Nat
  used : Nat
  atime : kfstime
  mtime : kfstime
  ctime : kfstime
deriving DecidableEq, Repr

/-- `struct kfsstatfs`. -/
structure kfsstatfs where
  free : Nat
  size : Nat
deriving DecidableEq, Repr

/-- What a callback leaves behind: `value` is its return value together with
what it stored through its result pointers, `error` is the value it stored
through `int *error` (`none` when it stored nothing), and `world` is the state
of the application after the call. -/
structure Outcome (σ α : Type) where
  value : α
  error : Option Int
  world : σ

/-- `kfsstatfs_f`: `some` statistics for `true`, `none` for `false`.  Here and
below the arguments are those of the C type in order, without the result and
error pointers, and the state of the application comes last. -/
abbrev kfsstatfs_f (σ : Type) := Option CStr → Nat → σ → Outcome σ (Option kfsstatfs)
/-- `kfsstat_f`: `some` of the filled `kfsstat_t` for `true`. -/
abbrev kfsstat_f (σ : Type) := Option CStr → Nat → σ → Outcome σ (Option kfsstat)
/-- `kfsread_f` (path, offset, length): the `ssize_t` returned and the bytes
stored from `buf[0]` on. -/
abbrev kfsread_f (σ : Type) := Option CStr → Nat → Nat → Nat → σ → Outcome σ (Int × List Nat)
/-- `kfswrite_f` (path, the bytes at `buf`, offset, length): the `ssize_t`
returned. -/
abbrev kfswrite_f (σ : Type) := Option CStr → List Nat → Nat → Nat → Nat → σ → Outcome σ Int
/-- `kfssymlink_f` (path, value). -/
abbrev kfssymlink_f (σ : Type) := Option CStr → Option CStr → Nat → σ → Outcome σ Bool
/-- `kfsreadlink_f`: the `bool` returned and the pointer stored in `*value`. -/
abbrev kfsreadlink_f (σ : Type) := Option CStr → Nat → σ → Outcome σ (Bool × Option CStr)
abbrev kfscreate_f (σ : Type) := Option CStr → Nat → σ → Outcome σ Bool
abbrev kfsremove_f (σ : Type) := Option CStr → Nat → σ → Outcome σ Bool
/-- `kfsrename_f` (path, new_path). -/
abbrev kfsrename_f (σ : Type) := Option CStr → Option CStr → Nat → σ → Outcome σ Bool
/-- `kfstruncate_f` (path, size). -/
abbrev kfstruncate_f (σ : Type) := Option CStr → Nat → Nat → σ → Outcome σ Bool
/-- `kfschmod_f` (path, mode). -/
abbrev kfschmod_f (σ : Type) := Option CStr → Nat → Nat → σ → Outcome σ Bool
/-- `kfsutimes_f` (path, atime, mtime), a time that is not to be set being
`NULL`. -/
abbrev kfsutimes_f (σ : Type) :=
  Option CStr → Option kfstime → Option kfstime → Nat → σ → Outcome σ Bool
abbrev kfsmkdir_f (σ : Type) := Option CStr → Nat → σ → Outcome σ Bool
abbrev kfsrmdir_f (σ : Type) := Option CStr → Nat → σ → Outcome σ Bool
/-- `kfsreaddir_f`: the `bool` returned and the entries the callback passed to
`kfscontents_append`, in order. -/
abbrev kfsreaddir_f (σ : Type) := Option CStr → Nat → σ → Outcome σ (Bool × List CStr)

/-- `struct kfsoptions`. -/
structure kfsoptions where
  mountpoint : CStr
deriving DecidableEq, Repr

/-- `struct kfsfilesystem`; a `NULL` function pointer is `none`. -/
structure kfsfilesystem (σ : Type) where
  statfs : Option (kfsstatfs_f σ)
  stat : Option (kfsstat_f σ)
  read : Option (kfsread_f σ)
  write : Option (kfswrite_f σ)
  symlink : Option (kfssymlink_f σ)
  readlink : Option (kfsreadlink_f σ)
  create : Option (kfscreate_f σ)
  remove : Option (kfsremove_f σ)
  rename : Option (kfsrename_f σ)
  truncate : Option (kfstruncate_f σ)
  chmod : Option (kfschmod_f σ)
  utimes : Option (kfsutimes_f σ)
  mkdir : Option (kfsmkdir_f σ)
  rmdir : Option (kfsrmdir_f σ)
  readdir : Option (kfsreaddir_f σ)
  options : kfsoptions
  context : Nat

/-! ## internal.c -/

def MAX_FIELSYSTEMS : Nat := 1024

/-- The sentinel `noimp` called through `kfsstatfs_f`: it returns `false`
and stores nothing. -/
def noimp_statfs {σ : Type} : kfsstatfs_f σ := fun _ _ w => ⟨none, none, w⟩
def noimp_stat {σ : Type} : kfsstat_f σ := fun _ _ w => ⟨none, none, w⟩
/-- The sentinel called through `kfsread_f`: its `false` is read as the
`ssize_t` 0. -/
def noimp_read {σ : Type} : kfsread_f σ := fun _ _ _ _ w => ⟨(0, []), none, w⟩
def noimp_write {σ : Type} : kfswrite_f σ := fun _ _ _ _ _ w => ⟨0, none, w⟩
def noimp_symlink {σ : Type} : kfssymlink_f σ := fun _ _ _ w => ⟨false, none, w⟩
def noimp_readlink {σ : Type} : kfsreadlink_f σ := fun _ _ w => ⟨(false, none), none, w⟩
def noimp_create {σ : Type} : kfscreate_f σ := fun _ _ w => ⟨false, none, w⟩
def noimp_remove {σ : Type} : kfsremove_f σ := fun _ _ w => ⟨false, none, w⟩
def noimp_rename {σ : Type} : kfsrename_f σ := fun _ _ _ w => ⟨false, none, w⟩
def noimp_truncate {σ : Type} : kfstruncate_f σ := fun _ _ _ w => ⟨false, none, w⟩
def noimp_chmod {σ : Type} : kfschmod_f σ := fun _ _ _ w => ⟨false, none, w⟩
def noimp_utimes {σ : Type} : kfsutimes_f σ := fun _ _ _ _ w => ⟨false, none, w⟩
def noimp_mkdir {σ : Type} : kfsmkdir_f σ := fun _ _ w => ⟨false, none, w⟩
def noimp_rmdir {σ : Type} : kfsrmdir_f σ := fun _ _ w => ⟨false, none, w⟩
def noimp_readdir {σ : Type} : kfsreaddir_f σ := fun _ _ w => ⟨(false, []), none, w⟩

/-- The statics of `internal.c`: `table` (slots 0 to 1023), the cursor `number`
of `kfstable_newidentifier_nolock`, and `errno`. -/
structure Table (σ : Type) where
  table : Nat → Option (kfsfilesystem σ)
  number : Nat
  errno : Int

/-- The table at program start: every slot `NULL`, `number = 0`. -/
def Table.init {σ : Type} : Table σ := { table := fun _ => none, number := 0, errno := 0 }

/-- The expression `table[identifier]`: the slot, or `none` when the index is
outside the array. -/
def Table.slot {σ : Type} (t : Table σ) (identifier : Int) : Option (Option (kfsfilesystem σ)) :=
  match identifier with
  | Int.ofNat n => if n < MAX_FIELSYSTEMS then some (t.table n) else none
  | Int.negSucc _ => none

/-- One round of the `while (!found)` loop of `kfstable_newidentifier_nolock`
with the cursor at `number`: the result and state the function returns with
when the round ends the loop, the next cursor when it does not. -/
def kfstable_newidentifier_round {σ : Type} (H : Host) (t : Table σ) (start number : Nat) :
    Option ((Int × Table σ) ⊕ Nat) :=
  match t.slot number with
  | none => none
  | some entry =>
    let found := entry.isNone
    let result : Int := if found then number else -1
    let number1 := (number + 1) % MAX_FIELSYSTEMS
    if !found && number1 == start then
      some (.inl (result, { t with number := number1, errno := EKFS_EMFS H }))
    else if found then some (.inl (result, { t with number := number1 }))
    else some (.inr number1)

/-- The `while (!found)` loop of `kfstable_newidentifier_nolock`, at most
`fuel` rounds of it. -/
def kfstable_newidentifier_loop {σ : Type} (H : Host) (t : Table σ) (start : Nat) :
    Nat → Nat → Option (Int × Table σ)
  | 0, _ => none
  | fuel + 1, number =>
    match kfstable_newidentifier_round H t start number with
    | none => none
    | some (.inl r) => some r
    | some (.inr number1) => kfstable_newidentifier_loop H t start fuel number1

/-- `kfstable_newidentifier_nolock`. -/
def kfstable_newidentifier_nolock {σ : Type} (H : Host) (t : Table σ) : Option (Int × Table σ) :=
  kfstable_newidentifier_loop H t t.number MAX_FIELSYSTEMS t.number

/-- `kfstable_get_nolock`. -/
def kfstable_get_nolock {σ : Type} (t : Table σ) (identifier : Int) :
    Option (Option (kfsfilesystem σ)) :=
  t.slot identifier

/-- `kfstable_get` (the mutex is not modelled). -/
def kfstable_get {σ : Type} (t : Table σ) (identifier : Int) :
    Option (Option (kfsfilesystem σ)) :=
  kfstable_get_nolock t identifier

/-- `kfsfilesystem_duplicate`. -/
def kfsfilesystem_duplicate {σ : Type} (filesystem : kfsfilesystem σ) : kfsfilesystem σ :=
  { filesystem with options := { mountpoint := filesystem.options.mountpoint } }

/-- The fifteen `if (!table[identifier]->f) { ... = noimp; }` of
`kfstable_put_nolock`. -/
def install_noimp {σ : Type} (f : kfsfilesystem σ) : kfsfilesystem σ :=
  { f with
    statfs := some (f.statfs.getD noimp_statfs)
    stat := some (f.stat.getD noimp_stat)
    read := some (f.read.getD noimp_read)
    write := some (f.write.getD noimp_write)
    symlink := some (f.symlink.getD noimp_symlink)
    readlink := some (f.readlink.getD noimp_readlink)
    create := some (f.create.getD noimp_create)
    remove := some (f.remove.getD noimp_remove)
    rename := some (f.rename.getD noimp_rename)
    truncate := some (f.truncate.getD noimp_truncate)
    chmod := some (f.chmod.getD noimp_chmod)
    utimes := some (f.utimes.getD noimp_utimes)
    mkdir := some (f.mkdir.getD noimp_mkdir)
    rmdir := some (f.rmdir.getD noimp_rmdir)
    readdir := some (f.readdir.getD noimp_readdir) }

/-- `kfstable_put_nolock`. -/
def kfstable_put_nolock {σ : Type} (H : Host) (t : Table σ) (filesystem : kfsfilesystem σ) :
    Option (Int × Table σ) :=
  match kfstable_newidentifier_nolock H t with
  | none => none
  | some (identifier, t1) =>
    if identifier ≥ 0 then
      match kfstable_get_nolock t1 identifier with
      | none => none
      | some none =>
        some (identifier,
          { t1 with table := fun j =>
              if j = identifier.toNat then some (install_noimp (kfsfilesystem_duplicate filesystem))
              else t1.table j })
      | some (some _) => some (-1, { t1 with errno := EKFS_INTR H })
    else some (identifier, t1)

/-- `kfstable_put`. -/
def kfstable_put {σ : Type} (H : Host) (t : Table σ) (filesystem : kfsfilesystem σ) :
    Option (Int × Table σ) :=
  kfstable_put_nolock H t filesystem

/-- `kfstable_remove_nolock`. -/
def kfstable_remove_nolock {σ : Type} (t : Table σ) (identifier : Int) : Option (Table σ) :=
  match t.slot identifier with
  | none => none
  | some none => some t
  | some (some _) =>
    some { t with table := fun j => if j = identifier.toNat then none else t.table j }

/-- `kfstable_remove`. -/
def kfstable_remove {σ : Type} (t : Table σ) (identifier : Int) : Option (Table σ) :=
  kfstable_remove_nolock t identifier

/-- One call that changes the mount table. -/
inductive TableCall (σ : Type) where
  | put (filesystem : kfsfilesystem σ)
  | remove (identifier : Int)

/-- The table after a sequence of calls, in order; `none` when a call's
execution is undefined. -/
def runTable {σ : Type} (H : Host) (t : Table σ) : List (TableCall σ) → Option (Table σ)
  | [] => some t
  | .put filesystem :: cs => (kfstable_put H t filesystem).bind fun r => runTable H r.2 cs
  | .remove identifier :: cs => (kfstable_remove t identifier).bind fun t1 => runTable H t1 cs

/-- A descriptor with no callback at all. -/
def emptyFilesystem (σ : Type) : kfsfilesystem σ :=
  { statfs := none, stat := none, read := none, write := none, symlink := none,
    readlink := none, create := none, remove := none, rename := none, truncate := none,
    chmod := none, utimes := none, mkdir := none, rmdir := none, readdir := none,
    options := { mountpoint := ['/', 'm'] }, context := 0 }

/-! ## nfs3.c: status codes -/

/-- Modelled from the spec: the enumeration `nfsstat3` of the generated header
`nfs3.h`, which is not among the sources; its members are the status codes of
NFS version 3 that the spec and `nfs3.c` name, together with the remaining
ones of the protocol. -/
inductive nfsstat3 where
  | NFS3_OK
  | NFS3ERR_PERM
  | NFS3ERR_NOENT
  | NFS3ERR_IO
  | NFS3ERR_NXIO
  | NFS3ERR_ACCES
  | NFS3ERR_EXIST
  | NFS3ERR_XDEV
  | NFS3ERR_NODEV
  | NFS3ERR_NOTDIR
  | NFS3ERR_ISDIR
  | NFS3ERR_INVAL
  | NFS3ERR_FBIG
  | NFS3ERR_NOSPC
  | NFS3ERR_ROFS
  | NFS3ERR_MLINK
  | NFS3ERR_NAMETOOLONG
  | NFS3ERR_NOTEMPTY
  | NFS3ERR_DQUOT
  | NFS3ERR_STALE
  | NFS3ERR_REMOTE
  | NFS3ERR_BADHANDLE
  | NFS3ERR_NOT_SYNC
  | NFS3ERR_BAD_COOKIE
  | NFS3ERR_NOTSUPP
  | NFS3ERR_TOOSMALL
  | NFS3ERR_SERVERFAULT
  | NFS3ERR_BADTYPE
  | NFS3ERR_JUKEBOX
deriving DecidableEq, Repr

open nfsstat3

/-- `convert_status`: the `switch` over the host codes, whose labels a C
compiler requires to be distinct. -/
def convert_status (H : Host) (err : Int) (default_status : nfsstat3) : nfsstat3 :=
  if err = H.EPERM then NFS3ERR_PERM
  else if err = H.ENOENT then NFS3ERR_NOENT
  else if err = H.EIO then NFS3ERR_IO
  else if err = H.ENXIO then NFS3ERR_NXIO
  else if err = H.EACCES then NFS3ERR_ACCES
  else if err = H.EEXIST then NFS3ERR_EXIST
  else if err = H.EXDEV then NFS3ERR_XDEV
  else if err = H.ENODEV then NFS3ERR_NODEV
  else if err = H.ENOTDIR then NFS3ERR_NOTDIR
  else if err = H.EISDIR then NFS3ERR_ISDIR
  else if err = H.EINVAL then NFS3ERR_INVAL
  else if err = H.EFBIG then NFS3ERR_FBIG
  else if err = H.ENOSPC then NFS3ERR_NOSPC
  else if err = H.EROFS then NFS3ERR_ROFS
  else if err = H.EMLINK then NFS3ERR_MLINK
  else if err = H.ENAMETOOLONG then NFS3ERR_NAMETOOLONG
  else if err = H.ENOTEMPTY then NFS3ERR_NOTEMPTY
  else if err = H.EDQUOT then NFS3ERR_DQUOT
  else default_status

/-- The case labels of `convert_status` with the status each returns, in the
order of the `switch`. -/
def convert_status_cases (H : Host) : List (Int × nfsstat3) :=
  [(H.EPERM, NFS3ERR_PERM), (H.ENOENT, NFS3ERR_NOENT), (H.EIO, NFS3ERR_IO),
   (H.ENXIO, NFS3ERR_NXIO), (H.EACCES, NFS3ERR_ACCES), (H.EEXIST, NFS3ERR_EXIST),
   (H.EXDEV, NFS3ERR_XDEV), (H.ENODEV, NFS3ERR_NODEV), (H.ENOTDIR, NFS3ERR_NOTDIR),
   (H.EISDIR, NFS3ERR_ISDIR), (H.EINVAL, NFS3ERR_INVAL), (H.EFBIG, NFS3ERR_FBIG),
   (H.ENOSPC, NFS3ERR_NOSPC), (H.EROFS, NFS3ERR_ROFS), (H.EMLINK, NFS3ERR_MLINK),
   (H.ENAMETOOLONG, NFS3ERR_NAMETOOLONG), (H.ENOTEMPTY, NFS3ERR_NOTEMPTY),
   (H.EDQUOT, NFS3ERR_DQUOT)]

/-- The status of the first case whose label is `err`, the default when there is
none. -/
def first_case (err : Int) (default_status : nfsstat3) : List (Int × nfsstat3) → nfsstat3
  | [] => default_status
  | (label, status) :: rest =>
    if err = label then status else first_case err default_status rest

/-! ## C library functions used by nfs3.c and kfslib.c -/

/-- The value of a 64-bit two's complement word read as `uint64_t`: the cast
`(uint64_t)x` of a `long long`. -/
def to_uint64 (x : Int) : Nat := (x % 2 ^ 64).toNat

/-- The value of a `uint64_t` converted to the signed 64-bit `kfsid_t`. -/
def to_int64 (n : Nat) : Int := if n % 2 ^ 64 < 2 ^ 63 then (n % 2 ^ 64 : Nat) else (n % 2 ^ 64 : Nat) - 2 ^ 64

/-- `strsep(&s, delim)` for a one-character delimiter set: the token before the
first delimiter, and what `s` points to afterwards (`NULL` when the string has
no delimiter). -/
def strsep (delim : Char) : CStr → CStr × Option CStr
  | [] => ([], none)
  | c :: cs => if c = delim then ([], some cs) else ((c :: (strsep delim cs).1), (strsep delim cs).2)

/-- `isspace` in the C locale. -/
def isspace (c : Char) : Bool :=
  c.toNat = 32 || (9 ≤ c.toNat && c.toNat ≤ 13)

/-- `isdigit`. -/
def isdigit (c : Char) : Bool := 48 ≤ c.toNat && c.toNat ≤ 57

/-- The number a string of decimal digits denotes. -/
def decimal_value (digits : CStr) : Nat :=
  digits.foldl (fun acc c => acc * 10 + (c.toNat - 48)) 0

/-- `atoll`, that is `strtoll(s, NULL, 10)`: leading white space is skipped, an
optional sign is read, then the longest run of digits; the result is clamped
to the range of `long long`. -/
def atoll (s : CStr) : Int :=
  match s.dropWhile isspace with
  | [] => 0
  | c :: rest =>
    if c = '-' then max (-(decimal_value (rest.takeWhile isdigit) : Int)) (-(2 ^ 63))
    else if c = '+' then min (decimal_value (rest.takeWhile isdigit) : Int) (2 ^ 63 - 1)
    else min (decimal_value ((c :: rest).takeWhile isdigit) : Int) (2 ^ 63 - 1)

/-- The decimal digits of a number, least significant first; `fuel` bounds
their count. -/
def decimal_digits : Nat → Nat → List Nat
  | 0, _ => []
  | fuel + 1, n => if n < 10 then [n] else (n % 10) :: decimal_digits fuel (n / 10)

/-- What the conversion `%llu` prints: the decimal form of the argument read as
an `unsigned long long` (at most twenty digits). -/
def format_llu (n : Nat) : CStr :=
  ((decimal_digits 20 (n % 2 ^ 64)).reverse).map fun d => Char.ofNat (48 + d)

/-- `snprintf(buf, size, ...)` keeps the first `size - 1` characters of the
formatted text. -/
def snprintf (size : Nat) (text : CStr) : CStr := text.take (size - 1)

/-- The text `snprintf(fspath, PATH_MAX, root ? "%s%s" : "%s/%s", path, name)`
leaves in `fspath`, with `root = (strcmp(path, "/") == 0)`. -/
def compose_path (H : Host) (path name : CStr) : CStr :=
  if path = ['/'] then snprintf H.PATH_MAX (path ++ name)
  else snprintf H.PATH_MAX (path ++ ['/'] ++ name)

/-- The text `snprintf(filehandle, PATH_MAX, "%llu:%llu", identifier, fileid)`
leaves in `filehandle`. -/
def format_filehandle (H : Host) (identifier fileid : Nat) : CStr :=
  snprintf H.PATH_MAX (format_llu identifier ++ [':'] ++ format_llu fileid)

/-- The handle `kfs_mount` passes to the kernel:
`asprintf(&fshandle, "%llu", identifier)`. -/
def kfs_mount_fshandle (identifier : Int) : CStr := format_llu (to_uint64 identifier)

/-! ## nfs3.c: protocol types -/

/-- Modelled from the spec: `nfstime3` of `nfs3.h` (not among the sources), two
32-bit unsigned fields. -/
structure nfstime3 where
  seconds : Nat
  nseconds : Nat
deriving DecidableEq, Repr

/-- Modelled from the spec: `ftype3` of `nfs3.h` (not among the sources), the
seven NFS file types. -/
inductive ftype3 where
  | NF3REG | NF3DIR | NF3BLK | NF3CHR | NF3LNK | NF3SOCK | NF3FIFO
deriving DecidableEq, Repr

/-- Modelled from the spec: `fattr3` of `nfs3.h` (not among the sources).  The
type of a zeroed record is no member of `ftype3`, hence `none`. -/
structure fattr3 where
  type : Option ftype3
  mode : Nat
  nlink : Nat
  uid : Nat
  gid : Nat
  size : Nat
  used : Nat
  rdev : Nat × Nat
  fsid : Nat
  fileid : Nat
  atime : nfstime3
  mtime : nfstime3
  ctime : nfstime3
deriving Repr

/-- The record `(fattr3){}`. -/
def fattr3.zero : fattr3 :=
  { type := none, mode := 0, nlink := 0, uid := 0, gid := 0, size := 0, used := 0,
    rdev := (0, 0), fsid := 0, fileid := 0, atime := ⟨0, 0⟩, mtime := ⟨0, 0⟩, ctime := ⟨0, 0⟩ }

/-- Modelled from the spec: `post_op_attr` of `nfs3.h` (not among the sources).
`attributes` is `none` when the call did not write the record, whose content is
then whatever the static result held. -/
structure post_op_attr where
  attributes_follow : Bool
  attributes : Option fattr3
deriving Repr

/-- Modelled from the spec: `time_how` of `nfs3.h` (not among the sources). -/
inductive time_how where
  | DONT_CHANGE | SET_TO_SERVER_TIME | SET_TO_CLIENT_TIME
deriving DecidableEq, Repr

/-- Modelled from the spec: `set_atime` and `set_mtime` of `nfs3.h` (not among
the sources): the discriminant and the time the union holds. -/
structure set_time where
  set_it : time_how
  time : nfstime3
deriving DecidableEq, Repr

/-- Modelled from the spec: `sattr3` of `nfs3.h` (not among the sources); a
field is `some v` when its `set_it` is true and its value is `v`. -/
structure sattr3 where
  mode : Option Nat
  uid : Option Nat
  gid : Option Nat
  size : Option Nat
  atime : set_time
  mtime : set_time
deriving DecidableEq, Repr

/-- Modelled from the spec: `createhow3` of `nfs3.h` (not among the sources). -/
inductive createhow3 where
  | UNCHECKED (obj_attributes : sattr3)
  | GUARDED (obj_attributes : sattr3)
  | EXCLUSIVE (verf : CStr)
deriving DecidableEq, Repr

/-- Modelled from the spec: `entry3` of `nfs3.h` (not among the sources); `name`
is `none` for a `NULL` pointer, `nextentry` tells whether the pointer is set
(it then points to the next element of the static array). -/
structure entry3 where
  fileid : Nat
  name : Option CStr
  cookie : Nat
  nextentry : Bool
deriving DecidableEq, Repr

def NFS_IRUSR : Nat := 0x00100
def NFS_IWUSR : Nat := 0x00080
def NFS_IXUSR : Nat := 0x00040
def NFS_IRGRP : Nat := 0x00020
def NFS_IWGRP : Nat := 0x00010
def NFS_IXGRP : Nat := 0x00008
def NFS_IROTH : Nat := 0x00004
def NFS_IWOTH : Nat := 0x00002
def NFS_IXOTH : Nat := 0x00001

def READ_MAX_LEN : Nat := 0x10000
def WRITE_MAX_LEN : Nat := 0x10000
def DIR_MAX_LEN : Nat := 0x1000

/-- Modelled from the spec: `NFS3_COOKIEVERFSIZE` of `nfs3.h` (not among the
sources), the NFS3 verifier width. -/
def NFS3_COOKIEVERFSIZE : Nat := 8

/-! ## The server state -/

/-- One invocation of a callback, with the arguments it was given. -/
inductive Call where
  | statfs (path : Option CStr)
  | stat (path : Option CStr)
  | read (path : Option CStr) (offset length : Nat)
  | write (path : Option CStr) (data : List Nat) (offset length : Nat)
  | symlink (path value : Option CStr)
  | readlink (path : Option CStr)
  | create (path : Option CStr)
  | remove (path : Option CStr)
  | rename (path new_path : Option CStr)
  | truncate (path : Option CStr) (size : Nat)
  | chmod (path : Option CStr) (mode : Nat)
  | utimes (path : Option CStr) (atime mtime : Option kfstime)
  | mkdir (path : Option CStr)
  | rmdir (path : Option CStr)
  | readdir (path : Option CStr)
deriving DecidableEq, Repr

/-- Everything a request can read or change: the mount table, the file-id
registry, the state of the application behind the callbacks, the static
buffers of `nfs3.c` whose content outlives a request (`buffer` of
`nfsproc3_read_3_svc`, `entries` of `nfsproc3_readdir_3_svc`), and the record
of the callbacks invoked so far. -/
structure Server (σ : Type) where
  table : Table σ
  registry : Registry
  world : σ
  read_buffer : Nat → Nat
  readdir_entries : Nat → entry3
  trace : List Call

/-- The state at program start, for an application in state `w`. -/
def Server.init {σ : Type} (w : σ) : Server σ :=
  { table := Table.init, registry := Registry.init, world := w,
    read_buffer := fun _ => 0,
    readdir_entries := fun _ => { fileid := 0, name := none, cookie := 0, nextentry := false },
    trace := [] }

/-- The state after a callback was invoked and left the application in state
`w`. -/
def Server.called {σ : Type} (s : Server σ) (c : Call) (w : σ) : Server σ :=
  { s with world := w, trace := s.trace ++ [c] }

/-! ## nfs3.c: helper methods -/

/-- `get_filesystem_from_path`: the descriptor (`none` for `NULL`), `*outPath`
and `*outIdentifier`. -/
def get_filesystem_from_path {σ : Type} (s : Server σ) (path : CStr) :
    Option ((Option (kfsfilesystem σ) × Option CStr × Nat) × Server σ) :=
  let fsid_str := (strsep ':' path).1
  let fileid_str := (strsep ':' path).2
  let fsid := to_uint64 (atoll fsid_str)
  let fileid_r : Nat × Registry :=
    match fileid_str with
    | some str => (to_uint64 (atoll str), s.registry)
    | none => kfs_fileid s.registry fsid ['/']
  match kfstable_get s.table (to_int64 fsid) with
  | none => none
  | some filesystem =>
    let outPath := path_fromid fileid_r.2 fsid fileid_r.1
    some ((filesystem, outPath.1, fsid), { s with registry := outPath.2 })

/-- `get_filesystem`; the handle is read as the string at `object.data.data_val`. -/
def get_filesystem {σ : Type} (s : Server σ) (object : CStr) :
    Option ((Option (kfsfilesystem σ) × Option CStr × Nat) × Server σ) :=
  get_filesystem_from_path s object

/-- The mode translation of `get_fattr`. -/
def nfs_mode_of_kfs (mode : Nat) : Nat :=
  let r := 0
  let r := if mode &&& KFS_IRUSR ≠ 0 then r ||| NFS_IRUSR else r
  let r := if mode &&& KFS_IWUSR ≠ 0 then r ||| NFS_IWUSR else r
  let r := if mode &&& KFS_IXUSR ≠ 0 then r ||| NFS_IXUSR else r
  let r := if mode &&& KFS_IRGRP ≠ 0 then r ||| NFS_IRGRP else r
  let r := if mode &&& KFS_IWGRP ≠ 0 then r ||| NFS_IWGRP else r
  let r := if mode &&& KFS_IXGRP ≠ 0 then r ||| NFS_IXGRP else r
  let r := if mode &&& KFS_IROTH ≠ 0 then r ||| NFS_IROTH else r
  let r := if mode &&& KFS_IWOTH ≠ 0 then r ||| NFS_IWOTH else r
  let r := if mode &&& KFS_IXOTH ≠ 0 then r ||| NFS_IXOTH else r
  r

/-- The mode translation of `set_fattr`. -/
def kfs_mode_of_nfs (mode : Nat) : Nat :=
  let r := 0
  let r := if mode &&& NFS_IRUSR ≠ 0 then r ||| KFS_IRUSR else r
  let r := if mode &&& NFS_IWUSR ≠ 0 then r ||| KFS_IWUSR else r
  let r := if mode &&& NFS_IXUSR ≠ 0 then r ||| KFS_IXUSR else r
  let r := if mode &&& NFS_IRGRP ≠ 0 then r ||| KFS_IRGRP else r
  let r := if mode &&& NFS_IWGRP ≠ 0 then r ||| KFS_IWGRP else r
  let r := if mode &&& NFS_IXGRP ≠ 0 then r ||| KFS_IXGRP else r
  let r := if mode &&& NFS_IROTH ≠ 0 then r ||| KFS_IROTH else r
  let r := if mode &&& NFS_IWOTH ≠ 0 then r ||| KFS_IWOTH else r
  let r := if mode &&& NFS_IXOTH ≠ 0 then r ||| KFS_IXOTH else r
  r

/-- The type translation of `get_fattr`. -/
def ftype3_of_kfs : kfstype_t → ftype3
  | .KFS_REG => .NF3REG
  | .KFS_DIR => .NF3DIR
  | .KFS_BLK => .NF3BLK
  | .KFS_CHR => .NF3CHR
  | .KFS_LNK => .NF3LNK
  | .KFS_SOCK => .NF3SOCK
  | .KFS_FIFO => .NF3FIFO

/-- The record `get_fattr` builds from what `stat` returned; the 64-bit times
are stored into the 32-bit fields of `nfstime3`. -/
def fattr3_of_stat (H : Host) (sbuf : kfsstat) (fileid : Nat) : fattr3 :=
  { type := some (ftype3_of_kfs sbuf.type)
    mode := nfs_mode_of_kfs sbuf.mode
    nlink := 1
    uid := H.uid
    gid := H.gid
    size := sbuf.size
    used := sbuf.used
    rdev := (0, 0)
    fsid := 0
    fileid := fileid
    atime := ⟨sbuf.atime.sec % 2 ^ 32, sbuf.atime.nsec % 2 ^ 32⟩
    mtime := ⟨sbuf.mtime.sec % 2 ^ 32, sbuf.mtime.nsec % 2 ^ 32⟩
    ctime := ⟨sbuf.ctime.sec % 2 ^ 32, sbuf.ctime.nsec % 2 ^ 32⟩ }

/-- `get_fattr`: the status, and the record stored in `*result` (`none` when
nothing was stored).  A `NULL` path reaches `stat`; when `stat` then succeeds,
`kfs_fileid` dereferences it. -/
def get_fattr {σ : Type} (H : Host) (s : Server σ) (object : CStr) :
    Option ((nfsstat3 × Option fattr3) × Server σ) :=
  match get_filesystem s object with
  | none => none
  | some ((none, _, _), s1) => some ((NFS3ERR_BADHANDLE, none), s1)
  | some ((some filesystem, path, identifier), s1) =>
    match filesystem.stat with
    | none => none
    | some stat =>
      let out := stat path filesystem.context s1.world
      let s2 := s1.called (.stat path) out.world
      let error : Int := out.error.getD 0
      match out.value with
      | some sbuf =>
        match path with
        | none => none
        | some p =>
          let fileid := kfs_fileid s2.registry identifier p
          some ((NFS3_OK, some (fattr3_of_stat H sbuf fileid.1)),
            { s2 with registry := fileid.2 })
      | none => some ((convert_status H error NFS3ERR_NOENT, none), s2)

/-- The block `check for resize` of `set_fattr`: from the values of `status` and
`error` before it to their values after it. -/
def set_fattr_size {σ : Type} (H : Host) (filesystem : kfsfilesystem σ) (path : Option CStr)
    (attrs : sattr3) (status : nfsstat3) (error : Int) (s : Server σ) :
    Option (nfsstat3 × Int × Server σ) :=
  match attrs.size with
  | none => some (status, error, s)
  | some size =>
    if status = NFS3_OK then
      match filesystem.truncate with
      | none => none
      | some truncate =>
        let out := truncate path size filesystem.context s.world
        let s1 := s.called (.truncate path size) out.world
        let error1 := out.error.getD error
        if out.value then some (status, error1, s1)
        else some (convert_status H error1 NFS3ERR_NOENT, error1, s1)
    else some (status, error, s)

/-- The block `check for mode change` of `set_fattr`. -/
def set_fattr_mode {σ : Type} (H : Host) (filesystem : kfsfilesystem σ) (path : Option CStr)
    (attrs : sattr3) (status : nfsstat3) (error : Int) (s : Server σ) :
    Option (nfsstat3 × Int × Server σ) :=
  match attrs.mode with
  | none => some (status, error, s)
  | some nfsmode =>
    if status = NFS3_OK then
      match filesystem.chmod with
      | none => none
      | some chmod =>
        let mode := kfs_mode_of_nfs nfsmode
        let out := chmod path mode filesystem.context s.world
        let s1 := s.called (.chmod path mode) out.world
        let error1 := out.error.getD error
        if out.value then some (status, error1, s1)
        else some (convert_status H error1 NFS3ERR_NOENT, error1, s1)
    else some (status, error, s)

/-- The pointer `set_fattr` passes for one of the two times: `NULL` when the
time's `set_it` is zero (`DONT_CHANGE`). -/
def kfstime_of_set_time (t : set_time) : Option kfstime :=
  if t.set_it = .DONT_CHANGE then none
  else some { sec := t.time.seconds, nsec := t.time.nseconds }

/-- The block `set times` of `set_fattr`. -/
def set_fattr_times {σ : Type} (H : Host) (filesystem : kfsfilesystem σ) (path : Option CStr)
    (attrs : sattr3) (status : nfsstat3) (error : Int) (s : Server σ) :
    Option (nfsstat3 × Int × Server σ) :=
  if status = NFS3_OK ∧
      (attrs.atime.set_it ≠ .DONT_CHANGE ∨ attrs.mtime.set_it ≠ .DONT_CHANGE) then
    match filesystem.utimes with
    | none => none
    | some utimes =>
      let atime := kfstime_of_set_time attrs.atime
      let mtime := kfstime_of_set_time attrs.mtime
      let out := utimes path atime mtime filesystem.context s.world
      let s1 := s.called (.utimes path atime mtime) out.world
      let error1 := out.error.getD error
      if out.value then some (status, error1, s1)
      else some (convert_status H error1 NFS3ERR_NOENT, error1, s1)
  else some (status, error, s)

/-- The block `set uid` of `set_fattr`. -/
def set_fattr_uid (H : Host) (attrs : sattr3) (status : nfsstat3) : nfsstat3 :=
  match attrs.uid with
  | none => status
  | some uid => if status = NFS3_OK ∧ uid ≠ H.uid then NFS3ERR_NOTSUPP else status

/-- The block `set gid` of `set_fattr`. -/
def set_fattr_gid (H : Host) (attrs : sattr3) (status : nfsstat3) : nfsstat3 :=
  match attrs.gid with
  | none => status
  | some gid => if status = NFS3_OK ∧ gid ≠ H.gid ∧ gid ≠ 0 then NFS3ERR_NOTSUPP else status

/-- `set_fattr`. -/
def set_fattr {σ : Type} (H : Host) (s : Server σ) (object : CStr) (attrs : sattr3) :
    Option (nfsstat3 × Server σ) :=
  match get_filesystem s object with
  | none => none
  | some ((none, _, _), s1) => some (NFS3ERR_BADHANDLE, s1)
  | some ((some filesystem, path, _), s1) =>
    match set_fattr_size H filesystem path attrs NFS3_OK 0 s1 with
    | none => none
    | some (status1, error1, s2) =>
      match set_fattr_mode H filesystem path attrs status1 error1 s2 with
      | none => none
      | some (status2, error2, s3) =>
        match set_fattr_times H filesystem path attrs status2 error2 s3 with
        | none => none
        | some (status3, _, s4) =>
          some (set_fattr_gid H attrs (set_fattr_uid H attrs status3), s4)

/-- `get_required_post_op`: `attributes_follow` is set whatever `get_fattr`
returns. -/
def get_required_post_op {σ : Type} (H : Host) (s : Server σ) (object : CStr) :
    Option ((nfsstat3 × post_op_attr) × Server σ) :=
  match get_fattr H s object with
  | none => none
  | some ((status, attributes), s1) =>
    some ((status, { attributes_follow := true, attributes := attributes }), s1)

/-- What `get_pre_op` and `get_post_op` store: `attributes_follow = false`. -/
def get_post_op : post_op_attr := { attributes_follow := false, attributes := none }

/-- The `switch` that follows a status in the procedures: a status among the
`case` labels is kept, any other becomes `NFS3ERR_SERVERFAULT`. -/
def filter_status (labels : List nfsstat3) (status : nfsstat3) : nfsstat3 :=
  if status ∈ labels then status else NFS3ERR_SERVERFAULT

/-- A reply as it is encoded: the status and, when the status is `NFS3_OK`, the
`resok` arm of the result union. -/
structure Reply (α : Type) where
  status : nfsstat3
  resok : Option α

/-! ## nfs3.c: RPC methods -/

/-- `nfsproc3_getattr_3_svc`. -/
def nfsproc3_getattr_3_svc {σ : Type} (H : Host) (s : Server σ) (object : CStr) :
    Option (Reply fattr3 × Server σ) :=
  match get_fattr H s object with
  | none => none
  | some ((status, attributes), s1) =>
    some ({ status := status, resok := if status = NFS3_OK then attributes else none }, s1)

/-- The `resok` arm of `LOOKUP3res`. -/
structure LOOKUP3resok where
  object : CStr
  obj_attributes : post_op_attr
  dir_attributes : post_op_attr

/-- The `case` labels of the `switch` in `nfsproc3_lookup_3_svc`. -/
def LOOKUP_labels : List nfsstat3 :=
  [NFS3_OK, NFS3ERR_IO, NFS3ERR_NOENT, NFS3ERR_ACCES, NFS3ERR_NAMETOOLONG, NFS3ERR_STALE,
   NFS3ERR_BADHANDLE, NFS3ERR_SERVERFAULT]

/-- `nfsproc3_lookup_3_svc` (`args.what.dir`, `args.what.name`).  With a
descriptor and a `NULL` path, `strcmp` dereferences the path. -/
def nfsproc3_lookup_3_svc {σ : Type} (H : Host) (s : Server σ) (dir : CStr) (name : CStr) :
    Option (Reply LOOKUP3resok × Server σ) :=
  match get_filesystem s dir with
  | none => none
  | some ((none, _, _), s1) => some ({ status := NFS3ERR_BADHANDLE, resok := none }, s1)
  | some ((some _, none, _), _) => none
  | some ((some _, some path, identifier), s1) =>
    let fspath := compose_path H path name
    let fileid := kfs_fileid s1.registry identifier fspath
    let filehandle := format_filehandle H identifier fileid.1
    match get_required_post_op H { s1 with registry := fileid.2 } filehandle with
    | none => none
    | some ((objstatus, obj_attributes), s2) =>
      let status := filter_status LOOKUP_labels objstatus
      some ({ status := status
              resok := if status = NFS3_OK then
                  some { object := filehandle, obj_attributes := obj_attributes,
                         dir_attributes := get_post_op }
                else none }, s2)

/-- The `resok` arm of `READLINK3res`. -/
structure READLINK3resok where
  symlink_attributes : post_op_attr
  data : CStr

/-- The `case` labels of the `switch` in `nfsproc3_readlink_3_svc`. -/
def READLINK_labels : List nfsstat3 :=
  [NFS3_OK, NFS3ERR_IO, NFS3ERR_INVAL, NFS3ERR_ACCES, NFS3ERR_STALE, NFS3ERR_BADHANDLE,
   NFS3ERR_NOTSUPP, NFS3ERR_SERVERFAULT]

/-- `nfsproc3_readlink_3_svc`.  When the callback returns `true` and left
`data` `NULL`, `strncpy` dereferences it; the text copied is cut at
`PATH_MAX` characters. -/
def nfsproc3_readlink_3_svc {σ : Type} (H : Host) (s : Server σ) (symlink : CStr) :
    Option (Reply READLINK3resok × Server σ) :=
  match get_filesystem s symlink with
  | none => none
  | some ((none, _, _), s1) => some ({ status := NFS3ERR_BADHANDLE, resok := none }, s1)
  | some ((some filesystem, path, _), s1) =>
    match filesystem.readlink with
    | none => none
    | some readlink =>
      let out := readlink path filesystem.context s1.world
      let s2 := s1.called (.readlink path) out.world
      let error : Int := out.error.getD 0
      if out.value.1 then
        match out.value.2 with
        | none => none
        | some data =>
          some ({ status := NFS3_OK
                  resok := some { symlink_attributes := get_post_op
                                  data := data.take H.PATH_MAX } }, s2)
      else
        some ({ status := filter_status READLINK_labels (convert_status H error NFS3ERR_INVAL)
                resok := none }, s2)

/-- The value an `int` holds after it was assigned a wider or unsigned
integer. -/
def to_int32 (x : Int) : Int := (x + 2 ^ 31) % 2 ^ 32 - 2 ^ 31

/-- The `resok` arm of `READ3res`; `data_val` is the static buffer. -/
structure READ3resok where
  file_attributes : post_op_attr
  count : Nat
  eof : Bool
  data_len : Nat
  data_val : Nat → Nat

/-- The `case` labels of the `switch` in `nfsproc3_read_3_svc`. -/
def READ_labels : List nfsstat3 :=
  [NFS3_OK, NFS3ERR_IO, NFS3ERR_NXIO, NFS3ERR_ACCES, NFS3ERR_INVAL, NFS3ERR_STALE,
   NFS3ERR_BADHANDLE, NFS3ERR_SERVERFAULT]

/-- The static buffer after a callback stored `bytes` at its start. -/
def store_bytes (buffer : Nat → Nat) (bytes : List Nat) : Nat → Nat :=
  fun i => if h : i < bytes.length then bytes.get ⟨i, h⟩ else buffer i

/-- `nfsproc3_read_3_svc` (`args.file`, `args.offset`, `args.count`). -/
def nfsproc3_read_3_svc {σ : Type} (H : Host) (s : Server σ) (file : CStr) (offset count : Nat) :
    Option (Reply READ3resok × Server σ) :=
  match get_filesystem s file with
  | none => none
  | some ((none, _, _), s1) => some ({ status := NFS3ERR_BADHANDLE, resok := none }, s1)
  | some ((some filesystem, path, _), s1) =>
    match filesystem.read with
    | none => none
    | some read =>
      let rsize0 : Int := to_int32 count
      let rsize : Int := if rsize0 > READ_MAX_LEN then READ_MAX_LEN else rsize0
      let length := to_uint64 rsize
      let out := read path offset length filesystem.context s1.world
      let s2 := s1.called (.read path offset length) out.world
      let buffer := store_bytes s2.read_buffer out.value.2
      let s3 := { s2 with read_buffer := buffer }
      let error : Int := out.error.getD 0
      let cnt : Int := to_int32 out.value.1
      if cnt ≠ -1 then
        some ({ status := NFS3_OK
                resok := some { file_attributes := get_post_op
                                count := (cnt % 2 ^ 32).toNat
                                eof := decide (cnt = 0)
                                data_len := READ_MAX_LEN
                                data_val := buffer } }, s3)
      else
        some ({ status := filter_status READ_labels (convert_status H error NFS3ERR_IO)
                resok := none }, s3)

/-- Modelled from the spec: `stable_how` of `nfs3.h` (not among the sources). -/
inductive stable_how where
  | UNSTABLE | DATA_SYNC | FILE_SYNC
deriving DecidableEq, Repr

/-- The `resok` arm of `WRITE3res` (the verifier is not written by the code). -/
structure WRITE3resok where
  file_wcc : post_op_attr × post_op_attr
  count : Nat
  committed : stable_how

/-- The `case` labels of the `switch` in `nfsproc3_write_3_svc`. -/
def WRITE_labels : List nfsstat3 :=
  [NFS3_OK, NFS3ERR_IO, NFS3ERR_ACCES, NFS3ERR_FBIG, NFS3ERR_DQUOT, NFS3ERR_NOSPC,
   NFS3ERR_ROFS, NFS3ERR_INVAL, NFS3ERR_STALE, NFS3ERR_BADHANDLE, NFS3ERR_SERVERFAULT]

/-- `nfsproc3_write_3_svc` (`args.file`, `args.offset`, `args.count`,
`args.data`). -/
def nfsproc3_write_3_svc {σ : Type} (H : Host) (s : Server σ) (file : CStr) (offset count : Nat)
    (data : List Nat) : Option (Reply WRITE3resok × Server σ) :=
  match get_filesystem s file with
  | none => none
  | some ((none, _, _), s1) => some ({ status := NFS3ERR_BADHANDLE, resok := none }, s1)
  | some ((some filesystem, path, _), s1) =>
    match filesystem.write with
    | none => none
    | some write =>
      let wsize0 : Int := to_int32 count
      let wsize : Int := if wsize0 > WRITE_MAX_LEN then WRITE_MAX_LEN else wsize0
      let length := to_uint64 wsize
      let out := write path data offset length filesystem.context s1.world
      let s2 := s1.called (.write path data offset length) out.world
      let error : Int := out.error.getD 0
      let cnt : Int := to_int32 out.value
      if cnt ≠ -1 then
        some ({ status := NFS3_OK
                resok := some { file_wcc := (get_post_op, get_post_op)
                                count := (cnt % 2 ^ 32).toNat
                                committed := .FILE_SYNC } }, s2)
      else
        some ({ status := filter_status WRITE_labels (convert_status H error NFS3ERR_IO)
                resok := none }, s2)

/-- The `resok` arm of `CREATE3res`, `MKDIR3res` and `SYMLINK3res`: the handle
(with `handle_follows = true`), the attributes and the two halves of `dir_wcc`. -/
structure CREATE3resok where
  obj : CStr
  obj_attributes : post_op_attr
  dir_wcc : post_op_attr × post_op_attr

/-- The `case` labels of the two `switch`es in `nfsproc3_create_3_svc`, which
are also those of `nfsproc3_mkdir_3_svc` and `nfsproc3_symlink_3_svc`. -/
def CREATE_labels : List nfsstat3 :=
  [NFS3_OK, NFS3ERR_IO, NFS3ERR_ACCES, NFS3ERR_EXIST, NFS3ERR_NOTDIR, NFS3ERR_NOSPC,
   NFS3ERR_ROFS, NFS3ERR_NAMETOOLONG, NFS3ERR_DQUOT, NFS3ERR_STALE, NFS3ERR_BADHANDLE,
   NFS3ERR_NOTSUPP, NFS3ERR_SERVERFAULT]

/-- The block `mode check` of `nfsproc3_create_3_svc`: the status after it. -/
def create_mode_check {σ : Type} (H : Host) (s : Server σ) (fh : CStr) (how : createhow3) :
    Option (nfsstat3 × Server σ) :=
  match how with
  | .UNCHECKED _ => some (NFS3_OK, s)
  | .GUARDED _ =>
    match get_fattr H s fh with
    | none => none
    | some ((status, _), s1) =>
      if status ≠ NFS3_OK then some (NFS3ERR_EXIST, s1) else some (NFS3_OK, s1)
  | .EXCLUSIVE _ => some (NFS3ERR_NOTSUPP, s)

/-- The attributes a `createhow3` carries in `createhow3_u.obj_attributes`; the
code reads them only after the mode check passed. -/
def createhow3.attributes : createhow3 → Option sattr3
  | .UNCHECKED a => some a
  | .GUARDED a => some a
  | .EXCLUSIVE _ => none

/-- The call `filesystem->remove(fspath, &(int){0}, filesystem->context)` of
`nfsproc3_create_3_svc`, whose result is dropped. -/
def rollback_remove {σ : Type} (filesystem : kfsfilesystem σ) (fspath : CStr) (s : Server σ) :
    Option (Server σ) :=
  match filesystem.remove with
  | none => none
  | some remove =>
    some (s.called (.remove (some fspath)) (remove (some fspath) filesystem.context s.world).world)

/-- The call `filesystem->rmdir(fspath, &(int){0}, filesystem->context)` of
`nfsproc3_mkdir_3_svc`, whose result is dropped. -/
def rollback_rmdir {σ : Type} (filesystem : kfsfilesystem σ) (fspath : CStr) (s : Server σ) :
    Option (Server σ) :=
  match filesystem.rmdir with
  | none => none
  | some rmdir =>
    some (s.called (.rmdir (some fspath)) (rmdir (some fspath) filesystem.context s.world).world)

/-- `nfsproc3_create_3_svc` (`args.where.dir`, `args.where.name`, `args.how`). -/
def nfsproc3_create_3_svc {σ : Type} (H : Host) (s : Server σ) (dir name : CStr)
    (how : createhow3) : Option (Reply CREATE3resok × Server σ) :=
  match get_filesystem s dir with
  | none => none
  | some ((none, _, _), s1) => some ({ status := NFS3ERR_BADHANDLE, resok := none }, s1)
  | some ((some _, none, _), _) => none
  | some ((some filesystem, some path, identifier), s1) =>
    let fspath := compose_path H path name
    let fileid := kfs_fileid s1.registry identifier fspath
    let fh := format_filehandle H identifier fileid.1
    match create_mode_check H { s1 with registry := fileid.2 } fh how with
    | none => none
    | some (status0, s2) =>
      if status0 = NFS3_OK then
        match filesystem.create, how.attributes with
        | some create, some attrs =>
          let out := create (some fspath) filesystem.context s2.world
          let s3 := s2.called (.create (some fspath)) out.world
          let error : Int := out.error.getD 0
          if out.value then
            match set_fattr H s3 fh attrs with
            | none => none
            | some (setstatus, s4) =>
              let status := filter_status CREATE_labels setstatus
              match (if setstatus ≠ NFS3_OK then rollback_remove filesystem fspath s4
                     else some s4) with
              | none => none
              | some s5 =>
                match get_required_post_op H s5 fh with
                | none => none
                | some ((_, obj_attributes), s6) =>
                  some ({ status := status
                          resok := if status = NFS3_OK then
                              some { obj := fh, obj_attributes := obj_attributes,
                                     dir_wcc := (get_post_op, get_post_op) }
                            else none }, s6)
          else
            some ({ status := filter_status CREATE_labels (convert_status H error NFS3ERR_IO)
                    resok := none }, s3)
        | _, _ => none
      else some ({ status := status0, resok := none }, s2)

/-- `nfsproc3_mkdir_3_svc` (`args.where.dir`, `args.where.name`,
`args.attributes`). -/
def nfsproc3_mkdir_3_svc {σ : Type} (H : Host) (s : Server σ) (dir name : CStr)
    (attributes : sattr3) : Option (Reply CREATE3resok × Server σ) :=
  match get_filesystem s dir with
  | none => none
  | some ((none, _, _), s1) => some ({ status := NFS3ERR_BADHANDLE, resok := none }, s1)
  | some ((some _, none, _), _) => none
  | some ((some filesystem, some path, identifier), s1) =>
    let fspath := compose_path H path name
    let fileid := kfs_fileid s1.registry identifier fspath
    let fh := format_filehandle H identifier fileid.1
    let s2 : Server σ := { s1 with registry := fileid.2 }
    match filesystem.mkdir with
    | none => none
    | some mkdir =>
      let out := mkdir (some fspath) filesystem.context s2.world
      let s3 := s2.called (.mkdir (some fspath)) out.world
      let error : Int := out.error.getD 0
      if out.value then
        match set_fattr H s3 fh attributes with
        | none => none
        | some (setstatus, s4) =>
          let status := filter_status CREATE_labels setstatus
          match (if setstatus ≠ NFS3_OK then rollback_rmdir filesystem fspath s4
                 else some s4) with
          | none => none
          | some s5 =>
            match get_required_post_op H s5 fh with
            | none => none
            | some ((_, obj_attributes), s6) =>
              some ({ status := status
                      resok := if status = NFS3_OK then
                          some { obj := fh, obj_attributes := obj_attributes,
                                 dir_wcc := (get_post_op, get_post_op) }
                        else none }, s6)
      else
        some ({ status := filter_status CREATE_labels (convert_status H error NFS3ERR_IO)
                resok := none }, s3)

/-- `nfsproc3_symlink_3_svc` (`args.where.dir`, `args.where.name`,
`args.symlink.symlink_data`, `args.symlink.symlink_attributes`). -/
def nfsproc3_symlink_3_svc {σ : Type} (H : Host) (s : Server σ) (dir name : CStr)
    (symlink_data : CStr) (symlink_attributes : sattr3) :
    Option (Reply CREATE3resok × Server σ) :=
  match get_filesystem s dir with
  | none => none
  | some ((none, _, _), s1) => some ({ status := NFS3ERR_BADHANDLE, resok := none }, s1)
  | some ((some _, none, _), _) => none
  | some ((some filesystem, some path, identifier), s1) =>
    let fspath := compose_path H path name
    let fileid := kfs_fileid s1.registry identifier fspath
    let fh := format_filehandle H identifier fileid.1
    let s2 : Server σ := { s1 with registry := fileid.2 }
    match filesystem.symlink with
    | none => none
    | some symlink =>
      let out := symlink (some fspath) (some symlink_data) filesystem.context s2.world
      let s3 := s2.called (.symlink (some fspath) (some symlink_data)) out.world
      let error : Int := out.error.getD 0
      if out.value then
        match set_fattr H s3 fh symlink_attributes with
        | none => none
        | some (setstatus, s4) =>
          let status := filter_status CREATE_labels setstatus
          match get_required_post_op H s4 fh with
          | none => none
          | some ((_, obj_attributes), s5) =>
            some ({ status := status
                    resok := if status = NFS3_OK then
                        some { obj := fh, obj_attributes := obj_attributes,
                               dir_wcc := (get_post_op, get_post_op) }
                      else none }, s5)
      else
        some ({ status := filter_status CREATE_labels (convert_status H error NFS3ERR_IO)
                resok := none }, s3)

/-- The `case` labels of the `switch` in `nfsproc3_remove_3_svc`. -/
def REMOVE_labels : List nfsstat3 :=
  [NFS3_OK, NFS3ERR_NOENT, NFS3ERR_IO, NFS3ERR_ACCES, NFS3ERR_NOTDIR, NFS3ERR_NAMETOOLONG,
   NFS3ERR_ROFS, NFS3ERR_STALE, NFS3ERR_BADHANDLE, NFS3ERR_NOTSUPP, NFS3ERR_SERVERFAULT]

/-- `nfsproc3_remove_3_svc` (`args.object.dir`, `args.object.name`); the `resok`
arm holds the two halves of `dir_wcc`. -/
def nfsproc3_remove_3_svc {σ : Type} (H : Host) (s : Server σ) (dir name : CStr) :
    Option (Reply (post_op_attr × post_op_attr) × Server σ) :=
  match get_filesystem s dir with
  | none => none
  | some ((none, _, _), s1) => some ({ status := NFS3ERR_BADHANDLE, resok := none }, s1)
  | some ((some _, none, _), _) => none
  | some ((some filesystem, some path, _), s1) =>
    let fspath := compose_path H path name
    match filesystem.remove with
    | none => none
    | some remove =>
      let out := remove (some fspath) filesystem.context s1.world
      let s2 := s1.called (.remove (some fspath)) out.world
      let error : Int := out.error.getD 0
      if out.value then
        some ({ status := NFS3_OK, resok := some (get_post_op, get_post_op) }, s2)
      else
        some ({ status := filter_status REMOVE_labels (convert_status H error NFS3ERR_IO)
                resok := none }, s2)

/-- The `case` labels of the `switch` in `nfsproc3_rmdir_3_svc`. -/
def RMDIR_labels : List nfsstat3 :=
  [NFS3_OK, NFS3ERR_NOENT, NFS3ERR_IO, NFS3ERR_ACCES, NFS3ERR_INVAL, NFS3ERR_EXIST,
   NFS3ERR_NOTDIR, NFS3ERR_NAMETOOLONG, NFS3ERR_ROFS, NFS3ERR_NOTEMPTY, NFS3ERR_STALE,
   NFS3ERR_BADHANDLE, NFS3ERR_NOTSUPP, NFS3ERR_SERVERFAULT]

/-- `nfsproc3_rmdir_3_svc` (`args.object.dir`, `args.object.name`). -/
def nfsproc3_rmdir_3_svc {σ : Type} (H : Host) (s : Server σ) (dir name : CStr) :
    Option (Reply (post_op_attr × post_op_attr) × Server σ) :=
  match get_filesystem s dir with
  | none => none
  | some ((none, _, _), s1) => some ({ status := NFS3ERR_BADHANDLE, resok := none }, s1)
  | some ((some _, none, _), _) => none
  | some ((some filesystem, some path, _), s1) =>
    let fspath := compose_path H path name
    match filesystem.rmdir with
    | none => none
    | some rmdir =>
      let out := rmdir (some fspath) filesystem.context s1.world
      let s2 := s1.called (.rmdir (some fspath)) out.world
      let error : Int := out.error.getD 0
      if out.value then
        some ({ status := NFS3_OK, resok := some (get_post_op, get_post_op) }, s2)
      else
        some ({ status := filter_status RMDIR_labels (convert_status H error NFS3ERR_IO)
                resok := none }, s2)

/-- The `case` labels of the `switch` in `nfsproc3_rename_3_svc`. -/
def RENAME_labels : List nfsstat3 :=
  [NFS3_OK, NFS3ERR_NOENT, NFS3ERR_IO, NFS3ERR_ACCES, NFS3ERR_EXIST, NFS3ERR_XDEV,
   NFS3ERR_NOTDIR, NFS3ERR_ISDIR, NFS3ERR_INVAL, NFS3ERR_NOSPC, NFS3ERR_ROFS, NFS3ERR_MLINK,
   NFS3ERR_NAMETOOLONG, NFS3ERR_NOTEMPTY, NFS3ERR_DQUOT, NFS3ERR_STALE, NFS3ERR_BADHANDLE,
   NFS3ERR_NOTSUPP, NFS3ERR_SERVERFAULT]

/-- `nfsproc3_rename_3_svc` (`args.from.dir`, `args.from.name`, `args.to.dir`,
`args.to.name`).  Two descriptor pointers are equal when they come from the
same slot of the table; the two `kfs_fileid` arguments of `kfs_idswap` are
evaluated from left to right. -/
def nfsproc3_rename_3_svc {σ : Type} (H : Host) (s : Server σ) (from_dir from_name : CStr)
    (to_dir to_name : CStr) : Option (Reply (post_op_attr × post_op_attr) × Server σ) :=
  match get_filesystem s from_dir with
  | none => none
  | some ((from_filesystem, from_path, from_identifier), s1) =>
    match get_filesystem s1 to_dir with
    | none => none
    | some ((to_filesystem, to_path, to_identifier), s2) =>
      match from_filesystem, to_filesystem with
      | some filesystem, some _ =>
        if to_int64 from_identifier = to_int64 to_identifier ∧
            from_identifier = to_identifier then
          match from_path, to_path, filesystem.rename with
          | some from_path, some to_path, some rename =>
            let from_fspath := compose_path H from_path from_name
            let to_fspath := compose_path H to_path to_name
            let out := rename (some from_fspath) (some to_fspath) filesystem.context s2.world
            let s3 := s2.called (.rename (some from_fspath) (some to_fspath)) out.world
            let error : Int := out.error.getD 0
            if out.value then
              let id_one := kfs_fileid s3.registry from_identifier from_fspath
              let id_two := kfs_fileid id_one.2 to_identifier to_fspath
              match kfs_idswap id_two.2 from_identifier id_one.1 id_two.1 with
              | none => none
              | some r =>
                some ({ status := NFS3_OK, resok := some (get_post_op, get_post_op) },
                  { s3 with registry := r })
            else
              some ({ status := filter_status RENAME_labels (convert_status H error NFS3ERR_IO)
                      resok := none }, s3)
          | _, _, _ => none
        else some ({ status := NFS3ERR_BADHANDLE, resok := none }, s2)
      | _, _ => some ({ status := NFS3ERR_BADHANDLE, resok := none }, s2)

/-! ## kfslib.c: the directory-listing buffer -/

/-- `struct kfscontents`; `entries` is the array, `none` an element that was
never stored. -/
structure kfscontents where
  entries : Nat → Option CStr
  capacity : Nat
  count : Nat

/-- `kfscontents_create`: a zeroed record. -/
def kfscontents_create : kfscontents := { entries := fun _ => none, capacity := 0, count := 0 }

/-- `kfscontents_append`; `cap`, `pos` and `len` are `unsigned int`. -/
def kfscontents_append (contents : kfscontents) (entry : CStr) : kfscontents :=
  let cap := contents.capacity % 2 ^ 32
  let pos := contents.count % 2 ^ 32
  let len := (contents.count + 1) % 2 ^ 32
  let cap1 := if cap < len then (if cap = 0 then 1 else (cap * 2) % 2 ^ 32) else cap
  { entries := fun i => if i = pos then some entry else contents.entries i
    capacity := cap1
    count := len }

/-- `kfscontents_count`. -/
def kfscontents_count (contents : kfscontents) : Nat := contents.count

/-- `kfscontents_at`. -/
def kfscontents_at (contents : kfscontents) (idx : Nat) : Option CStr :=
  if idx < contents.count then contents.entries idx else none

/-! ## nfs3.c: READDIR and FSSTAT -/

/-- The hexadecimal digits of a number, least significant first; `fuel` bounds
their count. -/
def hex_digits : Nat → Nat → List Nat
  | 0, _ => []
  | fuel + 1, n => if n < 16 then [n] else (n % 16) :: hex_digits fuel (n / 16)

/-- What the conversion `%x` prints: the hexadecimal form, in lower case, of the
argument read as an `unsigned int` (at most eight digits). -/
def format_x (n : Nat) : CStr :=
  ((hex_digits 8 (n % 2 ^ 32)).reverse).map fun d =>
    if d < 10 then Char.ofNat (48 + d) else Char.ofNat (87 + d)

/-- The static `timemask` of `nfsproc3_readdir_3_svc`:
`~(~0LL << (NFS3_COOKIEVERFSIZE << 2))` stored in a `uint32`. -/
def timemask : Nat := (2 ^ (NFS3_COOKIEVERFSIZE <<< 2) - 1) % 2 ^ 32

/-- The text `snprintf(..., NFS3_COOKIEVERFSIZE, "%x", seconds & timemask)`
leaves in `result.READDIR3res_u.resok.cookieverf`. -/
def cookieverf_of (seconds : Nat) : CStr :=
  snprintf NFS3_COOKIEVERFSIZE (format_x (seconds &&& timemask))

/-- The `for` loop of `nfsproc3_readdir_3_svc`.  The first argument is the number
of entries that may still be filled, `ent_count - ent_i`; the result is the
final `cnt_i` with the registry and the static `entries`. -/
def readdir_loop (H : Host) (path : Option CStr) (identifier : Nat) (contents : kfscontents)
    (cnt_count : Nat) :
    Nat → Nat → Nat → Registry → (Nat → entry3) → Option (Nat × Registry × (Nat → entry3))
  | 0, cnt_i, _, r, entries => some (cnt_i, r, entries)
  | room + 1, cnt_i, ent_i, r, entries =>
    if cnt_i < cnt_count then
      match kfscontents_at contents cnt_i, path with
      | some entry, some p =>
        let fullpath := if p = ['/'] then p ++ entry else p ++ ['/'] ++ entry
        let fileid := kfs_fileid r identifier fullpath
        let filled : Nat → entry3 := fun i =>
          if i = ent_i then
            { fileid := fileid.1, name := some (entry.take H.NAME_MAX), cookie := cnt_i,
              nextentry := false }
          else entries i
        let linked : Nat → entry3 :=
          if ent_i > 0 then
            fun i => if i = ent_i - 1 then { filled i with nextentry := true } else filled i
          else filled
        readdir_loop H path identifier contents cnt_count room (cnt_i + 1) (ent_i + 1)
          fileid.2 linked
      | _, _ => none
    else some (cnt_i, r, entries)

/-- The list a reply's `entries` pointer denotes: the static array from its
first element on, along the `nextentry` pointers. -/
def entry_chain (entries : Nat → entry3) : Nat → Nat → List entry3
  | 0, _ => []
  | fuel + 1, i =>
    entries i :: (if (entries i).nextentry then entry_chain entries fuel (i + 1) else [])

/-- The `resok` arm of `READDIR3res`. -/
structure READDIR3resok where
  dir_attributes : post_op_attr
  cookieverf : CStr
  entries : List entry3
  eof : Bool

/-- The `case` labels of the `switch` in `nfsproc3_readdir_3_svc`. -/
def READDIR_labels : List nfsstat3 :=
  [NFS3_OK, NFS3ERR_IO, NFS3ERR_ACCES, NFS3ERR_NOTDIR, NFS3ERR_BAD_COOKIE, NFS3ERR_TOOSMALL,
   NFS3ERR_STALE, NFS3ERR_BADHANDLE, NFS3ERR_NOTSUPP, NFS3ERR_SERVERFAULT]

/-- `nfsproc3_readdir_3_svc` (`args.dir`, `args.cookie`, `args.cookieverf`,
`args.count`). -/
def nfsproc3_readdir_3_svc {σ : Type} (H : Host) (s : Server σ) (dir : CStr) (cookie : Nat)
    (cookieverf : CStr) (count : Nat) : Option (Reply READDIR3resok × Server σ) :=
  match get_fattr H s dir with
  | none => none
  | some ((_, written), s0) =>
    let dirattr := written.getD fattr3.zero
    let newrequest := decide (cookie = 0) && decide (cookieverf.length = 0)
    let verf := cookieverf_of dirattr.mtime.seconds
    let cookie_valid := !(newrequest == false && decide (cookieverf ≠ verf))
    if cookie_valid then
      match get_filesystem s0 dir with
      | none => none
      | some ((none, _, _), s1) => some ({ status := NFS3ERR_BADHANDLE, resok := none }, s1)
      | some ((some filesystem, path, identifier), s1) =>
        match filesystem.readdir with
        | none => none
        | some readdir =>
          let out := readdir path filesystem.context s1.world
          let s2 := s1.called (.readdir path) out.world
          let contents := out.value.2.foldl kfscontents_append kfscontents_create
          let error : Int := out.error.getD 0
          if out.value.1 then
            let cnt_count := kfscontents_count contents
            let ent_count := if count > DIR_MAX_LEN then DIR_MAX_LEN else count
            match readdir_loop H path identifier contents cnt_count ent_count cookie 0
                s2.registry s2.readdir_entries with
            | none => none
            | some (cnt_i, r, entries) =>
              some ({ status := NFS3_OK
                      resok := some { dir_attributes := get_post_op
                                      cookieverf := verf
                                      entries := entry_chain entries DIR_MAX_LEN 0
                                      eof := decide (cnt_i = cnt_count) } },
                { s2 with registry := r, readdir_entries := entries })
          else
            some ({ status := filter_status READDIR_labels
                      (convert_status H error NFS3ERR_NOTDIR)
                    resok := none }, s2)
    else some ({ status := NFS3ERR_BAD_COOKIE, resok := none }, s0)

/-- The `resok` arm of `FSSTAT3res`. -/
structure FSSTAT3resok where
  obj_attributes : post_op_attr
  tbytes : Nat
  fbytes : Nat
  abytes : Nat
  tfiles : Nat
  ffiles : Nat
  afiles : Nat
  invarsec : Nat

/-- The `case` labels of the `switch` in `nfsproc3_fsstat_3_svc`. -/
def FSSTAT_labels : List nfsstat3 :=
  [NFS3_OK, NFS3ERR_IO, NFS3ERR_STALE, NFS3ERR_BADHANDLE, NFS3ERR_SERVERFAULT]

/-- `nfsproc3_fsstat_3_svc` (`args.fsroot`). -/
def nfsproc3_fsstat_3_svc {σ : Type} (H : Host) (s : Server σ) (fsroot : CStr) :
    Option (Reply FSSTAT3resok × Server σ) :=
  match get_filesystem s fsroot with
  | none => none
  | some ((none, _, _), s1) => some ({ status := NFS3ERR_BADHANDLE, resok := none }, s1)
  | some ((some filesystem, path, _), s1) =>
    match filesystem.statfs with
    | none => none
    | some statfs =>
      let out := statfs path filesystem.context s1.world
      let s2 := s1.called (.statfs path) out.world
      let error : Int := out.error.getD 0
      match out.value with
      | some sbuf =>
        some ({ status := NFS3_OK
                resok := some { obj_attributes := get_post_op, tbytes := sbuf.size,
                                fbytes := sbuf.free, abytes := sbuf.free, tfiles := 0,
                                ffiles := 0, afiles := 0, invarsec := 0 } }, s2)
      | none =>
        some ({ status := filter_status FSSTAT_labels (convert_status H error NFS3ERR_IO)
                resok := none }, s2)

/-! ## nfs3.c: SETATTR and ACCESS -/

/-- Modelled from the spec: `sattrguard3` of `nfs3.h` (not among the sources):
the discriminant `check` and the `obj_ctime` the union holds. -/
structure sattrguard3 where
  check : Bool
  obj_ctime : nfstime3
deriving DecidableEq, Repr

/-- The `resok` arm of `SETATTR3res`: the two halves of `obj_wcc`. -/
structure SETATTR3resok where
  obj_wcc : post_op_attr × post_op_attr

/-- The block `guard check` of `nfsproc3_setattr_3_svc`: the status after it.
The automatic variable `attrs` is not initialised; `stack` is what it holds
when `get_fattr` is entered, and what it still holds when `get_fattr` stores
nothing. -/
def setattr_guard_check {σ : Type} (H : Host) (s : Server σ) (object : CStr)
    (guard : sattrguard3) (stack : fattr3) : Option (nfsstat3 × Server σ) :=
  if guard.check then
    match get_fattr H s object with
    | none => none
    | some ((_, written), s1) =>
      let attrs := written.getD stack
      if attrs.ctime.seconds ≠ guard.obj_ctime.seconds ∨
          attrs.ctime.nseconds ≠ guard.obj_ctime.nseconds then
        some (NFS3ERR_NOT_SYNC, s1)
      else some (NFS3_OK, s1)
  else some (NFS3_OK, s)

/-- `nfsproc3_setattr_3_svc` (`args.object`, `args.new_attributes`,
`args.guard`), with the content `stack` of its uninitialised variable. -/
def nfsproc3_setattr_3_svc {σ : Type} (H : Host) (s : Server σ) (object : CStr)
    (new_attributes : sattr3) (guard : sattrguard3) (stack : fattr3) :
    Option (Reply SETATTR3resok × Server σ) :=
  match setattr_guard_check H s object guard stack with
  | none => none
  | some (status0, s1) =>
    match (if status0 = NFS3_OK then set_fattr H s1 object new_attributes
           else some (status0, s1)) with
    | none => none
    | some (status, s2) =>
      some ({ status := status
              resok := if status = NFS3_OK then some { obj_wcc := (get_post_op, get_post_op) }
                else none }, s2)

/-- Modelled from the spec: the `ACCESS3_*` bits of `nfs3.h` (not among the
sources), with the values NFS version 3 gives them. -/
def ACCESS3_READ : Nat := 0x0001
/-- Modelled from the spec: see `ACCESS3_READ`. -/
def ACCESS3_LOOKUP : Nat := 0x0002
/-- Modelled from the spec: see `ACCESS3_READ`. -/
def ACCESS3_MODIFY : Nat := 0x0004
/-- Modelled from the spec: see `ACCESS3_READ`. -/
def ACCESS3_EXTEND : Nat := 0x0008
/-- Modelled from the spec: see `ACCESS3_READ`. -/
def ACCESS3_DELETE : Nat := 0x0010
/-- Modelled from the spec: see `ACCESS3_READ`. -/
def ACCESS3_EXECUTE : Nat := 0x0020

/-- The `resok` arm of `ACCESS3res`. -/
structure ACCESS3resok where
  obj_attributes : post_op_attr
  access : Nat
deriving Repr

/-- `nfsproc3_access_3_svc` (`args.object`; `args.access` is only logged).  The
variable `attr` starts as the zero record and keeps it when `get_fattr` stores
nothing. -/
def nfsproc3_access_3_svc {σ : Type} (H : Host) (s : Server σ) (object : CStr) :
    Option (Reply ACCESS3resok × Server σ) :=
  match get_fattr H s object with
  | none => none
  | some ((_, written), s1) =>
    let attr := written.getD fattr3.zero
    let flags : Nat := 0
    let flags_read := ACCESS3_READ
    let flags_write := ACCESS3_MODIFY ||| ACCESS3_EXTEND ||| ACCESS3_DELETE
    let flags_execute := ACCESS3_EXECUTE ||| ACCESS3_LOOKUP
    let flags :=
      if attr.mode &&& NFS_IRUSR ≠ 0 ∧ attr.uid = H.uid then flags ||| flags_read
      else if attr.mode &&& NFS_IRGRP ≠ 0 ∧ attr.gid = H.gid then flags ||| flags_read
      else if attr.mode &&& NFS_IROTH ≠ 0 then flags ||| flags_read
      else flags
    let flags :=
      if attr.mode &&& NFS_IWUSR ≠ 0 ∧ attr.uid = H.uid then flags ||| flags_write
      else if attr.mode &&& NFS_IWGRP ≠ 0 ∧ attr.gid = H.gid then flags ||| flags_write
      else if attr.mode &&& NFS_IWOTH ≠ 0 then flags ||| flags_write
      else flags
    let flags :=
      if attr.mode &&& NFS_IXUSR ≠ 0 ∧ attr.uid = H.uid then flags ||| flags_execute
      else if attr.mode &&& NFS_IXGRP ≠ 0 ∧ attr.gid = H.gid then flags ||| flags_execute
      else if attr.mode &&& NFS_IXOTH ≠ 0 then flags ||| flags_execute
      else flags
    some ({ status := NFS3_OK
            resok := some { obj_attributes := get_post_op, access := flags } }, s1)

/-! ## kfslib.c: mounting and unmounting -/

/-- Modelled from the spec: `MNT_RDONLY` of the host header `<sys/mount.h>`
(not among the sources), with Darwin's value. -/
def MNT_RDONLY : Nat := 0x00000001
/-- Modelled from the spec: `MNT_SYNCHRONOUS` of the host header
`<sys/mount.h>` (not among the sources), with Darwin's value. -/
def MNT_SYNCHRONOUS : Nat := 0x00000002

/-- What the host answers to the two system calls of `kfs_mount`: the value
`mkdir` returns with the `errno` it leaves when it fails, and the same for
`mount`. -/
structure HostAnswers where
  mkdir_result : Int
  mkdir_errno : Int
  mount_result : Int
  mount_errno : Int
deriving DecidableEq, Repr

/-- The arguments of the call `mount("nfs", dir, flags, &args)` that the
theorems speak of: the mountpoint, the flags, and the fields `fh` and
`hostname` of `args`. -/
structure MountCall where
  dir : CStr
  flags : Nat
  fh : CStr
  hostname : CStr
deriving DecidableEq, Repr

/-- The flags `kfs_mount` computes from the caller's descriptor. -/
def kfs_mount_flags {σ : Type} (filesystem : kfsfilesystem σ) : Nat :=
  let flags := MNT_SYNCHRONOUS
  if filesystem.write.isNone ∨ filesystem.create.isNone ∨ filesystem.remove.isNone ∨
      filesystem.rename.isNone ∨ filesystem.truncate.isNone ∨
      filesystem.mkdir.isNone ∨ filesystem.rmdir.isNone then flags ||| MNT_RDONLY
  else flags

/-- `kfs_mount` (the start of the server by `pthread_once` is not modelled):
the identifier returned, the table, and the call of `mount` when one was
made. -/
def kfs_mount {σ : Type} (H : Host) (t : Table σ) (filesystem : kfsfilesystem σ)
    (host : HostAnswers) : Option (Int × Table σ × Option MountCall) :=
  match kfstable_put H t filesystem with
  | none => none
  | some (identifier, t1) =>
    let fshandle := kfs_mount_fshandle identifier
    let hostname := ['k', 'f', 's'] ++ format_llu (to_uint64 identifier)
    match (if identifier ≥ 0 then
             if host.mkdir_result ≠ 0 then
               if host.mkdir_errno ≠ H.EEXIST then
                 (kfstable_remove { t1 with errno := host.mkdir_errno } identifier).map
                   fun t2 => ((-1 : Int), t2)
               else some (identifier, { t1 with errno := host.mkdir_errno })
             else some (identifier, t1)
           else some (identifier, t1)) with
    | none => none
    | some (identifier1, t2) =>
      if identifier1 ≥ 0 then
        let call : MountCall :=
          { dir := filesystem.options.mountpoint, flags := kfs_mount_flags filesystem,
            fh := fshandle, hostname := hostname }
        if host.mount_result ≠ 0 then
          (kfstable_remove { t2 with errno := host.mount_errno } identifier1).map
            fun t3 => ((-1 : Int), t3, some call)
        else some (identifier1, t2, some call)
      else some (identifier1, t2, none)

/-- `kfs_unmount`: the state afterwards and the mountpoint handed to `unmount`
and `rmdir` (`none` when the table gave no descriptor).  The registry is keyed
by `(uintptr_t)identifier`. -/
def kfs_unmount {σ : Type} (s : Server σ) (identifier : Int) :
    Option (Server σ × Option CStr) :=
  match kfstable_get s.table identifier with
  | none => none
  | some filesystem =>
    match kfstable_remove s.table identifier with
    | none => none
    | some t1 =>
      some ({ s with table := t1, registry := kfs_idclear s.registry (to_uint64 identifier) },
        filesystem.map fun f => f.options.mountpoint)

/-! ## internal.c: iterating the table; kfslib.c: `finalize` -/

/-- The loop `while (table[*identifier] == NULL)` of `kfstable_iterate_nolock`,
at most `fuel` tests of its condition: the value returned and the identifier
left in `*identifier`. -/
def kfstable_iterate_loop {σ : Type} (t : Table σ) (start : Int) :
    Nat → Int → Option (Bool × Int)
  | 0, _ => none
  | fuel + 1, identifier =>
    match t.slot identifier with
    | none => none
    | some (some _) => some (true, identifier)
    | some none =>
      let identifier1 := (identifier + 1) % (MAX_FIELSYSTEMS : Int)
      if identifier1 = start then some (false, identifier1)
      else kfstable_iterate_loop t start fuel identifier1

/-- `kfstable_iterate_nolock`: the value returned and `*identifier` afterwards.
The loop comes back to `start` after `MAX_FIELSYSTEMS` increments, so it tests
at most that many slots. -/
def kfstable_iterate_nolock {σ : Type} (t : Table σ) (identifier : Int) : Option (Bool × Int) :=
  let identifier0 := if identifier > (MAX_FIELSYSTEMS : Int) then 0 else identifier
  kfstable_iterate_loop t identifier0 MAX_FIELSYSTEMS identifier0

/-- `kfstable_iterate` (the mutex is not modelled). -/
def kfstable_iterate {σ : Type} (t : Table σ) (identifier : Int) : Option (Bool × Int) :=
  kfstable_iterate_nolock t identifier

/-- The loop of `finalize`, entered with `identifier` and at most `fuel` calls
of `kfstable_iterate` left: the state it ends in and the identifiers it
unmounted, in order. -/
def finalize_loop {σ : Type} : Nat → Server σ → Int → Option (Server σ × List Int)
  | 0, _, _ => none
  | fuel + 1, s, identifier =>
    match kfstable_iterate s.table identifier with
    | none => none
    | some (false, _) => some (s, [])
    | some (true, identifier1) =>
      match kfs_unmount s identifier1 with
      | none => none
      | some (s1, _) =>
        (finalize_loop fuel s1 identifier1).map fun r => (r.1, identifier1 :: r.2)

/-- `finalize`, with at most `fuel` calls of `kfstable_iterate`. -/
def finalize {σ : Type} (fuel : Nat) (s : Server σ) : Option (Server σ × List Int) :=
  finalize_loop fuel s 0

/-! ## Dispatch of the procedures that filter their status -/

/-- A call of one of the twelve procedures whose status goes through a `switch`,
with the arguments the procedure reads. -/
inductive Request where
  | LOOKUP (dir name : CStr)
  | READLINK (symlink : CStr)
  | READ (file : CStr) (offset count : Nat)
  | WRITE (file : CStr) (offset count : Nat) (data : List Nat)
  | CREATE (dir name : CStr) (how : createhow3)
  | MKDIR (dir name : CStr) (attributes : sattr3)
  | SYMLINK (dir name symlink_data : CStr) (symlink_attributes : sattr3)
  | REMOVE (dir name : CStr)
  | RMDIR (dir name : CStr)
  | RENAME (from_dir from_name to_dir to_name : CStr)
  | READDIR (dir : CStr) (cookie : Nat) (cookieverf : CStr) (count : Nat)
  | FSSTAT (fsroot : CStr)

/-- The `case` labels of the `switch` in the procedure a request is for. -/
def Request.labels : Request → List nfsstat3
  | .LOOKUP _ _ => LOOKUP_labels
  | .READLINK _ => READLINK_labels
  | .READ _ _ _ => READ_labels
  | .WRITE _ _ _ _ => WRITE_labels
  | .CREATE _ _ _ => CREATE_labels
  | .MKDIR _ _ _ => CREATE_labels
  | .SYMLINK _ _ _ _ => CREATE_labels
  | .REMOVE _ _ => REMOVE_labels
  | .RMDIR _ _ => RMDIR_labels
  | .RENAME _ _ _ _ => RENAME_labels
  | .READDIR _ _ _ _ => READDIR_labels
  | .FSSTAT _ => FSSTAT_labels

/-- The status of the reply to a request, with the state the procedure leaves. -/
def Request.serve {σ : Type} (H : Host) (s : Server σ) : Request → Option (nfsstat3 × Server σ)
  | .LOOKUP dir name => (nfsproc3_lookup_3_svc H s dir name).map fun r => (r.1.status, r.2)
  | .READLINK symlink => (nfsproc3_readlink_3_svc H s symlink).map fun r => (r.1.status, r.2)
  | .READ file offset count =>
    (nfsproc3_read_3_svc H s file offset count).map fun r => (r.1.status, r.2)
  | .WRITE file offset count data =>
    (nfsproc3_write_3_svc H s file offset count data).map fun r => (r.1.status, r.2)
  | .CREATE dir name how =>
    (nfsproc3_create_3_svc H s dir name how).map fun r => (r.1.status, r.2)
  | .MKDIR dir name attributes =>
    (nfsproc3_mkdir_3_svc H s dir name attributes).map fun r => (r.1.status, r.2)
  | .SYMLINK dir name symlink_data symlink_attributes =>
    (nfsproc3_symlink_3_svc H s dir name symlink_data symlink_attributes).map
      fun r => (r.1.status, r.2)
  | .REMOVE dir name => (nfsproc3_remove_3_svc H s dir name).map fun r => (r.1.status, r.2)
  | .RMDIR dir name => (nfsproc3_rmdir_3_svc H s dir name).map fun r => (r.1.status, r.2)
  | .RENAME from_dir from_name to_dir to_name =>
    (nfsproc3_rename_3_svc H s from_dir from_name to_dir to_name).map
      fun r => (r.1.status, r.2)
  | .READDIR dir cookie cookieverf count =>
    (nfsproc3_readdir_3_svc H s dir cookie cookieverf count).map fun r => (r.1.status, r.2)
  | .FSSTAT fsroot => (nfsproc3_fsstat_3_svc H s fsroot).map fun r => (r.1.status, r.2)

/-- The outcome of a procedure carries a status among `labels`, when the
procedure gives a reply at all. -/
def StatusIn {σ α : Type} (labels : List nfsstat3) : Option (Reply α × Server σ) → Prop
  | none => True
  | some r => r.1.status ∈ labels

/-! ## An example application -/

/-- The `kfsstat_t` the example application reports for every object. -/
def memfs_stat : kfsstat :=
  { type := .KFS_REG, mode := 0x644, size := 0, used := 0, atime := ⟨0, 0⟩, mtime := ⟨0, 0⟩,
    ctime := ⟨0, 0⟩ }

/-- An application whose state is the list of the paths that exist: `stat`
succeeds on these and fails with `ENOENT` (2) on the others, `create` adds a
path, `remove` deletes one, `rename` replaces one; the other callbacks are
unset. -/
def memfs : kfsfilesystem (List CStr) :=
  { emptyFilesystem (List CStr) with
    stat := some fun path _ w =>
      match path with
      | some p => if p ∈ w then ⟨some memfs_stat, none, w⟩ else ⟨none, some 2, w⟩
      | none => ⟨none, some 2, w⟩
    create := some fun path _ w =>
      match path with
      | some p => ⟨true, none, p :: w⟩
      | none => ⟨false, some 2, w⟩
    remove := some fun path _ w =>
      match path with
      | some p => if p ∈ w then ⟨true, none, w.filter (· ≠ p)⟩ else ⟨false, some 2, w⟩
      | none => ⟨false, some 2, w⟩
    rename := some fun path new_path _ w =>
      match path, new_path with
      | some p, some q =>
        if p ∈ w then ⟨true, none, q :: (w.filter fun x => x ≠ p ∧ x ≠ q)⟩
        else ⟨false, some 2, w⟩
      | _, _ => ⟨false, some 2, w⟩ }

/-- The server after the example application was put in the initial table
(slot 0), with the objects `/` and `/a` in existence. -/
def memServer : Server (List CStr) :=
  { Server.init [['/'], ['/', 'a']] with
    table := { table := fun j =>
                 if j = 0 then some (install_noimp (kfsfilesystem_duplicate memfs)) else none
               number := 1
               errno := 0 } }

/-- The registry of the example server once the root handle `0` was resolved. -/
def memRegistry1 : Registry :=
  { filesystemMap := [(0, { idMap := [(1, ['/'])], pathMap := [(['/'], 1)] })]
    id := 2 }

/-- The registry of the example server once `/a` was looked up as well. -/
def memRegistry2 : Registry :=
  { filesystemMap :=
      [(0, { idMap := [(1, ['/']), (2, ['/', 'a'])]
             pathMap := [(['/'], 1), (['/', 'a'], 2)] })]
    id := 3 }

/-- The server after `filesystem` was put in the initial table (slot 0), the
application being in state `w`. -/
def mounted {σ : Type} (filesystem : kfsfilesystem σ) (w : σ) : Server σ :=
  { Server.init w with
    table := { table := fun j =>
                 if j = 0 then some (install_noimp (kfsfilesystem_duplicate filesystem)) else none
               number := 1
               errno := 0 } }

/-- An application without state: `stat` reports `sbuf` for every path,
`create`, `remove`, `mkdir` and `rmdir` succeed, and each of `truncate`, `chmod`
and `utimes` succeeds when its flag is set and fails with `EACCES` (13)
otherwise. -/
def fixedfs (sbuf : kfsstat) (truncate_ok chmod_ok utimes_ok : Bool) : kfsfilesystem Unit :=
  { emptyFilesystem Unit with
    stat := some fun _ _ w => ⟨some sbuf, none, w⟩
    create := some fun _ _ w => ⟨true, none, w⟩
    remove := some fun _ _ w => ⟨true, none, w⟩
    mkdir := some fun _ _ w => ⟨true, none, w⟩
    rmdir := some fun _ _ w => ⟨true, none, w⟩
    truncate := some fun _ _ _ w => ⟨truncate_ok, if truncate_ok then none else some 13, w⟩
    chmod := some fun _ _ _ w => ⟨chmod_ok, if chmod_ok then none else some 13, w⟩
    utimes := some fun _ _ _ _ w => ⟨utimes_ok, if utimes_ok then none else some 13, w⟩ }

/-- The `kfsstat_t` of a regular file with the given mode and the change time
(5, 7). -/
def stat_of_mode (mode : Nat) : kfsstat :=
  { type := .KFS_REG, mode := mode, size := 0, used := 0, atime := ⟨0, 0⟩, mtime := ⟨0, 0⟩,
    ctime := ⟨5, 7⟩ }

/-- An application whose state is the list of the answers its `read` callback
has yet to give: each call takes the first one, returns its number and stores
its bytes; with no answer left the callback fails with `EIO` (5). -/
def readfs : kfsfilesystem (List (Int × List Nat)) :=
  { emptyFilesystem (List (Int × List Nat)) with
    read := some fun _ _ _ _ w =>
      match w with
      | answer :: rest => ⟨answer, none, rest⟩
      | [] => ⟨(-1, []), some 5, []⟩ }

/-- An attribute request that sets nothing. -/
def sattr3.nothing : sattr3 :=
  { mode := none, uid := none, gid := none, size := none,
    atime := ⟨.DONT_CHANGE, ⟨0, 0⟩⟩, mtime := ⟨.DONT_CHANGE, ⟨0, 0⟩⟩ }

/-! ## Vocabulary of the claims about attributes -/

/-- The calls of the callbacks `remove` and `rmdir` in a record of calls. -/
def rollback_calls (trace : List Call) : List Call :=
  trace.filter fun c =>
    match c with
    | .remove _ => true
    | .rmdir _ => true
    | _ => false

/-- The calls of the callbacks `truncate`, `chmod` and `utimes` in a record of
calls. -/
def setter_calls (trace : List Call) : List Call :=
  trace.filter fun c =>
    match c with
    | .truncate _ _ => true
    | .chmod _ _ => true
    | .utimes _ _ _ => true
    | _ => false

/-- The spec's words (section 4.E): the callback invocations an attribute
request asks for, in the order `truncate`, `chmod`, `utimes`, each present only
when its `set_it` flag is set; `atime` and `mtime` share one invocation, in
which a time that is not requested is absent. -/
def requested_calls (path : Option CStr) (attrs : sattr3) : List Call :=
  (match attrs.size with
    | some size => [Call.truncate path size]
    | none => []) ++
  (match attrs.mode with
    | some mode => [Call.chmod path (kfs_mode_of_nfs mode)]
    | none => []) ++
  (if attrs.atime.set_it = .DONT_CHANGE ∧ attrs.mtime.set_it = .DONT_CHANGE then []
   else [Call.utimes path
     (if attrs.atime.set_it = .DONT_CHANGE then none
      else some ⟨attrs.atime.time.seconds, attrs.atime.time.nseconds⟩)
     (if attrs.mtime.set_it = .DONT_CHANGE then none
      else some ⟨attrs.mtime.time.seconds, attrs.mtime.time.nseconds⟩)])

/-- The invocation of the callback a call names, for the three callbacks that
set attributes; `none` when the descriptor holds no such callback. -/
def invoke {σ : Type} (filesystem : kfsfilesystem σ) (c : Call) (w : σ) :
    Option (Outcome σ Bool) :=
  match c with
  | .truncate path size => filesystem.truncate.map fun f => f path size filesystem.context w
  | .chmod path mode => filesystem.chmod.map fun f => f path mode filesystem.context w
  | .utimes path atime mtime =>
    filesystem.utimes.map fun f => f path atime mtime filesystem.context w
  | _ => none

/-- The spec's words (section 4.E): the calls are made in order, and
application stops at the first failure and returns that status; the status is
`NFS3_OK` when no call fails.  `error` is the variable the callbacks store
their error code in. -/
def apply_in_order {σ : Type} (H : Host) (filesystem : kfsfilesystem σ) :
    List Call → Int → Server σ → Option (nfsstat3 × Int × Server σ)
  | [], error, s => some (NFS3_OK, error, s)
  | c :: rest, error, s =>
    match invoke filesystem c s.world with
    | none => none
    | some out =>
      if out.value then
        apply_in_order H filesystem rest (out.error.getD error) (s.called c out.world)
      else
        some (convert_status H (out.error.getD error) NFS3ERR_NOENT, out.error.getD error,
          s.called c out.world)

/-- The server with the application `fixedfs` in slot 0, every object being a
regular file of mode rw-r--r--. -/
def fixedServer (truncate_ok chmod_ok utimes_ok : Bool) : Server Unit :=
  mounted (fixedfs (stat_of_mode 0x644) truncate_ok chmod_ok utimes_ok) ()

/-- A request for a size, a mode and a modification time. -/
def sattr3.sample : sattr3 :=
  { sattr3.nothing with
    size := some 3, mode := some 0x1a4, mtime := ⟨.SET_TO_CLIENT_TIME, ⟨8, 9⟩⟩ }

/-- An application whose state is the modification time of its directories:
`stat` reports a directory with that time, and `readdir` lists `names`. -/
def listfs (names : List CStr) : kfsfilesystem Nat :=
  { emptyFilesystem Nat with
    stat := some fun _ _ w =>
      ⟨some { type := .KFS_DIR, mode := 0x755, size := 0, used := 0, atime := ⟨0, 0⟩,
              mtime := ⟨w, 0⟩, ctime := ⟨0, 0⟩ }, none, w⟩
    readdir := some fun _ _ w => ⟨(true, names), none, w⟩ }

/-- The listing `a`, `b`, `c`. -/
def abc : List CStr := [['a'], ['b'], ['c']]

/-! ## Vocabulary of the claims about listings and file ids -/

/-- The path `nfsproc3_readdir_3_svc` composes for an entry of the directory
`path`. -/
def entry_path (path entry : CStr) : CStr :=
  if path = ['/'] then path ++ entry else path ++ ['/'] ++ entry

/-- The spec's words: a client that starts with cookie 0 and, until eof,
repeats the call passing back the cookie of the last entry it received, with
the verifier of the reply.  The result is the names received over at most
`fuel` calls, and whether eof was reached. -/
def readdir_client {σ : Type} (H : Host) (dir : CStr) (count : Nat) :
    Nat → Server σ → Nat → CStr → List (Option CStr) × Bool
  | 0, _, _, _ => ([], false)
  | fuel + 1, s, cookie, cookieverf =>
    match nfsproc3_readdir_3_svc H s dir cookie cookieverf count with
    | some (reply, s1) =>
      match reply.resok with
      | some resok =>
        if resok.eof then (resok.entries.map (·.name), true)
        else
          match resok.entries.getLast? with
          | some last =>
            let rest := readdir_client H dir count fuel s1 last.cookie resok.cookieverf
            (resok.entries.map (·.name) ++ rest.1, rest.2)
          | none => (resok.entries.map (·.name), false)
      | none => ([], false)
    | none => ([], false)

/-- What a run of calls on the registry returns to its `fileid` calls: for each
of them, in order, the id returned and whether the call allocated it (the
counter moved). -/
def issued (r : Registry) : List RegistryCall → List (Nat × Bool)
  | [] => []
  | c :: cs =>
    (match c with
      | .fileid fs path =>
        [((kfs_fileid r fs path).1, decide ((kfs_fileid r fs path).2.id ≠ r.id))]
      | _ => []) ++
    (match c.apply r with
      | some r1 => issued r1 cs
      | none => [])

/-- The ids a run allocated, in the order of their allocation. -/
def allocated (r : Registry) (cs : List RegistryCall) : List Nat :=
  ((issued r cs).filter (·.2)).map (·.1)

/-- The server after two descriptors without callbacks were put in the initial
table (slots 0 and 1). -/
def twoMounts : Server Unit :=
  { Server.init () with
    table := { table := fun j =>
                 if j < 2 then some (install_noimp (kfsfilesystem_duplicate (emptyFilesystem Unit)))
                 else none
               number := 2
               errno := 0 } }

/-- An application all of whose callbacks fail with the host code `e`. -/
def errfs (e : Int) : kfsfilesystem Unit :=
  { emptyFilesystem Unit with
    statfs := some fun _ _ w => ⟨none, some e, w⟩
    stat := some fun _ _ w => ⟨none, some e, w⟩
    read := some fun _ _ _ _ w => ⟨(-1, []), some e, w⟩
    write := some fun _ _ _ _ _ w => ⟨-1, some e, w⟩
    symlink := some fun _ _ _ w => ⟨false, some e, w⟩
    readlink := some fun _ _ w => ⟨(false, none), some e, w⟩
    create := some fun _ _ w => ⟨false, some e, w⟩
    remove := some fun _ _ w => ⟨false, some e, w⟩
    rename := some fun _ _ _ w => ⟨false, some e, w⟩
    truncate := some fun _ _ _ w => ⟨false, some e, w⟩
    chmod := some fun _ _ _ w => ⟨false, some e, w⟩
    utimes := some fun _ _ _ _ w => ⟨false, some e, w⟩
    mkdir := some fun _ _ w => ⟨false, some e, w⟩
    rmdir := some fun _ _ w => ⟨false, some e, w⟩
    readdir := some fun _ _ w => ⟨(false, []), some e, w⟩ }

/-- The example application mounted as filesystem 0 with the directory `/d`
and the object `/d/x` in existence, after `/`, `/d` and `/d/x` were given the
ids 1, 2 and 3. -/
def dirServer : Server (List CStr) :=
  { memServer with
    world := [['/'], ['/', 'd'], ['/', 'd', '/', 'x']]
    registry :=
      { filesystemMap :=
          [(0, { idMap := [(1, ['/']), (2, ['/', 'd']), (3, ['/', 'd', '/', 'x'])]
                 pathMap := [(['/'], 1), (['/', 'd'], 2), (['/', 'd', '/', 'x'], 3)] })]
        id := 4 } }

/-! ## Vocabulary of the claims about the table's identifiers -/

/-- The identifiers from `c` on whose slot holds a descriptor, in ascending
order. -/
def live_identifiers_from {σ : Type} (t : Table σ) (c : Nat) : List Int :=
  ((List.range' c (MAX_FIELSYSTEMS - c)).filter fun j => (t.table j).isSome).map Int.ofNat

/-- The live identifiers of a table, in ascending order. -/
def live_identifiers {σ : Type} (t : Table σ) : List Int := live_identifiers_from t 0

/-! ## Vocabulary of the claim about failing callbacks -/

/-- The default status the procedure of a request hands to `convert_status`
when its callback fails. -/
def Request.default : Request → nfsstat3
  | .LOOKUP _ _ => NFS3ERR_NOENT
  | .READLINK _ => NFS3ERR_INVAL
  | .READDIR _ _ _ _ => NFS3ERR_NOTDIR
  | _ => NFS3ERR_IO

/-- The spec's words: serving the request in the state `s`, the procedure
reaches its callback (for LOOKUP the `stat` of the object looked up), and the
callback fails leaving the host code `error` (0 when it stores none). -/
def callback_fails {σ : Type} (H : Host) (s : Server σ) : Request → Int → Prop
  | .LOOKUP dir name, error =>
    ∃ fs p id s1 fs2 path2 id2 s2 stat,
      get_filesystem s dir = some ((some fs, some p, id), s1) ∧
      get_filesystem { s1 with registry := (kfs_fileid s1.registry id (compose_path H p name)).2 }
          (format_filehandle H id (kfs_fileid s1.registry id (compose_path H p name)).1)
        = some ((some fs2, path2, id2), s2) ∧
      fs2.stat = some stat ∧ (stat path2 fs2.context s2.world).value = none ∧
      (stat path2 fs2.context s2.world).error.getD 0 = error
  | .READLINK symlink, error =>
    ∃ fs path id s1 readlink,
      get_filesystem s symlink = some ((some fs, path, id), s1) ∧
      fs.readlink = some readlink ∧ (readlink path fs.context s1.world).value.1 = false ∧
      (readlink path fs.context s1.world).error.getD 0 = error
  | .READ file offset count, error =>
    ∃ fs path id s1 read,
      get_filesystem s file = some ((some fs, path, id), s1) ∧ fs.read = some read ∧
      to_int32 (read path offset
          (to_uint64 (if to_int32 count > READ_MAX_LEN then READ_MAX_LEN else to_int32 count))
          fs.context s1.world).value.1 = -1 ∧
      (read path offset
          (to_uint64 (if to_int32 count > READ_MAX_LEN then READ_MAX_LEN else to_int32 count))
          fs.context s1.world).error.getD 0 = error
  | .WRITE file offset count data, error =>
    ∃ fs path id s1 write,
      get_filesystem s file = some ((some fs, path, id), s1) ∧ fs.write = some write ∧
      to_int32 (write path data offset
          (to_uint64 (if to_int32 count > WRITE_MAX_LEN then WRITE_MAX_LEN else to_int32 count))
          fs.context s1.world).value = -1 ∧
      (write path data offset
          (to_uint64 (if to_int32 count > WRITE_MAX_LEN then WRITE_MAX_LEN else to_int32 count))
          fs.context s1.world).error.getD 0 = error
  | .CREATE dir name how, error =>
    ∃ fs p id s1 s2 create attrs,
      get_filesystem s dir = some ((some fs, some p, id), s1) ∧
      create_mode_check H
          { s1 with registry := (kfs_fileid s1.registry id (compose_path H p name)).2 }
          (format_filehandle H id (kfs_fileid s1.registry id (compose_path H p name)).1) how
        = some (NFS3_OK, s2) ∧
      fs.create = some create ∧ how.attributes = some attrs ∧
      (create (some (compose_path H p name)) fs.context s2.world).value = false ∧
      (create (some (compose_path H p name)) fs.context s2.world).error.getD 0 = error
  | .MKDIR dir name _, error =>
    ∃ fs p id s1 mkdir,
      get_filesystem s dir = some ((some fs, some p, id), s1) ∧ fs.mkdir = some mkdir ∧
      (mkdir (some (compose_path H p name)) fs.context s1.world).value = false ∧
      (mkdir (some (compose_path H p name)) fs.context s1.world).error.getD 0 = error
  | .SYMLINK dir name symlink_data _, error =>
    ∃ fs p id s1 symlink,
      get_filesystem s dir = some ((some fs, some p, id), s1) ∧ fs.symlink = some symlink ∧
      (symlink (some (compose_path H p name)) (some symlink_data) fs.context s1.world).value
        = false ∧
      (symlink (some (compose_path H p name)) (some symlink_data) fs.context s1.world).error.getD 0
        = error
  | .REMOVE dir name, error =>
    ∃ fs p id s1 remove,
      get_filesystem s dir = some ((some fs, some p, id), s1) ∧ fs.remove = some remove ∧
      (remove (some (compose_path H p name)) fs.context s1.world).value = false ∧
      (remove (some (compose_path H p name)) fs.context s1.world).error.getD 0 = error
  | .RMDIR dir name, error =>
    ∃ fs p id s1 rmdir,
      get_filesystem s dir = some ((some fs, some p, id), s1) ∧ fs.rmdir = some rmdir ∧
      (rmdir (some (compose_path H p name)) fs.context s1.world).value = false ∧
      (rmdir (some (compose_path H p name)) fs.context s1.world).error.getD 0 = error
  | .RENAME from_dir from_name to_dir to_name, error =>
    ∃ fs fs2 p1 p2 id s1 s2 rename,
      get_filesystem s from_dir = some ((some fs, some p1, id), s1) ∧
      get_filesystem s1 to_dir = some ((some fs2, some p2, id), s2) ∧
      fs.rename = some rename ∧
      (rename (some (compose_path H p1 from_name)) (some (compose_path H p2 to_name)) fs.context
        s2.world).value = false ∧
      (rename (some (compose_path H p1 from_name)) (some (compose_path H p2 to_name)) fs.context
        s2.world).error.getD 0 = error
  | .READDIR dir cookie cookieverf _, error =>
    ∃ st written s0 fs path id s1 readdir,
      get_fattr H s dir = some ((st, written), s0) ∧
      ((cookie = 0 ∧ cookieverf = []) ∨
        cookieverf = cookieverf_of (written.getD fattr3.zero).mtime.seconds) ∧
      get_filesystem s0 dir = some ((some fs, path, id), s1) ∧ fs.readdir = some readdir ∧
      (readdir path fs.context s1.world).value.1 = false ∧
      (readdir path fs.context s1.world).error.getD 0 = error
  | .FSSTAT fsroot, error =>
    ∃ fs path id s1 statfs,
      get_filesystem s fsroot = some ((some fs, path, id), s1) ∧ fs.statfs = some statfs ∧
      (statfs path fs.context s1.world).value = none ∧
      (statfs path fs.context s1.world).error.getD 0 = error

/-! ## A table with an emptied slot -/

/-- Two puts of a descriptor without callbacks, then the removal of the
identifier 0. -/
def putPutRemove : List (TableCall Unit) :=
  [.put (emptyFilesystem Unit), .put (emptyFilesystem Unit), .remove 0]

/-- The table after the calls of `putPutRemove` on the initial table: slot 0 is
empty again, slot 1 holds a descriptor, and the cursor is 2. -/
def tableAfterRemove : Table Unit := (runTable darwin Table.init putPutRemove).getD Table.init

/-! ## Vocabulary of the claim about the statuses of the replies -/

/-- The slot of the table that the fs-id part of a handle names, as
`get_filesystem_from_path` reads it: `none` when the number is no index of the
table, `some none` when the slot is empty. -/
def handle_slot {σ : Type} (s : Server σ) (handle : CStr) : Option (Option (kfsfilesystem σ)) :=
  kfstable_get s.table (to_int64 (to_uint64 (atoll (strsep ':' handle).1)))

/-- The spec's words: the request carries a handle that names no mount: the
fs-id part of its handle is the number of an empty slot of the table (for
RENAME: of one of its two handles, the other one naming a slot of the table). -/
def names_no_mount {σ : Type} (s : Server σ) : Request → Prop
  | .LOOKUP dir _ => handle_slot s dir = some none
  | .READLINK symlink => handle_slot s symlink = some none
  | .READ file _ _ => handle_slot s file = some none
  | .WRITE file _ _ _ => handle_slot s file = some none
  | .CREATE dir _ _ => handle_slot s dir = some none
  | .MKDIR dir _ _ => handle_slot s dir = some none
  | .SYMLINK dir _ _ _ => handle_slot s dir = some none
  | .REMOVE dir _ => handle_slot s dir = some none
  | .RMDIR dir _ => handle_slot s dir = some none
  | .RENAME from_dir _ to_dir _ =>
    (handle_slot s from_dir = some none ∧ (handle_slot s to_dir).isSome = true) ∨
      ((handle_slot s from_dir).isSome = true ∧ handle_slot s to_dir = some none)
  | .READDIR dir _ _ _ => handle_slot s dir = some none
  | .FSSTAT fsroot => handle_slot s fsroot = some none

/-- The registry after `/`, `/a` and `/b` were given ids in filesystem 0. -/
def threePaths : Registry :=
  { filesystemMap :=
      [(0, { idMap := [(1, ['/']), (2, ['/', 'a']), (3, ['/', 'b'])]
             pathMap := [(['/'], 1), (['/', 'a'], 2), (['/', 'b'], 3)] })]
    id := 4 }

/-- Two registries that no call can tell apart: the same counter and, for every
filesystem, the same dictionaries (one may hold empty dictionaries where the
other holds none). -/
def Registry.Same (r r' : Registry) : Prop :=
  r'.id = r.id ∧
    ∀ fs, (GetDictionariesForFilesystemWithID r' fs).1 = (GetDictionariesForFilesystemWithID r fs).1

/-! # Theorems -/

/-! ## Dictionaries -/

theorem CFDictionaryGetValue_set {κ ν : Type} [DecidableEq κ] (d : List (κ × ν)) (k k' : κ)
    (v : ν) :
    CFDictionaryGetValue (CFDictionarySetValue d k v) k' =
      if k = k' then some v else CFDictionaryGetValue d k' := by
  induction d with
  | nil => simp [CFDictionaryGetValue, CFDictionarySetValue]
  | cons hd tl ih =>
    obtain ⟨k0, v0⟩ := hd
    by_cases h0 : k0 = k
    · subst h0
      by_cases h1 : k0 = k' <;> simp [CFDictionaryGetValue, CFDictionarySetValue, h1]
    · by_cases h1 : k0 = k'
      · subst h1
        have h2 : ¬ k = k0 := fun h => h0 h.symm
        simp [CFDictionaryGetValue, CFDictionarySetValue, h0, h2]
      · simp [CFDictionaryGetValue, CFDictionarySetValue, h0, h1, ih]

theorem CFDictionaryGetValue_remove {κ ν : Type} [DecidableEq κ] (d : List (κ × ν)) (k k' : κ) :
    CFDictionaryGetValue (CFDictionaryRemoveValue d k) k' =
      if k = k' then none else CFDictionaryGetValue d k' := by
  induction d with
  | nil => simp [CFDictionaryGetValue, CFDictionaryRemoveValue]
  | cons hd tl ih =>
    obtain ⟨k0, v0⟩ := hd
    by_cases h0 : k0 = k
    · subst h0
      by_cases h1 : k0 = k'
      · subst h1
        simpa [CFDictionaryRemoveValue] using ih
      · simp [CFDictionaryGetValue, CFDictionaryRemoveValue, h1, ih]
    · by_cases h1 : k0 = k'
      · subst h1
        have h2 : ¬ k = k0 := fun h => h0 h.symm
        simp [CFDictionaryGetValue, CFDictionaryRemoveValue, h0, h2]
      · simp [CFDictionaryGetValue, CFDictionaryRemoveValue, h0, h1, ih]

/-! ## The registry -/

/-- The dictionaries a filesystem has, the empty pair when it has none. -/
theorem GetDictionaries_fst (r : Registry) (fs : Nat) :
    (GetDictionariesForFilesystemWithID r fs).1 =
      (CFDictionaryGetValue r.filesystemMap fs).getD { idMap := [], pathMap := [] } := by
  unfold GetDictionariesForFilesystemWithID
  cases h : CFDictionaryGetValue r.filesystemMap fs <;> simp

theorem GetDictionaries_id (r : Registry) (fs : Nat) :
    (GetDictionariesForFilesystemWithID r fs).2.id = r.id := by
  unfold GetDictionariesForFilesystemWithID
  cases h : CFDictionaryGetValue r.filesystemMap fs <;> simp

/-- Asking for a filesystem's dictionaries changes nobody's dictionaries. -/
theorem GetDictionaries_snd (r : Registry) (fs fs' : Nat) :
    (GetDictionariesForFilesystemWithID (GetDictionariesForFilesystemWithID r fs).2 fs').1 =
      (GetDictionariesForFilesystemWithID r fs').1 := by
  simp only [GetDictionaries_fst]
  unfold GetDictionariesForFilesystemWithID
  cases h : CFDictionaryGetValue r.filesystemMap fs with
  | some d => simp
  | none =>
    simp only [CFDictionaryGetValue_set]
    by_cases hfs : fs = fs'
    · subst hfs; simp [h]
    · simp [hfs]

/-- Storing dictionaries for `fs` makes them the ones `fs` has, and leaves the
other filesystems alone. -/
theorem GetDictionaries_store (r : Registry) (fs fs' : Nat) (d : FsDictionaries) (n : Nat) :
    (GetDictionariesForFilesystemWithID
        { filesystemMap := CFDictionarySetValue r.filesystemMap fs d, id := n } fs').1 =
      if fs = fs' then d else (GetDictionariesForFilesystemWithID r fs').1 := by
  simp only [GetDictionaries_fst, CFDictionaryGetValue_set]
  by_cases hfs : fs = fs' <;> simp [hfs]

theorem path_fromid_fst (r : Registry) (fs i : Nat) :
    (path_fromid r fs i).1 =
      CFDictionaryGetValue (GetDictionariesForFilesystemWithID r fs).1.idMap i := rfl

theorem path_fromid_snd (r : Registry) (fs i : Nat) :
    (path_fromid r fs i).2 = (GetDictionariesForFilesystemWithID r fs).2 := rfl

/-- On a path that is bound to a non-zero id, `kfs_fileid` returns that id and
only creates the filesystem's dictionaries. -/
theorem kfs_fileid_bound (r : Registry) (fs : Nat) (p : CStr) (i : Nat) (hi : i ≠ 0)
    (h : CFDictionaryGetValue (GetDictionariesForFilesystemWithID r fs).1.pathMap p = some i) :
    kfs_fileid r fs p = (i, (GetDictionariesForFilesystemWithID r fs).2) := by
  unfold kfs_fileid
  simp [h, hi]

/-- On a path with no id, `kfs_fileid` returns the counter and stores the pair
in both dictionaries. -/
theorem kfs_fileid_fresh (r : Registry) (fs : Nat) (p : CStr)
    (h : (CFDictionaryGetValue (GetDictionariesForFilesystemWithID r fs).1.pathMap p).getD 0 = 0) :
    kfs_fileid r fs p =
      (r.id,
        { filesystemMap :=
            CFDictionarySetValue (GetDictionariesForFilesystemWithID r fs).2.filesystemMap fs
              { pathMap := CFDictionarySetValue
                  (GetDictionariesForFilesystemWithID r fs).1.pathMap p r.id
                idMap := CFDictionarySetValue
                  (GetDictionariesForFilesystemWithID r fs).1.idMap r.id p }
          id := (r.id + 1) % 2 ^ 64 }) := by
  unfold kfs_fileid
  simp [h, GetDictionaries_id]

theorem FsDictionaries.Inverse.mono {d : FsDictionaries} {m n : Nat} (h : d.Inverse m) (hmn : m ≤ n) :
    d.Inverse n :=
  ⟨h.to_id, h.to_path, fun i p hip => ⟨(h.range i p hip).1, lt_of_lt_of_le (h.range i p hip).2 hmn⟩⟩

theorem FsDictionaries.Inverse.empty (n : Nat) : FsDictionaries.Inverse { idMap := [], pathMap := [] } n :=
  ⟨fun p i h => by simp [CFDictionaryGetValue] at h,
   fun i p h => by simp [CFDictionaryGetValue] at h,
   fun i p h => by simp [CFDictionaryGetValue] at h⟩

/-- Binding a path that has no id to a fresh id keeps the dictionaries inverse. -/
theorem FsDictionaries.Inverse.insert {d : FsDictionaries} {n : Nat} (h : d.Inverse n) (hn : 0 < n) (p : CStr)
    (hp : (CFDictionaryGetValue d.pathMap p).getD 0 = 0) :
    FsDictionaries.Inverse
      { pathMap := CFDictionarySetValue d.pathMap p n
        idMap := CFDictionarySetValue d.idMap n p } (n + 1) := by
  have hnone : CFDictionaryGetValue d.pathMap p = none := by
    cases hg : CFDictionaryGetValue d.pathMap p with
    | none => rfl
    | some i =>
      rw [hg] at hp
      have hi : i = 0 := by simpa using hp
      have := (h.range i p (h.to_id p i hg)).1
      omega
  refine ⟨?_, ?_, ?_⟩
  · intro q i hq
    simp only [CFDictionaryGetValue_set] at hq ⊢
    by_cases hpq : p = q
    · subst hpq
      simp only [if_true, Option.some.injEq] at hq
      subst hq
      simp
    · simp only [hpq, if_false] at hq
      have hi := h.to_id q i hq
      have hlt := (h.range i q hi).2
      have hne : ¬ n = i := by omega
      simp [hne, hi]
  · intro i q hq
    simp only [CFDictionaryGetValue_set] at hq ⊢
    by_cases hni : n = i
    · subst hni
      simp only [if_true, Option.some.injEq] at hq
      subst hq
      simp
    · simp only [hni, if_false] at hq
      have hq' := h.to_path i q hq
      have hne : ¬ p = q := by
        intro hpq
        subst hpq
        rw [hnone] at hq'
        cases hq'
      simp [hne, hq']
  · intro i q hq
    simp only [CFDictionaryGetValue_set] at hq
    by_cases hni : n = i
    · subst hni
      omega
    · simp only [hni, if_false] at hq
      have := h.range i q hq
      omega

/-- Exchanging the paths of two live ids keeps the dictionaries inverse. -/
theorem FsDictionaries.Inverse.swap {d : FsDictionaries} {n : Nat} (h : d.Inverse n) (a b : Nat) (pa pb : CStr)
    (ha : CFDictionaryGetValue d.idMap a = some pa)
    (hb : CFDictionaryGetValue d.idMap b = some pb) :
    FsDictionaries.Inverse
      { idMap := CFDictionarySetValue (CFDictionarySetValue d.idMap b pa) a pb
        pathMap := CFDictionarySetValue (CFDictionarySetValue d.pathMap pa b) pb a } n := by
  refine ⟨?_, ?_, ?_⟩
  · intro q i hq
    simp only [CFDictionaryGetValue_set] at hq ⊢
    by_cases h1 : pb = q
    · simp only [h1, if_true, Option.some.injEq] at hq
      subst hq
      simp [h1]
    · simp only [h1, if_false] at hq
      by_cases h2 : pa = q
      · simp only [h2, if_true, Option.some.injEq] at hq
        subst hq
        have hab : ¬ a = b := by
          intro hab
          subst hab
          rw [ha] at hb
          simp only [Option.some.injEq] at hb
          exact h1 (hb ▸ h2)
        simp [hab, h2]
      · simp only [h2, if_false] at hq
        have hi := h.to_id q i hq
        have hai : ¬ a = i := by
          intro hai
          subst hai
          rw [ha] at hi
          simp only [Option.some.injEq] at hi
          exact h2 hi
        have hbi : ¬ b = i := by
          intro hbi
          subst hbi
          rw [hb] at hi
          simp only [Option.some.injEq] at hi
          exact h1 hi
        simp [hai, hbi, hi]
  · intro i q hq
    simp only [CFDictionaryGetValue_set] at hq ⊢
    by_cases h1 : a = i
    · simp only [h1, if_true, Option.some.injEq] at hq
      subst hq
      simp [h1]
    · simp only [h1, if_false] at hq
      by_cases h2 : b = i
      · simp only [h2, if_true, Option.some.injEq] at hq
        subst hq
        have hne : ¬ pb = pa := by
          intro hpp
          have h3 := h.to_path a pa ha
          have h4 := h.to_path b pb hb
          rw [hpp, h3] at h4
          simp only [Option.some.injEq] at h4
          exact h1 (h4.trans h2)
        simp [hne, h2]
      · simp only [h2, if_false] at hq
        have hq' := h.to_path i q hq
        have hpa : ¬ pa = q := by
          intro hpq
          subst hpq
          have h3 := h.to_path a pa ha
          rw [h3] at hq'
          simp only [Option.some.injEq] at hq'
          exact h1 hq'
        have hpb : ¬ pb = q := by
          intro hpq
          subst hpq
          have h3 := h.to_path b pb hb
          rw [h3] at hq'
          simp only [Option.some.injEq] at hq'
          exact h2 hq'
        simp [hpa, hpb, hq']
  · intro i q hq
    simp only [CFDictionaryGetValue_set] at hq
    by_cases h1 : a = i
    · subst h1
      exact h.range a pa ha
    · simp only [h1, if_false] at hq
      by_cases h2 : b = i
      · subst h2
        exact h.range b pb hb
      · simp only [h2, if_false] at hq
        exact h.range i q hq

theorem Registry.Consistent.at_init : Registry.init.Consistent := by
  refine ⟨by decide, by decide, fun fs => ?_⟩
  rw [GetDictionaries_fst]
  exact FsDictionaries.Inverse.empty _

theorem Registry.Consistent.after_getDictionaries {r : Registry} (h : r.Consistent) (fs : Nat) :
    (GetDictionariesForFilesystemWithID r fs).2.Consistent := by
  obtain ⟨h0, h1, h2⟩ := h
  refine ⟨?_, ?_, fun fs' => ?_⟩
  · rw [GetDictionaries_id]; exact h0
  · rw [GetDictionaries_id]; exact h1
  · rw [GetDictionaries_snd, GetDictionaries_id]; exact h2 fs'

theorem Registry.Consistent.after_path_fromid {r : Registry} (h : r.Consistent) (fs i : Nat) :
    (path_fromid r fs i).2.Consistent :=
  h.after_getDictionaries fs

/-- The state `kfs_fileid` leaves is consistent as long as the counter does not
wrap. -/
theorem Registry.Consistent.after_fileid {r : Registry} (h : r.Consistent) (hid : r.id + 1 < 2 ^ 64)
    (fs : Nat) (p : CStr) :
    (kfs_fileid r fs p).2.Consistent ∧ (kfs_fileid r fs p).2.id ≤ r.id + 1 := by
  by_cases hp :
      (CFDictionaryGetValue (GetDictionariesForFilesystemWithID r fs).1.pathMap p).getD 0 = 0
  · rw [kfs_fileid_fresh r fs p hp]
    have hmod : (r.id + 1) % 2 ^ 64 = r.id + 1 := Nat.mod_eq_of_lt hid
    obtain ⟨h0, h1, h2⟩ := h
    refine ⟨⟨?_, ?_, fun fs' => ?_⟩, ?_⟩
    · simp only [hmod]; omega
    · simp only [hmod]; exact hid
    · rw [GetDictionaries_store]
      simp only [hmod]
      by_cases hfs : fs = fs'
      · simp only [hfs, if_true]
        have := FsDictionaries.Inverse.insert (h2 fs) h0 p hp
        rw [hfs] at this
        exact this
      · simp only [hfs, if_false]
        rw [GetDictionaries_snd]
        exact (h2 fs').mono (Nat.le_succ _)
    · simp only [hmod]; exact le_refl _
  · cases hg : CFDictionaryGetValue (GetDictionariesForFilesystemWithID r fs).1.pathMap p with
    | none => rw [hg] at hp; simp at hp
    | some i =>
      have hi : i ≠ 0 := by rw [hg] at hp; simpa using hp
      rw [kfs_fileid_bound r fs p i hi hg]
      refine ⟨h.after_getDictionaries fs, ?_⟩
      simp only [GetDictionaries_id]
      omega

/-- The result of `kfs_idswap` on two ids that have paths. -/
theorem kfs_idswap_live (r : Registry) (fs a b : Nat) (pa pb : CStr)
    (ha : (path_fromid r fs a).1 = some pa) (hb : (path_fromid r fs b).1 = some pb) :
    kfs_idswap r fs a b =
      some { filesystemMap :=
              CFDictionarySetValue (GetDictionariesForFilesystemWithID r fs).2.filesystemMap fs
                { idMap := CFDictionarySetValue (CFDictionarySetValue
                    (GetDictionariesForFilesystemWithID r fs).1.idMap b pa) a pb
                  pathMap := CFDictionarySetValue (CFDictionarySetValue
                    (GetDictionariesForFilesystemWithID r fs).1.pathMap pa b) pb a }
             id := r.id } := by
  have hb' : (path_fromid (path_fromid r fs a).2 fs b).1 = some pb := by
    rw [path_fromid_fst, path_fromid_snd, GetDictionaries_snd]; exact hb
  have e1 : (GetDictionariesForFilesystemWithID
      (GetDictionariesForFilesystemWithID (GetDictionariesForFilesystemWithID r fs).2 fs).2 fs).1
      = (GetDictionariesForFilesystemWithID r fs).1 := by
    rw [GetDictionaries_snd, GetDictionaries_snd]
  have e2 : ∀ r0 : Registry, CFDictionaryGetValue r0.filesystemMap fs ≠ none →
      (GetDictionariesForFilesystemWithID r0 fs).2 = r0 := by
    intro r0 h0
    unfold GetDictionariesForFilesystemWithID
    cases hg : CFDictionaryGetValue r0.filesystemMap fs with
    | none => exact absurd hg h0
    | some d => rfl
  have e3 : CFDictionaryGetValue (GetDictionariesForFilesystemWithID r fs).2.filesystemMap fs
      ≠ none := by
    unfold GetDictionariesForFilesystemWithID
    cases hg : CFDictionaryGetValue r.filesystemMap fs with
    | none => simp [CFDictionaryGetValue_set]
    | some d => simp [hg]
  have e4 := e2 _ e3
  unfold kfs_idswap
  simp only [ha, hb']
  simp only [path_fromid_snd, e4, GetDictionaries_id, GetDictionaries_snd]

theorem Registry.Consistent.after_idswap {r r' : Registry} (h : r.Consistent) (fs a b : Nat)
    (hs : kfs_idswap r fs a b = some r') : r'.Consistent ∧ r'.id = r.id := by
  cases ha : (path_fromid r fs a).1 with
  | none =>
    unfold kfs_idswap at hs
    simp [ha] at hs
  | some pa =>
    cases hb : (path_fromid r fs b).1 with
    | none =>
      have hb' : (path_fromid (path_fromid r fs a).2 fs b).1 = none := by
        rw [path_fromid_fst, path_fromid_snd, GetDictionaries_snd]; exact hb
      unfold kfs_idswap at hs
      simp [ha, hb'] at hs
    | some pb =>
      rw [kfs_idswap_live r fs a b pa pb ha hb] at hs
      simp only [Option.some.injEq] at hs
      subst hs
      obtain ⟨h0, h1, h2⟩ := h
      refine ⟨⟨h0, h1, fun fs' => ?_⟩, rfl⟩
      rw [GetDictionaries_store]
      by_cases hfs : fs = fs'
      · simp only [hfs, if_true]
        rw [path_fromid_fst] at ha hb
        have := FsDictionaries.Inverse.swap (h2 fs) a b pa pb ha hb
        rw [hfs] at this
        exact this
      · simp only [hfs, if_false]
        rw [GetDictionaries_snd]
        exact h2 fs'

theorem Registry.Consistent.after_idclear {r : Registry} (h : r.Consistent) (fs : Nat) :
    (kfs_idclear r fs).Consistent ∧ (kfs_idclear r fs).id = r.id := by
  obtain ⟨h0, h1, h2⟩ := h
  have hid : (kfs_idclear r fs).id = r.id := by
    unfold kfs_idclear
    simp [GetDictionaries_id]
  refine ⟨⟨by rw [hid]; exact h0, by rw [hid]; exact h1, fun fs' => ?_⟩, hid⟩
  rw [hid, GetDictionaries_fst]
  unfold kfs_idclear
  simp only [CFDictionaryGetValue_remove]
  by_cases hfs : fs = fs'
  · simp only [hfs, if_true, Option.getD_none]
    exact FsDictionaries.Inverse.empty _
  · simp only [hfs, if_false]
    rw [← GetDictionaries_fst, GetDictionaries_snd]
    exact h2 fs'

/-- Every state reached by fewer than `2 ^ 64 - 1` calls is consistent. -/
theorem Registry.Consistent.after_runCalls (cs : List RegistryCall) :
    ∀ (r r' : Registry), r.Consistent → r.id + cs.length < 2 ^ 64 →
      runCalls r cs = some r' → r'.Consistent ∧ r'.id ≤ r.id + cs.length := by
  induction cs with
  | nil =>
    intro r r' h _ hrun
    simp only [runCalls, Option.some.injEq] at hrun
    subst hrun
    exact ⟨h, by simp⟩
  | cons c cs ih =>
    intro r r' h hlen hrun
    simp only [List.length_cons] at hlen
    simp only [runCalls, Option.bind_eq_some] at hrun
    obtain ⟨r1, hc, hrun⟩ := hrun
    have step : r1.Consistent ∧ r1.id ≤ r.id + 1 := by
      cases c with
      | fileid fs p =>
        simp only [RegistryCall.apply, Option.some.injEq] at hc
        subst hc
        exact h.after_fileid (by omega) fs p
      | path_from fs i =>
        simp only [RegistryCall.apply, Option.some.injEq] at hc
        subst hc
        refine ⟨h.after_path_fromid fs i, ?_⟩
        rw [path_fromid_snd, GetDictionaries_id]; omega
      | swap fs a b =>
        simp only [RegistryCall.apply] at hc
        have := h.after_idswap fs a b hc
        exact ⟨this.1, by omega⟩
      | clear fs =>
        simp only [RegistryCall.apply, Option.some.injEq] at hc
        subst hc
        have := h.after_idclear fs
        exact ⟨this.1, by omega⟩
    have := ih r1 r' step.1 (by omega) hrun
    refine ⟨this.1, ?_⟩
    simp only [List.length_cons]
    omega

/-- In a consistent registry the id `kfs_fileid` returns for a path resolves
back to that path. -/
theorem path_fromid_kfs_fileid {r : Registry} (h : r.Consistent) (fs : Nat) (p : CStr) :
    (path_fromid (kfs_fileid r fs p).2 fs (kfs_fileid r fs p).1).1 = some p := by
  by_cases hp :
      (CFDictionaryGetValue (GetDictionariesForFilesystemWithID r fs).1.pathMap p).getD 0 = 0
  · rw [kfs_fileid_fresh r fs p hp, path_fromid_fst, GetDictionaries_store]
    simp [CFDictionaryGetValue_set]
  · cases hg : CFDictionaryGetValue (GetDictionariesForFilesystemWithID r fs).1.pathMap p with
    | none => rw [hg] at hp; simp at hp
    | some i =>
      have hi : i ≠ 0 := by rw [hg] at hp; simpa using hp
      rw [kfs_fileid_bound r fs p i hi hg, path_fromid_fst, GetDictionaries_snd]
      exact (h.2.2 fs).to_id p i hg

/-- What `kfs_idswap` does to a consistent registry, for two ids that have
paths. -/
theorem kfs_idswap_spec {r : Registry} (h : r.Consistent) (fs a b : Nat) (pa pb : CStr)
    (ha : (path_fromid r fs a).1 = some pa) (hb : (path_fromid r fs b).1 = some pb) :
    ∃ r', kfs_idswap r fs a b = some r' ∧
      (path_fromid r' fs a).1 = some pb ∧ (path_fromid r' fs b).1 = some pa ∧
      (kfs_fileid r' fs pa).1 = b ∧ (kfs_fileid r' fs pb).1 = a ∧
      (∀ c, c ≠ a → c ≠ b → (path_fromid r' fs c).1 = (path_fromid r fs c).1) ∧
      (∀ fs' c, fs' ≠ fs → (path_fromid r' fs' c).1 = (path_fromid r fs' c).1) := by
  refine ⟨_, kfs_idswap_live r fs a b pa pb ha hb, ?_, ?_, ?_, ?_, ?_, ?_⟩
  · rw [path_fromid_fst, GetDictionaries_store]
    simp [CFDictionaryGetValue_set]
  · rw [path_fromid_fst, GetDictionaries_store]
    simp only [if_true, CFDictionaryGetValue_set]
    by_cases hab : a = b
    · subst hab
      rw [ha] at hb
      simp only [if_true]
      exact hb.symm
    · simp [hab]
  · have hinv := h.2.2 fs
    rw [path_fromid_fst] at ha hb
    have hb0 : b ≠ 0 := by have := (hinv.range b pb hb).1; omega
    have hget : CFDictionaryGetValue (GetDictionariesForFilesystemWithID
        { filesystemMap :=
            CFDictionarySetValue (GetDictionariesForFilesystemWithID r fs).2.filesystemMap fs
              { idMap := CFDictionarySetValue (CFDictionarySetValue
                  (GetDictionariesForFilesystemWithID r fs).1.idMap b pa) a pb
                pathMap := CFDictionarySetValue (CFDictionarySetValue
                  (GetDictionariesForFilesystemWithID r fs).1.pathMap pa b) pb a }
          id := r.id } fs).1.pathMap pa = some b := by
      rw [GetDictionaries_store]
      simp only [if_true, CFDictionaryGetValue_set]
      by_cases hpp : pb = pa
      · have h3 := hinv.to_path a pa ha
        have h4 := hinv.to_path b pb hb
        rw [hpp, h3] at h4
        simp only [Option.some.injEq] at h4
        simp [hpp, h4]
      · simp [hpp]
    rw [kfs_fileid_bound _ fs pa b hb0 hget]
  · have hinv := h.2.2 fs
    rw [path_fromid_fst] at ha hb
    have ha0 : a ≠ 0 := by have := (hinv.range a pa ha).1; omega
    have hget : CFDictionaryGetValue (GetDictionariesForFilesystemWithID
        { filesystemMap :=
            CFDictionarySetValue (GetDictionariesForFilesystemWithID r fs).2.filesystemMap fs
              { idMap := CFDictionarySetValue (CFDictionarySetValue
                  (GetDictionariesForFilesystemWithID r fs).1.idMap b pa) a pb
                pathMap := CFDictionarySetValue (CFDictionarySetValue
                  (GetDictionariesForFilesystemWithID r fs).1.pathMap pa b) pb a }
          id := r.id } fs).1.pathMap pb = some a := by
      rw [GetDictionaries_store]
      simp [CFDictionaryGetValue_set]
    rw [kfs_fileid_bound _ fs pb a ha0 hget]
  · intro c hca hcb
    rw [path_fromid_fst, GetDictionaries_store, path_fromid_fst]
    have h1 : ¬ a = c := fun e => hca e.symm
    have h2 : ¬ b = c := fun e => hcb e.symm
    simp [CFDictionaryGetValue_set, h1, h2]
  · intro fs' c hfs
    rw [path_fromid_fst, GetDictionaries_store, path_fromid_fst]
    have h1 : ¬ fs = fs' := fun e => hfs e.symm
    simp only [h1, if_false]
    rw [GetDictionaries_snd]

/-! ## Claims about the file-id registry -/

/-- C1: after any sequence of fewer than `2 ^ 64 - 1` calls of `kfs_fileid`,
`path_fromid`, `kfs_idswap` (on ids that have paths) and `kfs_idclear` on the
initial registry, for every filesystem id and every path `p` the id that
`kfs_fileid` returns for `p` is resolved by `path_fromid` to `p` itself. -/
theorem path_from_fileid_roundtrip (cs : List RegistryCall) (r : Registry)
    (hlen : cs.length < 2 ^ 64 - 1) (hrun : runCalls Registry.init cs = some r)
    (fs : Nat) (p : CStr) :
    (path_fromid (kfs_fileid r fs p).2 fs (kfs_fileid r fs p).1).1 = some p :=
  path_fromid_kfs_fileid
    (Registry.Consistent.after_runCalls cs Registry.init r Registry.Consistent.at_init
      (by simp only [Registry.init]; omega) hrun).1 fs p

theorem path_from_fileid_roundtrip_witness :
    (path_fromid (kfs_fileid threePaths 0 ['/', 'c']).2 0
      (kfs_fileid threePaths 0 ['/', 'c']).1).1 = some ['/', 'c'] :=
  path_from_fileid_roundtrip
    [.fileid 0 ['/'], .fileid 0 ['/', 'a'], .fileid 0 ['/', 'b']] threePaths
    (by decide) (by decide) 0 ['/', 'c']

/-- C2: in a registry reached by fewer than `2 ^ 64 - 1` calls, for two ids `a`
and `b` of a filesystem that have the paths `pa` and `pb`, `kfs_idswap`
succeeds, and afterwards `path_fromid` gives `pb` for `a` and `pa` for `b`,
`kfs_fileid` gives `b` for `pa` and `a` for `pb`, and `path_fromid` of every
other id of the filesystem, and of every id of any other filesystem, is
unchanged. -/
theorem idswap_exchanges_paths (cs : List RegistryCall) (r : Registry)
    (hlen : cs.length < 2 ^ 64 - 1) (hrun : runCalls Registry.init cs = some r)
    (fs a b : Nat) (pa pb : CStr)
    (ha : (path_fromid r fs a).1 = some pa) (hb : (path_fromid r fs b).1 = some pb) :
    ∃ r', kfs_idswap r fs a b = some r' ∧
      (path_fromid r' fs a).1 = some pb ∧ (path_fromid r' fs b).1 = some pa ∧
      (kfs_fileid r' fs pa).1 = b ∧ (kfs_fileid r' fs pb).1 = a ∧
      (∀ c, c ≠ a → c ≠ b → (path_fromid r' fs c).1 = (path_fromid r fs c).1) ∧
      (∀ fs' c, fs' ≠ fs → (path_fromid r' fs' c).1 = (path_fromid r fs' c).1) :=
  kfs_idswap_spec
    (Registry.Consistent.after_runCalls cs Registry.init r Registry.Consistent.at_init
      (by simp only [Registry.init]; omega) hrun).1 fs a b pa pb ha hb

theorem idswap_exchanges_paths_witness :
    ∃ r', kfs_idswap threePaths 0 2 3 = some r' ∧
      (path_fromid r' 0 2).1 = some ['/', 'b'] ∧ (path_fromid r' 0 3).1 = some ['/', 'a'] ∧
      (kfs_fileid r' 0 ['/', 'a']).1 = 3 ∧ (kfs_fileid r' 0 ['/', 'b']).1 = 2 ∧
      (∀ c, c ≠ 2 → c ≠ 3 → (path_fromid r' 0 c).1 = (path_fromid threePaths 0 c).1) ∧
      (∀ fs' c, fs' ≠ 0 → (path_fromid r' fs' c).1 = (path_fromid threePaths fs' c).1) :=
  idswap_exchanges_paths
    [.fileid 0 ['/'], .fileid 0 ['/', 'a'], .fileid 0 ['/', 'b']] threePaths
    (by decide) (by decide) 0 2 3 ['/', 'a'] ['/', 'b'] (by decide) (by decide)

/-! ## The mount table -/

theorem Table.slot_natCast {σ : Type} (t : Table σ) (n : Nat) (hn : n < MAX_FIELSYSTEMS) :
    t.slot (n : Int) = some (t.table n) := by
  show (match Int.ofNat n with
    | Int.ofNat n => if n < MAX_FIELSYSTEMS then some (t.table n) else none
    | Int.negSucc _ => none) = some (t.table n)
  simp [hn]

/-- The search loop ends within the rounds that are left of a full sweep, does
not touch the slots, keeps the cursor inside the table, and returns `-1` or
the index of an empty slot. -/
theorem kfstable_newidentifier_loop_spec {σ : Type} (H : Host) (t : Table σ) (start : Nat)
    (hstart : start < MAX_FIELSYSTEMS) :
    ∀ fuel k, k + fuel = MAX_FIELSYSTEMS → 0 < fuel →
      ∃ id t', kfstable_newidentifier_loop H t start fuel ((start + k) % MAX_FIELSYSTEMS)
          = some (id, t') ∧
        t'.table = t.table ∧ t'.number < MAX_FIELSYSTEMS ∧
        (id = -1 ∨ (0 ≤ id ∧ id < MAX_FIELSYSTEMS ∧ t.table id.toNat = none)) := by
  intro fuel
  induction fuel with
  | zero => intro k _ h; omega
  | succ f ih =>
    intro k hk _
    have hlt : (start + k) % MAX_FIELSYSTEMS < MAX_FIELSYSTEMS :=
      Nat.mod_lt _ (by unfold MAX_FIELSYSTEMS; omega)
    have hnext : ((start + k) % MAX_FIELSYSTEMS + 1) % MAX_FIELSYSTEMS
        = (start + (k + 1)) % MAX_FIELSYSTEMS := by
      unfold MAX_FIELSYSTEMS; omega
    have hnextlt : (start + (k + 1)) % MAX_FIELSYSTEMS < MAX_FIELSYSTEMS :=
      Nat.mod_lt _ (by unfold MAX_FIELSYSTEMS; omega)
    rw [kfstable_newidentifier_loop]
    unfold kfstable_newidentifier_round
    rw [Table.slot_natCast t _ hlt]
    simp only [hnext]
    cases hslot : t.table ((start + k) % MAX_FIELSYSTEMS) with
    | none =>
      refine ⟨((start + k) % MAX_FIELSYSTEMS : Nat),
        { t with number := (start + (k + 1)) % MAX_FIELSYSTEMS }, ?_, rfl, hnextlt, ?_⟩
      · simp
      · right
        refine ⟨by omega, by exact_mod_cast hlt, ?_⟩
        simpa using hslot
    | some d =>
      by_cases hwrap : (start + (k + 1)) % MAX_FIELSYSTEMS = start
      · refine ⟨-1,
          { t with number := (start + (k + 1)) % MAX_FIELSYSTEMS, errno := EKFS_EMFS H },
          ?_, rfl, hnextlt, Or.inl rfl⟩
        simp [hwrap]
      · have hf : 0 < f := by
          rcases Nat.eq_zero_or_pos f with h0 | h0
          · exfalso
            apply hwrap
            subst h0
            unfold MAX_FIELSYSTEMS at hk hstart ⊢
            omega
          · exact h0
        obtain ⟨id, t', h1, h2, h3, h4⟩ := ih (k + 1) (by omega) hf
        refine ⟨id, t', ?_, h2, h3, h4⟩
        simp [hwrap, h1]

theorem kfstable_newidentifier_nolock_spec {σ : Type} (H : Host) (t : Table σ)
    (hnum : t.number < MAX_FIELSYSTEMS) :
    ∃ id t', kfstable_newidentifier_nolock H t = some (id, t') ∧
      t'.table = t.table ∧ t'.number < MAX_FIELSYSTEMS ∧
      (id = -1 ∨ (0 ≤ id ∧ id < MAX_FIELSYSTEMS ∧ t.table id.toNat = none)) := by
  have hpos : 0 < MAX_FIELSYSTEMS := by unfold MAX_FIELSYSTEMS; omega
  have h := kfstable_newidentifier_loop_spec H t t.number hnum MAX_FIELSYSTEMS 0
    (Nat.zero_add _) hpos
  have e : (t.number + 0) % MAX_FIELSYSTEMS = t.number := by
    rw [Nat.add_zero]; exact Nat.mod_eq_of_lt hnum
  rw [e] at h
  unfold kfstable_newidentifier_nolock
  exact h

/-- What `kfstable_put` does when the cursor is inside the table: it returns
`-1` and leaves the slots alone, or it returns the index of a slot that was
empty, stores the completed copy of the descriptor there and leaves the other
slots alone. -/
theorem kfstable_put_spec {σ : Type} (H : Host) (t : Table σ) (hnum : t.number < MAX_FIELSYSTEMS)
    (filesystem : kfsfilesystem σ) :
    ∃ id t', kfstable_put H t filesystem = some (id, t') ∧ t'.number < MAX_FIELSYSTEMS ∧
      ((id = -1 ∧ t'.table = t.table) ∨
        (0 ≤ id ∧ id < MAX_FIELSYSTEMS ∧ t.table id.toNat = none ∧
          t'.table id.toNat = some (install_noimp (kfsfilesystem_duplicate filesystem)) ∧
          ∀ j, j ≠ id.toNat → t'.table j = t.table j)) := by
  obtain ⟨id, t1, h1, h2, h3, h4⟩ := kfstable_newidentifier_nolock_spec H t hnum
  unfold kfstable_put kfstable_put_nolock
  rw [h1]
  rcases h4 with h4 | ⟨h4, h5, h6⟩
  · subst h4
    exact ⟨-1, t1, by simp, h3, Or.inl ⟨rfl, h2⟩⟩
  · have hslot : kfstable_get_nolock t1 id = some none := by
      obtain ⟨n, rfl⟩ := Int.eq_ofNat_of_zero_le h4
      have hn : n < MAX_FIELSYSTEMS := by exact_mod_cast h5
      unfold kfstable_get_nolock
      rw [Table.slot_natCast t1 n hn, h2]
      simpa using h6
    refine ⟨id,
      { t1 with table := fun j =>
          if j = id.toNat then some (install_noimp (kfsfilesystem_duplicate filesystem))
          else t1.table j },
      by simp only [ge_iff_le, h4, if_true, hslot], h3, Or.inr ⟨h4, h5, h6, ?_, ?_⟩⟩
    · simp
    · intro j hj
      simp [hj, h2]

theorem kfstable_remove_number {σ : Type} (t t' : Table σ) (identifier : Int)
    (h : kfstable_remove t identifier = some t') : t'.number = t.number := by
  unfold kfstable_remove kfstable_remove_nolock at h
  cases hs : t.slot identifier with
  | none => simp [hs] at h
  | some e =>
    cases e with
    | none => simp [hs] at h; subst h; rfl
    | some d => simp [hs] at h; subst h; rfl

/-- In every state the table reaches, the cursor is inside the table. -/
theorem runTable_number {σ : Type} (H : Host) (cs : List (TableCall σ)) :
    ∀ t t' : Table σ, t.number < MAX_FIELSYSTEMS → runTable H t cs = some t' →
      t'.number < MAX_FIELSYSTEMS := by
  induction cs with
  | nil =>
    intro t t' h hrun
    simp only [runTable, Option.some.injEq] at hrun
    subst hrun
    exact h
  | cons c cs ih =>
    intro t t' h hrun
    cases c with
    | put filesystem =>
      simp only [runTable, Option.bind_eq_some] at hrun
      obtain ⟨r, hr, hrun⟩ := hrun
      obtain ⟨id, t1, h1, h2, _⟩ := kfstable_put_spec H t h filesystem
      rw [h1] at hr
      simp only [Option.some.injEq] at hr
      subst hr
      exact ih _ _ h2 hrun
    | remove identifier =>
      simp only [runTable, Option.bind_eq_some] at hrun
      obtain ⟨t1, hr, hrun⟩ := hrun
      have := kfstable_remove_number t t1 identifier hr
      exact ih _ _ (by omega) hrun

/-- C4: in every state the mount table reaches from its initial state by
`kfstable_put` and `kfstable_remove` calls, `kfstable_put` returns: either `-1`
with every slot unchanged, or an identifier in `[0, 1024)` whose slot was empty
before the call, holds the completed copy of the new descriptor after it, and
is the only slot the call changed; it never returns the identifier of a slot
that holds a descriptor. -/
theorem kfstable_put_returns_empty_slot {σ : Type} (H : Host) (cs : List (TableCall σ))
    (t : Table σ) (hrun : runTable H Table.init cs = some t) (filesystem : kfsfilesystem σ) :
    ∃ id t', kfstable_put H t filesystem = some (id, t') ∧
      ((id = -1 ∧ t'.table = t.table) ∨
        (0 ≤ id ∧ id < 1024 ∧ t.table id.toNat = none ∧
          t'.table id.toNat = some (install_noimp (kfsfilesystem_duplicate filesystem)) ∧
          ∀ j, j ≠ id.toNat → t'.table j = t.table j)) := by
  have h0 : (Table.init : Table σ).number < MAX_FIELSYSTEMS := by
    show 0 < MAX_FIELSYSTEMS
    unfold MAX_FIELSYSTEMS; omega
  have hnum := runTable_number H cs Table.init t h0 hrun
  obtain ⟨id, t', h1, _, h3⟩ := kfstable_put_spec H t hnum filesystem
  exact ⟨id, t', h1, h3⟩

theorem kfstable_put_returns_empty_slot_witness :
    runTable darwin Table.init putPutRemove = some tableAfterRemove ∧
      tableAfterRemove.table 0 = none ∧ (tableAfterRemove.table 1).isSome = true ∧
      tableAfterRemove.number = 2 ∧
      ∃ id t', kfstable_put darwin tableAfterRemove (emptyFilesystem Unit) = some (id, t') ∧
      ((id = -1 ∧ t'.table = tableAfterRemove.table) ∨
        (0 ≤ id ∧ id < 1024 ∧ tableAfterRemove.table id.toNat = none ∧
          t'.table id.toNat
            = some (install_noimp (kfsfilesystem_duplicate (emptyFilesystem Unit))) ∧
          ∀ j, j ≠ id.toNat → t'.table j = tableAfterRemove.table j)) :=
  ⟨rfl, rfl, rfl, rfl,
    kfstable_put_returns_empty_slot darwin putPutRemove tableAfterRemove rfl (emptyFilesystem Unit)⟩

/-! ## Status conversion -/

theorem convert_status_eq_first_case (H : Host) (err : Int) (d : nfsstat3) :
    convert_status H err d = first_case err d (convert_status_cases H) := rfl

theorem first_case_of_not_mem (err : Int) (d : nfsstat3) (cases : List (Int × nfsstat3))
    (h : err ∉ cases.map Prod.fst) : first_case err d cases = d := by
  induction cases with
  | nil => rfl
  | cons c cs ih =>
    obtain ⟨label, status⟩ := c
    simp only [List.map_cons, List.mem_cons, not_or] at h
    simp [first_case, h.1, ih h.2]

theorem first_case_of_mem (err : Int) (status d : nfsstat3) (cases : List (Int × nfsstat3))
    (hd : (cases.map Prod.fst).Nodup) (h : (err, status) ∈ cases) :
    first_case err d cases = status := by
  induction cases with
  | nil => simp at h
  | cons c cs ih =>
    obtain ⟨label, st⟩ := c
    simp only [List.map_cons, List.nodup_cons] at hd
    simp only [List.mem_cons, Prod.mk.injEq] at h
    rcases h with ⟨h1, h2⟩ | h
    · simp [first_case, h1, h2]
    · have hne : ¬ err = label := by
        intro e
        apply hd.1
        rw [← e]
        exact List.mem_map_of_mem Prod.fst h
      simp [first_case, hne, ih hd.2 h]

/-- C9: on a host whose eighteen codes are distinct (as the `switch` needs),
`convert_status` maps each of EPERM, ENOENT, EIO, ENXIO, EACCES, EEXIST, EXDEV,
ENODEV, ENOTDIR, EISDIR, EINVAL, EFBIG, ENOSPC, EROFS, EMLINK, ENAMETOOLONG,
ENOTEMPTY and EDQUOT to the NFS3 status of the same name, whatever the default
is, and maps every other value of `err`, 0 included when it is no host code,
to the default. -/
theorem convert_status_table (H : Host) (hd : H.codes.Nodup) (d : nfsstat3) :
    convert_status H H.EPERM d = NFS3ERR_PERM ∧
    convert_status H H.ENOENT d = NFS3ERR_NOENT ∧
    convert_status H H.EIO d = NFS3ERR_IO ∧
    convert_status H H.ENXIO d = NFS3ERR_NXIO ∧
    convert_status H H.EACCES d = NFS3ERR_ACCES ∧
    convert_status H H.EEXIST d = NFS3ERR_EXIST ∧
    convert_status H H.EXDEV d = NFS3ERR_XDEV ∧
    convert_status H H.ENODEV d = NFS3ERR_NODEV ∧
    convert_status H H.ENOTDIR d = NFS3ERR_NOTDIR ∧
    convert_status H H.EISDIR d = NFS3ERR_ISDIR ∧
    convert_status H H.EINVAL d = NFS3ERR_INVAL ∧
    convert_status H H.EFBIG d = NFS3ERR_FBIG ∧
    convert_status H H.ENOSPC d = NFS3ERR_NOSPC ∧
    convert_status H H.EROFS d = NFS3ERR_ROFS ∧
    convert_status H H.EMLINK d = NFS3ERR_MLINK ∧
    convert_status H H.ENAMETOOLONG d = NFS3ERR_NAMETOOLONG ∧
    convert_status H H.ENOTEMPTY d = NFS3ERR_NOTEMPTY ∧
    convert_status H H.EDQUOT d = NFS3ERR_DQUOT ∧
    ∀ err, err ∉ H.codes → convert_status H err d = d := by
  have hk : ((convert_status_cases H).map Prod.fst).Nodup := hd
  refine ⟨?_, ?_, ?_, ?_, ?_, ?_, ?_, ?_, ?_, ?_, ?_, ?_, ?_, ?_, ?_, ?_, ?_, ?_, ?_⟩
  case refine_19 =>
    intro err herr
    rw [convert_status_eq_first_case]
    exact first_case_of_not_mem err d _ herr
  all_goals
    rw [convert_status_eq_first_case]
    apply first_case_of_mem _ _ _ _ hk
    simp [convert_status_cases]

theorem convert_status_table_witness :
    convert_status darwin darwin.EPERM NFS3ERR_IO = NFS3ERR_PERM ∧
    convert_status darwin darwin.ENOENT NFS3ERR_IO = NFS3ERR_NOENT ∧
    convert_status darwin darwin.EIO NFS3ERR_IO = NFS3ERR_IO ∧
    convert_status darwin darwin.ENXIO NFS3ERR_IO = NFS3ERR_NXIO ∧
    convert_status darwin darwin.EACCES NFS3ERR_IO = NFS3ERR_ACCES ∧
    convert_status darwin darwin.EEXIST NFS3ERR_IO = NFS3ERR_EXIST ∧
    convert_status darwin darwin.EXDEV NFS3ERR_IO = NFS3ERR_XDEV ∧
    convert_status darwin darwin.ENODEV NFS3ERR_IO = NFS3ERR_NODEV ∧
    convert_status darwin darwin.ENOTDIR NFS3ERR_IO = NFS3ERR_NOTDIR ∧
    convert_status darwin darwin.EISDIR NFS3ERR_IO = NFS3ERR_ISDIR ∧
    convert_status darwin darwin.EINVAL NFS3ERR_IO = NFS3ERR_INVAL ∧
    convert_status darwin darwin.EFBIG NFS3ERR_IO = NFS3ERR_FBIG ∧
    convert_status darwin darwin.ENOSPC NFS3ERR_IO = NFS3ERR_NOSPC ∧
    convert_status darwin darwin.EROFS NFS3ERR_IO = NFS3ERR_ROFS ∧
    convert_status darwin darwin.EMLINK NFS3ERR_IO = NFS3ERR_MLINK ∧
    convert_status darwin darwin.ENAMETOOLONG NFS3ERR_IO = NFS3ERR_NAMETOOLONG ∧
    convert_status darwin darwin.ENOTEMPTY NFS3ERR_IO = NFS3ERR_NOTEMPTY ∧
    convert_status darwin darwin.EDQUOT NFS3ERR_IO = NFS3ERR_DQUOT ∧
    ∀ err, err ∉ darwin.codes → convert_status darwin err NFS3ERR_IO = NFS3ERR_IO :=
  convert_status_table darwin (by decide) NFS3ERR_IO

/-! ## Printing and parsing numbers -/

/-- Every digit `decimal_digits` gives is below ten. -/
theorem decimal_digits_lt (fuel : Nat) : ∀ n, ∀ d ∈ decimal_digits fuel n, d < 10 := by
  induction fuel with
  | zero => intro n d h; simp [decimal_digits] at h
  | succ f ih =>
    intro n d h
    unfold decimal_digits at h
    split_ifs at h with hn
    · simp only [List.mem_singleton] at h; omega
    · simp only [List.mem_cons] at h
      rcases h with h | h
      · omega
      · exact ih _ d h

theorem decimal_digits_ne_nil (fuel n : Nat) : decimal_digits (fuel + 1) n ≠ [] := by
  unfold decimal_digits
  split_ifs <;> simp

/-- Reading the digits back gives the number, when the fuel covers its
digits. -/
theorem decimal_digits_value (fuel : Nat) :
    ∀ n, n < 10 ^ fuel →
      (decimal_digits fuel n).foldr (fun d acc => acc * 10 + d) 0 = n := by
  induction fuel with
  | zero => intro n h; simp at h; subst h; rfl
  | succ f ih =>
    intro n h
    unfold decimal_digits
    split_ifs with hn
    · simp
    · simp only [List.foldr_cons]
      rw [ih (n / 10) (by rw [pow_succ] at h; omega)]
      omega

theorem digit_char (d : Nat) (h : d < 10) :
    isdigit (Char.ofNat (48 + d)) = true ∧ (Char.ofNat (48 + d)).toNat - 48 = d ∧
      Char.ofNat (48 + d) ≠ ':' := by
  interval_cases d <;> decide

theorem isdigit_not_special (c : Char) (h : isdigit c = true) :
    isspace c = false ∧ c ≠ '-' ∧ c ≠ '+' ∧ c ≠ ':' := by
  simp only [isdigit, Bool.and_eq_true, decide_eq_true_eq] at h
  refine ⟨?_, ?_, ?_, ?_⟩
  · simp only [isspace, Bool.or_eq_false_iff, decide_eq_false_iff_not, Bool.and_eq_false_imp,
      decide_eq_true_eq]
    omega
  · rintro rfl; revert h; decide
  · rintro rfl; revert h; decide
  · rintro rfl; revert h; decide

theorem format_llu_digits (n : Nat) : ∀ c ∈ format_llu n, isdigit c = true := by
  intro c hc
  simp only [format_llu, List.mem_map, List.mem_reverse] at hc
  obtain ⟨d, hd, rfl⟩ := hc
  exact (digit_char d (decimal_digits_lt _ _ d hd)).1

theorem format_llu_ne_nil (n : Nat) : format_llu n ≠ [] := by
  simp only [format_llu, ne_eq, List.map_eq_nil_iff, List.reverse_eq_nil_iff]
  exact decimal_digits_ne_nil 19 _

theorem foldr_digit_char (ds : List Nat) (hlt : ∀ d ∈ ds, d < 10) :
    ds.foldr (fun x y => y * 10 + ((Char.ofNat (48 + x)).toNat - 48)) 0
      = ds.foldr (fun d acc => acc * 10 + d) 0 := by
  induction ds with
  | nil => rfl
  | cons d ds ih =>
    simp only [List.foldr_cons]
    rw [ih (fun x hx => hlt x (List.mem_cons_of_mem _ hx)),
      (digit_char d (hlt d (List.mem_cons_self _ _))).2.1]

theorem decimal_value_format_llu (n : Nat) (h : n < 2 ^ 64) : decimal_value (format_llu n) = n := by
  have hmod : n % 2 ^ 64 = n := Nat.mod_eq_of_lt h
  have hval := decimal_digits_value 20 n (by omega)
  have hlt := decimal_digits_lt 20 n
  simp only [decimal_value, format_llu, hmod, List.foldl_map, List.foldl_reverse]
  rw [foldr_digit_char _ hlt]
  exact hval

/-- `atoll` on a non-empty string of digits. -/
theorem atoll_digits (cs : CStr) (hne : cs ≠ []) (hd : ∀ c ∈ cs, isdigit c = true) :
    atoll cs = min (decimal_value cs : Int) (2 ^ 63 - 1) := by
  cases cs with
  | nil => exact absurd rfl hne
  | cons c rest =>
    have hc := isdigit_not_special c (hd c (List.mem_cons_self _ _))
    have htake : (c :: rest).takeWhile isdigit = c :: rest :=
      List.takeWhile_eq_self_iff.mpr hd
    unfold atoll
    simp only [List.dropWhile_cons, hc.1, Bool.false_eq_true, if_false, hc.2.1, hc.2.2.1]
    rw [htake]

/-- `atoll` reads back what `%llu` printed, up to the largest `long long`. -/
theorem atoll_format_llu (n : Nat) (h : n < 2 ^ 63) : atoll (format_llu n) = n := by
  rw [atoll_digits _ (format_llu_ne_nil n) (format_llu_digits n),
    decimal_value_format_llu n (by omega)]
  omega

theorem strsep_no_delim (delim : Char) (cs : CStr) (h : ∀ c ∈ cs, c ≠ delim) :
    strsep delim cs = (cs, none) := by
  induction cs with
  | nil => rfl
  | cons c rest ih =>
    have hc : c ≠ delim := h c (List.mem_cons_self _ _)
    have := ih (fun x hx => h x (List.mem_cons_of_mem _ hx))
    simp [strsep, hc, this]

theorem strsep_at_delim (delim : Char) (cs rest : CStr) (h : ∀ c ∈ cs, c ≠ delim) :
    strsep delim (cs ++ delim :: rest) = (cs, some rest) := by
  induction cs with
  | nil => simp [strsep]
  | cons c tl ih =>
    have hc : c ≠ delim := h c (List.mem_cons_self _ _)
    have := ih (fun x hx => h x (List.mem_cons_of_mem _ hx))
    simp [strsep, hc, this]

theorem format_llu_no_colon (n : Nat) : ∀ c ∈ format_llu n, c ≠ ':' :=
  fun c hc => (isdigit_not_special c (format_llu_digits n c hc)).2.2.2

theorem to_uint64_natCast (n : Nat) (h : n < 2 ^ 64) : to_uint64 (n : Int) = n := by
  unfold to_uint64
  omega

theorem to_int64_small (n : Nat) (h : n < 2 ^ 63) : to_int64 n = n := by
  unfold to_int64
  have : n % 2 ^ 64 = n := Nat.mod_eq_of_lt (by omega)
  rw [this, if_pos h]

/-! ## The registry as the request engine uses it -/

theorem path_fromid_after_getDictionaries (r : Registry) (fs fs' i : Nat) :
    (path_fromid (GetDictionariesForFilesystemWithID r fs').2 fs i).1 = (path_fromid r fs i).1 := by
  rw [path_fromid_fst, path_fromid_fst, GetDictionaries_snd]

theorem path_fromid_after_path_fromid (r : Registry) (fs fs' i j : Nat) :
    (path_fromid (path_fromid r fs' j).2 fs i).1 = (path_fromid r fs i).1 :=
  path_fromid_after_getDictionaries r fs fs' i

/-- In a consistent registry `kfs_fileid` returns, for the path of a live id,
that id, and only creates the filesystem's dictionaries. -/
theorem kfs_fileid_of_path_fromid {r : Registry} (h : r.Consistent) (fs i : Nat) (p : CStr)
    (hp : (path_fromid r fs i).1 = some p) :
    kfs_fileid r fs p = (i, (GetDictionariesForFilesystemWithID r fs).2) := by
  rw [path_fromid_fst] at hp
  have hi := (h.2.2 fs).range i p hp
  exact kfs_fileid_bound r fs p i (by omega) ((h.2.2 fs).to_path i p hp)

/-- `kfs_fileid` leaves the path of every live id as it is. -/
theorem path_fromid_after_fileid {r : Registry} (h : r.Consistent) (fs fs' j : Nat) (p q : CStr)
    (hq : (path_fromid r fs' j).1 = some q) :
    (path_fromid (kfs_fileid r fs p).2 fs' j).1 = some q := by
  by_cases hp :
      (CFDictionaryGetValue (GetDictionariesForFilesystemWithID r fs).1.pathMap p).getD 0 = 0
  · rw [kfs_fileid_fresh r fs p hp, path_fromid_fst, GetDictionaries_store]
    rw [path_fromid_fst] at hq
    by_cases hfs : fs = fs'
    · subst hfs
      have hj := (h.2.2 fs).range j q hq
      have hne : ¬ r.id = j := by omega
      simp [CFDictionaryGetValue_set, hne, hq]
    · simp only [hfs, if_false]
      rw [GetDictionaries_snd]
      exact hq
  · cases hg : CFDictionaryGetValue (GetDictionariesForFilesystemWithID r fs).1.pathMap p with
    | none => rw [hg] at hp; simp at hp
    | some i =>
      have hi : i ≠ 0 := by rw [hg] at hp; simpa using hp
      rw [kfs_fileid_bound r fs p i hi hg, path_fromid_after_getDictionaries]
      exact hq

/-- The id `kfs_fileid` returns is positive and at most the counter. -/
theorem kfs_fileid_range {r : Registry} (h : r.Consistent) (fs : Nat) (p : CStr) :
    0 < (kfs_fileid r fs p).1 ∧ (kfs_fileid r fs p).1 ≤ r.id := by
  by_cases hp :
      (CFDictionaryGetValue (GetDictionariesForFilesystemWithID r fs).1.pathMap p).getD 0 = 0
  · rw [kfs_fileid_fresh r fs p hp]
    exact ⟨h.1, le_refl _⟩
  · cases hg : CFDictionaryGetValue (GetDictionariesForFilesystemWithID r fs).1.pathMap p with
    | none => rw [hg] at hp; simp at hp
    | some i =>
      have hi : i ≠ 0 := by rw [hg] at hp; simpa using hp
      rw [kfs_fileid_bound r fs p i hi hg]
      have := (h.2.2 fs).range i p ((h.2.2 fs).to_id p i hg)
      exact ⟨this.1, by simp only; omega⟩

/-- Asking twice for the id of a path gives the same id. -/
theorem kfs_fileid_again {r : Registry} (h : r.Consistent) (hid : r.id + 1 < 2 ^ 64) (fs : Nat)
    (p : CStr) :
    kfs_fileid (kfs_fileid r fs p).2 fs p =
      ((kfs_fileid r fs p).1, (GetDictionariesForFilesystemWithID (kfs_fileid r fs p).2 fs).2) :=
  kfs_fileid_of_path_fromid (h.after_fileid hid fs p).1 fs _ p (path_fromid_kfs_fileid h fs p)

/-! ## Resolving handles -/

theorem kfstable_get_some {σ : Type} (t : Table σ) (n : Nat) (hn : n < 2 ^ 64)
    (f : kfsfilesystem σ) (h : kfstable_get t (to_int64 n) = some (some f)) :
    n < MAX_FIELSYSTEMS ∧ t.table n = some f := by
  unfold kfstable_get kfstable_get_nolock to_int64 at h
  have hmod : n % 2 ^ 64 = n := Nat.mod_eq_of_lt hn
  rw [hmod] at h
  by_cases h63 : n < 2 ^ 63
  · rw [if_pos h63] at h
    by_cases hlt : n < MAX_FIELSYSTEMS
    · rw [Table.slot_natCast t n hlt] at h
      simp only [Option.some.injEq] at h
      exact ⟨hlt, h⟩
    · exfalso
      have : t.slot (n : Int) = none := by
        show (match Int.ofNat n with
          | Int.ofNat n => if n < MAX_FIELSYSTEMS then some (t.table n) else none
          | Int.negSucc _ => none) = none
        simp [hlt]
      rw [this] at h
      cases h
  · exfalso
    rw [if_neg h63] at h
    have hneg : ((n : Nat) : Int) - 2 ^ 64 = Int.negSucc (2 ^ 64 - n - 1) := by
      rw [Int.negSucc_eq]
      omega
    rw [hneg] at h
    simp [Table.slot] at h

theorem kfstable_get_live {σ : Type} (t : Table σ) (n : Nat) (hn : n < MAX_FIELSYSTEMS) :
    kfstable_get t (to_int64 n) = some (t.table n) := by
  unfold kfstable_get kfstable_get_nolock
  rw [to_int64_small n (by unfold MAX_FIELSYSTEMS at hn; omega), Table.slot_natCast t n hn]

theorem to_uint64_lt (x : Int) : to_uint64 x < 2 ^ 64 := by
  unfold to_uint64
  omega

/-- What a successful handle resolution tells: the identifier names a slot of
the table, the descriptor is that slot's, only the registry changed, and the
registry stays consistent and keeps the path of every live id. -/
theorem get_filesystem_some {σ : Type} (s s1 : Server σ) (object : CStr)
    (f : Option (kfsfilesystem σ)) (path : Option CStr) (fsid : Nat)
    (h : get_filesystem s object = some ((f, path, fsid), s1)) :
    kfstable_get s.table (to_int64 fsid) = some f ∧ fsid < 2 ^ 64 ∧
      s1 = { s with registry := s1.registry } ∧
      (s.registry.Consistent → s.registry.id + 1 < 2 ^ 64 →
        s1.registry.Consistent ∧ s1.registry.id ≤ s.registry.id + 1 ∧
        ∀ fs' j q, (path_fromid s.registry fs' j).1 = some q →
          (path_fromid s1.registry fs' j).1 = some q) := by
  unfold get_filesystem get_filesystem_from_path at h
  simp only at h
  cases hget : kfstable_get s.table (to_int64 (to_uint64 (atoll (strsep ':' object).1))) with
  | none => rw [hget] at h; cases h
  | some f0 =>
    rw [hget] at h
    simp only [Option.some.injEq, Prod.mk.injEq] at h
    obtain ⟨⟨hf, hp, hfs⟩, hs⟩ := h
    subst hfs hf
    refine ⟨hget, to_uint64_lt _, ?_, ?_⟩
    · rw [← hs]
    · intro hc hid
      rw [← hs]
      simp only
      cases hstr : (strsep ':' object).2 with
      | some str =>
        simp only [hstr]
        refine ⟨hc.after_path_fromid _ _, ?_, ?_⟩
        · rw [path_fromid_snd, GetDictionaries_id]; omega
        · intro fs' j q hq
          rw [path_fromid_after_path_fromid]; exact hq
      | none =>
        simp only [hstr]
        have h1 := hc.after_fileid hid (to_uint64 (atoll (strsep ':' object).1)) ['/']
        refine ⟨h1.1.after_path_fromid _ _, ?_, ?_⟩
        · rw [path_fromid_snd, GetDictionaries_id]; exact h1.2
        · intro fs' j q hq
          rw [path_fromid_after_path_fromid]
          exact path_fromid_after_fileid hc _ fs' j _ q hq

theorem format_llu_length (n : Nat) : (format_llu n).length ≤ 20 := by
  have : ∀ fuel m, (decimal_digits fuel m).length ≤ fuel := by
    intro fuel
    induction fuel with
    | zero => intro m; simp [decimal_digits]
    | succ f ih =>
      intro m
      unfold decimal_digits
      split_ifs
      · simp
      · simp only [List.length_cons]
        have := ih (m / 10)
        omega
  simp only [format_llu, List.length_map, List.length_reverse]
  exact this 20 _

/-- The text of a handle is never cut when `PATH_MAX` exceeds 41. -/
theorem format_filehandle_eq (H : Host) (hPM : 41 < H.PATH_MAX) (identifier fileid : Nat) :
    format_filehandle H identifier fileid = format_llu identifier ++ ':' :: format_llu fileid := by
  unfold format_filehandle snprintf
  have h1 := format_llu_length identifier
  have h2 := format_llu_length fileid
  rw [List.take_of_length_le]
  · simp
  · simp only [List.length_append, List.length_cons, List.length_nil]
    omega

/-- Resolving the handle the server prints for a file id of a filesystem whose
identifier names a slot of the table. -/
theorem get_filesystem_filehandle {σ : Type} (H : Host) (hPM : 41 < H.PATH_MAX) (s : Server σ)
    (identifier fileid : Nat) (hid : identifier < MAX_FIELSYSTEMS) (hfile : fileid < 2 ^ 63) :
    get_filesystem s (format_filehandle H identifier fileid) =
      some ((s.table.table identifier, (path_fromid s.registry identifier fileid).1, identifier),
        { s with registry := (path_fromid s.registry identifier fileid).2 }) := by
  have hid63 : identifier < 2 ^ 63 := by unfold MAX_FIELSYSTEMS at hid; omega
  unfold get_filesystem get_filesystem_from_path
  rw [format_filehandle_eq H hPM,
    strsep_at_delim ':' (format_llu identifier) (format_llu fileid)
      (format_llu_no_colon identifier)]
  simp only [atoll_format_llu identifier hid63, atoll_format_llu fileid hfile,
    to_uint64_natCast identifier (by omega), to_uint64_natCast fileid (by omega),
    kfstable_get_live s.table identifier hid]

/-- Resolving the handle `kfs_mount` hands to the kernel. -/
theorem get_filesystem_fshandle {σ : Type} (s : Server σ) (n : Nat) (hn : n < MAX_FIELSYSTEMS) :
    get_filesystem s (kfs_mount_fshandle n) =
      some ((s.table.table n,
          (path_fromid (kfs_fileid s.registry n ['/']).2 n (kfs_fileid s.registry n ['/']).1).1,
          n),
        { s with registry :=
            (path_fromid (kfs_fileid s.registry n ['/']).2 n
              (kfs_fileid s.registry n ['/']).1).2 }) := by
  have hn63 : n < 2 ^ 63 := by unfold MAX_FIELSYSTEMS at hn; omega
  unfold get_filesystem get_filesystem_from_path kfs_mount_fshandle
  rw [to_uint64_natCast n (by omega), strsep_no_delim ':' (format_llu n) (format_llu_no_colon n)]
  simp only [atoll_format_llu n hn63, to_uint64_natCast n (by omega),
    kfstable_get_live s.table n hn]

/-- C7: for every identifier `n` in `[0, 1024)` whose slot of the mount table
holds a descriptor, and every consistent registry, `get_filesystem` resolves
the handle `kfs_mount` builds for `n` (the decimal text of `n`, without a
colon) to that descriptor, to the identifier `n` and to the path `/`; the file
id it uses is the one `kfs_fileid` gives `/` in filesystem `n`, before the
call and after it. -/
theorem root_handle_resolves {σ : Type} (s : Server σ) (n : Nat) (hn : n < 1024)
    (d : kfsfilesystem σ) (hlive : s.table.table n = some d) (hreg : s.registry.Consistent) :
    ∃ s', get_filesystem s (kfs_mount_fshandle n) = some ((some d, some ['/'], n), s') ∧
      (path_fromid s'.registry n (kfs_fileid s.registry n ['/']).1).1 = some ['/'] ∧
      (kfs_fileid s'.registry n ['/']).1 = (kfs_fileid s.registry n ['/']).1 := by
  have hpath := path_fromid_kfs_fileid hreg n ['/']
  refine ⟨{ s with registry :=
      (path_fromid (kfs_fileid s.registry n ['/']).2 n (kfs_fileid s.registry n ['/']).1).2 },
    ?_, ?_, ?_⟩
  · rw [get_filesystem_fshandle s n hn, hlive, hpath]
  · simp only [path_fromid_after_path_fromid]
    exact hpath
  · simp only
    have hpos := (kfs_fileid_range hreg n ['/']).1
    have hget : CFDictionaryGetValue (GetDictionariesForFilesystemWithID
        (path_fromid (kfs_fileid s.registry n ['/']).2 n (kfs_fileid s.registry n ['/']).1).2
          n).1.pathMap ['/'] = some (kfs_fileid s.registry n ['/']).1 := by
      rw [path_fromid_snd, GetDictionaries_snd]
      by_cases hp : (CFDictionaryGetValue
          (GetDictionariesForFilesystemWithID s.registry n).1.pathMap ['/']).getD 0 = 0
      · rw [kfs_fileid_fresh s.registry n ['/'] hp, GetDictionaries_store]
        simp [CFDictionaryGetValue_set]
      · cases hg : CFDictionaryGetValue
            (GetDictionariesForFilesystemWithID s.registry n).1.pathMap ['/'] with
        | none => rw [hg] at hp; simp at hp
        | some i =>
          have hi : i ≠ 0 := by rw [hg] at hp; simpa using hp
          rw [kfs_fileid_bound s.registry n ['/'] i hi hg, GetDictionaries_snd]
          exact hg
    rw [kfs_fileid_bound _ n ['/'] _ (by omega) hget]

theorem root_handle_resolves_witness :
    ∃ s', get_filesystem memServer (kfs_mount_fshandle (0 : Nat))
        = some ((some (install_noimp (kfsfilesystem_duplicate memfs)), some ['/'], 0), s') ∧
      (path_fromid s'.registry 0 (kfs_fileid memServer.registry 0 ['/']).1).1 = some ['/'] ∧
      (kfs_fileid s'.registry 0 ['/']).1 = (kfs_fileid memServer.registry 0 ['/']).1 :=
  root_handle_resolves memServer 0 (by decide) _ rfl Registry.Consistent.at_init

theorem compose_path_fits (H : Host) (d name : CStr)
    (hfit : (if d = ['/'] then d ++ name else d ++ ['/'] ++ name).length < H.PATH_MAX) :
    compose_path H d name = if d = ['/'] then d ++ name else d ++ ['/'] ++ name := by
  unfold compose_path snprintf
  split_ifs with hd
  · rw [if_pos hd] at hfit
    exact List.take_of_length_le (by omega)
  · rw [if_neg hd] at hfit
    exact List.take_of_length_le (by omega)

theorem Registry.Same.refl (r : Registry) : r.Same r := ⟨rfl, fun _ => rfl⟩

theorem Registry.Same.trans {r1 r2 r3 : Registry} (h12 : r1.Same r2) (h23 : r2.Same r3) :
    r1.Same r3 :=
  ⟨h23.1.trans h12.1, fun fs => (h23.2 fs).trans (h12.2 fs)⟩

theorem Registry.Same.getDictionaries (r : Registry) (fs : Nat) :
    r.Same (GetDictionariesForFilesystemWithID r fs).2 :=
  ⟨GetDictionaries_id r fs, fun fs' => GetDictionaries_snd r fs fs'⟩

theorem Registry.Same.path_fromid (r : Registry) (fs i : Nat) : r.Same (path_fromid r fs i).2 :=
  Registry.Same.getDictionaries r fs

theorem Registry.Same.consistent {r r' : Registry} (h : r.Same r') (hc : r.Consistent) :
    r'.Consistent := by
  obtain ⟨h0, h1, h2⟩ := hc
  refine ⟨by rw [h.1]; exact h0, by rw [h.1]; exact h1, fun fs => ?_⟩
  rw [h.2 fs, h.1]
  exact h2 fs

theorem Registry.Same.path_fromid_eq {r r' : Registry} (h : r.Same r') (fs i : Nat) :
    (KFS.path_fromid r' fs i).1 = (KFS.path_fromid r fs i).1 := by
  rw [path_fromid_fst, path_fromid_fst, h.2 fs]

/-- For the path of a live id, `kfs_fileid` leaves a registry that cannot be
told from the one it started with. -/
theorem Registry.Same.fileid_bound {r : Registry} (hc : r.Consistent) (fs i : Nat) (p : CStr)
    (hp : (KFS.path_fromid r fs i).1 = some p) :
    (kfs_fileid r fs p).1 = i ∧ r.Same (kfs_fileid r fs p).2 := by
  rw [kfs_fileid_of_path_fromid hc fs i p hp]
  exact ⟨rfl, Registry.Same.getDictionaries r fs⟩

/-- `get_fattr` on the handle of a live file id changes neither the table nor,
as far as any call can tell, the registry. -/
theorem get_fattr_filehandle_frame {σ : Type} (H : Host) (hPM : 41 < H.PATH_MAX)
    (s s2 : Server σ) (fsid i : Nat) (p : CStr) (hlt : fsid < MAX_FIELSYSTEMS) (hi : i < 2 ^ 63)
    (hc : s.registry.Consistent) (hp : (path_fromid s.registry fsid i).1 = some p)
    (st : nfsstat3) (attrs : Option fattr3)
    (h : get_fattr H s (format_filehandle H fsid i) = some ((st, attrs), s2)) :
    s2.table = s.table ∧ s.registry.Same s2.registry := by
  have hsame1 := Registry.Same.path_fromid s.registry fsid i
  have hc1 := hsame1.consistent hc
  have hp1 : (path_fromid (path_fromid s.registry fsid i).2 fsid i).1 = some p := by
    rw [hsame1.path_fromid_eq]; exact hp
  have hsame2 := Registry.Same.fileid_bound hc1 fsid i p hp1
  unfold get_fattr at h
  rw [get_filesystem_filehandle H hPM s fsid i hlt hi] at h
  cases hslot : s.table.table fsid with
  | none =>
    simp only [hslot, Option.some.injEq, Prod.mk.injEq] at h
    rw [← h.2]
    exact ⟨rfl, hsame1⟩
  | some fs =>
    simp only [hslot] at h
    cases hstat : fs.stat with
    | none => simp [hstat] at h
    | some stat =>
      simp only [hstat, hp] at h
      cases hval : (stat (some p) fs.context s.world).value with
      | none =>
        simp only [hval, Option.some.injEq, Prod.mk.injEq] at h
        rw [← h.2]
        exact ⟨rfl, hsame1⟩
      | some sbuf =>
        simp only [hval, Option.some.injEq, Prod.mk.injEq] at h
        rw [← h.2]
        exact ⟨rfl, hsame1.trans hsame2.2⟩

/-- C6: in a server whose registry is consistent (with its counter below
`2 ^ 63 - 2`) and on a host whose `PATH_MAX` exceeds 41, whenever a directory
handle resolves to a descriptor, an identifier and a registered path `d`, and
the path composed from `d` and the name fits in `PATH_MAX`, the handle that a
LOOKUP reply carries is resolved by `get_filesystem`, in the state the LOOKUP
left, to the same descriptor, the same identifier and the composed path
(`d ++ name` when `d` is `/`, `d ++ "/" ++ name` otherwise). -/
theorem lookup_handle_roundtrip {σ : Type} (H : Host) (hPM : 41 < H.PATH_MAX) (s s1 : Server σ)
    (dir name d : CStr) (fs : kfsfilesystem σ) (fsid : Nat)
    (hreg : s.registry.Consistent) (hid : s.registry.id + 2 < 2 ^ 63)
    (hdir : get_filesystem s dir = some ((some fs, some d, fsid), s1))
    (hfit : (if d = ['/'] then d ++ name else d ++ ['/'] ++ name).length < H.PATH_MAX)
    (reply : Reply LOOKUP3resok) (s' : Server σ) (resok : LOOKUP3resok)
    (hlookup : nfsproc3_lookup_3_svc H s dir name = some (reply, s'))
    (hresok : reply.resok = some resok) :
    ∃ s'', get_filesystem s' resok.object =
      some ((some fs, some (if d = ['/'] then d ++ name else d ++ ['/'] ++ name), fsid), s'') := by
  obtain ⟨hget, hfsid, hs1, hcons⟩ := get_filesystem_some s s1 dir _ _ fsid hdir
  obtain ⟨hc1, hid1, _⟩ := hcons hreg (by omega)
  obtain ⟨hlt, hslot⟩ := kfstable_get_some s.table fsid hfsid fs hget
  have hfs : compose_path H d name = if d = ['/'] then d ++ name else d ++ ['/'] ++ name :=
    compose_path_fits H d name hfit
  generalize (if d = ['/'] then d ++ name else d ++ ['/'] ++ name) = fspath at hfs ⊢
  have hrange := kfs_fileid_range hc1 fsid fspath
  have hc2 := (hc1.after_fileid (by omega) fsid fspath).1
  have hp2 := path_fromid_kfs_fileid hc1 fsid fspath
  have htab : s1.table = s.table := by rw [hs1]
  have hi63 : (kfs_fileid s1.registry fsid fspath).1 < 2 ^ 63 := by omega
  unfold nfsproc3_lookup_3_svc at hlookup
  rw [hdir] at hlookup
  simp only [hfs] at hlookup
  unfold get_required_post_op at hlookup
  cases hfattr : get_fattr H { s1 with registry := (kfs_fileid s1.registry fsid fspath).2 }
      (format_filehandle H fsid (kfs_fileid s1.registry fsid fspath).1) with
  | none => simp [hfattr] at hlookup
  | some res =>
    obtain ⟨⟨st, attrs⟩, s2⟩ := res
    obtain ⟨ht2, hsame⟩ := get_fattr_filehandle_frame H hPM _ s2 fsid _ fspath hlt hi63 hc2 hp2
      st attrs hfattr
    simp only [hfattr, Option.some.injEq, Prod.mk.injEq] at hlookup
    obtain ⟨hreply, hs'⟩ := hlookup
    subst hs'
    rw [← hreply] at hresok
    simp only at hresok
    split_ifs at hresok with hst
    simp only [Option.some.injEq] at hresok
    rw [← hresok]
    simp only
    rw [get_filesystem_filehandle H hPM s2 fsid _ hlt hi63, ht2]
    simp only [htab, hslot, hsame.path_fromid_eq, hp2]
    exact ⟨_, rfl⟩
theorem lookup_handle_roundtrip_witness :
    ∃ s'', get_filesystem
        { memServer with registry := memRegistry2, trace := [.stat (some ['/', 'a'])] }
        ['0', ':', '2'] =
      some ((some (install_noimp (kfsfilesystem_duplicate memfs)), some ['/', 'a'], 0), s'') :=
  lookup_handle_roundtrip darwin (by decide) memServer { memServer with registry := memRegistry1 }
    ['0'] ['a'] ['/'] (install_noimp (kfsfilesystem_duplicate memfs)) 0
    Registry.Consistent.at_init (by decide) rfl (by decide)
    { status := NFS3_OK
      resok := some { object := ['0', ':', '2']
                      obj_attributes :=
                        { attributes_follow := true
                          attributes := some (fattr3_of_stat darwin memfs_stat 2) }
                      dir_attributes := get_post_op } }
    { memServer with registry := memRegistry2, trace := [.stat (some ['/', 'a'])] }
    { object := ['0', ':', '2']
      obj_attributes :=
        { attributes_follow := true, attributes := some (fattr3_of_stat darwin memfs_stat 2) }
      dir_attributes := get_post_op }
    rfl rfl

/-- C3: in a server whose registry is consistent, when the two directory
handles of a RENAME resolve to descriptors of the same filesystem identifier
and to registered paths, and the rename callback returns `true` on the two
composed paths `src` and `dst`, the reply is `NFS3_OK` and there are ids `a`
and `b` such that afterwards `path_fromid` resolves `a` to `dst` and `b` to
`src`, where `a` is the id that was bound to `src` before the call if there
was one, and `b` the id that was bound to `dst` if there was one; `kfs_fileid`
then gives `a` for `dst` and `b` for `src`. -/
theorem rename_keeps_source_handle {σ : Type} (H : Host) (s s1 s2 : Server σ)
    (from_dir from_name to_dir to_name dfrom dto : CStr) (fs fs2 : kfsfilesystem σ) (fsid : Nat)
    (rename : kfsrename_f σ)
    (hreg : s.registry.Consistent) (hid : s.registry.id + 4 < 2 ^ 64)
    (hfrom : get_filesystem s from_dir = some ((some fs, some dfrom, fsid), s1))
    (hto : get_filesystem s1 to_dir = some ((some fs2, some dto, fsid), s2))
    (hrename : fs.rename = some rename)
    (hok : (rename (some (compose_path H dfrom from_name)) (some (compose_path H dto to_name))
      fs.context s2.world).value = true) :
    ∃ reply s' a b,
      nfsproc3_rename_3_svc H s from_dir from_name to_dir to_name = some (reply, s') ∧
      reply.status = NFS3_OK ∧
      (path_fromid s'.registry fsid a).1 = some (compose_path H dto to_name) ∧
      (path_fromid s'.registry fsid b).1 = some (compose_path H dfrom from_name) ∧
      (∀ a0, (path_fromid s.registry fsid a0).1 = some (compose_path H dfrom from_name) →
        a0 = a) ∧
      (∀ b0, (path_fromid s.registry fsid b0).1 = some (compose_path H dto to_name) → b0 = b) ∧
      (kfs_fileid s'.registry fsid (compose_path H dto to_name)).1 = a ∧
      (kfs_fileid s'.registry fsid (compose_path H dfrom from_name)).1 = b := by
  generalize hsrc : compose_path H dfrom from_name = src at hok ⊢
  generalize hdst : compose_path H dto to_name = dst at hok ⊢
  obtain ⟨_, _, _, hcons1⟩ := get_filesystem_some s s1 from_dir _ _ fsid hfrom
  obtain ⟨hc1, hid1, hkeep1⟩ := hcons1 hreg (by omega)
  obtain ⟨_, _, _, hcons2⟩ := get_filesystem_some s1 s2 to_dir _ _ fsid hto
  obtain ⟨hc2, hid2, hkeep2⟩ := hcons2 hc1 (by omega)
  have hc3 := hc2.after_fileid (by omega) fsid src
  have hc4 := hc3.1.after_fileid (by omega) fsid dst
  have hone : (path_fromid (kfs_fileid (kfs_fileid s2.registry fsid src).2 fsid dst).2 fsid
      (kfs_fileid s2.registry fsid src).1).1 = some src :=
    path_fromid_after_fileid hc3.1 fsid fsid _ dst src (path_fromid_kfs_fileid hc2 fsid src)
  have htwo := path_fromid_kfs_fileid hc3.1 fsid dst
  obtain ⟨r, hswap, h1, h2, h3, h4, _, _⟩ := kfs_idswap_spec hc4.1 fsid _ _ src dst hone htwo
  refine ⟨{ status := NFS3_OK, resok := some (get_post_op, get_post_op) },
    { s2.called (.rename (some src) (some dst))
        (rename (some src) (some dst) fs.context s2.world).world with registry := r },
    (kfs_fileid s2.registry fsid src).1,
    (kfs_fileid (kfs_fileid s2.registry fsid src).2 fsid dst).1, ?_, rfl, h1, h2, ?_, ?_, h4, h3⟩
  · unfold nfsproc3_rename_3_svc
    rw [hfrom]
    simp only []
    rw [hto]
    simp only [and_self, if_true, hrename, hsrc, hdst]
    rw [if_pos hok]
    simp only [Server.called, hswap]
  · intro a0 ha0
    have := hkeep2 fsid a0 src (hkeep1 fsid a0 src ha0)
    rw [kfs_fileid_of_path_fromid hc2 fsid a0 src this]
  · intro b0 hb0
    have := path_fromid_after_fileid hc2 fsid fsid b0 src dst
      (hkeep2 fsid b0 dst (hkeep1 fsid b0 dst hb0))
    rw [kfs_fileid_of_path_fromid hc3.1 fsid b0 dst this]

theorem rename_keeps_source_handle_witness :
    (path_fromid dirServer.registry 0 2).1 = some (compose_path darwin ['/'] ['d']) ∧
    ∃ reply s' a b,
      nfsproc3_rename_3_svc darwin dirServer ['0'] ['d'] ['0'] ['e'] = some (reply, s') ∧
      reply.status = NFS3_OK ∧
      (path_fromid s'.registry 0 a).1 = some (compose_path darwin ['/'] ['e']) ∧
      (path_fromid s'.registry 0 b).1 = some (compose_path darwin ['/'] ['d']) ∧
      (∀ a0, (path_fromid dirServer.registry 0 a0).1 = some (compose_path darwin ['/'] ['d']) →
        a0 = a) ∧
      (∀ b0, (path_fromid dirServer.registry 0 b0).1 = some (compose_path darwin ['/'] ['e']) →
        b0 = b) ∧
      (kfs_fileid s'.registry 0 (compose_path darwin ['/'] ['e'])).1 = a ∧
      (kfs_fileid s'.registry 0 (compose_path darwin ['/'] ['d'])).1 = b :=
  ⟨by decide,
    rename_keeps_source_handle darwin dirServer dirServer dirServer ['0'] ['d'] ['0'] ['e']
      ['/'] ['/']
      (install_noimp (kfsfilesystem_duplicate memfs))
      (install_noimp (kfsfilesystem_duplicate memfs))
      0 (memfs.rename.getD noimp_rename)
      (Registry.Consistent.after_runCalls
        [.fileid 0 ['/'], .fileid 0 ['/', 'd'], .fileid 0 ['/', 'd', '/', 'x']]
        Registry.init dirServer.registry Registry.Consistent.at_init (by decide) (by decide)).1
      (by decide) rfl rfl rfl (by decide)⟩

/-! ## Status whitelists -/

theorem filter_status_mem (labels : List nfsstat3) (h : NFS3ERR_SERVERFAULT ∈ labels)
    (status : nfsstat3) : filter_status labels status ∈ labels := by
  unfold filter_status
  split_ifs with hs
  · exact hs
  · exact h

theorem lookup_status_in {σ : Type} (H : Host) (s : Server σ) (dir name : CStr) :
    StatusIn LOOKUP_labels (nfsproc3_lookup_3_svc H s dir name) := by
  unfold nfsproc3_lookup_3_svc
  repeat' (first | split | (dsimp only; split))
  all_goals first
    | exact True.intro
    | exact filter_status_mem _ (by decide) _
    | (simp only [StatusIn]; decide)

theorem readlink_status_in {σ : Type} (H : Host) (s : Server σ) (symlink : CStr) :
    StatusIn READLINK_labels (nfsproc3_readlink_3_svc H s symlink) := by
  unfold nfsproc3_readlink_3_svc
  repeat' (first | split | (dsimp only; split))
  all_goals first
    | exact True.intro
    | exact filter_status_mem _ (by decide) _
    | (simp only [StatusIn]; decide)

theorem read_status_in {σ : Type} (H : Host) (s : Server σ) (file : CStr) (offset count : Nat) :
    StatusIn READ_labels (nfsproc3_read_3_svc H s file offset count) := by
  unfold nfsproc3_read_3_svc
  repeat' (first | split | (dsimp only; split))
  all_goals first
    | exact True.intro
    | exact filter_status_mem _ (by decide) _
    | (simp only [StatusIn]; decide)

theorem write_status_in {σ : Type} (H : Host) (s : Server σ) (file : CStr) (offset count : Nat) (data : List Nat) :
    StatusIn WRITE_labels (nfsproc3_write_3_svc H s file offset count data) := by
  unfold nfsproc3_write_3_svc
  repeat' (first | split | (dsimp only; split))
  all_goals first
    | exact True.intro
    | exact filter_status_mem _ (by decide) _
    | (simp only [StatusIn]; decide)

theorem create_mode_check_mem {σ : Type} (H : Host) (s s' : Server σ) (fh : CStr)
    (how : createhow3) (status : nfsstat3)
    (h : create_mode_check H s fh how = some (status, s')) : status ∈ CREATE_labels := by
  unfold create_mode_check at h
  cases how with
  | UNCHECKED a =>
    simp only [Option.some.injEq, Prod.mk.injEq] at h
    rw [← h.1]; decide
  | GUARDED a =>
    simp only at h
    cases hg : get_fattr H s fh with
    | none => rw [hg] at h; cases h
    | some r =>
      obtain ⟨⟨st, attrs⟩, s1⟩ := r
      rw [hg] at h
      simp only at h
      split_ifs at h
      all_goals
        simp only [Option.some.injEq, Prod.mk.injEq] at h
        rw [← h.1]; decide
  | EXCLUSIVE v =>
    simp only [Option.some.injEq, Prod.mk.injEq] at h
    rw [← h.1]; decide

theorem create_status_in {σ : Type} (H : Host) (s : Server σ) (dir name : CStr)
    (how : createhow3) : StatusIn CREATE_labels (nfsproc3_create_3_svc H s dir name how) := by
  unfold nfsproc3_create_3_svc
  repeat' (first | split | (dsimp only; split))
  all_goals first
    | exact True.intro
    | exact filter_status_mem _ (by decide) _
    | exact create_mode_check_mem _ _ _ _ _ _ (by assumption)
    | (simp only [StatusIn]; decide)

theorem mkdir_status_in {σ : Type} (H : Host) (s : Server σ) (dir name : CStr) (attributes : sattr3) :
    StatusIn CREATE_labels (nfsproc3_mkdir_3_svc H s dir name attributes) := by
  unfold nfsproc3_mkdir_3_svc
  repeat' (first | split | (dsimp only; split))
  all_goals first
    | exact True.intro
    | exact filter_status_mem _ (by decide) _
    | (simp only [StatusIn]; decide)

theorem symlink_status_in {σ : Type} (H : Host) (s : Server σ) (dir name symlink_data : CStr) (symlink_attributes : sattr3) :
    StatusIn CREATE_labels (nfsproc3_symlink_3_svc H s dir name symlink_data symlink_attributes) := by
  unfold nfsproc3_symlink_3_svc
  repeat' (first | split | (dsimp only; split))
  all_goals first
    | exact True.intro
    | exact filter_status_mem _ (by decide) _
    | (simp only [StatusIn]; decide)

theorem remove_status_in {σ : Type} (H : Host) (s : Server σ) (dir name : CStr) :
    StatusIn REMOVE_labels (nfsproc3_remove_3_svc H s dir name) := by
  unfold nfsproc3_remove_3_svc
  repeat' (first | split | (dsimp only; split))
  all_goals first
    | exact True.intro
    | exact filter_status_mem _ (by decide) _
    | (simp only [StatusIn]; decide)

theorem rmdir_status_in {σ : Type} (H : Host) (s : Server σ) (dir name : CStr) :
    StatusIn RMDIR_labels (nfsproc3_rmdir_3_svc H s dir name) := by
  unfold nfsproc3_rmdir_3_svc
  repeat' (first | split | (dsimp only; split))
  all_goals first
    | exact True.intro
    | exact filter_status_mem _ (by decide) _
    | (simp only [StatusIn]; decide)

theorem rename_status_in {σ : Type} (H : Host) (s : Server σ) (from_dir from_name to_dir to_name : CStr) :
    StatusIn RENAME_labels (nfsproc3_rename_3_svc H s from_dir from_name to_dir to_name) := by
  unfold nfsproc3_rename_3_svc
  repeat' (first | split | (dsimp only; split))
  all_goals first
    | exact True.intro
    | exact filter_status_mem _ (by decide) _
    | (simp only [StatusIn]; decide)

theorem readdir_status_in {σ : Type} (H : Host) (s : Server σ) (dir : CStr) (cookie : Nat) (cookieverf : CStr) (count : Nat) :
    StatusIn READDIR_labels (nfsproc3_readdir_3_svc H s dir cookie cookieverf count) := by
  unfold nfsproc3_readdir_3_svc
  repeat' (first | split | (dsimp only; split))
  all_goals first
    | exact True.intro
    | exact filter_status_mem _ (by decide) _
    | (simp only [StatusIn]; decide)

theorem fsstat_status_in {σ : Type} (H : Host) (s : Server σ) (fsroot : CStr) :
    StatusIn FSSTAT_labels (nfsproc3_fsstat_3_svc H s fsroot) := by
  unfold nfsproc3_fsstat_3_svc
  repeat' (first | split | (dsimp only; split))
  all_goals first
    | exact True.intro
    | exact filter_status_mem _ (by decide) _
    | (simp only [StatusIn]; decide)

theorem StatusIn.of_eq {σ α : Type} {labels : List nfsstat3} {o : Option (Reply α × Server σ)}
    (h : StatusIn labels o) (r : Reply α × Server σ) (ho : o = some r) : r.1.status ∈ labels := by
  subst ho
  exact h

/-! ## Handles that name no mount -/

/-- C8, the code at three failing inputs: with the example application mounted
as filesystem 0, GETATTR on the handle `1024` indexes the table at 1024, past
its end, and GETATTR on the handle `-1` indexes it at -1 (the execution is
undefined, no reply is defined); GETATTR on the handle `x`, whose text is no
number, is answered `NFS3_OK` through the descriptor of filesystem 0. -/
theorem getattr_unchecked_fsid :
    (nfsproc3_getattr_3_svc darwin memServer ['1', '0', '2', '4']).isNone = true ∧
      to_int64 (to_uint64 (atoll ['1', '0', '2', '4'])) = 1024 ∧
      kfstable_get memServer.table 1024 = none ∧
      (nfsproc3_getattr_3_svc darwin memServer ['-', '1']).isNone = true ∧
      to_int64 (to_uint64 (atoll ['-', '1'])) = -1 ∧
      kfstable_get memServer.table (-1) = none ∧
      (nfsproc3_getattr_3_svc darwin memServer ['x']).map (·.1.status) = some NFS3_OK := by
  refine ⟨by decide, by decide, rfl, by decide, by decide, rfl, by decide⟩

/-! ## Guarded create -/

/-- C10, the code at two failing inputs: with the example application mounted as
filesystem 0 and `/a` in existence, a GUARDED CREATE of `a` in the root (`stat`
succeeds on `/a`) invokes the create callback and replies `NFS3_OK`, and a
GUARDED CREATE of `b` (`stat` fails on `/b`) replies `NFS3ERR_EXIST` and invokes
no callback but `stat`. -/
theorem guarded_create_inverted :
    (nfsproc3_create_3_svc darwin memServer ['0'] ['a']
        (.GUARDED ⟨none, none, none, none, ⟨.DONT_CHANGE, ⟨0, 0⟩⟩, ⟨.DONT_CHANGE, ⟨0, 0⟩⟩⟩)).map
        (fun r => (r.1.status, r.2.trace))
      = some (NFS3_OK, [.stat (some ['/', 'a']), .create (some ['/', 'a']),
          .stat (some ['/', 'a'])]) ∧
    (nfsproc3_create_3_svc darwin memServer ['0'] ['b']
        (.GUARDED ⟨none, none, none, none, ⟨.DONT_CHANGE, ⟨0, 0⟩⟩, ⟨.DONT_CHANGE, ⟨0, 0⟩⟩⟩)).map
        (fun r => (r.1.status, r.2.trace))
      = some (NFS3ERR_EXIST, [.stat (some ['/', 'b'])]) := by
  refine ⟨by decide, by decide⟩

/-! ## Setting attributes -/

theorem convert_status_ne_ok (H : Host) (err : Int) (d : nfsstat3) (hd : d ≠ NFS3_OK) :
    convert_status H err d ≠ NFS3_OK := by
  rw [convert_status_eq_first_case]
  have hall : ∀ p ∈ convert_status_cases H, p.2 ≠ NFS3_OK := by
    simp [convert_status_cases]
  generalize convert_status_cases H = cases at hall
  induction cases with
  | nil => exact hd
  | cons p rest ih =>
    obtain ⟨label, status⟩ := p
    simp only [first_case]
    split
    · exact hall (label, status) (List.mem_cons_self _ _)
    · exact ih fun q hq => hall q (List.mem_cons_of_mem _ hq)

theorem filter_status_ne_ok (labels : List nfsstat3) (status : nfsstat3) (h : status ≠ NFS3_OK) :
    filter_status labels status ≠ NFS3_OK := by
  unfold filter_status
  split
  · exact h
  · intro h'; cases h'

theorem set_fattr_times_skip {σ : Type} (H : Host) (filesystem : kfsfilesystem σ)
    (path : Option CStr) (attrs : sattr3) (status : nfsstat3) (error : Int) (s : Server σ)
    (hst : status ≠ NFS3_OK) :
    set_fattr_times H filesystem path attrs status error s = some (status, error, s) := by
  unfold set_fattr_times
  rw [if_neg fun h => hst h.1]

theorem set_fattr_mode_skip {σ : Type} (H : Host) (filesystem : kfsfilesystem σ)
    (path : Option CStr) (attrs : sattr3) (status : nfsstat3) (error : Int) (s : Server σ)
    (hst : status ≠ NFS3_OK) :
    set_fattr_mode H filesystem path attrs status error s = some (status, error, s) := by
  unfold set_fattr_mode
  cases attrs.mode with
  | none => rfl
  | some mode => simp only [if_neg hst]

theorem set_fattr_times_eq {σ : Type} (H : Host) (filesystem : kfsfilesystem σ)
    (path : Option CStr) (attrs : sattr3) (e : Int) (s : Server σ) :
    set_fattr_times H filesystem path attrs NFS3_OK e s
      = apply_in_order H filesystem
          (if attrs.atime.set_it = .DONT_CHANGE ∧ attrs.mtime.set_it = .DONT_CHANGE then []
           else [Call.utimes path
             (if attrs.atime.set_it = .DONT_CHANGE then none
              else some ⟨attrs.atime.time.seconds, attrs.atime.time.nseconds⟩)
             (if attrs.mtime.set_it = .DONT_CHANGE then none
              else some ⟨attrs.mtime.time.seconds, attrs.mtime.time.nseconds⟩)]) e s := by
  unfold set_fattr_times
  by_cases hreq : attrs.atime.set_it = .DONT_CHANGE ∧ attrs.mtime.set_it = .DONT_CHANGE
  · rw [if_pos hreq, if_neg (by simp [hreq.1, hreq.2])]
    rfl
  · rw [if_neg hreq, if_pos ⟨rfl, by tauto⟩]
    simp only [apply_in_order, invoke, kfstime_of_set_time]
    cases filesystem.utimes with
    | none => rfl
    | some utimes => simp only [Option.map_some']

theorem set_fattr_mode_then {σ : Type} (H : Host) (filesystem : kfsfilesystem σ)
    (path : Option CStr) (attrs : sattr3) (rest : List Call)
    (k : nfsstat3 → Int → Server σ → Option (nfsstat3 × Int × Server σ))
    (hok : ∀ e s, k NFS3_OK e s = apply_in_order H filesystem rest e s)
    (hskip : ∀ st e s, st ≠ NFS3_OK → k st e s = some (st, e, s)) (e : Int) (s : Server σ) :
    (match set_fattr_mode H filesystem path attrs NFS3_OK e s with
      | none => none
      | some (status2, error2, s3) => k status2 error2 s3)
      = apply_in_order H filesystem
          ((match attrs.mode with
            | some mode => [Call.chmod path (kfs_mode_of_nfs mode)]
            | none => []) ++ rest) e s := by
  unfold set_fattr_mode
  cases attrs.mode with
  | none => simp [hok]
  | some mode =>
    simp only [if_true, List.singleton_append, apply_in_order, invoke]
    cases filesystem.chmod with
    | none => rfl
    | some chmod =>
      simp only [Option.map_some']
      generalize chmod path (kfs_mode_of_nfs mode) filesystem.context s.world = out
      by_cases hv : out.value = true
      · simp [hv, hok]
      · simp only [hv, Bool.false_eq_true, if_false]
        exact hskip _ _ _ (convert_status_ne_ok H _ NFS3ERR_NOENT (by decide))

theorem set_fattr_size_then {σ : Type} (H : Host) (filesystem : kfsfilesystem σ)
    (path : Option CStr) (attrs : sattr3) (rest : List Call)
    (k : nfsstat3 → Int → Server σ → Option (nfsstat3 × Int × Server σ))
    (hok : ∀ e s, k NFS3_OK e s = apply_in_order H filesystem rest e s)
    (hskip : ∀ st e s, st ≠ NFS3_OK → k st e s = some (st, e, s)) (e : Int) (s : Server σ) :
    (match set_fattr_size H filesystem path attrs NFS3_OK e s with
      | none => none
      | some (status1, error1, s2) => k status1 error1 s2)
      = apply_in_order H filesystem
          ((match attrs.size with
            | some size => [Call.truncate path size]
            | none => []) ++ rest) e s := by
  unfold set_fattr_size
  cases attrs.size with
  | none => simp [hok]
  | some size =>
    simp only [if_true, List.singleton_append, apply_in_order, invoke]
    cases filesystem.truncate with
    | none => rfl
    | some truncate =>
      simp only [Option.map_some']
      generalize truncate path size filesystem.context s.world = out
      by_cases hv : out.value = true
      · simp [hv, hok]
      · simp only [hv, Bool.false_eq_true, if_false]
        exact hskip _ _ _ (convert_status_ne_ok H _ NFS3ERR_NOENT (by decide))

/-- The three blocks of `set_fattr` that invoke callbacks, run one after the
other from the status `NFS3_OK`, make the requested calls in order and stop at
the first failure. -/
theorem set_fattr_blocks_eq {σ : Type} (H : Host) (filesystem : kfsfilesystem σ)
    (path : Option CStr) (attrs : sattr3) (s1 : Server σ) :
    (match set_fattr_size H filesystem path attrs NFS3_OK 0 s1 with
      | none => none
      | some (status1, error1, s2) =>
        match set_fattr_mode H filesystem path attrs status1 error1 s2 with
        | none => none
        | some (status2, error2, s3) =>
          set_fattr_times H filesystem path attrs status2 error2 s3)
      = apply_in_order H filesystem (requested_calls path attrs) 0 s1 := by
  unfold requested_calls
  rw [List.append_assoc]
  refine set_fattr_size_then H filesystem path attrs _
    (fun status1 error1 s2 =>
      match set_fattr_mode H filesystem path attrs status1 error1 s2 with
      | none => none
      | some (status2, error2, s3) =>
        set_fattr_times H filesystem path attrs status2 error2 s3) ?_ ?_ 0 s1
  · intro e s
    exact set_fattr_mode_then H filesystem path attrs _
      (fun status2 error2 s3 => set_fattr_times H filesystem path attrs status2 error2 s3)
      (fun e s => set_fattr_times_eq H filesystem path attrs e s)
      (fun st e s hst => set_fattr_times_skip H filesystem path attrs st e s hst) e s
  · intro st e s hst
    simp only [set_fattr_mode_skip H filesystem path attrs st e s hst,
      set_fattr_times_skip H filesystem path attrs st e s hst]

/-- The calls `apply_in_order` makes are an initial part of the calls it was
given, all of them when the status is `NFS3_OK`. -/
theorem apply_in_order_trace {σ : Type} (H : Host) (filesystem : kfsfilesystem σ) :
    ∀ (calls : List Call) (e : Int) (s : Server σ) (st : nfsstat3) (e' : Int) (s' : Server σ),
      apply_in_order H filesystem calls e s = some (st, e', s') →
      ∃ done, s'.trace = s.trace ++ done ∧ done <+: calls ∧ (st = NFS3_OK → done = calls) ∧
        s'.table = s.table ∧ s'.registry = s.registry := by
  intro calls
  induction calls with
  | nil =>
    intro e s st e' s' h
    simp only [apply_in_order, Option.some.injEq, Prod.mk.injEq] at h
    obtain ⟨_, _, rfl⟩ := h
    exact ⟨[], by simp, List.prefix_refl _, fun _ => rfl, rfl, rfl⟩
  | cons c rest ih =>
    intro e s st e' s' h
    rw [apply_in_order] at h
    cases hinv : invoke filesystem c s.world with
    | none => rw [hinv] at h; cases h
    | some out =>
      rw [hinv] at h
      simp only at h
      by_cases hv : out.value = true
      · rw [if_pos hv] at h
        obtain ⟨done, htr, hpre, hall, htab, hreg⟩ := ih _ _ _ _ _ h
        refine ⟨c :: done, ?_, ?_, ?_, htab, hreg⟩
        · rw [htr]; simp [Server.called]
        · exact List.prefix_cons_inj c |>.mpr hpre
        · intro hst; rw [hall hst]
      · rw [if_neg hv] at h
        simp only [Option.some.injEq, Prod.mk.injEq] at h
        obtain ⟨hst, _, rfl⟩ := h
        refine ⟨[c], rfl, ?_, ?_, rfl, rfl⟩
        · simp
        · intro h0
          exact absurd (hst.trans h0) (convert_status_ne_ok H _ _ (by decide))

/-- On a handle that names a mount, `set_fattr` is the application in order of
the calls the request asks for, followed by the uid and gid checks when no
call failed. -/
theorem set_fattr_eq {σ : Type} (H : Host) (s s1 : Server σ) (object : CStr)
    (attrs : sattr3) (filesystem : kfsfilesystem σ) (path : Option CStr) (identifier : Nat)
    (hfs : get_filesystem s object = some ((some filesystem, path, identifier), s1)) :
    set_fattr H s object attrs =
      (match apply_in_order H filesystem (requested_calls path attrs) 0 s1 with
       | none => none
       | some (status, _, s2) =>
         some (if status = NFS3_OK then set_fattr_gid H attrs (set_fattr_uid H attrs NFS3_OK)
               else status, s2)) := by
  rw [← set_fattr_blocks_eq]
  unfold set_fattr
  rw [hfs]
  simp only
  cases h1 : set_fattr_size H filesystem path attrs NFS3_OK 0 s1 with
  | none => rfl
  | some r1 =>
    obtain ⟨status1, error1, s2⟩ := r1
    simp only
    cases h2 : set_fattr_mode H filesystem path attrs status1 error1 s2 with
    | none => rfl
    | some r2 =>
      obtain ⟨status2, error2, s3⟩ := r2
      simp only
      cases h3 : set_fattr_times H filesystem path attrs status2 error2 s3 with
      | none => rfl
      | some r3 =>
        obtain ⟨status3, error3, s4⟩ := r3
        simp only
        by_cases hst : status3 = NFS3_OK
        · rw [if_pos hst, hst]
        · rw [if_neg hst]
          have hu : set_fattr_uid H attrs status3 = status3 := by
            unfold set_fattr_uid
            cases attrs.uid with
            | none => rfl
            | some uid => simp only; rw [if_neg fun h => hst h.1]
          have hg : set_fattr_gid H attrs status3 = status3 := by
            unfold set_fattr_gid
            cases attrs.gid with
            | none => rfl
            | some gid => simp only; rw [if_neg fun h => hst h.1]
          rw [hu, hg]

/-- The calls `set_fattr` adds to the record are an initial part of the
requested ones, all of them when the status is `NFS3_OK`. -/
theorem set_fattr_done {σ : Type} (H : Host) (s s1 s' : Server σ) (object : CStr)
    (attrs : sattr3) (filesystem : kfsfilesystem σ) (path : Option CStr) (identifier : Nat)
    (status : nfsstat3)
    (hfs : get_filesystem s object = some ((some filesystem, path, identifier), s1))
    (hret : set_fattr H s object attrs = some (status, s')) :
    ∃ done, s'.trace = s.trace ++ done ∧ done <+: requested_calls path attrs ∧
      (status = NFS3_OK → done = requested_calls path attrs) := by
  rw [set_fattr_eq H s s1 object attrs filesystem path identifier hfs] at hret
  cases happ : apply_in_order H filesystem (requested_calls path attrs) 0 s1 with
  | none => rw [happ] at hret; cases hret
  | some r =>
    obtain ⟨st, e, s2⟩ := r
    rw [happ] at hret
    simp only [Option.some.injEq, Prod.mk.injEq] at hret
    obtain ⟨hstatus, rfl⟩ := hret
    obtain ⟨done, htr, hpre, hall, _, _⟩ := apply_in_order_trace H filesystem _ _ _ _ _ _ happ
    have hs1 := (get_filesystem_some s s1 object _ _ _ hfs).2.2.1
    refine ⟨done, ?_, hpre, ?_⟩
    · rw [htr, hs1]
    · intro hok
      apply hall
      by_contra hne
      rw [if_neg hne] at hstatus
      exact hne (hstatus.trans hok)

/-- The block `set times` of `set_fattr`, entered with the status `NFS3_OK` and
a time to set, invokes `utimes` once. -/
theorem set_fattr_times_called {σ : Type} (H : Host) (filesystem : kfsfilesystem σ)
    (path : Option CStr) (attrs : sattr3) (e : Int) (s : Server σ) (utimes : kfsutimes_f σ)
    (hreq : attrs.atime.set_it ≠ .DONT_CHANGE ∨ attrs.mtime.set_it ≠ .DONT_CHANGE)
    (hutimes : filesystem.utimes = some utimes) :
    ∃ st e', set_fattr_times H filesystem path attrs NFS3_OK e s
      = some (st, e',
          s.called (.utimes path (kfstime_of_set_time attrs.atime)
              (kfstime_of_set_time attrs.mtime))
            (utimes path (kfstime_of_set_time attrs.atime) (kfstime_of_set_time attrs.mtime)
              filesystem.context s.world).world) := by
  unfold set_fattr_times
  rw [if_pos ⟨rfl, hreq⟩, hutimes]
  simp only
  cases (utimes path (kfstime_of_set_time attrs.atime) (kfstime_of_set_time attrs.mtime)
      filesystem.context s.world).value with
  | true => exact ⟨_, _, rfl⟩
  | false => exact ⟨_, _, rfl⟩

/-! ## What the procedures add to the record of calls -/

theorem rollback_calls_append (a b : List Call) :
    rollback_calls (a ++ b) = rollback_calls a ++ rollback_calls b := by
  unfold rollback_calls
  rw [List.filter_append]

theorem setter_calls_append (a b : List Call) :
    setter_calls (a ++ b) = setter_calls a ++ setter_calls b := by
  unfold setter_calls
  rw [List.filter_append]

/-- What `get_fattr` adds to the record of calls is at most one call of `stat`. -/
theorem get_fattr_trace {σ : Type} (H : Host) (s s' : Server σ) (object : CStr)
    (r : nfsstat3 × Option fattr3) (h : get_fattr H s object = some (r, s')) :
    s'.trace = s.trace ∨ ∃ path, s'.trace = s.trace ++ [Call.stat path] := by
  unfold get_fattr at h
  cases hfs : get_filesystem s object with
  | none => rw [hfs] at h; cases h
  | some q =>
    obtain ⟨⟨f, path, identifier⟩, s1⟩ := q
    have hs1 := (get_filesystem_some s s1 object _ _ _ hfs).2.2.1
    have ht : s1.trace = s.trace := by rw [hs1]
    rw [hfs] at h
    cases f with
    | none =>
      simp only [Option.some.injEq, Prod.mk.injEq] at h
      left; rw [← h.2, ht]
    | some filesystem =>
      simp only at h
      cases hstat : filesystem.stat with
      | none => rw [hstat] at h; cases h
      | some stat =>
        rw [hstat] at h
        simp only at h
        right
        refine ⟨path, ?_⟩
        cases hv : (stat path filesystem.context s1.world).value with
        | none =>
          rw [hv] at h
          simp only [Option.some.injEq, Prod.mk.injEq] at h
          rw [← h.2, ← ht]; rfl
        | some sbuf =>
          rw [hv] at h
          cases path with
          | none => cases h
          | some p =>
            simp only [Option.some.injEq, Prod.mk.injEq] at h
            rw [← h.2, ← ht]; rfl

theorem get_fattr_calls {σ : Type} (H : Host) (s s' : Server σ) (object : CStr)
    (r : nfsstat3 × Option fattr3) (h : get_fattr H s object = some (r, s')) :
    rollback_calls s'.trace = rollback_calls s.trace ∧
      setter_calls s'.trace = setter_calls s.trace := by
  rcases get_fattr_trace H s s' object r h with ht | ⟨path, ht⟩
  · rw [ht]; exact ⟨rfl, rfl⟩
  · rw [ht, rollback_calls_append, setter_calls_append]
    exact ⟨List.append_nil _, List.append_nil _⟩

theorem rollback_calls_requested (path : Option CStr) (attrs : sattr3) (done : List Call)
    (h : done <+: requested_calls path attrs) : rollback_calls done = [] := by
  unfold rollback_calls
  rw [List.filter_eq_nil_iff]
  intro c hc
  have hmem := h.subset hc
  unfold requested_calls at hmem
  simp only [List.mem_append] at hmem
  rcases hmem with (hmem | hmem) | hmem
  · cases hsz : attrs.size with
    | none => simp [hsz] at hmem
    | some size => simp [hsz] at hmem; subst hmem; simp
  · cases hm : attrs.mode with
    | none => simp [hm] at hmem
    | some mode => simp [hm] at hmem; subst hmem; simp
  · split at hmem
    · simp at hmem
    · simp at hmem; subst hmem; simp

theorem set_fattr_rollback_calls {σ : Type} (H : Host) (s s' : Server σ) (object : CStr)
    (attrs : sattr3) (status : nfsstat3) (h : set_fattr H s object attrs = some (status, s')) :
    rollback_calls s'.trace = rollback_calls s.trace := by
  cases hfs : get_filesystem s object with
  | none => unfold set_fattr at h; rw [hfs] at h; cases h
  | some q =>
    obtain ⟨⟨f, path, identifier⟩, s1⟩ := q
    cases f with
    | none =>
      have hs1 := (get_filesystem_some s s1 object _ _ _ hfs).2.2.1
      unfold set_fattr at h
      rw [hfs] at h
      simp only [Option.some.injEq, Prod.mk.injEq] at h
      rw [← h.2, hs1]
    | some filesystem =>
      obtain ⟨done, htr, hpre, _⟩ :=
        set_fattr_done H s s1 s' object attrs filesystem path identifier status hfs h
      rw [htr, rollback_calls_append, rollback_calls_requested path attrs done hpre,
        List.append_nil]

theorem create_mode_check_calls {σ : Type} (H : Host) (s s' : Server σ) (fh : CStr)
    (how : createhow3) (status : nfsstat3) (h : create_mode_check H s fh how = some (status, s')) :
    rollback_calls s'.trace = rollback_calls s.trace := by
  unfold create_mode_check at h
  cases how with
  | UNCHECKED a =>
    simp only [Option.some.injEq, Prod.mk.injEq] at h
    rw [← h.2]
  | EXCLUSIVE v =>
    simp only [Option.some.injEq, Prod.mk.injEq] at h
    rw [← h.2]
  | GUARDED a =>
    simp only at h
    cases hg : get_fattr H s fh with
    | none => rw [hg] at h; cases h
    | some q =>
      obtain ⟨⟨st, w⟩, s1⟩ := q
      rw [hg] at h
      simp only at h
      have := (get_fattr_calls H s s1 fh _ hg).1
      split at h <;>
        (simp only [Option.some.injEq, Prod.mk.injEq] at h; rw [← h.2]; exact this)

theorem get_required_post_op_calls {σ : Type} (H : Host) (s s' : Server σ) (object : CStr)
    (r : nfsstat3 × post_op_attr) (h : get_required_post_op H s object = some (r, s')) :
    rollback_calls s'.trace = rollback_calls s.trace := by
  unfold get_required_post_op at h
  cases hg : get_fattr H s object with
  | none => rw [hg] at h; cases h
  | some q =>
    obtain ⟨⟨st, w⟩, s1⟩ := q
    rw [hg] at h
    simp only [Option.some.injEq, Prod.mk.injEq] at h
    rw [← h.2]
    exact (get_fattr_calls H s s1 object _ hg).1

/-- What `get_fattr` stores, it stores with the process's uid and gid, and it
stores nothing unless its status is `NFS3_OK`. -/
theorem get_fattr_written {σ : Type} (H : Host) (s s' : Server σ) (object : CStr)
    (status : nfsstat3) (written : Option fattr3)
    (h : get_fattr H s object = some ((status, written), s')) :
    (status = NFS3_OK → ∃ attr, written = some attr ∧ attr.uid = H.uid ∧ attr.gid = H.gid) ∧
      (status ≠ NFS3_OK → written = none) := by
  unfold get_fattr at h
  cases hfs : get_filesystem s object with
  | none => rw [hfs] at h; cases h
  | some q =>
    obtain ⟨⟨f, path, identifier⟩, s1⟩ := q
    rw [hfs] at h
    cases f with
    | none =>
      simp only [Option.some.injEq, Prod.mk.injEq] at h
      obtain ⟨⟨rfl, rfl⟩, _⟩ := h
      exact ⟨fun h => absurd h (by decide), fun _ => rfl⟩
    | some filesystem =>
      simp only at h
      cases hstat : filesystem.stat with
      | none => rw [hstat] at h; cases h
      | some stat =>
        rw [hstat] at h
        simp only at h
        cases hv : (stat path filesystem.context s1.world).value with
        | none =>
          rw [hv] at h
          simp only [Option.some.injEq, Prod.mk.injEq] at h
          obtain ⟨⟨rfl, rfl⟩, _⟩ := h
          exact ⟨fun h => absurd h (convert_status_ne_ok H _ _ (by decide)), fun _ => rfl⟩
        | some sbuf =>
          rw [hv] at h
          cases path with
          | none => cases h
          | some p =>
            simp only [Option.some.injEq, Prod.mk.injEq] at h
            obtain ⟨⟨rfl, rfl⟩, _⟩ := h
            exact ⟨fun _ => ⟨_, rfl, rfl, rfl⟩, fun h => absurd rfl h⟩

/-! ## Rollback in CREATE and MKDIR -/

/-- C11: in CREATE, when the mode check passed, the create callback succeeded
and `set_fattr` on the new handle returned `setstatus`, the reply carries the
status `filter_status CREATE_labels setstatus`; when `setstatus` is not
`NFS3_OK`, this status is not `NFS3_OK` either, the engine invokes `remove` on
the path just created, keeping nothing of the outcome but the state the
application is left in, and that is the one call of `remove` or `rmdir` the
request adds to the record; when `setstatus` is `NFS3_OK` the request adds no
call of `remove` or `rmdir`.  The same holds for MKDIR, with the callbacks
`mkdir` and `rmdir`. -/
theorem rollback_on_attribute_failure {σ : Type} (H : Host) (s s1 : Server σ) (dir name : CStr)
    (filesystem : kfsfilesystem σ) (path : CStr) (identifier : Nat) (fspath fh : CStr)
    (hfs : get_filesystem s dir = some ((some filesystem, some path, identifier), s1))
    (hfspath : fspath = compose_path H path name)
    (hfh : fh = format_filehandle H identifier (kfs_fileid s1.registry identifier fspath).1) :
    (∀ (how : createhow3) (attrs : sattr3) (create : kfscreate_f σ) (remove : kfsremove_f σ)
        (s2 s4 s' : Server σ) (setstatus : nfsstat3) (post : nfsstat3 × post_op_attr),
      create_mode_check H
          { s1 with registry := (kfs_fileid s1.registry identifier fspath).2 } fh how
        = some (NFS3_OK, s2) →
      how.attributes = some attrs →
      filesystem.create = some create →
      filesystem.remove = some remove →
      (create (some fspath) filesystem.context s2.world).value = true →
      set_fattr H (s2.called (.create (some fspath))
          (create (some fspath) filesystem.context s2.world).world) fh attrs
        = some (setstatus, s4) →
      get_required_post_op H
          (if setstatus ≠ NFS3_OK then
             s4.called (.remove (some fspath))
               (remove (some fspath) filesystem.context s4.world).world
           else s4) fh = some (post, s') →
      nfsproc3_create_3_svc H s dir name how
          = some ({ status := filter_status CREATE_labels setstatus
                    resok := if filter_status CREATE_labels setstatus = NFS3_OK then
                        some { obj := fh, obj_attributes := post.2,
                               dir_wcc := (get_post_op, get_post_op) }
                      else none }, s') ∧
        (setstatus ≠ NFS3_OK →
          filter_status CREATE_labels setstatus ≠ NFS3_OK ∧
          rollback_calls s'.trace = rollback_calls s.trace ++ [.remove (some fspath)]) ∧
        (setstatus = NFS3_OK → rollback_calls s'.trace = rollback_calls s.trace)) ∧
    (∀ (attributes : sattr3) (mkdir : kfsmkdir_f σ) (rmdir : kfsrmdir_f σ)
        (s4 s' : Server σ) (setstatus : nfsstat3) (post : nfsstat3 × post_op_attr),
      filesystem.mkdir = some mkdir →
      filesystem.rmdir = some rmdir →
      (mkdir (some fspath) filesystem.context s1.world).value = true →
      set_fattr H
          (Server.called { s1 with registry := (kfs_fileid s1.registry identifier fspath).2 }
            (.mkdir (some fspath)) (mkdir (some fspath) filesystem.context s1.world).world)
          fh attributes
        = some (setstatus, s4) →
      get_required_post_op H
          (if setstatus ≠ NFS3_OK then
             s4.called (.rmdir (some fspath))
               (rmdir (some fspath) filesystem.context s4.world).world
           else s4) fh = some (post, s') →
      nfsproc3_mkdir_3_svc H s dir name attributes
          = some ({ status := filter_status CREATE_labels setstatus
                    resok := if filter_status CREATE_labels setstatus = NFS3_OK then
                        some { obj := fh, obj_attributes := post.2,
                               dir_wcc := (get_post_op, get_post_op) }
                      else none }, s') ∧
        (setstatus ≠ NFS3_OK →
          filter_status CREATE_labels setstatus ≠ NFS3_OK ∧
          rollback_calls s'.trace = rollback_calls s.trace ++ [.rmdir (some fspath)]) ∧
        (setstatus = NFS3_OK → rollback_calls s'.trace = rollback_calls s.trace)) := by
  have hs1 : s1.trace = s.trace := by
    have := (get_filesystem_some s s1 dir _ _ _ hfs).2.2.1
    rw [this]
  subst hfspath hfh
  constructor
  · intro how attrs create remove s2 s4 s' setstatus post hcheck hattrs hcreate hremove hok hset
      hpost
    have h2 := create_mode_check_calls H _ _ _ _ _ hcheck
    have h4 := set_fattr_rollback_calls H _ _ _ _ _ hset
    have h6 := get_required_post_op_calls H _ _ _ _ hpost
    simp only [Server.called, rollback_calls_append] at h4
    have h3 : rollback_calls [Call.create (some (compose_path H path name))] = [] := rfl
    rw [h3, List.append_nil, h2] at h4
    simp only at h4
    rw [hs1] at h4
    refine ⟨?_, ?_, ?_⟩
    · unfold nfsproc3_create_3_svc
      rw [hfs]
      simp only
      rw [hcheck]
      simp only [if_true]
      rw [hcreate, hattrs]
      simp only
      rw [if_pos hok, hset]
      simp only
      by_cases hne : setstatus = NFS3_OK
      · subst hne
        simp only [ne_eq, not_true_eq_false, if_false] at hpost ⊢
        rw [hpost]
      · simp only [ne_eq, hne, not_false_eq_true, if_true] at hpost ⊢
        unfold rollback_remove
        rw [hremove]
        simp only
        rw [hpost]
    · intro hne
      refine ⟨filter_status_ne_ok _ _ hne, ?_⟩
      rw [if_pos hne] at hpost
      have h6 := get_required_post_op_calls H _ _ _ _ hpost
      rw [h6]
      simp only [Server.called, rollback_calls_append]
      rw [h4]
      rfl
    · intro heq
      rw [if_neg (not_not.mpr heq)] at hpost
      have h6 := get_required_post_op_calls H _ _ _ _ hpost
      rw [h6, h4]
  · intro attributes mkdir rmdir s4 s' setstatus post hmkdir hrmdir hok hset hpost
    have h4 := set_fattr_rollback_calls H _ _ _ _ _ hset
    simp only [Server.called, rollback_calls_append] at h4
    have h3 : rollback_calls [Call.mkdir (some (compose_path H path name))] = [] := rfl
    rw [h3, List.append_nil, hs1] at h4
    refine ⟨?_, ?_, ?_⟩
    · unfold nfsproc3_mkdir_3_svc
      rw [hfs]
      simp only
      rw [hmkdir]
      simp only
      rw [if_pos hok, hset]
      simp only
      by_cases hne : setstatus = NFS3_OK
      · subst hne
        simp only [ne_eq, not_true_eq_false, if_false] at hpost ⊢
        rw [hpost]
      · simp only [ne_eq, hne, not_false_eq_true, if_true] at hpost ⊢
        unfold rollback_rmdir
        rw [hrmdir]
        simp only
        rw [hpost]
    · intro hne
      refine ⟨filter_status_ne_ok _ _ hne, ?_⟩
      rw [if_pos hne] at hpost
      have h6 := get_required_post_op_calls H _ _ _ _ hpost
      rw [h6]
      simp only [Server.called, rollback_calls_append]
      rw [h4]
      rfl
    · intro heq
      rw [if_neg (not_not.mpr heq)] at hpost
      have h6 := get_required_post_op_calls H _ _ _ _ hpost
      rw [h6, h4]

theorem rollback_on_attribute_failure_witness :
    (nfsproc3_create_3_svc darwin (fixedServer true false true) ['0'] ['a']
          (.UNCHECKED { sattr3.nothing with mode := some 0x1ff })
        = some ({ status := filter_status CREATE_labels NFS3ERR_ACCES
                  resok := if filter_status CREATE_labels NFS3ERR_ACCES = NFS3_OK then
                      some { obj := ['0', ':', '2']
                             obj_attributes :=
                               { attributes_follow := true
                                 attributes := some (fattr3_of_stat darwin (stat_of_mode 0x644) 2) }
                             dir_wcc := (get_post_op, get_post_op) }
                    else none },
            { fixedServer true false true with
              registry := memRegistry2
              trace := [.create (some ['/', 'a']), .chmod (some ['/', 'a']) 0x777,
                        .remove (some ['/', 'a']), .stat (some ['/', 'a'])] }) ∧
      (NFS3ERR_ACCES ≠ NFS3_OK →
        filter_status CREATE_labels NFS3ERR_ACCES ≠ NFS3_OK ∧
        rollback_calls [.create (some ['/', 'a']), .chmod (some ['/', 'a']) 0x777,
            .remove (some ['/', 'a']), .stat (some ['/', 'a'])]
          = rollback_calls (fixedServer true false true).trace ++ [.remove (some ['/', 'a'])]) ∧
      (NFS3ERR_ACCES = NFS3_OK →
        rollback_calls [.create (some ['/', 'a']), .chmod (some ['/', 'a']) 0x777,
            .remove (some ['/', 'a']), .stat (some ['/', 'a'])]
          = rollback_calls (fixedServer true false true).trace)) ∧
    (nfsproc3_mkdir_3_svc darwin (fixedServer true false true) ['0'] ['a']
          { sattr3.nothing with mode := some 0x1ff }
        = some ({ status := filter_status CREATE_labels NFS3ERR_ACCES
                  resok := if filter_status CREATE_labels NFS3ERR_ACCES = NFS3_OK then
                      some { obj := ['0', ':', '2']
                             obj_attributes :=
                               { attributes_follow := true
                                 attributes := some (fattr3_of_stat darwin (stat_of_mode 0x644) 2) }
                             dir_wcc := (get_post_op, get_post_op) }
                    else none },
            { fixedServer true false true with
              registry := memRegistry2
              trace := [.mkdir (some ['/', 'a']), .chmod (some ['/', 'a']) 0x777,
                        .rmdir (some ['/', 'a']), .stat (some ['/', 'a'])] }) ∧
      (NFS3ERR_ACCES ≠ NFS3_OK →
        filter_status CREATE_labels NFS3ERR_ACCES ≠ NFS3_OK ∧
        rollback_calls [.mkdir (some ['/', 'a']), .chmod (some ['/', 'a']) 0x777,
            .rmdir (some ['/', 'a']), .stat (some ['/', 'a'])]
          = rollback_calls (fixedServer true false true).trace ++ [.rmdir (some ['/', 'a'])]) ∧
      (NFS3ERR_ACCES = NFS3_OK →
        rollback_calls [.mkdir (some ['/', 'a']), .chmod (some ['/', 'a']) 0x777,
            .rmdir (some ['/', 'a']), .stat (some ['/', 'a'])]
          = rollback_calls (fixedServer true false true).trace)) :=
  ⟨(rollback_on_attribute_failure darwin (fixedServer true false true)
        { fixedServer true false true with registry := memRegistry1 } ['0'] ['a'] _ ['/'] 0
        ['/', 'a'] ['0', ':', '2'] rfl rfl rfl).1
      (.UNCHECKED { sattr3.nothing with mode := some 0x1ff })
      { sattr3.nothing with mode := some 0x1ff } _ _
      { fixedServer true false true with registry := memRegistry2 }
      { fixedServer true false true with
        registry := memRegistry2
        trace := [.create (some ['/', 'a']), .chmod (some ['/', 'a']) 0x777] }
      { fixedServer true false true with
        registry := memRegistry2
        trace := [.create (some ['/', 'a']), .chmod (some ['/', 'a']) 0x777,
                  .remove (some ['/', 'a']), .stat (some ['/', 'a'])] }
      NFS3ERR_ACCES
      (NFS3_OK, { attributes_follow := true
                  attributes := some (fattr3_of_stat darwin (stat_of_mode 0x644) 2) })
      rfl rfl rfl rfl rfl rfl rfl,
    (rollback_on_attribute_failure darwin (fixedServer true false true)
        { fixedServer true false true with registry := memRegistry1 } ['0'] ['a'] _ ['/'] 0
        ['/', 'a'] ['0', ':', '2'] rfl rfl rfl).2
      { sattr3.nothing with mode := some 0x1ff } _ _
      { fixedServer true false true with
        registry := memRegistry2
        trace := [.mkdir (some ['/', 'a']), .chmod (some ['/', 'a']) 0x777] }
      { fixedServer true false true with
        registry := memRegistry2
        trace := [.mkdir (some ['/', 'a']), .chmod (some ['/', 'a']) 0x777,
                  .rmdir (some ['/', 'a']), .stat (some ['/', 'a'])] }
      NFS3ERR_ACCES
      (NFS3_OK, { attributes_follow := true
                  attributes := some (fattr3_of_stat darwin (stat_of_mode 0x644) 2) })
      rfl rfl rfl rfl rfl⟩

/-! ## SETATTR and `set_fattr` -/

/-- C12: for a SETATTR whose guard has `check` set, on an object for which
`get_fattr` succeeds with the attributes `attr` and leaves the state `s1`: when
the guard's ctime differs from `attr.ctime` in its seconds or its nanoseconds,
the reply is `NFS3ERR_NOT_SYNC` and the record of calls holds no call of
truncate, chmod or utimes that it did not hold before; when both are equal, the
reply and the state are those of the same SETATTR without guard served in
`s1`. -/
theorem guarded_setattr {σ : Type} (H : Host) (s s1 : Server σ) (object : CStr)
    (new_attributes : sattr3) (guard : sattrguard3) (stack : fattr3) (attr : fattr3)
    (hcheck : guard.check = true)
    (hstat : get_fattr H s object = some ((NFS3_OK, some attr), s1)) :
    (attr.ctime.seconds ≠ guard.obj_ctime.seconds ∨
        attr.ctime.nseconds ≠ guard.obj_ctime.nseconds →
      nfsproc3_setattr_3_svc H s object new_attributes guard stack
          = some ({ status := NFS3ERR_NOT_SYNC, resok := none }, s1) ∧
        setter_calls s1.trace = setter_calls s.trace) ∧
    (attr.ctime.seconds = guard.obj_ctime.seconds ∧
        attr.ctime.nseconds = guard.obj_ctime.nseconds →
      nfsproc3_setattr_3_svc H s object new_attributes guard stack
        = nfsproc3_setattr_3_svc H s1 object new_attributes { guard with check := false }
            stack) := by
  constructor
  · intro hne
    refine ⟨?_, (get_fattr_calls H s s1 object _ hstat).2⟩
    unfold nfsproc3_setattr_3_svc setattr_guard_check
    rw [if_pos hcheck, hstat]
    simp only [Option.getD_some]
    rw [if_pos hne]
    rfl
  · intro heq
    unfold nfsproc3_setattr_3_svc setattr_guard_check
    rw [if_pos hcheck, hstat]
    simp only [Option.getD_some]
    rw [if_neg (by rw [heq.1, heq.2]; simp)]
    simp

theorem guarded_setattr_witness :
    ((fattr3_of_stat darwin (stat_of_mode 0x644) 1).ctime.seconds ≠ 5 ∨
        (fattr3_of_stat darwin (stat_of_mode 0x644) 1).ctime.nseconds ≠ 8 →
      nfsproc3_setattr_3_svc darwin (fixedServer true true true) ['0'] sattr3.sample
            ⟨true, ⟨5, 8⟩⟩ fattr3.zero
          = some ({ status := NFS3ERR_NOT_SYNC, resok := none },
              { fixedServer true true true with
                registry := memRegistry1, trace := [.stat (some ['/'])] }) ∧
        setter_calls [.stat (some ['/'])]
          = setter_calls (fixedServer true true true).trace) ∧
    ((fattr3_of_stat darwin (stat_of_mode 0x644) 1).ctime.seconds = 5 ∧
        (fattr3_of_stat darwin (stat_of_mode 0x644) 1).ctime.nseconds = 8 →
      nfsproc3_setattr_3_svc darwin (fixedServer true true true) ['0'] sattr3.sample
          ⟨true, ⟨5, 8⟩⟩ fattr3.zero
        = nfsproc3_setattr_3_svc darwin
            { fixedServer true true true with
              registry := memRegistry1, trace := [.stat (some ['/'])] }
            ['0'] sattr3.sample ⟨false, ⟨5, 8⟩⟩ fattr3.zero) :=
  guarded_setattr darwin (fixedServer true true true)
    { fixedServer true true true with registry := memRegistry1, trace := [.stat (some ['/'])] }
    ['0'] sattr3.sample ⟨true, ⟨5, 8⟩⟩ fattr3.zero
    (fattr3_of_stat darwin (stat_of_mode 0x644) 1) rfl rfl

/-- C13: `set_fattr` on a handle that names a mount makes the calls the request
asks for, in the order truncate, chmod, utimes and each only when its `set_it`
flag is set, and stops at the first failure: its result is the result of
applying these calls in order (a failure's mapped status returned as it is, the
uid and gid checks made only when no call failed), and the calls it adds to the
record are an initial part of the requested ones, all of them when the status
is `NFS3_OK`. -/
theorem set_fattr_applies_in_order {σ : Type} (H : Host) (s s1 : Server σ) (object : CStr)
    (attrs : sattr3) (filesystem : kfsfilesystem σ) (path : Option CStr) (identifier : Nat)
    (hfs : get_filesystem s object = some ((some filesystem, path, identifier), s1)) :
    set_fattr H s object attrs =
        (match apply_in_order H filesystem (requested_calls path attrs) 0 s1 with
         | none => none
         | some (status, _, s2) =>
           some (if status = NFS3_OK then set_fattr_gid H attrs (set_fattr_uid H attrs NFS3_OK)
                 else status, s2)) ∧
      ∀ status s', set_fattr H s object attrs = some (status, s') →
        ∃ done, s'.trace = s.trace ++ done ∧ done <+: requested_calls path attrs ∧
          (status = NFS3_OK → done = requested_calls path attrs) :=
  ⟨set_fattr_eq H s s1 object attrs filesystem path identifier hfs,
    fun status s' hret =>
      set_fattr_done H s s1 s' object attrs filesystem path identifier status hfs hret⟩

theorem set_fattr_applies_in_order_witness :
    set_fattr darwin (fixedServer true false true) ['0'] sattr3.sample =
        (match apply_in_order darwin
            (install_noimp (kfsfilesystem_duplicate (fixedfs (stat_of_mode 0x644) true false true)))
            (requested_calls (some ['/']) sattr3.sample) 0
            { fixedServer true false true with registry := memRegistry1 } with
         | none => none
         | some (status, _, s2) =>
           some (if status = NFS3_OK then
                   set_fattr_gid darwin sattr3.sample (set_fattr_uid darwin sattr3.sample NFS3_OK)
                 else status, s2)) ∧
      ∀ status s',
        set_fattr darwin (fixedServer true false true) ['0'] sattr3.sample = some (status, s') →
        ∃ done, s'.trace = (fixedServer true false true).trace ++ done ∧
          done <+: requested_calls (some ['/']) sattr3.sample ∧
          (status = NFS3_OK → done = requested_calls (some ['/']) sattr3.sample) :=
  set_fattr_applies_in_order darwin (fixedServer true false true)
    { fixedServer true false true with registry := memRegistry1 }
    ['0'] _ _ (some ['/']) 0 rfl

/-- C14, as amended: when the request without its uid and gid parts succeeds,
the request succeeds if and only if the uid it asks for (if any) is the
process's and the gid it asks for (if any) is the process's or 0; otherwise its
status is `NFS3ERR_NOTSUPP`.  The callbacks invoked are the same. -/
theorem set_fattr_owner_check {σ : Type} (H : Host) (s s' : Server σ) (object : CStr)
    (attrs : sattr3)
    (h : set_fattr H s object { attrs with uid := none, gid := none } = some (NFS3_OK, s')) :
    set_fattr H s object attrs =
      some (if (attrs.uid = none ∨ attrs.uid = some H.uid) ∧
                (attrs.gid = none ∨ attrs.gid = some H.gid ∨ attrs.gid = some 0)
            then NFS3_OK else NFS3ERR_NOTSUPP, s') := by
  unfold set_fattr at h ⊢
  cases hfs : get_filesystem s object with
  | none => rw [hfs] at h; cases h
  | some r =>
    obtain ⟨⟨f, path, identifier⟩, s1⟩ := r
    rw [hfs] at h
    cases f with
    | none => simp only [Option.some.injEq, Prod.mk.injEq] at h; exact absurd h.1 (by decide)
    | some filesystem =>
      simp only at h ⊢
      have e1 : ∀ st e x, set_fattr_size H filesystem path { attrs with uid := none, gid := none } st e x
          = set_fattr_size H filesystem path attrs st e x := fun _ _ _ => rfl
      have e2 : ∀ st e x, set_fattr_mode H filesystem path { attrs with uid := none, gid := none } st e x
          = set_fattr_mode H filesystem path attrs st e x := fun _ _ _ => rfl
      have e3 : ∀ st e x, set_fattr_times H filesystem path { attrs with uid := none, gid := none } st e x
          = set_fattr_times H filesystem path attrs st e x := fun _ _ _ => rfl
      simp only [e1, e2, e3] at h
      cases h1 : set_fattr_size H filesystem path attrs NFS3_OK 0 s1 with
      | none => rw [h1] at h; cases h
      | some r1 =>
        obtain ⟨status1, error1, s2⟩ := r1
        rw [h1] at h
        simp only at h ⊢
        cases h2 : set_fattr_mode H filesystem path attrs status1 error1 s2 with
        | none => rw [h2] at h; cases h
        | some r2 =>
          obtain ⟨status2, error2, s3⟩ := r2
          rw [h2] at h
          simp only at h ⊢
          cases h3 : set_fattr_times H filesystem path attrs status2 error2 s3 with
          | none => rw [h3] at h; cases h
          | some r3 =>
            obtain ⟨status3, error3, s4⟩ := r3
            rw [h3] at h
            simp only [Option.some.injEq, Prod.mk.injEq] at h ⊢
            obtain ⟨hst, rfl⟩ := h
            have hst3 : status3 = NFS3_OK := hst
            subst hst3
            refine ⟨?_, rfl⟩
            unfold set_fattr_gid set_fattr_uid
            cases hu : attrs.uid with
            | none =>
              cases hg : attrs.gid with
              | none => simp
              | some gid =>
                simp only [true_and, Option.some.injEq, false_or, true_or, reduceCtorEq]
                by_cases h1 : gid = H.gid
                · simp [h1]
                · by_cases h0 : gid = 0
                  · simp [h0]
                  · simp [h1, h0]
            | some uid =>
              by_cases hu1 : uid = H.uid
              · cases hg : attrs.gid with
                | none => simp [hu1]
                | some gid =>
                  simp only [true_and, Option.some.injEq, false_or, true_or, reduceCtorEq, hu1]
                  by_cases h1 : gid = H.gid
                  · simp [h1]
                  · by_cases h0 : gid = 0
                    · simp [h0]
                    · simp [h1, h0]
              · cases hg : attrs.gid with
                | none => simp [hu1]
                | some gid => simp [hu1]

theorem set_fattr_owner_check_witness :
    set_fattr darwin (fixedServer true true true) ['0']
        { sattr3.sample with uid := some 501, gid := some 7 } =
      some (if (({ sattr3.sample with uid := some 501, gid := some 7 } : sattr3).uid = none ∨
                ({ sattr3.sample with uid := some 501, gid := some 7 } : sattr3).uid
                  = some darwin.uid) ∧
               (({ sattr3.sample with uid := some 501, gid := some 7 } : sattr3).gid = none ∨
                ({ sattr3.sample with uid := some 501, gid := some 7 } : sattr3).gid
                  = some darwin.gid ∨
                ({ sattr3.sample with uid := some 501, gid := some 7 } : sattr3).gid = some 0)
            then NFS3_OK else NFS3ERR_NOTSUPP,
        { fixedServer true true true with
          registry := memRegistry1
          trace := [.truncate (some ['/']) 3, .chmod (some ['/']) 0x644,
                    .utimes (some ['/']) none (some ⟨8, 9⟩)] }) :=
  set_fattr_owner_check darwin (fixedServer true true true) _ ['0']
    { sattr3.sample with uid := some 501, gid := some 7 } rfl

/-- C14, the claim at a failing input: on a host whose process has gid 20, a
request to set gid 0 succeeds, although 0 is not the process's gid. -/
theorem set_fattr_gid_zero_accepted :
    (set_fattr darwin (fixedServer true true true) ['0']
        { sattr3.nothing with gid := some 0 }).map (·.1) = some NFS3_OK ∧
      ¬ ((set_fattr darwin (fixedServer true true true) ['0']
            { sattr3.nothing with gid := some 0 }).map (·.1) = some NFS3_OK ↔ 0 = darwin.gid) := by
  refine ⟨by decide, by decide⟩

/-! ## Modes and times -/

theorem and_mod_of_lt (m c n : Nat) (hc : c < 2 ^ n) : m &&& c = (m % 2 ^ n) &&& c := by
  apply Nat.eq_of_testBit_eq
  intro i
  rw [Nat.testBit_and, Nat.testBit_and, Nat.testBit_mod_two_pow]
  by_cases hi : i < n
  · simp [hi]
  · have hci : c.testBit i = false :=
      Nat.testBit_lt_two_pow (Nat.lt_of_lt_of_le hc (Nat.pow_le_pow_right (by decide) (by omega)))
    simp [hci]

theorem kfs_mode_of_nfs_mod (m : Nat) : kfs_mode_of_nfs m = kfs_mode_of_nfs (m % 2 ^ 9) := by
  unfold kfs_mode_of_nfs
  rw [and_mod_of_lt m NFS_IRUSR 9 (by decide), and_mod_of_lt m NFS_IWUSR 9 (by decide),
    and_mod_of_lt m NFS_IXUSR 9 (by decide), and_mod_of_lt m NFS_IRGRP 9 (by decide),
    and_mod_of_lt m NFS_IWGRP 9 (by decide), and_mod_of_lt m NFS_IXGRP 9 (by decide),
    and_mod_of_lt m NFS_IROTH 9 (by decide), and_mod_of_lt m NFS_IWOTH 9 (by decide),
    and_mod_of_lt m NFS_IXOTH 9 (by decide)]

theorem nfs_mode_of_kfs_mod (k : Nat) : nfs_mode_of_kfs k = nfs_mode_of_kfs (k % 2 ^ 11) := by
  unfold nfs_mode_of_kfs
  rw [and_mod_of_lt k KFS_IRUSR 11 (by decide), and_mod_of_lt k KFS_IWUSR 11 (by decide),
    and_mod_of_lt k KFS_IXUSR 11 (by decide), and_mod_of_lt k KFS_IRGRP 11 (by decide),
    and_mod_of_lt k KFS_IWGRP 11 (by decide), and_mod_of_lt k KFS_IXGRP 11 (by decide),
    and_mod_of_lt k KFS_IROTH 11 (by decide), and_mod_of_lt k KFS_IWOTH 11 (by decide),
    and_mod_of_lt k KFS_IXOTH 11 (by decide)]

theorem nfs_roundtrip_split : ∀ a, a < 16 → ∀ b, b < 32 →
    nfs_mode_of_kfs (kfs_mode_of_nfs (a * 32 + b)) =
      (a * 32 + b) &&& (NFS_IRUSR ||| NFS_IWUSR ||| NFS_IXUSR ||| NFS_IRGRP ||| NFS_IWGRP |||
        NFS_IXGRP ||| NFS_IROTH ||| NFS_IWOTH ||| NFS_IXOTH) := by
  decide

theorem nfs_roundtrip_small (m : Nat) (h : m < 2 ^ 9) :
    nfs_mode_of_kfs (kfs_mode_of_nfs m) =
      m &&& (NFS_IRUSR ||| NFS_IWUSR ||| NFS_IXUSR ||| NFS_IRGRP ||| NFS_IWGRP ||| NFS_IXGRP |||
        NFS_IROTH ||| NFS_IWOTH ||| NFS_IXOTH) := by
  have := nfs_roundtrip_split (m / 32) (by omega) (m % 32) (Nat.mod_lt _ (by decide))
  rwa [Nat.div_add_mod' m 32] at this

set_option maxRecDepth 4000 in
theorem kfs_roundtrip_split : ∀ a, a < 32 → ∀ b, b < 64 →
    kfs_mode_of_nfs (nfs_mode_of_kfs (a * 64 + b)) =
      (a * 64 + b) &&& (KFS_IRUSR ||| KFS_IWUSR ||| KFS_IXUSR ||| KFS_IRGRP ||| KFS_IWGRP |||
        KFS_IXGRP ||| KFS_IROTH ||| KFS_IWOTH ||| KFS_IXOTH) := by
  decide

theorem kfs_roundtrip_small (k : Nat) (h : k < 2 ^ 11) :
    kfs_mode_of_nfs (nfs_mode_of_kfs k) =
      k &&& (KFS_IRUSR ||| KFS_IWUSR ||| KFS_IXUSR ||| KFS_IRGRP ||| KFS_IWGRP ||| KFS_IXGRP |||
        KFS_IROTH ||| KFS_IWOTH ||| KFS_IXOTH) := by
  have := kfs_roundtrip_split (k / 64) (by omega) (k % 64) (Nat.mod_lt _ (by decide))
  rwa [Nat.div_add_mod' k 64] at this

/-- C15: for every number `m`, the mode translation of `set_fattr` followed by
that of `get_fattr` gives `m` restricted to the nine permission bits (0x1ff);
for every number `k`, the translation of `get_fattr` followed by that of
`set_fattr` gives `k` restricted to the nine bits `kfsmode_t` defines (0x777);
and for a mode that `set_fattr` handed to chmod, `get_fattr` reports the
requested mode restricted to the nine permission bits. -/
theorem mode_translations_inverse :
    (∀ m, nfs_mode_of_kfs (kfs_mode_of_nfs m) =
      m &&& (NFS_IRUSR ||| NFS_IWUSR ||| NFS_IXUSR ||| NFS_IRGRP ||| NFS_IWGRP ||| NFS_IXGRP |||
        NFS_IROTH ||| NFS_IWOTH ||| NFS_IXOTH)) ∧
    (∀ k, kfs_mode_of_nfs (nfs_mode_of_kfs k) =
      k &&& (KFS_IRUSR ||| KFS_IWUSR ||| KFS_IXUSR ||| KFS_IRGRP ||| KFS_IWGRP ||| KFS_IXGRP |||
        KFS_IROTH ||| KFS_IWOTH ||| KFS_IXOTH)) ∧
    (NFS_IRUSR ||| NFS_IWUSR ||| NFS_IXUSR ||| NFS_IRGRP ||| NFS_IWGRP ||| NFS_IXGRP |||
        NFS_IROTH ||| NFS_IWOTH ||| NFS_IXOTH) = 0x1ff ∧
    (KFS_IRUSR ||| KFS_IWUSR ||| KFS_IXUSR ||| KFS_IRGRP ||| KFS_IWGRP ||| KFS_IXGRP |||
        KFS_IROTH ||| KFS_IWOTH ||| KFS_IXOTH) = 0x777 ∧
    (∀ (H : Host) (sbuf : kfsstat) (fileid m : Nat),
      (fattr3_of_stat H { sbuf with mode := kfs_mode_of_nfs m } fileid).mode = m &&& 0x1ff) := by
  have hnfs : ∀ m, nfs_mode_of_kfs (kfs_mode_of_nfs m) =
      m &&& (NFS_IRUSR ||| NFS_IWUSR ||| NFS_IXUSR ||| NFS_IRGRP ||| NFS_IWGRP ||| NFS_IXGRP |||
        NFS_IROTH ||| NFS_IWOTH ||| NFS_IXOTH) := by
    intro m
    rw [kfs_mode_of_nfs_mod, nfs_roundtrip_small _ (Nat.mod_lt _ (by decide))]
    exact (and_mod_of_lt m _ 9 (by decide)).symm
  refine ⟨hnfs, ?_, by decide, by decide, ?_⟩
  · intro k
    rw [nfs_mode_of_kfs_mod, kfs_roundtrip_small _ (Nat.mod_lt _ (by decide))]
    exact (and_mod_of_lt k _ 11 (by decide)).symm
  · intro H sbuf fileid m
    exact hnfs m

/-- C16: on a handle that names a mount, for a request that asks for a time:
when the same request without its times, uid and gid succeeds and leaves the
state `s2`, `set_fattr` invokes utimes once, in `s2`, with the seconds and the
nanoseconds of each requested time unchanged and an absent time for the one
that is not requested, and no call of utimes precedes it.  And when stat
returns `sbuf`, GETATTR replies `NFS3_OK` with attributes whose atime and mtime
are the 32-bit times `sbuf` holds, seconds and nanoseconds unchanged. -/
theorem utimes_roundtrip {σ : Type} (H : Host) (s s1 : Server σ) (object : CStr)
    (filesystem : kfsfilesystem σ) (path : Option CStr) (identifier : Nat)
    (hfs : get_filesystem s object = some ((some filesystem, path, identifier), s1)) :
    (∀ (attrs : sattr3) (utimes : kfsutimes_f σ) (s2 : Server σ),
      attrs.atime.set_it ≠ .DONT_CHANGE ∨ attrs.mtime.set_it ≠ .DONT_CHANGE →
      filesystem.utimes = some utimes →
      set_fattr H s object
          { attrs with atime := ⟨.DONT_CHANGE, attrs.atime.time⟩
                       mtime := ⟨.DONT_CHANGE, attrs.mtime.time⟩
                       uid := none, gid := none } = some (NFS3_OK, s2) →
      ∃ status pre,
        set_fattr H s object attrs
          = some (status,
              s2.called
                (.utimes path
                  (if attrs.atime.set_it = .DONT_CHANGE then none
                   else some ⟨attrs.atime.time.seconds, attrs.atime.time.nseconds⟩)
                  (if attrs.mtime.set_it = .DONT_CHANGE then none
                   else some ⟨attrs.mtime.time.seconds, attrs.mtime.time.nseconds⟩))
                (utimes path
                  (if attrs.atime.set_it = .DONT_CHANGE then none
                   else some ⟨attrs.atime.time.seconds, attrs.atime.time.nseconds⟩)
                  (if attrs.mtime.set_it = .DONT_CHANGE then none
                   else some ⟨attrs.mtime.time.seconds, attrs.mtime.time.nseconds⟩)
                  filesystem.context s2.world).world) ∧
        s2.trace = s.trace ++ pre ∧ ∀ c ∈ pre, ∀ p a m, c ≠ Call.utimes p a m) ∧
    (∀ (p : CStr) (stat : kfsstat_f σ) (sbuf : kfsstat),
      path = some p →
      filesystem.stat = some stat →
      (stat path filesystem.context s1.world).value = some sbuf →
      ∃ attr s', nfsproc3_getattr_3_svc H s object
          = some ({ status := NFS3_OK, resok := some attr }, s') ∧
        ∀ t : nfstime3, t.seconds < 2 ^ 32 → t.nseconds < 2 ^ 32 →
          (sbuf.atime = ⟨t.seconds, t.nseconds⟩ → attr.atime = t) ∧
          (sbuf.mtime = ⟨t.seconds, t.nseconds⟩ → attr.mtime = t)) := by
  constructor
  · intro attrs utimes s2 hreq hutimes hpre
    obtain ⟨pre, hpre_tr, hpre_pre, _⟩ :=
      set_fattr_done H s s1 s2 object _ filesystem path identifier NFS3_OK hfs hpre
    unfold set_fattr at hpre ⊢
    rw [hfs] at hpre ⊢
    simp only at hpre ⊢
    have e1 : ∀ st e x, set_fattr_size H filesystem path
        { attrs with atime := ⟨.DONT_CHANGE, attrs.atime.time⟩
                     mtime := ⟨.DONT_CHANGE, attrs.mtime.time⟩
                     uid := none, gid := none } st e x
        = set_fattr_size H filesystem path attrs st e x := fun _ _ _ => rfl
    have e2 : ∀ st e x, set_fattr_mode H filesystem path
        { attrs with atime := ⟨.DONT_CHANGE, attrs.atime.time⟩
                     mtime := ⟨.DONT_CHANGE, attrs.mtime.time⟩
                     uid := none, gid := none } st e x
        = set_fattr_mode H filesystem path attrs st e x := fun _ _ _ => rfl
    have e3 : ∀ st e x, set_fattr_times H filesystem path
        { attrs with atime := ⟨.DONT_CHANGE, attrs.atime.time⟩
                     mtime := ⟨.DONT_CHANGE, attrs.mtime.time⟩
                     uid := none, gid := none } st e x
        = some (st, e, x) := by
      intro st e x
      unfold set_fattr_times
      rw [if_neg (by simp)]
    simp only [e1, e2, e3] at hpre
    cases h1 : set_fattr_size H filesystem path attrs NFS3_OK 0 s1 with
    | none => rw [h1] at hpre; cases hpre
    | some r1 =>
      obtain ⟨status1, error1, s2'⟩ := r1
      rw [h1] at hpre
      simp only at hpre ⊢
      cases h2 : set_fattr_mode H filesystem path attrs status1 error1 s2' with
      | none => rw [h2] at hpre; cases hpre
      | some r2 =>
        obtain ⟨status2, error2, s3⟩ := r2
        rw [h2] at hpre
        simp only [Option.some.injEq, Prod.mk.injEq] at hpre ⊢
        obtain ⟨hst, rfl⟩ := hpre
        have hst2 : status2 = NFS3_OK := hst
        subst hst2
        obtain ⟨st, e', h3⟩ :=
          set_fattr_times_called H filesystem path attrs error2 s3 utimes hreq hutimes
        rw [h3]
        refine ⟨_, pre, rfl, hpre_tr, ?_⟩
        · intro c hc p a m hcm
          subst hcm
          have hmem := hpre_pre.subset hc
          unfold requested_calls at hmem
          simp only [List.mem_append] at hmem
          rcases hmem with (hmem | hmem) | hmem
          · cases hsz : attrs.size with
            | none => simp [hsz] at hmem
            | some size => simp [hsz] at hmem
          · cases hm : attrs.mode with
            | none => simp [hm] at hmem
            | some mode => simp [hm] at hmem
          · simp at hmem
  · intro p stat sbuf hp hstat hsbuf
    subst hp
    unfold nfsproc3_getattr_3_svc get_fattr
    rw [hfs]
    simp only
    rw [hstat]
    simp only
    rw [hsbuf]
    simp only [if_true]
    refine ⟨_, _, rfl, ?_⟩
    intro t hs hn
    constructor
    · intro h
      simp only [fattr3_of_stat, h, Nat.mod_eq_of_lt hs, Nat.mod_eq_of_lt hn]
    · intro h
      simp only [fattr3_of_stat, h, Nat.mod_eq_of_lt hs, Nat.mod_eq_of_lt hn]

theorem utimes_roundtrip_witness :
    (∃ status pre,
      set_fattr darwin
          (mounted (fixedfs { stat_of_mode 0x644 with mtime := ⟨8, 9⟩ } true true true) ()) ['0']
          sattr3.sample
        = some (status,
            { mounted (fixedfs { stat_of_mode 0x644 with mtime := ⟨8, 9⟩ } true true true) () with
              registry := memRegistry1
              trace := [.truncate (some ['/']) 3, .chmod (some ['/']) 0x644,
                        .utimes (some ['/']) none (some ⟨8, 9⟩)] }) ∧
      [Call.truncate (some ['/']) 3, Call.chmod (some ['/']) 0x644]
        = (mounted (fixedfs { stat_of_mode 0x644 with mtime := ⟨8, 9⟩ } true true true)
            ()).trace ++ pre ∧
      ∀ c ∈ pre, ∀ p a m, c ≠ Call.utimes p a m) ∧
    (∃ attr s',
      nfsproc3_getattr_3_svc darwin
          (mounted (fixedfs { stat_of_mode 0x644 with mtime := ⟨8, 9⟩ } true true true) ()) ['0']
        = some ({ status := NFS3_OK, resok := some attr }, s') ∧
      ∀ t : nfstime3, t.seconds < 2 ^ 32 → t.nseconds < 2 ^ 32 →
        (({ stat_of_mode 0x644 with mtime := ⟨8, 9⟩ } : kfsstat).atime
            = ⟨t.seconds, t.nseconds⟩ → attr.atime = t) ∧
        (({ stat_of_mode 0x644 with mtime := ⟨8, 9⟩ } : kfsstat).mtime
            = ⟨t.seconds, t.nseconds⟩ → attr.mtime = t)) :=
  ⟨(utimes_roundtrip darwin
        (mounted (fixedfs { stat_of_mode 0x644 with mtime := ⟨8, 9⟩ } true true true) ())
        { mounted (fixedfs { stat_of_mode 0x644 with mtime := ⟨8, 9⟩ } true true true) () with
          registry := memRegistry1 }
        ['0'] _ (some ['/']) 0 rfl).1 sattr3.sample _
      { mounted (fixedfs { stat_of_mode 0x644 with mtime := ⟨8, 9⟩ } true true true) () with
        registry := memRegistry1
        trace := [.truncate (some ['/']) 3, .chmod (some ['/']) 0x644] }
      (Or.inr (by decide)) rfl rfl,
    (utimes_roundtrip darwin
        (mounted (fixedfs { stat_of_mode 0x644 with mtime := ⟨8, 9⟩ } true true true) ())
        { mounted (fixedfs { stat_of_mode 0x644 with mtime := ⟨8, 9⟩ } true true true) () with
          registry := memRegistry1 }
        ['0'] _ (some ['/']) 0 rfl).2 ['/'] _ { stat_of_mode 0x644 with mtime := ⟨8, 9⟩ }
      rfl rfl rfl⟩

/-! ## ACCESS -/

/-- One of the three `if` chains of `nfsproc3_access_3_svc`, for an object that
carries the process's uid and gid. -/
theorem access_chain (mode usr grp oth flags granted uid gid puid pgid : Nat)
    (hu : uid = puid) (hg : gid = pgid) :
    (if mode &&& usr ≠ 0 ∧ uid = puid then flags ||| granted
      else if mode &&& grp ≠ 0 ∧ gid = pgid then flags ||| granted
      else if mode &&& oth ≠ 0 then flags ||| granted
      else flags)
      = flags ||| (if mode &&& usr ≠ 0 ∨ mode &&& grp ≠ 0 ∨ mode &&& oth ≠ 0 then granted
                   else 0) := by
  by_cases h1 : mode &&& usr ≠ 0 <;> by_cases h2 : mode &&& grp ≠ 0 <;>
    by_cases h3 : mode &&& oth ≠ 0 <;> simp [h1, h2, h3, hu, hg]

/-- What `nfsproc3_access_3_svc` computes: it replies `NFS3_OK` whatever
`get_fattr` returns.  When `get_fattr` stored attributes, which carry the
process's uid and gid, the mask has `ACCESS3_READ` exactly when the user, the
group or the other read bit of the mode is set, MODIFY, EXTEND and DELETE
exactly when one of the three write bits is set, and EXECUTE and LOOKUP
exactly when one of the three execute bits is set; when `get_fattr` stored
nothing the mask is 0. -/
theorem access_grants_any_class {σ : Type} (H : Host) (s s1 : Server σ) (object : CStr)
    (status : nfsstat3) (written : Option fattr3)
    (h : get_fattr H s object = some ((status, written), s1)) :
    ∃ access, nfsproc3_access_3_svc H s object
        = some ({ status := NFS3_OK
                  resok := some { obj_attributes := get_post_op, access := access } }, s1) ∧
      (∀ attr, written = some attr →
        access =
          (if attr.mode &&& NFS_IRUSR ≠ 0 ∨ attr.mode &&& NFS_IRGRP ≠ 0 ∨
              attr.mode &&& NFS_IROTH ≠ 0 then ACCESS3_READ else 0) |||
          (if attr.mode &&& NFS_IWUSR ≠ 0 ∨ attr.mode &&& NFS_IWGRP ≠ 0 ∨
              attr.mode &&& NFS_IWOTH ≠ 0 then
            ACCESS3_MODIFY ||| ACCESS3_EXTEND ||| ACCESS3_DELETE else 0) |||
          (if attr.mode &&& NFS_IXUSR ≠ 0 ∨ attr.mode &&& NFS_IXGRP ≠ 0 ∨
              attr.mode &&& NFS_IXOTH ≠ 0 then ACCESS3_EXECUTE ||| ACCESS3_LOOKUP else 0)) ∧
      (written = none → access = 0) := by
  obtain ⟨hok, hfail⟩ := get_fattr_written H s s1 object status written h
  unfold nfsproc3_access_3_svc
  rw [h]
  simp only
  refine ⟨_, rfl, ?_, ?_⟩
  · intro attr hw
    subst hw
    have hst : status = NFS3_OK := by
      by_contra hne
      exact absurd (hfail hne) (by simp)
    obtain ⟨attr', hw, hu, hg⟩ := hok hst
    simp only [Option.some.injEq] at hw
    subst hw
    simp only [Option.getD_some]
    rw [access_chain attr.mode NFS_IRUSR NFS_IRGRP NFS_IROTH 0 ACCESS3_READ _ _ _ _ hu hg,
      access_chain attr.mode NFS_IWUSR NFS_IWGRP NFS_IWOTH _
        (ACCESS3_MODIFY ||| ACCESS3_EXTEND ||| ACCESS3_DELETE) _ _ _ _ hu hg,
      access_chain attr.mode NFS_IXUSR NFS_IXGRP NFS_IXOTH _
        (ACCESS3_EXECUTE ||| ACCESS3_LOOKUP) _ _ _ _ hu hg, Nat.zero_or]
  · intro hw
    subst hw
    rfl

theorem access_grants_any_class_witness :
    ∃ access, nfsproc3_access_3_svc darwin (fixedServer true true true) ['0']
        = some ({ status := NFS3_OK
                  resok := some { obj_attributes := get_post_op, access := access } },
            { fixedServer true true true with
              registry := memRegistry1, trace := [.stat (some ['/'])] }) ∧
      (∀ attr, some (fattr3_of_stat darwin (stat_of_mode 0x644) 1) = some attr →
        access =
          (if attr.mode &&& NFS_IRUSR ≠ 0 ∨ attr.mode &&& NFS_IRGRP ≠ 0 ∨
              attr.mode &&& NFS_IROTH ≠ 0 then ACCESS3_READ else 0) |||
          (if attr.mode &&& NFS_IWUSR ≠ 0 ∨ attr.mode &&& NFS_IWGRP ≠ 0 ∨
              attr.mode &&& NFS_IWOTH ≠ 0 then
            ACCESS3_MODIFY ||| ACCESS3_EXTEND ||| ACCESS3_DELETE else 0) |||
          (if attr.mode &&& NFS_IXUSR ≠ 0 ∨ attr.mode &&& NFS_IXGRP ≠ 0 ∨
              attr.mode &&& NFS_IXOTH ≠ 0 then ACCESS3_EXECUTE ||| ACCESS3_LOOKUP else 0)) ∧
      (some (fattr3_of_stat darwin (stat_of_mode 0x644) 1) = none → access = 0) :=
  access_grants_any_class darwin (fixedServer true true true)
    { fixedServer true true true with registry := memRegistry1, trace := [.stat (some ['/'])] }
    ['0'] NFS3_OK (some (fattr3_of_stat darwin (stat_of_mode 0x644) 1)) rfl

/-- C17, the code at failing inputs: for an object of the process's own uid
whose mode has the group-read bit alone, ACCESS grants READ although the
user-read bit is not set; with the other-write bit alone it grants MODIFY,
EXTEND and DELETE although the user-write bit is not set; and with the
group-execute bit alone it grants EXECUTE and LOOKUP although the user-execute
bit is not set.  (With no bit set it grants nothing.) -/
theorem access_group_bit_grants_owner :
    (nfsproc3_access_3_svc darwin (mounted (fixedfs (stat_of_mode KFS_IRGRP) true true true) ())
        ['0']).map (fun r => (r.1.status, r.1.resok.map (·.access)))
      = some (NFS3_OK, some ACCESS3_READ) ∧
    nfs_mode_of_kfs (stat_of_mode KFS_IRGRP).mode &&& NFS_IRUSR = 0 ∧
    (get_fattr darwin (mounted (fixedfs (stat_of_mode KFS_IRGRP) true true true) ()) ['0']).map
        (fun r => r.1.2.map (fun a => (a.uid, a.gid))) = some (some (darwin.uid, darwin.gid)) ∧
    (nfsproc3_access_3_svc darwin (mounted (fixedfs (stat_of_mode KFS_IWOTH) true true true) ())
        ['0']).map (fun r => (r.1.status, r.1.resok.map (·.access)))
      = some (NFS3_OK, some (ACCESS3_MODIFY ||| ACCESS3_EXTEND ||| ACCESS3_DELETE)) ∧
    nfs_mode_of_kfs (stat_of_mode KFS_IWOTH).mode &&& NFS_IWUSR = 0 ∧
    (nfsproc3_access_3_svc darwin (mounted (fixedfs (stat_of_mode KFS_IXGRP) true true true) ())
        ['0']).map (fun r => (r.1.status, r.1.resok.map (·.access)))
      = some (NFS3_OK, some (ACCESS3_EXECUTE ||| ACCESS3_LOOKUP)) ∧
    nfs_mode_of_kfs (stat_of_mode KFS_IXGRP).mode &&& NFS_IXUSR = 0 ∧
    (nfsproc3_access_3_svc darwin (mounted (fixedfs (stat_of_mode 0) true true true) ())
        ['0']).map (fun r => (r.1.status, r.1.resok.map (·.access)))
      = some (NFS3_OK, some 0) := by
  refine ⟨by decide, by decide, by decide, by decide, by decide, by decide, by decide, by decide⟩

/-! ## READ -/

/-- C18, the code at failing inputs: for the counts 2^31 and 2^32 - 1 the read
callback is handed the lengths 2^64 - 2^31 and 2^64 - 1, far above the
65536 bytes of the buffer (the count, stored in an `int`, is negative and is
not clamped); the count 70000 is clamped to 65536. -/
theorem read_length_not_clamped :
    (nfsproc3_read_3_svc darwin (mounted readfs []) ['0'] 0 2147483648).map (·.2.trace)
      = some [.read (some ['/']) 0 18446744071562067968] ∧
    (nfsproc3_read_3_svc darwin (mounted readfs []) ['0'] 0 4294967295).map (·.2.trace)
      = some [.read (some ['/']) 0 18446744073709551615] ∧
    (nfsproc3_read_3_svc darwin (mounted readfs []) ['0'] 0 70000).map (·.2.trace)
      = some [.read (some ['/']) 0 65536] ∧
    READ_MAX_LEN = 65536 ∧ min 2147483648 65536 = 65536 := by
  refine ⟨by decide, by decide, by decide, by decide, by decide⟩

theorem to_int32_range (x : Int) : -2 ^ 31 ≤ to_int32 x ∧ to_int32 x < 2 ^ 31 := by
  unfold to_int32
  omega

theorem to_int32_small (x : Int) (h0 : -2 ^ 31 ≤ x) (h1 : x < 2 ^ 31) : to_int32 x = x := by
  unfold to_int32
  omega

/-- The reply of `nfsproc3_read_3_svc` on a handle that names a mount with a
`read` callback, in terms of what the callback returns. -/
theorem read_reply {σ : Type} (H : Host) (s s1 : Server σ) (file : CStr) (offset count : Nat)
    (filesystem : kfsfilesystem σ) (path : Option CStr) (identifier : Nat) (read : kfsread_f σ)
    (out : Outcome σ (Int × List Nat))
    (hfs : get_filesystem s file = some ((some filesystem, path, identifier), s1))
    (hread : filesystem.read = some read)
    (hout : read path offset
        (to_uint64 (if to_int32 count > READ_MAX_LEN then READ_MAX_LEN else to_int32 count))
        filesystem.context s1.world = out) :
    nfsproc3_read_3_svc H s file offset count =
      some (if to_int32 out.value.1 ≠ -1 then
              { status := NFS3_OK
                resok := some { file_attributes := get_post_op
                                count := (to_int32 out.value.1 % 2 ^ 32).toNat
                                eof := decide (to_int32 out.value.1 = 0)
                                data_len := READ_MAX_LEN
                                data_val := store_bytes s.read_buffer out.value.2 } }
            else
              { status := filter_status READ_labels
                  (convert_status H (out.error.getD 0) NFS3ERR_IO)
                resok := none },
        { s1 with
          world := out.world
          trace := s.trace ++ [.read path offset
            (to_uint64 (if to_int32 count > READ_MAX_LEN then READ_MAX_LEN
                        else to_int32 count))]
          read_buffer := store_bytes s.read_buffer out.value.2 }) := by
  have hs1 := (get_filesystem_some s s1 file _ _ _ hfs).2.2.1
  have htr : s1.trace = s.trace := by rw [hs1]
  have hbuf : s1.read_buffer = s.read_buffer := by rw [hs1]
  unfold nfsproc3_read_3_svc
  rw [hfs]
  simp only
  rw [hread]
  simp only
  rw [hout]
  simp only [Server.called, htr, hbuf]
  split <;> rfl

/-- C19, as amended: on a handle that names a mount with a read callback, READ
replies, and its status is `NFS3_OK` exactly when the value the callback
returned, stored in an `int`, is not -1.  When the callback returns -1, the
value `kfslib.h` documents for an error, the status is the filtered mapped
code, which is never `NFS3_OK`; when it returns `r` with `0 ≤ r < 2^31`, the
reply is `NFS3_OK` with the count `r`. -/
theorem read_error_is_minus_one {σ : Type} (H : Host) (s s1 : Server σ) (file : CStr)
    (offset count : Nat) (filesystem : kfsfilesystem σ) (path : Option CStr) (identifier : Nat)
    (read : kfsread_f σ) (out : Outcome σ (Int × List Nat))
    (hfs : get_filesystem s file = some ((some filesystem, path, identifier), s1))
    (hread : filesystem.read = some read)
    (hout : read path offset
        (to_uint64 (if to_int32 count > READ_MAX_LEN then READ_MAX_LEN else to_int32 count))
        filesystem.context s1.world = out) :
    ∃ reply s', nfsproc3_read_3_svc H s file offset count = some (reply, s') ∧
      (reply.status = NFS3_OK ↔ to_int32 out.value.1 ≠ -1) ∧
      (out.value.1 = -1 →
        reply.status = filter_status READ_labels (convert_status H (out.error.getD 0) NFS3ERR_IO) ∧
        reply.status ≠ NFS3_OK) ∧
      (0 ≤ out.value.1 → out.value.1 < 2 ^ 31 →
        reply.status = NFS3_OK ∧ reply.resok.map (·.count) = some out.value.1.toNat) := by
  have hne : filter_status READ_labels (convert_status H (out.error.getD 0) NFS3ERR_IO)
      ≠ NFS3_OK :=
    filter_status_ne_ok _ _ (convert_status_ne_ok H _ _ (by decide))
  refine ⟨_, _, read_reply H s s1 file offset count filesystem path identifier read out hfs
    hread hout, ?_, ?_, ?_⟩
  · by_cases h : to_int32 out.value.1 ≠ -1
    · rw [if_pos h]
      exact ⟨fun _ => h, fun _ => rfl⟩
    · rw [if_neg h]
      exact ⟨fun h' => absurd h' hne, fun h' => absurd h' h⟩
  · intro hm
    have h : ¬ to_int32 out.value.1 ≠ -1 := by
      rw [hm]
      decide
    rw [if_neg h]
    exact ⟨rfl, hne⟩
  · intro h0 h1
    have hsmall := to_int32_small out.value.1 (by omega) h1
    have h : to_int32 out.value.1 ≠ -1 := by
      rw [hsmall]
      omega
    rw [if_pos h]
    refine ⟨rfl, ?_⟩
    simp only [Option.map_some', Option.some.injEq, hsmall]
    omega

theorem read_error_is_minus_one_witness :
    ∃ reply s', nfsproc3_read_3_svc darwin (mounted readfs [(-1, [])]) ['0'] 0 10
        = some (reply, s') ∧
      (reply.status = NFS3_OK ↔
        to_int32 (({ value := (-1, []), error := none, world := [] } :
          Outcome (List (Int × List Nat)) (Int × List Nat)).value.1) ≠ -1) ∧
      (({ value := (-1, []), error := none, world := [] } :
          Outcome (List (Int × List Nat)) (Int × List Nat)).value.1 = -1 →
        reply.status = filter_status READ_labels
          (convert_status darwin
            ((({ value := (-1, []), error := none, world := [] } :
              Outcome (List (Int × List Nat)) (Int × List Nat)).error).getD 0) NFS3ERR_IO) ∧
        reply.status ≠ NFS3_OK) ∧
      (0 ≤ ({ value := (-1, []), error := none, world := [] } :
          Outcome (List (Int × List Nat)) (Int × List Nat)).value.1 →
        ({ value := (-1, []), error := none, world := [] } :
          Outcome (List (Int × List Nat)) (Int × List Nat)).value.1 < 2 ^ 31 →
        reply.status = NFS3_OK ∧
        reply.resok.map (·.count)
          = some (({ value := (-1, []), error := none, world := [] } :
              Outcome (List (Int × List Nat)) (Int × List Nat)).value.1).toNat) :=
  read_error_is_minus_one darwin (mounted readfs [(-1, [])])
    { mounted readfs [(-1, [])] with registry := memRegistry1 } ['0'] 0 10 _ (some ['/']) 0 _
    { value := (-1, []), error := none, world := [] } rfl rfl rfl

/-- C19, the claim at two failing inputs: a read callback that returns -2 is
answered `NFS3_OK` with the count 4294967294, and one that returns 4294967295,
which is not negative, is answered `NFS3ERR_IO`. -/
theorem read_negative_not_error :
    (nfsproc3_read_3_svc darwin (mounted readfs [(-2, [])]) ['0'] 0 10).map
        (fun r => (r.1.status, r.1.resok.map (·.count)))
      = some (NFS3_OK, some 4294967294) ∧
    (nfsproc3_read_3_svc darwin (mounted readfs [(4294967295, [])]) ['0'] 0 10).map
        (fun r => (r.1.status, r.1.resok.map (·.count)))
      = some ( NFS3ERR_IO, none) := by
  refine ⟨by decide, by decide⟩

/-- C20, the code at failing inputs: a READ whose callback returned 3 bytes
carries 65536 bytes of data; a READ that follows it, whose callback returned
the one byte 9, again carries 65536 bytes, among them the bytes 2 and 3 that
the earlier read left in the buffer; eof is set when the count is 0 and not
when it is 1 or 3. -/
theorem read_reply_whole_buffer :
    (nfsproc3_read_3_svc darwin (mounted readfs [(3, [1, 2, 3]), (1, [9])]) ['0'] 0 10).map
        (fun r => (r.1.status, r.1.resok.map fun k => (k.count, k.eof, k.data_len)))
      = some (NFS3_OK, some (3, false, 65536)) ∧
    ((nfsproc3_read_3_svc darwin (mounted readfs [(3, [1, 2, 3]), (1, [9])]) ['0'] 0 10).bind
        fun r => (nfsproc3_read_3_svc darwin r.2 ['0'] 0 10).map
          fun r => (r.1.status,
            r.1.resok.map fun k =>
              (k.count, k.eof, k.data_len, k.data_val 0, k.data_val 1, k.data_val 2)))
      = some (NFS3_OK, some (1, false, 65536, 9, 2, 3)) ∧
    (nfsproc3_read_3_svc darwin (mounted readfs [(0, [])]) ['0'] 0 10).map
        (fun r => (r.1.status, r.1.resok.map fun k => (k.count, k.eof, k.data_len)))
      = some (NFS3_OK, some (0, true, 65536)) := by
  refine ⟨by decide, rfl, by decide⟩

/-! ## The mount table: probing order and completed descriptors -/

/-- The search loop of `kfstable_newidentifier_nolock`, entered at the `k`-th
slot after `start` with every slot before it holding a descriptor: it returns
`-1` with `errno = EKFS_EMFS` and the cursor back at `start` when every
remaining slot holds a descriptor too, and otherwise the first empty slot, with
the cursor one past it. -/
theorem kfstable_newidentifier_loop_first {σ : Type} (H : Host) (t : Table σ) (start : Nat)
    (hstart : start < MAX_FIELSYSTEMS) :
    ∀ fuel k, k + fuel = MAX_FIELSYSTEMS → 0 < fuel →
      (∀ j, j < k → t.table ((start + j) % MAX_FIELSYSTEMS) ≠ none) →
      ∃ id t', kfstable_newidentifier_loop H t start fuel ((start + k) % MAX_FIELSYSTEMS)
          = some (id, t') ∧
        t'.table = t.table ∧
        ((id = -1 ∧ t'.errno = EKFS_EMFS H ∧ t'.number = start ∧
            ∀ j, j < MAX_FIELSYSTEMS → t.table ((start + j) % MAX_FIELSYSTEMS) ≠ none) ∨
          ∃ n, n < MAX_FIELSYSTEMS ∧ id = ((start + n) % MAX_FIELSYSTEMS : Nat) ∧
            t.table ((start + n) % MAX_FIELSYSTEMS) = none ∧
            (∀ j, j < n → t.table ((start + j) % MAX_FIELSYSTEMS) ≠ none) ∧
            t'.number = (start + n + 1) % MAX_FIELSYSTEMS ∧ t'.errno = t.errno) := by
  intro fuel
  induction fuel with
  | zero => intro k _ h; omega
  | succ f ih =>
    intro k hk _ hbefore
    have hlt : (start + k) % MAX_FIELSYSTEMS < MAX_FIELSYSTEMS :=
      Nat.mod_lt _ (by unfold MAX_FIELSYSTEMS; omega)
    have hnext : ((start + k) % MAX_FIELSYSTEMS + 1) % MAX_FIELSYSTEMS
        = (start + (k + 1)) % MAX_FIELSYSTEMS := by
      unfold MAX_FIELSYSTEMS; omega
    rw [kfstable_newidentifier_loop]
    unfold kfstable_newidentifier_round
    rw [Table.slot_natCast t _ hlt]
    simp only [hnext]
    cases hslot : t.table ((start + k) % MAX_FIELSYSTEMS) with
    | none =>
      refine ⟨((start + k) % MAX_FIELSYSTEMS : Nat),
        { t with number := (start + (k + 1)) % MAX_FIELSYSTEMS }, ?_, rfl, Or.inr ?_⟩
      · simp
      · exact ⟨k, by omega, rfl, hslot, hbefore, rfl, rfl⟩
    | some d =>
      have hbefore' : ∀ j, j < k + 1 → t.table ((start + j) % MAX_FIELSYSTEMS) ≠ none := by
        intro j hj
        rcases Nat.lt_succ_iff_lt_or_eq.mp hj with h | h
        · exact hbefore j h
        · subst h; rw [hslot]; simp
      by_cases hwrap : (start + (k + 1)) % MAX_FIELSYSTEMS = start
      · have hk1 : k + 1 = MAX_FIELSYSTEMS := by
          unfold MAX_FIELSYSTEMS at hk hstart hwrap ⊢
          omega
        refine ⟨-1,
          { t with number := (start + (k + 1)) % MAX_FIELSYSTEMS, errno := EKFS_EMFS H },
          ?_, rfl, Or.inl ⟨rfl, rfl, hwrap, ?_⟩⟩
        · simp [hwrap]
        · intro j hj
          exact hbefore' j (by omega)
      · have hf : 0 < f := by
          rcases Nat.eq_zero_or_pos f with h0 | h0
          · exfalso
            apply hwrap
            subst h0
            unfold MAX_FIELSYSTEMS at hk hstart ⊢
            omega
          · exact h0
        obtain ⟨id, t', h1, h2, h3⟩ := ih (k + 1) (by omega) hf hbefore'
        refine ⟨id, t', ?_, h2, h3⟩
        simp [hwrap, h1]

/-- `kfstable_put` with the cursor inside the table: `-1` with `EKFS_EMFS` and
nothing changed when every slot holds a descriptor, and otherwise the first
empty slot in cyclic order from the cursor, filled, with the cursor one past
it. -/
theorem kfstable_put_first {σ : Type} (H : Host) (t : Table σ)
    (hnum : t.number < MAX_FIELSYSTEMS) (filesystem : kfsfilesystem σ) :
    ∃ id t', kfstable_put H t filesystem = some (id, t') ∧
      ((id = -1 ∧ t'.errno = EKFS_EMFS H ∧ t'.table = t.table ∧ t'.number = t.number ∧
          ∀ j, j < MAX_FIELSYSTEMS → t.table j ≠ none) ∨
        ∃ n, n < MAX_FIELSYSTEMS ∧ id = ((t.number + n) % MAX_FIELSYSTEMS : Nat) ∧
          t.table ((t.number + n) % MAX_FIELSYSTEMS) = none ∧
          (∀ j, j < n → t.table ((t.number + j) % MAX_FIELSYSTEMS) ≠ none) ∧
          t'.number = ((t.number + n) % MAX_FIELSYSTEMS + 1) % MAX_FIELSYSTEMS ∧
          t'.errno = t.errno ∧
          t'.table ((t.number + n) % MAX_FIELSYSTEMS)
            = some (install_noimp (kfsfilesystem_duplicate filesystem)) ∧
          ∀ j, j ≠ (t.number + n) % MAX_FIELSYSTEMS → t'.table j = t.table j) := by
  have hpos : 0 < MAX_FIELSYSTEMS := by unfold MAX_FIELSYSTEMS; omega
  have h := kfstable_newidentifier_loop_first H t t.number hnum MAX_FIELSYSTEMS 0
    (Nat.zero_add _) hpos (fun j hj => absurd hj (Nat.not_lt_zero j))
  have e : (t.number + 0) % MAX_FIELSYSTEMS = t.number := by
    rw [Nat.add_zero]; exact Nat.mod_eq_of_lt hnum
  rw [e] at h
  obtain ⟨id, t1, h1, h2, h3⟩ := h
  unfold kfstable_put kfstable_put_nolock kfstable_newidentifier_nolock
  rw [h1]
  rcases h3 with ⟨hid, herr, hcur, hall⟩ | ⟨n, hn, hid, hempty, hbefore, hcur, herr⟩
  · subst hid
    refine ⟨-1, t1, by simp, Or.inl ⟨rfl, herr, h2, hcur, ?_⟩⟩
    intro j hj
    have := hall ((j + MAX_FIELSYSTEMS - t.number) % MAX_FIELSYSTEMS)
      (Nat.mod_lt _ hpos)
    have e2 : (t.number + (j + MAX_FIELSYSTEMS - t.number) % MAX_FIELSYSTEMS)
        % MAX_FIELSYSTEMS = j := by
      unfold MAX_FIELSYSTEMS at hnum hj ⊢
      omega
    rwa [e2] at this
  · have hlt : (t.number + n) % MAX_FIELSYSTEMS < MAX_FIELSYSTEMS := Nat.mod_lt _ hpos
    have hslot : kfstable_get_nolock t1 id = some none := by
      subst hid
      unfold kfstable_get_nolock
      rw [Table.slot_natCast t1 _ hlt, h2, hempty]
    have hnn : id ≥ 0 := by subst hid; exact Int.natCast_nonneg _
    have htn : id.toNat = (t.number + n) % MAX_FIELSYSTEMS := by
      rw [hid]
      exact Int.toNat_natCast _
    refine ⟨id,
      { t1 with table := fun j =>
          if j = id.toNat then some (install_noimp (kfsfilesystem_duplicate filesystem))
          else t1.table j },
      by simp only [hnn, if_true, hslot], Or.inr ⟨n, hn, hid, hempty, hbefore, ?_, herr, ?_, ?_⟩⟩
    · show t1.number = _
      rw [hcur]
      unfold MAX_FIELSYSTEMS
      omega
    · simp [htn]
    · intro j hj
      simp [htn, hj, h2]

/-- C24: on every table reached from the initial one by `kfstable_put` and
`kfstable_remove` calls, `kfstable_put` returns `-1` if and only if all 1024
slots are live, and then `errno` is `EKFS_EMFS` and the table is unchanged;
otherwise it returns the first empty slot in cyclic order starting at the
cursor `number` and leaves the cursor at one past it modulo 1024.  Hence after
a full table had the identifier `i` removed, the next put returns `i`. -/
theorem put_probes_from_cursor {σ : Type} (H : Host) (cs : List (TableCall σ)) (t : Table σ)
    (hrun : runTable H Table.init cs = some t) (filesystem : kfsfilesystem σ) :
    ∃ id t', kfstable_put H t filesystem = some (id, t') ∧
      (id = -1 ↔ ∀ j, j < 1024 → t.table j ≠ none) ∧
      (id = -1 → t'.errno = EKFS_EMFS H ∧ t'.table = t.table) ∧
      (id ≠ -1 →
        ∃ n, n < 1024 ∧ id = ((t.number + n) % 1024 : Nat) ∧
          t.table ((t.number + n) % 1024) = none ∧
          (∀ j, j < n → t.table ((t.number + j) % 1024) ≠ none) ∧
          t'.number = (id.toNat + 1) % 1024) ∧
      (∀ (i : Nat) (t1 : Table σ), i < 1024 → (∀ j, j < 1024 → t.table j ≠ none) →
        kfstable_remove t (i : Int) = some t1 →
        ∃ t2, kfstable_put H t1 filesystem = some ((i : Int), t2)) := by
  have h0 : (Table.init : Table σ).number < MAX_FIELSYSTEMS := by
    show 0 < MAX_FIELSYSTEMS
    unfold MAX_FIELSYSTEMS; omega
  have hnum := runTable_number H cs Table.init t h0 hrun
  obtain ⟨id, t', h1, h2⟩ := kfstable_put_first H t hnum filesystem
  refine ⟨id, t', h1, ?_, ?_, ?_, ?_⟩
  · rcases h2 with ⟨hid, _, _, _, hall⟩ | ⟨n, hn, hid, hempty, _⟩
    · exact ⟨fun _ => hall, fun _ => hid⟩
    · constructor
      · intro h
        rw [hid] at h
        omega
      · intro hall
        exact absurd hempty (hall _ (Nat.mod_lt _ (by decide)))
  · intro hm
    rcases h2 with ⟨_, herr, htab, _, _⟩ | ⟨n, hn, hid, _⟩
    · exact ⟨herr, htab⟩
    · rw [hid] at hm
      omega
  · intro hm
    rcases h2 with ⟨hid, _⟩ | ⟨n, hn, hid, hempty, hbefore, hcur, _⟩
    · exact absurd hid hm
    · refine ⟨n, hn, hid, hempty, hbefore, ?_⟩
      rw [hcur, hid, Int.toNat_natCast]
      rfl
  · intro i t1 hi hall hrem
    have hlive : ∃ d, t.table i = some d := Option.ne_none_iff_exists'.mp (hall i hi)
    obtain ⟨d, hd⟩ := hlive
    have ht1 : t1 = { t with table := fun j => if j = i then none else t.table j } := by
      unfold kfstable_remove kfstable_remove_nolock at hrem
      rw [Table.slot_natCast t i hi, hd] at hrem
      simp only [Option.some.injEq, Int.toNat_ofNat] at hrem
      exact hrem.symm
    have hnum1 : t1.number < MAX_FIELSYSTEMS := by rw [ht1]; exact hnum
    obtain ⟨id, t2, h1', h2'⟩ := kfstable_put_first H t1 hnum1 filesystem
    rcases h2' with ⟨_, _, _, _, hall1⟩ | ⟨n, hn, hid, hempty, _⟩
    · exfalso
      apply hall1 i hi
      rw [ht1]
      simp
    · have hi' : (t1.number + n) % MAX_FIELSYSTEMS = i := by
        by_contra hne
        have hlt : (t1.number + n) % MAX_FIELSYSTEMS < 1024 := Nat.mod_lt _ (by decide)
        have hnum_eq : t1.number = t.number := by rw [ht1]
        rw [hnum_eq] at hne hlt
        rw [ht1] at hempty
        simp only [hne, if_false] at hempty
        exact hall _ hlt hempty
      rw [hi'] at hid
      subst hid
      exact ⟨t2, h1'⟩

theorem put_probes_from_cursor_witness :
    runTable darwin Table.init putPutRemove = some tableAfterRemove ∧
      tableAfterRemove.table 0 = none ∧ (tableAfterRemove.table 1).isSome = true ∧
      tableAfterRemove.number = 2 ∧
    ∃ id t', kfstable_put darwin tableAfterRemove (emptyFilesystem Unit) = some (id, t') ∧
      (id = -1 ↔ ∀ j, j < 1024 → tableAfterRemove.table j ≠ none) ∧
      (id = -1 → t'.errno = EKFS_EMFS darwin ∧ t'.table = tableAfterRemove.table) ∧
      (id ≠ -1 →
        ∃ n, n < 1024 ∧ id = ((tableAfterRemove.number + n) % 1024 : Nat) ∧
          tableAfterRemove.table ((tableAfterRemove.number + n) % 1024) = none ∧
          (∀ j, j < n →
            tableAfterRemove.table ((tableAfterRemove.number + j) % 1024)
              ≠ none) ∧
          t'.number = (id.toNat + 1) % 1024) ∧
      (∀ (i : Nat) (t1 : Table Unit), i < 1024 →
        (∀ j, j < 1024 → tableAfterRemove.table j ≠ none) →
        kfstable_remove tableAfterRemove (i : Int) = some t1 →
        ∃ t2, kfstable_put darwin t1 (emptyFilesystem Unit) = some ((i : Int), t2)) :=
  ⟨rfl, rfl, rfl, rfl,
    put_probes_from_cursor darwin putPutRemove tableAfterRemove rfl (emptyFilesystem Unit)⟩

/-- A `kfstable_put` keeps every descriptor the table holds. -/
theorem kfstable_put_keeps {σ : Type} (H : Host) (t t' : Table σ)
    (hnum : t.number < MAX_FIELSYSTEMS) (filesystem d : kfsfilesystem σ) (id : Int) (j : Nat)
    (hput : kfstable_put H t filesystem = some (id, t')) (hj : t.table j = some d) :
    t'.table j = some d := by
  obtain ⟨id', t'', h1, _, h3⟩ := kfstable_put_spec H t hnum filesystem
  rw [hput] at h1
  simp only [Option.some.injEq, Prod.mk.injEq] at h1
  obtain ⟨rfl, rfl⟩ := h1
  rcases h3 with ⟨_, htab⟩ | ⟨_, _, hempty, _, hother⟩
  · rw [htab]; exact hj
  · have hne : j ≠ id.toNat := by
      intro h
      rw [h, hempty] at hj
      cases hj
    rw [hother j hne]; exact hj

/-- A `kfstable_remove` of another identifier keeps a slot. -/
theorem kfstable_remove_keeps {σ : Type} (t t' : Table σ) (identifier : Int) (j : Nat)
    (hne : identifier ≠ (j : Int))
    (hrem : kfstable_remove t identifier = some t') : t'.table j = t.table j := by
  unfold kfstable_remove kfstable_remove_nolock at hrem
  cases hs : t.slot identifier with
  | none => rw [hs] at hrem; cases hrem
  | some e =>
    rw [hs] at hrem
    cases e with
    | none =>
      simp only [Option.some.injEq] at hrem
      rw [← hrem]
    | some d =>
      simp only [Option.some.injEq] at hrem
      rw [← hrem]
      have hidx : j ≠ identifier.toNat := by
        intro h
        apply hne
        cases identifier with
        | ofNat n => simp at h; rw [h]; rfl
        | negSucc n => simp [Table.slot] at hs
      simp [hidx]

/-- Calls that do not remove the identifier `j` keep the descriptor of slot
`j`. -/
theorem runTable_keeps {σ : Type} (H : Host) (j : Nat)
    (d : kfsfilesystem σ) (cs : List (TableCall σ)) :
    ∀ t t' : Table σ, t.number < MAX_FIELSYSTEMS → t.table j = some d →
      (∀ identifier, TableCall.remove identifier ∈ cs → identifier ≠ (j : Int)) →
      runTable H t cs = some t' → t'.table j = some d := by
  induction cs with
  | nil =>
    intro t t' _ hd _ hrun
    simp only [runTable, Option.some.injEq] at hrun
    rw [← hrun]; exact hd
  | cons c cs ih =>
    intro t t' hnum hd hrm hrun
    cases c with
    | put filesystem =>
      simp only [runTable, Option.bind_eq_some] at hrun
      obtain ⟨r, hr, hrun⟩ := hrun
      obtain ⟨id, t1⟩ := r
      have hnum1 : t1.number < MAX_FIELSYSTEMS := by
        obtain ⟨id', t1', h1, h2, _⟩ := kfstable_put_spec H t hnum filesystem
        rw [hr] at h1
        simp only [Option.some.injEq, Prod.mk.injEq] at h1
        rw [h1.2]; exact h2
      exact ih t1 t' hnum1 (kfstable_put_keeps H t t1 hnum filesystem d id j hr hd)
        (fun i hi => hrm i (List.mem_cons_of_mem _ hi)) hrun
    | remove identifier =>
      simp only [runTable, Option.bind_eq_some] at hrun
      obtain ⟨t1, hr, hrun⟩ := hrun
      have hne := hrm identifier (List.mem_cons_self _ _)
      have hkeep := kfstable_remove_keeps t t1 identifier j hne hr
      have hnum1 : t1.number < MAX_FIELSYSTEMS := by
        rw [kfstable_remove_number t t1 identifier hr]; exact hnum
      exact ih t1 t' hnum1 (by rw [hkeep]; exact hd)
        (fun i hi => hrm i (List.mem_cons_of_mem _ hi)) hrun

/-- C25: after `kfstable_put` stored a descriptor under the identifier `id`,
`kfstable_get` returns a descriptor with all fifteen operation slots set: a
slot that was set in the input holds the same callback, a slot that was unset
holds the failing sentinel, and the context and the mountpoint string equal
the input's; the same descriptor is returned after any further puts and
removals of other identifiers. -/
theorem put_completes_descriptor {σ : Type} (H : Host) (cs : List (TableCall σ)) (t t' : Table σ)
    (hrun : runTable H Table.init cs = some t) (filesystem : kfsfilesystem σ) (id : Int)
    (hput : kfstable_put H t filesystem = some (id, t')) (hid : id ≠ -1) :
    ∃ d, kfstable_get t' id = some (some d) ∧
      d.statfs = some (filesystem.statfs.getD noimp_statfs) ∧
      d.stat = some (filesystem.stat.getD noimp_stat) ∧
      d.read = some (filesystem.read.getD noimp_read) ∧
      d.write = some (filesystem.write.getD noimp_write) ∧
      d.symlink = some (filesystem.symlink.getD noimp_symlink) ∧
      d.readlink = some (filesystem.readlink.getD noimp_readlink) ∧
      d.create = some (filesystem.create.getD noimp_create) ∧
      d.remove = some (filesystem.remove.getD noimp_remove) ∧
      d.rename = some (filesystem.rename.getD noimp_rename) ∧
      d.truncate = some (filesystem.truncate.getD noimp_truncate) ∧
      d.chmod = some (filesystem.chmod.getD noimp_chmod) ∧
      d.utimes = some (filesystem.utimes.getD noimp_utimes) ∧
      d.mkdir = some (filesystem.mkdir.getD noimp_mkdir) ∧
      d.rmdir = some (filesystem.rmdir.getD noimp_rmdir) ∧
      d.readdir = some (filesystem.readdir.getD noimp_readdir) ∧
      d.context = filesystem.context ∧
      d.options.mountpoint = filesystem.options.mountpoint ∧
      ∀ (cs' : List (TableCall σ)) (t'' : Table σ),
        (∀ identifier, TableCall.remove identifier ∈ cs' → identifier ≠ id) →
        runTable H t' cs' = some t'' → kfstable_get t'' id = some (some d) := by
  have h0 : (Table.init : Table σ).number < MAX_FIELSYSTEMS := by
    show 0 < MAX_FIELSYSTEMS
    unfold MAX_FIELSYSTEMS; omega
  have hnum := runTable_number H cs Table.init t h0 hrun
  obtain ⟨id', t1, h1, hnum', h3⟩ := kfstable_put_spec H t hnum filesystem
  rw [hput] at h1
  simp only [Option.some.injEq, Prod.mk.injEq] at h1
  obtain ⟨rfl, rfl⟩ := h1
  rcases h3 with ⟨hm, _⟩ | ⟨hge, hlt, _, hslot, _⟩
  · exact absurd hm hid
  · obtain ⟨n, rfl⟩ := Int.eq_ofNat_of_zero_le hge
    have hn : n < MAX_FIELSYSTEMS := by exact_mod_cast hlt
    simp only [Int.toNat_ofNat] at hslot
    refine ⟨install_noimp (kfsfilesystem_duplicate filesystem), ?_, rfl, rfl, rfl, rfl, rfl, rfl,
      rfl, rfl, rfl, rfl, rfl, rfl, rfl, rfl, rfl, rfl, rfl, ?_⟩
    · unfold kfstable_get kfstable_get_nolock
      rw [Table.slot_natCast t' n hn, hslot]
    · intro cs' t'' hrm hrun'
      have hkeep := runTable_keeps H n _ cs' t' t'' hnum' hslot hrm hrun'
      have hnum'' := runTable_number H cs' t' t'' hnum' hrun'
      unfold kfstable_get kfstable_get_nolock
      rw [Table.slot_natCast t'' n hn, hkeep]

theorem put_completes_descriptor_witness :
    ∃ d, kfstable_get memServer.table 0 = some (some d) ∧
      d.statfs = some (memfs.statfs.getD noimp_statfs) ∧
      d.stat = some (memfs.stat.getD noimp_stat) ∧
      d.read = some (memfs.read.getD noimp_read) ∧
      d.write = some (memfs.write.getD noimp_write) ∧
      d.symlink = some (memfs.symlink.getD noimp_symlink) ∧
      d.readlink = some (memfs.readlink.getD noimp_readlink) ∧
      d.create = some (memfs.create.getD noimp_create) ∧
      d.remove = some (memfs.remove.getD noimp_remove) ∧
      d.rename = some (memfs.rename.getD noimp_rename) ∧
      d.truncate = some (memfs.truncate.getD noimp_truncate) ∧
      d.chmod = some (memfs.chmod.getD noimp_chmod) ∧
      d.utimes = some (memfs.utimes.getD noimp_utimes) ∧
      d.mkdir = some (memfs.mkdir.getD noimp_mkdir) ∧
      d.rmdir = some (memfs.rmdir.getD noimp_rmdir) ∧
      d.readdir = some (memfs.readdir.getD noimp_readdir) ∧
      d.context = memfs.context ∧
      d.options.mountpoint = memfs.options.mountpoint ∧
      ∀ (cs' : List (TableCall (List CStr))) (t'' : Table (List CStr)),
        (∀ identifier, TableCall.remove identifier ∈ cs' → identifier ≠ 0) →
        runTable darwin memServer.table cs' = some t'' →
        kfstable_get t'' 0 = some (some d) :=
  put_completes_descriptor darwin [] Table.init memServer.table rfl memfs 0 rfl (by decide)

/-! ## The sentinel behind READ and WRITE -/

/-- C26, the code at failing inputs: for a mount whose descriptor leaves `read`
and `write` unset the table holds the sentinel in their place; its `false` is
read as the count 0, which is not the error value -1, so READ replies
`NFS3_OK` with count 0 and eof set and WRITE replies `NFS3_OK` with count 0,
both after invoking the sentinel.  Through a callback that returns `bool` the
sentinel fails: GETATTR replies `NFS3ERR_NOENT` and REMOVE `NFS3ERR_IO`. -/
theorem sentinel_read_write_ok :
    (nfsproc3_read_3_svc darwin (mounted (emptyFilesystem Unit) ()) ['0'] 0 10).map
        (fun r => (r.1.status, r.1.resok.map (fun k => (k.count, k.eof)), r.2.trace))
      = some (NFS3_OK, some (0, true), [.read (some ['/']) 0 10]) ∧
    (nfsproc3_write_3_svc darwin (mounted (emptyFilesystem Unit) ()) ['0'] 0 3 [1, 2, 3]).map
        (fun r => (r.1.status, r.1.resok.map (·.count), r.2.trace))
      = some (NFS3_OK, some 0, [.write (some ['/']) [1, 2, 3] 0 3]) ∧
    (emptyFilesystem Unit).read = none ∧ (emptyFilesystem Unit).write = none ∧
    (kfstable_get (mounted (emptyFilesystem Unit) ()).table 0).map (Option.map (·.read.isSome))
      = some (some true) ∧
    (nfsproc3_getattr_3_svc darwin (mounted (emptyFilesystem Unit) ()) ['0']).map
        (fun r => (r.1.status, r.2.trace)) = some (NFS3ERR_NOENT, [.stat (some ['/'])]) ∧
    (nfsproc3_remove_3_svc darwin (mounted (emptyFilesystem Unit) ()) ['0'] ['a']).map
        (fun r => (r.1.status, r.2.trace)) = some ( NFS3ERR_IO, [.remove (some ['/', 'a'])]) := by
  refine ⟨by decide, by decide, rfl, rfl, rfl, by decide, by decide⟩

/-! ## Mounting: the flags of the host call -/

/-- The flags of the `mount` call that `kfs_mount` makes. -/
theorem kfs_mount_call_flags {σ : Type} (H : Host) (t t' : Table σ)
    (filesystem : kfsfilesystem σ) (host : HostAnswers) (identifier : Int) (call : MountCall)
    (h : kfs_mount H t filesystem host = some (identifier, t', some call)) :
    call.flags = kfs_mount_flags filesystem := by
  unfold kfs_mount at h
  cases hput : kfstable_put H t filesystem with
  | none => rw [hput] at h; cases h
  | some r =>
    obtain ⟨id0, t1⟩ := r
    rw [hput] at h
    simp only at h
    split at h
    · cases h
    · rename_i identifier1 t2 _
      split at h
      · split at h
        · simp only [Option.map_eq_some', Prod.mk.injEq, Option.some.injEq] at h
          obtain ⟨_, _, _, _, hc⟩ := h
          rw [← hc]
        · simp only [Option.some.injEq, Prod.mk.injEq] at h
          rw [← h.2.2]
      · simp only [Option.some.injEq, Prod.mk.injEq] at h
        exact absurd h.2.2 (by simp)

/-- C27: the flags `kfs_mount` passes to the host `mount` call contain
`MNT_SYNCHRONOUS`, and contain `MNT_RDONLY` if and only if one of `write`,
`create`, `remove`, `rename`, `truncate`, `mkdir` and `rmdir` is unset in the
caller's descriptor; two descriptors that agree on which of these seven are
unset are mounted with the same flags, whatever their other callbacks. -/
theorem mount_flags_readonly {σ : Type} (H : Host) (t t' : Table σ)
    (filesystem : kfsfilesystem σ) (host : HostAnswers) (identifier : Int) (call : MountCall)
    (h : kfs_mount H t filesystem host = some (identifier, t', some call)) :
    call.flags &&& MNT_SYNCHRONOUS = MNT_SYNCHRONOUS ∧
      (call.flags &&& MNT_RDONLY = MNT_RDONLY ↔
        filesystem.write = none ∨ filesystem.create = none ∨ filesystem.remove = none ∨
          filesystem.rename = none ∨ filesystem.truncate = none ∨ filesystem.mkdir = none ∨
          filesystem.rmdir = none) ∧
      (call.flags &&& MNT_RDONLY = 0 ↔
        ¬ (filesystem.write = none ∨ filesystem.create = none ∨ filesystem.remove = none ∨
          filesystem.rename = none ∨ filesystem.truncate = none ∨ filesystem.mkdir = none ∨
          filesystem.rmdir = none)) ∧
      ∀ (t1 t1' : Table σ) (other : kfsfilesystem σ) (host1 : HostAnswers) (identifier1 : Int)
        (call1 : MountCall),
        kfs_mount H t1 other host1 = some (identifier1, t1', some call1) →
        other.write.isNone = filesystem.write.isNone →
        other.create.isNone = filesystem.create.isNone →
        other.remove.isNone = filesystem.remove.isNone →
        other.rename.isNone = filesystem.rename.isNone →
        other.truncate.isNone = filesystem.truncate.isNone →
        other.mkdir.isNone = filesystem.mkdir.isNone →
        other.rmdir.isNone = filesystem.rmdir.isNone →
        call1.flags = call.flags := by
  have hflags := kfs_mount_call_flags H t t' filesystem host identifier call h
  have hcond : (filesystem.write.isNone ∨ filesystem.create.isNone ∨ filesystem.remove.isNone ∨
      filesystem.rename.isNone ∨ filesystem.truncate.isNone ∨
      filesystem.mkdir.isNone ∨ filesystem.rmdir.isNone) ↔
      (filesystem.write = none ∨ filesystem.create = none ∨ filesystem.remove = none ∨
          filesystem.rename = none ∨ filesystem.truncate = none ∨ filesystem.mkdir = none ∨
          filesystem.rmdir = none) := by
    simp only [Option.isNone_iff_eq_none]
  refine ⟨?_, ?_, ?_, ?_⟩
  · rw [hflags]
    unfold kfs_mount_flags
    split <;> decide
  · rw [hflags, ← hcond]
    unfold kfs_mount_flags
    split
    · rename_i hro
      exact ⟨fun _ => hro, fun _ => by decide⟩
    · rename_i hro
      exact ⟨fun h => absurd h (by decide), fun h => absurd h hro⟩
  · rw [hflags, ← hcond]
    unfold kfs_mount_flags
    split
    · rename_i hro
      exact ⟨fun h => absurd h (by decide), fun h => absurd hro h⟩
    · rename_i hro
      exact ⟨fun _ => hro, fun _ => by decide⟩
  · intro t1 t1' other host1 identifier1 call1 h1 e1 e2 e3 e4 e5 e6 e7
    rw [hflags, kfs_mount_call_flags H t1 t1' other host1 identifier1 call1 h1]
    unfold kfs_mount_flags
    rw [e1, e2, e3, e4, e5, e6, e7]

theorem mount_flags_readonly_witness :
    (kfs_mount_flags memfs) &&& MNT_SYNCHRONOUS = MNT_SYNCHRONOUS ∧
      ((kfs_mount_flags memfs) &&& MNT_RDONLY = MNT_RDONLY ↔
        memfs.write = none ∨ memfs.create = none ∨ memfs.remove = none ∨
          memfs.rename = none ∨ memfs.truncate = none ∨ memfs.mkdir = none ∨
          memfs.rmdir = none) ∧
      ((kfs_mount_flags memfs) &&& MNT_RDONLY = 0 ↔
        ¬ (memfs.write = none ∨ memfs.create = none ∨ memfs.remove = none ∨
          memfs.rename = none ∨ memfs.truncate = none ∨ memfs.mkdir = none ∨
          memfs.rmdir = none)) ∧
      ∀ (t1 t1' : Table (List CStr)) (other : kfsfilesystem (List CStr)) (host1 : HostAnswers)
        (identifier1 : Int) (call1 : MountCall),
        kfs_mount darwin t1 other host1 = some (identifier1, t1', some call1) →
        other.write.isNone = memfs.write.isNone →
        other.create.isNone = memfs.create.isNone →
        other.remove.isNone = memfs.remove.isNone →
        other.rename.isNone = memfs.rename.isNone →
        other.truncate.isNone = memfs.truncate.isNone →
        other.mkdir.isNone = memfs.mkdir.isNone →
        other.rmdir.isNone = memfs.rmdir.isNone →
        call1.flags = kfs_mount_flags memfs :=
  mount_flags_readonly darwin Table.init memServer.table memfs ⟨0, 0, 0, 0⟩ 0
    { dir := ['/', 'm'], flags := kfs_mount_flags memfs, fh := ['0'],
      hostname := ['k', 'f', 's', '0'] } rfl

/-! ## Unmounting -/

/-- The dictionaries after `kfs_idclear`: none for the cleared filesystem, the
same as before for every other one. -/
theorem GetDictionaries_after_idclear (r : Registry) (fs fs' : Nat) :
    (GetDictionariesForFilesystemWithID (kfs_idclear r fs) fs').1 =
      if fs = fs' then { idMap := [], pathMap := [] }
      else (GetDictionariesForFilesystemWithID r fs').1 := by
  rw [GetDictionaries_fst]
  unfold kfs_idclear
  simp only [CFDictionaryGetValue_remove]
  by_cases hfs : fs = fs'
  · simp [hfs]
  · simp only [hfs, if_false]
    rw [← GetDictionaries_fst, GetDictionaries_snd]

/-- The id `kfs_fileid` returns, read off the filesystem's dictionaries and
the counter. -/
theorem kfs_fileid_fst (r : Registry) (fs : Nat) (p : CStr) :
    (kfs_fileid r fs p).1 =
      if (CFDictionaryGetValue (GetDictionariesForFilesystemWithID r fs).1.pathMap p).getD 0 = 0
      then r.id
      else (CFDictionaryGetValue (GetDictionariesForFilesystemWithID r fs).1.pathMap p).getD 0 := by
  unfold kfs_fileid
  simp only
  split <;> simp [GetDictionaries_id]

/-- A live identifier is a slot number. -/
theorem kfstable_get_slot {σ : Type} (t : Table σ) (id : Int) (d : kfsfilesystem σ)
    (hlive : kfstable_get t id = some (some d)) :
    ∃ n, n < MAX_FIELSYSTEMS ∧ id = (n : Int) ∧ t.table n = some d := by
  unfold kfstable_get kfstable_get_nolock Table.slot at hlive
  cases id with
  | ofNat n =>
    simp only at hlive
    split at hlive
    · rename_i hn
      simp only [Option.some.injEq] at hlive
      exact ⟨n, hn, rfl, hlive⟩
    · cases hlive
  | negSucc n => simp at hlive

/-- C30: `kfs_unmount` of a live identifier returns after handing the mount's
mountpoint to the host; afterwards `kfstable_get` of the identifier gives no
descriptor and `path_fromid` gives no path for any file id of that filesystem,
while the table slot of every other identifier and the dictionaries of every
other filesystem, hence the path of each of its ids and the id of each of its
paths, are as before. -/
theorem unmount_forgets_mount {σ : Type} (s : Server σ) (id : Int) (d : kfsfilesystem σ)
    (hlive : kfstable_get s.table id = some (some d)) :
    ∃ s', kfs_unmount s id = some (s', some d.options.mountpoint) ∧
      kfstable_get s'.table id = some none ∧
      (∀ x, (path_fromid s'.registry (to_uint64 id) x).1 = none) ∧
      (∀ j : Int, j ≠ id → kfstable_get s'.table j = kfstable_get s.table j) ∧
      (∀ fs, fs ≠ to_uint64 id →
        (GetDictionariesForFilesystemWithID s'.registry fs).1
          = (GetDictionariesForFilesystemWithID s.registry fs).1) ∧
      (∀ fs x, fs ≠ to_uint64 id →
        (path_fromid s'.registry fs x).1 = (path_fromid s.registry fs x).1) ∧
      (∀ fs p, fs ≠ to_uint64 id →
        (kfs_fileid s'.registry fs p).1 = (kfs_fileid s.registry fs p).1) := by
  obtain ⟨n, hn, rfl, hd⟩ := kfstable_get_slot s.table id d hlive
  have hrem : kfstable_remove s.table (n : Int)
      = some { s.table with table := fun j => if j = n then none else s.table.table j } := by
    unfold kfstable_remove kfstable_remove_nolock
    rw [Table.slot_natCast s.table n hn, hd]
    simp
  refine ⟨{ s with table := { s.table with table := fun j => if j = n then none else s.table.table j },
                   registry := kfs_idclear s.registry (to_uint64 (n : Int)) }, ?_, ?_, ?_, ?_, ?_, ?_, ?_⟩
  · unfold kfs_unmount
    rw [hlive, hrem]
    rfl
  · unfold kfstable_get kfstable_get_nolock
    rw [Table.slot_natCast _ n hn]
    simp
  · intro x
    rw [path_fromid_fst, GetDictionaries_after_idclear]
    simp [CFDictionaryGetValue]
  · intro j hj
    unfold kfstable_get kfstable_get_nolock Table.slot
    cases j with
    | ofNat m =>
      have hmn : m ≠ n := by
        intro h
        apply hj
        rw [h]
        rfl
      simp [hmn]
    | negSucc m => rfl
  · intro fs hfs
    rw [GetDictionaries_after_idclear]
    simp [Ne.symm hfs]
  · intro fs x hfs
    rw [path_fromid_fst, path_fromid_fst, GetDictionaries_after_idclear]
    simp [Ne.symm hfs]
  · intro fs p hfs
    rw [kfs_fileid_fst, kfs_fileid_fst, GetDictionaries_after_idclear]
    have hid : (kfs_idclear s.registry (to_uint64 (n : Int))).id = s.registry.id := by
      unfold kfs_idclear
      simp [GetDictionaries_id]
    simp [Ne.symm hfs, hid]

theorem unmount_forgets_mount_witness :
    (path_fromid dirServer.registry 0 2).1 = some ['/', 'd'] ∧
    ∃ s', kfs_unmount dirServer 0
        = some (s', some (install_noimp (kfsfilesystem_duplicate memfs)).options.mountpoint) ∧
      kfstable_get s'.table 0 = some none ∧
      (∀ x, (path_fromid s'.registry (to_uint64 0) x).1 = none) ∧
      (∀ j : Int, j ≠ 0 → kfstable_get s'.table j = kfstable_get dirServer.table j) ∧
      (∀ fs, fs ≠ to_uint64 0 →
        (GetDictionariesForFilesystemWithID s'.registry fs).1
          = (GetDictionariesForFilesystemWithID dirServer.registry fs).1) ∧
      (∀ fs x, fs ≠ to_uint64 0 →
        (path_fromid s'.registry fs x).1 = (path_fromid dirServer.registry fs x).1) ∧
      (∀ fs p, fs ≠ to_uint64 0 →
        (kfs_fileid s'.registry fs p).1 = (kfs_fileid dirServer.registry fs p).1) :=
  ⟨by decide,
    unmount_forgets_mount dirServer 0 (install_noimp (kfsfilesystem_duplicate memfs)) rfl⟩

/-! ## File ids over a run of registry calls -/


/-- What `kfs_fileid` does to the paths of ids: the id it returns is bound to
the path, every other binding is as before. -/
theorem path_fromid_fileid_cases {r : Registry} (h : r.Consistent) (fs fs' j : Nat) (p : CStr) :
    (path_fromid (kfs_fileid r fs p).2 fs' j).1 =
      if fs = fs' ∧ (kfs_fileid r fs p).1 = j then some p else (path_fromid r fs' j).1 := by
  by_cases hp :
      (CFDictionaryGetValue (GetDictionariesForFilesystemWithID r fs).1.pathMap p).getD 0 = 0
  · rw [kfs_fileid_fresh r fs p hp, path_fromid_fst, GetDictionaries_store]
    by_cases hfs : fs = fs'
    · subst hfs
      simp only [if_true, true_and, CFDictionaryGetValue_set]
      rfl
    · simp only [hfs, if_false, false_and]
      rw [GetDictionaries_snd, path_fromid_fst]
  · cases hg : CFDictionaryGetValue (GetDictionariesForFilesystemWithID r fs).1.pathMap p with
    | none => rw [hg] at hp; simp at hp
    | some i =>
      have hi : i ≠ 0 := by rw [hg] at hp; simpa using hp
      rw [kfs_fileid_bound r fs p i hi hg, path_fromid_after_getDictionaries]
      by_cases hc : fs = fs' ∧ i = j
      · obtain ⟨rfl, rfl⟩ := hc
        simp only [and_self, if_true]
        rw [path_fromid_fst]
        exact (h.2.2 fs).to_id p i hg
      · simp only [hc, if_false]

/-- The two ways `kfs_fileid` returns: with the id the path has, which is
below the counter, leaving counter and bindings alone; or with the counter,
which it binds to the path and increments. -/
theorem kfs_fileid_step {r : Registry} (h : r.Consistent) (fs : Nat) (p : CStr) :
    (0 < (kfs_fileid r fs p).1 ∧ (kfs_fileid r fs p).1 < r.id ∧
        (kfs_fileid r fs p).2.id = r.id ∧ (kfs_fileid r fs p).2.Consistent ∧
        (path_fromid r fs (kfs_fileid r fs p).1).1 = some p ∧
        ∀ fs' j, (path_fromid (kfs_fileid r fs p).2 fs' j).1 = (path_fromid r fs' j).1) ∨
      ((kfs_fileid r fs p).1 = r.id ∧ (kfs_fileid r fs p).2.id = (r.id + 1) % 2 ^ 64 ∧
        ∀ fs' j, (path_fromid (kfs_fileid r fs p).2 fs' j).1 =
          if fs = fs' ∧ r.id = j then some p else (path_fromid r fs' j).1) := by
  by_cases hp :
      (CFDictionaryGetValue (GetDictionariesForFilesystemWithID r fs).1.pathMap p).getD 0 = 0
  · right
    have hres : (kfs_fileid r fs p).1 = r.id := by rw [kfs_fileid_fresh r fs p hp]
    have hid : (kfs_fileid r fs p).2.id = (r.id + 1) % 2 ^ 64 := by
      rw [kfs_fileid_fresh r fs p hp]
    refine ⟨hres, hid, fun fs' j => ?_⟩
    rw [path_fromid_fileid_cases h, hres]
  · left
    cases hg : CFDictionaryGetValue (GetDictionariesForFilesystemWithID r fs).1.pathMap p with
    | none => rw [hg] at hp; simp at hp
    | some i =>
      have hi : i ≠ 0 := by rw [hg] at hp; simpa using hp
      have hrange := (h.2.2 fs).range i p ((h.2.2 fs).to_id p i hg)
      rw [kfs_fileid_bound r fs p i hi hg]
      refine ⟨hrange.1, hrange.2, GetDictionaries_id r fs, h.after_getDictionaries fs, ?_, ?_⟩
      · rw [path_fromid_fst]
        exact (h.2.2 fs).to_id p i hg
      · intro fs' j
        exact path_fromid_after_getDictionaries r fs' fs j

/-- An exchange of paths leaves every id with a path that had one, and no
other. -/
theorem path_fromid_after_idswap {r r' : Registry} (h : r.Consistent) (fs a b : Nat)
    (hs : kfs_idswap r fs a b = some r') (fs' j : Nat) :
    (path_fromid r' fs' j).1 ≠ none → (path_fromid r fs' j).1 ≠ none := by
  cases ha : (path_fromid r fs a).1 with
  | none =>
    unfold kfs_idswap at hs
    simp [ha] at hs
  | some pa =>
    cases hb : (path_fromid r fs b).1 with
    | none =>
      have hb' : (path_fromid (path_fromid r fs a).2 fs b).1 = none := by
        rw [path_fromid_after_path_fromid]; exact hb
      unfold kfs_idswap at hs
      simp [ha, hb'] at hs
    | some pb =>
      obtain ⟨r'', hr'', _, _, _, _, hother, hfs⟩ := kfs_idswap_spec h fs a b pa pb ha hb
      rw [hs] at hr''
      simp only [Option.some.injEq] at hr''
      subst hr''
      intro hbound
      by_cases hf : fs' = fs
      · subst hf
        by_cases hja : j = a
        · subst hja; rw [ha]; simp
        · by_cases hjb : j = b
          · subst hjb; rw [hb]; simp
          · rw [hother j hja hjb] at hbound
            exact hbound
      · rw [hfs fs' j hf] at hbound
        exact hbound

/-- The path of an id after `kfs_idclear`. -/
theorem path_fromid_after_idclear (r : Registry) (fs fs' j : Nat) :
    (path_fromid (kfs_idclear r fs) fs' j).1 =
      if fs = fs' then none else (path_fromid r fs' j).1 := by
  rw [path_fromid_fst, GetDictionaries_after_idclear]
  by_cases hfs : fs = fs'
  · simp [hfs, CFDictionaryGetValue]
  · simp only [hfs, if_false]
    rw [path_fromid_fst]

theorem RegistryCall.fileid_or_quiet (c : RegistryCall) :
    (∃ fs p, c = .fileid fs p) ∨ (∀ fs p, c ≠ .fileid fs p) := by
  cases c <;> simp

/-- A call other than `fileid` issues nothing, leaves the counter, and gives
no id a path it did not have. -/
theorem RegistryCall.quiet_step {r r1 : Registry} (h : r.Consistent) (c : RegistryCall)
    (hq : ∀ fs p, c ≠ .fileid fs p) (hc : c.apply r = some r1) (cs : List RegistryCall) :
    r1.Consistent ∧ r1.id = r.id ∧ issued r (c :: cs) = issued r1 cs ∧
      ∀ fs' j, (path_fromid r1 fs' j).1 ≠ none → (path_fromid r fs' j).1 ≠ none := by
  cases c with
  | fileid fs p => exact absurd rfl (hq fs p)
  | path_from fs i =>
    simp only [RegistryCall.apply, Option.some.injEq] at hc
    subst hc
    refine ⟨h.after_path_fromid fs i, ?_, ?_, ?_⟩
    · rw [path_fromid_snd, GetDictionaries_id]
    · simp [issued, RegistryCall.apply]
    · intro fs' j hb
      rwa [path_fromid_after_path_fromid] at hb
  | swap fs a b =>
    simp only [RegistryCall.apply] at hc
    have h1 := h.after_idswap fs a b hc
    refine ⟨h1.1, h1.2, ?_, ?_⟩
    · simp [issued, RegistryCall.apply, hc]
    · intro fs' j
      exact path_fromid_after_idswap h fs a b hc fs' j
  | clear fs =>
    simp only [RegistryCall.apply, Option.some.injEq] at hc
    subst hc
    have h1 := h.after_idclear fs
    refine ⟨h1.1, h1.2, ?_, ?_⟩
    · simp [issued, RegistryCall.apply]
    · intro fs' j hb
      rw [path_fromid_after_idclear] at hb
      by_cases hfs : fs = fs'
      · simp [hfs] at hb
      · simpa [hfs] using hb

/-- One call of a run that allocates fewer ids than the counter has left:
either the counter stays, nothing is allocated and no id gains a path, or the
call is a `fileid` that returns the counter, binds it, and moves the counter
by one. -/
theorem registry_step {r r1 : Registry} (h : r.Consistent) (c : RegistryCall)
    (cs : List RegistryCall) (hc : c.apply r = some r1)
    (hroom : r.id + (allocated r (c :: cs)).length < 2 ^ 64) :
    r1.Consistent ∧ r1.id + (allocated r1 cs).length < 2 ^ 64 ∧
      ((r1.id = r.id ∧ allocated r (c :: cs) = allocated r1 cs ∧
          (∀ fs' j, (path_fromid r1 fs' j).1 ≠ none → (path_fromid r fs' j).1 ≠ none) ∧
          (issued r (c :: cs) = issued r1 cs ∨
            ∃ fs p, c = .fileid fs p ∧
              issued r (c :: cs) = ((kfs_fileid r fs p).1, false) :: issued r1 cs ∧
              0 < (kfs_fileid r fs p).1 ∧ (kfs_fileid r fs p).1 < r.id ∧
              (path_fromid r fs (kfs_fileid r fs p).1).1 = some p)) ∨
        (r1.id = r.id + 1 ∧ allocated r (c :: cs) = r.id :: allocated r1 cs ∧
          ∃ fs p, c = .fileid fs p ∧ (kfs_fileid r fs p).1 = r.id ∧
            issued r (c :: cs) = (r.id, true) :: issued r1 cs ∧
            ∀ fs' j, (path_fromid r1 fs' j).1 =
              if fs = fs' ∧ r.id = j then some p else (path_fromid r fs' j).1)) := by
  rcases c.fileid_or_quiet with ⟨fs, p, rfl⟩ | hq
  · simp only [RegistryCall.apply, Option.some.injEq] at hc
    subst hc
    have hiss : issued r (.fileid fs p :: cs) =
        ((kfs_fileid r fs p).1, decide ((kfs_fileid r fs p).2.id ≠ r.id))
          :: issued (kfs_fileid r fs p).2 cs := by
      simp [issued, RegistryCall.apply]
    rcases kfs_fileid_step h fs p with ⟨hpos, hlt, hid, hcons, hbound, hsame⟩ | ⟨hres, hid, hnew⟩
    · have hiss' : issued r (.fileid fs p :: cs) =
          ((kfs_fileid r fs p).1, false) :: issued (kfs_fileid r fs p).2 cs := by
        rw [hiss, hid]; simp
      have hall : allocated r (.fileid fs p :: cs) = allocated (kfs_fileid r fs p).2 cs := by
        unfold allocated
        rw [hiss']
        simp
      refine ⟨hcons, ?_, Or.inl ⟨hid, hall, ?_, Or.inr ⟨fs, p, rfl, hiss', hpos, hlt, hbound⟩⟩⟩
      · rw [hid, ← hall]; exact hroom
      · intro fs' j hb
        rwa [hsame] at hb
    · have hne : (r.id + 1) % 2 ^ 64 ≠ r.id := by
        have := h.1
        have := h.2.1
        omega
      have hiss' : issued r (.fileid fs p :: cs) =
          (r.id, true) :: issued (kfs_fileid r fs p).2 cs := by
        rw [hiss, hid, hres, decide_eq_true hne]
      have hall : allocated r (.fileid fs p :: cs) = r.id :: allocated (kfs_fileid r fs p).2 cs := by
        unfold allocated
        rw [hiss']
        simp
      rw [hall] at hroom
      simp only [List.length_cons] at hroom
      have hid1 : r.id + 1 < 2 ^ 64 := by omega
      have hid' : (kfs_fileid r fs p).2.id = r.id + 1 := by
        rw [hid]; exact Nat.mod_eq_of_lt hid1
      refine ⟨(h.after_fileid hid1 fs p).1, by rw [hid']; omega,
        Or.inr ⟨hid', hall, fs, p, rfl, hres, hiss', hnew⟩⟩
  · obtain ⟨hcons, hid, hiss, hb⟩ := RegistryCall.quiet_step h c hq hc cs
    have hall : allocated r (c :: cs) = allocated r1 cs := by
      unfold allocated
      rw [hiss]
    refine ⟨hcons, ?_, Or.inl ⟨hid, hall, hb, Or.inl hiss⟩⟩
    rw [hid, ← hall]; exact hroom

/-- Over a run that allocates fewer ids than the counter has left: the
counter advances by the number of allocations, the allocated ids are the
successive values of the counter, every id issued is positive and below the
final counter, and an allocated id is at least the initial counter and above
every id issued before it. -/
theorem runCalls_issued (cs : List RegistryCall) :
    ∀ (r r' : Registry), r.Consistent → r.id + (allocated r cs).length < 2 ^ 64 →
      runCalls r cs = some r' →
      r'.Consistent ∧ r'.id = r.id + (allocated r cs).length ∧
        allocated r cs = List.range' r.id (allocated r cs).length ∧
        (∀ x, x ∈ issued r cs → 0 < x.1 ∧ x.1 < r'.id) ∧
        (∀ l1 l2 y, issued r cs = l1 ++ y :: l2 → y.2 = true →
          r.id ≤ y.1 ∧ ∀ x, x ∈ l1 → x.1 < y.1) := by
  induction cs with
  | nil =>
    intro r r' h _ hrun
    simp only [runCalls, Option.some.injEq] at hrun
    subst hrun
    refine ⟨h, by simp [allocated, issued], by simp [allocated, issued], ?_, ?_⟩
    · intro x hx
      simp [issued] at hx
    · intro l1 l2 y hy
      simp [issued] at hy
  | cons c cs ih =>
    intro r r' h hroom hrun
    simp only [runCalls, Option.bind_eq_some] at hrun
    obtain ⟨r1, hc, hrun⟩ := hrun
    obtain ⟨hcons, hroom1, hstep⟩ := registry_step h c cs hc hroom
    obtain ⟨ih1, ih2, ih3, ih4, ih5⟩ := ih r1 r' hcons hroom1 hrun
    rcases hstep with ⟨hid, hall, _, hiss⟩ | ⟨hid, hall, fs, p, _, hres, hiss, _⟩
    · refine ⟨ih1, by rw [hall, ← hid]; exact ih2, by rw [hall, ← hid]; exact ih3, ?_, ?_⟩
      · rcases hiss with hiss | ⟨fs, p, _, hiss, hpos, hlt, _⟩
        · rw [hiss]; exact ih4
        · rw [hiss]
          intro x hx
          rcases List.mem_cons.mp hx with rfl | hx
          · exact ⟨hpos, by simp only; omega⟩
          · exact ih4 x hx
      · rcases hiss with hiss | ⟨fs, p, _, hiss, hpos, hlt, _⟩
        · rw [hiss, ← hid]; exact ih5
        · rw [hiss]
          intro l1 l2 y hy hy2
          cases l1 with
          | nil =>
            simp only [List.nil_append, List.cons.injEq] at hy
            rw [← hy.1] at hy2
            simp at hy2
          | cons x0 l1 =>
            simp only [List.cons_append, List.cons.injEq] at hy
            have := ih5 l1 l2 y hy.2 hy2
            refine ⟨by omega, ?_⟩
            intro x hx
            rcases List.mem_cons.mp hx with rfl | hx
            · rw [← hy.1]; simp only; omega
            · exact this.2 x hx
    · refine ⟨ih1, ?_, ?_, ?_, ?_⟩
      · rw [hall, ih2, hid]; simp only [List.length_cons]; omega
      · rw [hall]
        simp only [List.length_cons]
        rw [List.range'_succ]
        congr 1
        rw [← hid]
        exact ih3
      · rw [hiss]
        intro x hx
        rcases List.mem_cons.mp hx with rfl | hx
        · exact ⟨h.1, by simp only; omega⟩
        · exact ih4 x hx
      · rw [hiss]
        intro l1 l2 y hy hy2
        cases l1 with
        | nil =>
          simp only [List.nil_append, List.cons.injEq] at hy
          rw [← hy.1]
          exact ⟨le_refl _, fun x hx => by simp at hx⟩
        | cons x0 l1 =>
          simp only [List.cons_append, List.cons.injEq] at hy
          have := ih5 l1 l2 y hy.2 hy2
          refine ⟨by omega, ?_⟩
          intro x hx
          rcases List.mem_cons.mp hx with rfl | hx
          · rw [← hy.1]; simp only; omega
          · exact this.2 x hx

/-- An id below the counter that has no path in the filesystems `S` has none
there after any run. -/
theorem runCalls_unbound (cs : List RegistryCall) (S : Nat → Prop) (i : Nat) :
    ∀ (r r' : Registry), r.Consistent → r.id + (allocated r cs).length < 2 ^ 64 →
      runCalls r cs = some r' → i < r.id →
      (∀ fs', S fs' → (path_fromid r fs' i).1 = none) →
      ∀ fs', S fs' → (path_fromid r' fs' i).1 = none := by
  induction cs with
  | nil =>
    intro r r' _ _ hrun _ hS
    simp only [runCalls, Option.some.injEq] at hrun
    subst hrun
    exact hS
  | cons c cs ih =>
    intro r r' h hroom hrun hi hS
    simp only [runCalls, Option.bind_eq_some] at hrun
    obtain ⟨r1, hc, hrun⟩ := hrun
    obtain ⟨hcons, hroom1, hstep⟩ := registry_step h c cs hc hroom
    rcases hstep with ⟨hid, _, hb, _⟩ | ⟨hid, _, fs, p, _, _, _, hnew⟩
    · refine ih r1 r' hcons hroom1 hrun (by omega) ?_
      intro fs' hfs'
      by_contra hne
      exact hb fs' i hne (hS fs' hfs')
    · refine ih r1 r' hcons hroom1 hrun (by omega) ?_
      intro fs' hfs'
      rw [hnew]
      have hne : ¬ (fs = fs' ∧ r.id = i) := by
        intro hh
        omega
      simp only [hne, if_false]
      exact hS fs' hfs'

/-- No run makes an id the id of paths in two filesystems. -/
theorem runCalls_owner (cs : List RegistryCall) :
    ∀ (r r' : Registry), r.Consistent → r.id + (allocated r cs).length < 2 ^ 64 →
      runCalls r cs = some r' →
      (∀ fs1 fs2 j, (path_fromid r fs1 j).1 ≠ none → (path_fromid r fs2 j).1 ≠ none → fs1 = fs2) →
      ∀ fs1 fs2 j, (path_fromid r' fs1 j).1 ≠ none → (path_fromid r' fs2 j).1 ≠ none →
        fs1 = fs2 := by
  induction cs with
  | nil =>
    intro r r' _ _ hrun hD
    simp only [runCalls, Option.some.injEq] at hrun
    subst hrun
    exact hD
  | cons c cs ih =>
    intro r r' h hroom hrun hD
    simp only [runCalls, Option.bind_eq_some] at hrun
    obtain ⟨r1, hc, hrun⟩ := hrun
    obtain ⟨hcons, hroom1, hstep⟩ := registry_step h c cs hc hroom
    refine ih r1 r' hcons hroom1 hrun ?_
    rcases hstep with ⟨_, _, hb, _⟩ | ⟨_, _, fs, p, _, _, _, hnew⟩
    · intro fs1 fs2 j h1 h2
      exact hD fs1 fs2 j (hb fs1 j h1) (hb fs2 j h2)
    · have hfree : ∀ fs' q, (path_fromid r fs' r.id).1 ≠ some q := by
        intro fs' q hq
        rw [path_fromid_fst] at hq
        have := (h.2.2 fs').range r.id q hq
        omega
      intro fs1 fs2 j h1 h2
      rw [hnew] at h1 h2
      by_cases c1 : fs = fs1 ∧ r.id = j
      · by_cases c2 : fs = fs2 ∧ r.id = j
        · rw [← c1.1, ← c2.1]
        · simp only [c2, if_false] at h2
          rw [← c1.2] at h2
          cases hq : (path_fromid r fs2 r.id).1 with
          | none => exact absurd hq h2
          | some q => exact absurd hq (hfree fs2 q)
      · simp only [c1, if_false] at h1
        by_cases c2 : fs = fs2 ∧ r.id = j
        · rw [← c2.2] at h1
          cases hq : (path_fromid r fs1 r.id).1 with
          | none => exact absurd hq h1
          | some q => exact absurd hq (hfree fs1 q)
        · simp only [c2, if_false] at h2
          exact hD fs1 fs2 j h1 h2

/-- What a run issues: what its first call issues, then what the rest does. -/
theorem issued_cons (r r1 : Registry) (c : RegistryCall) (hc : c.apply r = some r1)
    (l : List RegistryCall) : issued r (c :: l) = issued r [c] ++ issued r1 l := by
  simp [issued, hc]

theorem allocated_cons (r r1 : Registry) (c : RegistryCall) (hc : c.apply r = some r1)
    (l : List RegistryCall) : allocated r (c :: l) = allocated r [c] ++ allocated r1 l := by
  unfold allocated
  rw [issued_cons r r1 c hc l]
  simp

/-- A run in two parts. -/
theorem runCalls_append_room (a b : List RegistryCall) :
    ∀ (r r' : Registry), r.Consistent → r.id + (allocated r (a ++ b)).length < 2 ^ 64 →
      runCalls r (a ++ b) = some r' →
      ∃ ra, runCalls r a = some ra ∧ runCalls ra b = some r' ∧
        r.id + (allocated r a).length < 2 ^ 64 ∧
        ra.id + (allocated ra b).length < 2 ^ 64 ∧
        issued r (a ++ b) = issued r a ++ issued ra b := by
  induction a with
  | nil =>
    intro r r' _ hroom hrun
    exact ⟨r, rfl, hrun, by simp [allocated, issued]; omega, hroom, by simp [issued]⟩
  | cons c a ih =>
    intro r r' h hroom hrun
    simp only [List.cons_append] at hroom hrun
    simp only [runCalls, Option.bind_eq_some] at hrun
    obtain ⟨r1, hc, hrun⟩ := hrun
    obtain ⟨hcons, hroom1, hstep⟩ := registry_step h c (a ++ b) hc hroom
    obtain ⟨ra, hra, hrb, hrooma, hroomb, hiss⟩ := ih r1 r' hcons hroom1 hrun
    refine ⟨ra, ?_, hrb, ?_, hroomb, ?_⟩
    · simp only [runCalls, hc, Option.some_bind]
      exact hra
    · have e1 := allocated_cons r r1 c hc (a ++ b)
      have e2 := allocated_cons r r1 c hc a
      rw [e1] at hroom
      rw [e2]
      simp only [List.length_append] at hroom ⊢
      have hmono : r.id + (allocated r [c]).length = r1.id + 0 ∨
          r.id + (allocated r [c]).length = r1.id := by
        rcases hstep with ⟨hid, hall, _⟩ | ⟨hid, hall, _⟩
        · rw [e1] at hall
          have := congrArg List.length hall
          simp only [List.length_append] at this
          omega
        · rw [e1] at hall
          have := congrArg List.length hall
          simp only [List.length_append, List.length_cons] at this
          omega
      omega
    · rw [List.cons_append, issued_cons r r1 c hc (a ++ b), issued_cons r r1 c hc a, hiss,
        List.append_assoc]

/-- In the initial registry no id has a path. -/
theorem path_fromid_init (fs j : Nat) : (path_fromid Registry.init fs j).1 = none := by
  simp [path_fromid, GetDictionariesForFilesystemWithID, Registry.init, CFDictionaryGetValue]

/-- While no id has a path, the first id a run issues is the counter, freshly
allocated. -/
theorem issued_first (cs : List RegistryCall) :
    ∀ (r : Registry), r.Consistent → (∀ fs j, (path_fromid r fs j).1 = none) →
      ∀ x, (issued r cs).head? = some x → x = (r.id, true) := by
  induction cs with
  | nil =>
    intro r _ _ x hx
    simp [issued] at hx
  | cons c cs ih =>
    intro r h hfree x hx
    cases hc : c.apply r with
    | none =>
      cases c with
      | swap fs a b => simp [issued, hc] at hx
      | fileid fs p => simp [RegistryCall.apply] at hc
      | path_from fs i => simp [RegistryCall.apply] at hc
      | clear fs => simp [RegistryCall.apply] at hc
    | some r1 =>
      rcases c.fileid_or_quiet with ⟨fs, p, rfl⟩ | hq
      · simp only [RegistryCall.apply, Option.some.injEq] at hc
        subst hc
        simp only [issued, RegistryCall.apply, List.singleton_append, List.head?_cons,
          Option.some.injEq] at hx
        rcases kfs_fileid_step h fs p with ⟨_, _, _, _, hbound, _⟩ | ⟨hres, hid, _⟩
        · rw [hfree] at hbound
          cases hbound
        · have hne : (r.id + 1) % 2 ^ 64 ≠ r.id := by
            have := h.1
            have := h.2.1
            omega
          rw [← hx, hres, hid, decide_eq_true hne]
      · obtain ⟨hcons, hid, hiss, hb⟩ := RegistryCall.quiet_step h c hq hc cs
        rw [hiss] at hx
        rw [← hid]
        refine ih r1 hcons ?_ x hx
        intro fs j
        by_contra hne
        exact hb fs j hne (hfree fs j)

/-- C29: over any run of `fileid`, `path_from`, `swap` and `clear` calls from
the initial registry that allocates fewer than `2 ^ 64 - 1` ids: `kfs_fileid`
never returns 0; the first id issued is 1, freshly allocated; the allocated ids
are strictly increasing in allocation order; a freshly allocated id is above
every id issued before it, in whatever filesystem and also across `clear`; and
an id issued in a filesystem before a `clear` of that filesystem has no path
in any filesystem afterwards and is not returned by `kfs_fileid` again. -/
theorem fileid_never_reused (cs : List RegistryCall) (r' : Registry)
    (hrun : runCalls Registry.init cs = some r')
    (hcount : (allocated Registry.init cs).length < 2 ^ 64 - 1) :
    (∀ x, x ∈ issued Registry.init cs → x.1 ≠ 0) ∧
      (∀ x, (issued Registry.init cs).head? = some x → x = (1, true)) ∧
      (allocated Registry.init cs).Pairwise (fun a b => a < b) ∧
      (∀ l1 l2 i, issued Registry.init cs = l1 ++ (i, true) :: l2 → ∀ x, x ∈ l1 → x.1 < i) ∧
      (∀ cs0 cs1 cs2 fs p r0, cs = cs0 ++ .fileid fs p :: (cs1 ++ .clear fs :: cs2) →
        runCalls Registry.init cs0 = some r0 →
        (∀ fs', (path_fromid r' fs' (kfs_fileid r0 fs p).1).1 = none) ∧
          ∀ fs' q, (kfs_fileid r' fs' q).1 ≠ (kfs_fileid r0 fs p).1) := by
  have hinit : Registry.init.Consistent := Registry.Consistent.at_init
  have hroom : Registry.init.id + (allocated Registry.init cs).length < 2 ^ 64 := by
    have : Registry.init.id = 1 := rfl
    omega
  obtain ⟨hcons, hid, hall, hiss, hfresh⟩ := runCalls_issued cs Registry.init r' hinit hroom hrun
  refine ⟨?_, ?_, ?_, ?_, ?_⟩
  · intro x hx
    have := (hiss x hx).1
    omega
  · intro x hx
    exact issued_first cs Registry.init hinit path_fromid_init x hx
  · rw [hall]
    exact List.pairwise_lt_range' _ _
  · intro l1 l2 i hl x hx
    exact (hfresh l1 l2 (i, true) hl rfl).2 x hx
  · intro cs0 cs1 cs2 fs p r0 hcs hr0
    subst hcs
    obtain ⟨ra, hra, hrest, hroom0, hroom0', _⟩ :=
      runCalls_append_room cs0 _ Registry.init r' hinit hroom hrun
    rw [hr0] at hra
    simp only [Option.some.injEq] at hra
    subst hra
    have h0 := (runCalls_issued cs0 Registry.init r0 hinit hroom0 hr0).1
    have hD0 := runCalls_owner cs0 Registry.init r0 hinit hroom0 hr0
      (fun fs1 fs2 j h1 _ => absurd (path_fromid_init fs1 j) h1)
    -- the call that issues the id
    obtain ⟨rb, hrb, hrest1, hroomb, hroomb', _⟩ :=
      runCalls_append_room [.fileid fs p] (cs1 ++ .clear fs :: cs2) r0 r' h0 hroom0' hrest
    have hrb' : rb = (kfs_fileid r0 fs p).2 := by
      simp only [runCalls, RegistryCall.apply, Option.some_bind, Option.some.injEq] at hrb
      exact hrb.symm
    obtain ⟨hb, _, _, hissb, _⟩ := runCalls_issued [.fileid fs p] r0 rb h0 hroomb hrb
    have hDb := runCalls_owner [.fileid fs p] r0 rb h0 hroomb hrb hD0
    have hlt : (kfs_fileid r0 fs p).1 < rb.id := by
      refine (hissb ((kfs_fileid r0 fs p).1, decide ((kfs_fileid r0 fs p).2.id ≠ r0.id)) ?_).2
      simp [issued, RegistryCall.apply]
    have hbound : (path_fromid rb fs (kfs_fileid r0 fs p).1).1 = some p := by
      rw [hrb']
      exact path_fromid_kfs_fileid h0 fs p
    have hother : ∀ fs', fs' ≠ fs → (path_fromid rb fs' (kfs_fileid r0 fs p).1).1 = none := by
      intro fs' hfs'
      by_contra hne
      exact hfs' (hDb fs' fs _ hne (by rw [hbound]; simp))
    -- the calls up to the clear
    obtain ⟨r1, hr1, hrest2, hroom1, hroom1', _⟩ :=
      runCalls_append_room cs1 (.clear fs :: cs2) rb r' hb hroomb' hrest1
    obtain ⟨h1, hid1, _⟩ := runCalls_issued cs1 rb r1 hb hroom1 hr1
    have hother1 := runCalls_unbound cs1 (fun fs' => fs' ≠ fs) _ rb r1 hb hroom1 hr1 hlt hother
    -- the clear
    simp only [runCalls, RegistryCall.apply, Option.some_bind] at hrest2
    obtain ⟨h2, hroom2, _⟩ := registry_step h1 (.clear fs) cs2 rfl hroom1'
    have hid2 := (h1.after_idclear fs).2
    have hfree2 : ∀ fs', True → (path_fromid (kfs_idclear r1 fs) fs' (kfs_fileid r0 fs p).1).1
        = none := by
      intro fs' _
      rw [path_fromid_after_idclear]
      by_cases hfs : fs = fs'
      · simp [hfs]
      · simp only [hfs, if_false]
        exact hother1 fs' (fun h => hfs h.symm)
    -- the calls after the clear
    have hfree := runCalls_unbound cs2 (fun _ => True) _ (kfs_idclear r1 fs) r' h2 hroom2 hrest2
      (by rw [hid2]; omega) hfree2
    obtain ⟨_, hid', _⟩ := runCalls_issued cs2 (kfs_idclear r1 fs) r' h2 hroom2 hrest2
    refine ⟨fun fs' => hfree fs' trivial, ?_⟩
    intro fs' q heq
    rcases kfs_fileid_step hcons fs' q with ⟨_, _, _, _, hq, _⟩ | ⟨hres, _⟩
    · rw [heq, hfree fs' trivial] at hq
      cases hq
    · rw [hres] at heq
      omega

theorem fileid_never_reused_witness :
    (∀ x, x ∈ issued Registry.init [.fileid 0 ['/'], .clear 0, .fileid 0 ['/']] → x.1 ≠ 0) ∧
      (∀ x, (issued Registry.init [.fileid 0 ['/'], .clear 0, .fileid 0 ['/']]).head? = some x →
        x = (1, true)) ∧
      (allocated Registry.init [.fileid 0 ['/'], .clear 0, .fileid 0 ['/']]).Pairwise
        (fun a b => a < b) ∧
      (∀ l1 l2 i, issued Registry.init [.fileid 0 ['/'], .clear 0, .fileid 0 ['/']]
          = l1 ++ (i, true) :: l2 → ∀ x, x ∈ l1 → x.1 < i) ∧
      (∀ cs0 cs1 cs2 fs p r0,
        [RegistryCall.fileid 0 ['/'], .clear 0, .fileid 0 ['/']]
          = cs0 ++ .fileid fs p :: (cs1 ++ .clear fs :: cs2) →
        runCalls Registry.init cs0 = some r0 →
        (∀ fs', (path_fromid { filesystemMap := [(0, { idMap := [(2, ['/'])],
                                                        pathMap := [(['/'], 2)] })], id := 3 }
            fs' (kfs_fileid r0 fs p).1).1 = none) ∧
          ∀ fs' q, (kfs_fileid { filesystemMap := [(0, { idMap := [(2, ['/'])],
                                                          pathMap := [(['/'], 2)] })], id := 3 }
            fs' q).1 ≠ (kfs_fileid r0 fs p).1) :=
  fileid_never_reused [.fileid 0 ['/'], .clear 0, .fileid 0 ['/']]
    { filesystemMap := [(0, { idMap := [(2, ['/'])], pathMap := [(['/'], 2)] })], id := 3 }
    (by decide) (by decide)

/-! ## READDIR: the entries of a reply -/

/-- Appending a list of names to a listing buffer that has room below `2 ^ 32`
entries: the count grows by the length, the stored entries stay, and the new
ones follow in order. -/
theorem kfscontents_fold (L : List CStr) :
    ∀ (C : kfscontents), C.count + L.length < 2 ^ 32 →
      (L.foldl kfscontents_append C).count = C.count + L.length ∧
      (∀ i, i < C.count → (L.foldl kfscontents_append C).entries i = C.entries i) ∧
      (∀ j e, L[j]? = some e →
        (L.foldl kfscontents_append C).entries (C.count + j) = some e) := by
  induction L with
  | nil =>
    intro C _
    refine ⟨rfl, fun _ _ => rfl, ?_⟩
    intro j e he
    simp at he
  | cons x xs ih =>
    intro C hC
    simp only [List.length_cons] at hC
    have hc1 : (kfscontents_append C x).count = C.count + 1 := by
      unfold kfscontents_append
      simp only
      exact Nat.mod_eq_of_lt (by omega)
    have he1 : ∀ i, (kfscontents_append C x).entries i
        = if i = C.count then some x else C.entries i := by
      intro i
      unfold kfscontents_append
      simp only
      rw [Nat.mod_eq_of_lt (show C.count < 2 ^ 32 by omega)]
    obtain ⟨h1, h2, h3⟩ := ih (kfscontents_append C x) (by rw [hc1]; omega)
    simp only [List.foldl_cons, List.length_cons]
    refine ⟨by rw [h1, hc1]; omega, ?_, ?_⟩
    · intro i hi
      rw [h2 i (by rw [hc1]; omega), he1, if_neg (by omega)]
    · intro j e he
      cases j with
      | zero =>
        simp only [List.getElem?_cons_zero, Option.some.injEq] at he
        subst he
        rw [Nat.add_zero, h2 C.count (by rw [hc1]; omega), he1, if_pos rfl]
      | succ j =>
        simp only [List.getElem?_cons_succ] at he
        have := h3 j e he
        rw [hc1] at this
        rw [← this]
        congr 1
        omega

/-- Reading the listing buffer filled from a list of fewer than `2 ^ 32`
names. -/
theorem kfscontents_at_fold (L : List CStr) (hL : L.length < 2 ^ 32) (i : Nat) :
    kfscontents_at (L.foldl kfscontents_append kfscontents_create) i = L[i]? := by
  have hzero : kfscontents_create.count = 0 := rfl
  obtain ⟨h1, _, h3⟩ := kfscontents_fold L kfscontents_create (by rw [hzero]; omega)
  unfold kfscontents_at
  rw [h1, hzero, Nat.zero_add]
  by_cases hi : i < L.length
  · rw [if_pos hi]
    have := h3 i (L.get ⟨i, hi⟩) (List.getElem?_eq_getElem hi)
    rw [hzero, Nat.zero_add] at this
    rw [this, List.getElem?_eq_getElem hi]
    rfl
  · rw [if_neg hi]
    exact (List.getElem?_eq_none (by omega)).symm

/-- One round of the loop of READDIR on an entry the listing has. -/
theorem readdir_loop_succ (H : Host) (p : CStr) (identifier : Nat) (contents : kfscontents)
    (cnt_count room cnt_i ent_i : Nat) (r : Registry) (entries : Nat → entry3) (e : CStr)
    (hlt : cnt_i < cnt_count) (he : kfscontents_at contents cnt_i = some e) :
    readdir_loop H (some p) identifier contents cnt_count (room + 1) cnt_i ent_i r entries =
      readdir_loop H (some p) identifier contents cnt_count room (cnt_i + 1) (ent_i + 1)
        (kfs_fileid r identifier (entry_path p e)).2
        (fun i =>
          if i = ent_i then
            { fileid := (kfs_fileid r identifier (entry_path p e)).1,
              name := some (e.take H.NAME_MAX), cookie := cnt_i, nextentry := false }
          else if i + 1 = ent_i then { entries i with nextentry := true }
          else entries i) := by
  rw [readdir_loop]
  pick_goal 3
  · exact he
  simp only [hlt, if_true]
  congr 1
  funext i
  by_cases h0 : ent_i > 0
  · simp only [h0, if_true]
    by_cases h1 : i = ent_i - 1
    · subst h1
      have h2 : ¬ ent_i - 1 = ent_i := by omega
      have h3 : ent_i - 1 + 1 = ent_i := by omega
      simp only [h2, h3, if_true, if_false]
    · have h3 : ¬ i + 1 = ent_i := by omega
      simp only [h1, h3, if_false]
      rfl
  · have h3 : ¬ i + 1 = ent_i := by omega
    simp only [h0, h3, if_false]
    rfl

/-- The loop of READDIR with the listing exhausted. -/
theorem readdir_loop_done (H : Host) (path : Option CStr) (identifier : Nat)
    (contents : kfscontents) (cnt_count room cnt_i ent_i : Nat) (r : Registry)
    (entries : Nat → entry3) (hge : ¬ cnt_i < cnt_count) :
    readdir_loop H path identifier contents cnt_count room cnt_i ent_i r entries
      = some (cnt_i, r, entries) := by
  cases room with
  | zero => rw [readdir_loop]
  | succ room =>
    unfold readdir_loop
    simp only [hge, if_false]

/-- The loop of READDIR over a listing `L`: it stops at `min L.length (cnt_i +
room)`, leaves the array below the previous entry alone, links the previous
entry when it stores one, and stores for every index it passes the name, the
index as cookie, the link to the next entry stored, and an id bound to the
composed path. -/
theorem readdir_loop_spec (H : Host) (p : CStr) (identifier : Nat) (contents : kfscontents)
    (L : List CStr) (hcont : ∀ i, kfscontents_at contents i = L[i]?) :
    ∀ (room cnt_i ent_i : Nat) (r : Registry) (entries : Nat → entry3),
      r.Consistent → r.id + (L.length - cnt_i) < 2 ^ 64 → cnt_i ≤ L.length →
      ∃ r' entries',
        readdir_loop H (some p) identifier contents L.length room cnt_i ent_i r entries
          = some (min L.length (cnt_i + room), r', entries') ∧
        r'.Consistent ∧
        (∀ fs j q, (path_fromid r fs j).1 = some q → (path_fromid r' fs j).1 = some q) ∧
        (∀ i, i + 1 < ent_i → entries' i = entries i) ∧
        (0 < ent_i → entries' (ent_i - 1) =
          if cnt_i < min L.length (cnt_i + room) then
            { entries (ent_i - 1) with nextentry := true }
          else entries (ent_i - 1)) ∧
        (∀ k e, cnt_i + k < min L.length (cnt_i + room) → L[cnt_i + k]? = some e →
          (entries' (ent_i + k)).name = some (e.take H.NAME_MAX) ∧
          (entries' (ent_i + k)).cookie = cnt_i + k ∧
          (entries' (ent_i + k)).nextentry
            = decide (cnt_i + k + 1 < min L.length (cnt_i + room)) ∧
          (path_fromid r' identifier (entries' (ent_i + k)).fileid).1
            = some (entry_path p e)) := by
  intro room
  induction room with
  | zero =>
    intro cnt_i ent_i r entries hc _ hle
    refine ⟨r, entries, ?_, hc, fun _ _ _ h => h, fun _ _ => rfl, ?_, ?_⟩
    · rw [readdir_loop, Nat.add_zero, Nat.min_eq_right hle]
    · intro _
      rw [if_neg (by omega)]
    · intro k e hk
      omega
  | succ room ih =>
    intro cnt_i ent_i r entries hc hroom hle
    by_cases hlt : cnt_i < L.length
    · have he : L[cnt_i]? = some (L.get ⟨cnt_i, hlt⟩) := List.getElem?_eq_getElem hlt
      generalize L.get ⟨cnt_i, hlt⟩ = e0 at he
      have hat : kfscontents_at contents cnt_i = some e0 := by rw [hcont, he]
      have hfile := hc.after_fileid (by omega) identifier (entry_path p e0)
      obtain ⟨r', entries', hloop, hc', hkeep, hbelow, hprev, hstored⟩ :=
        ih (cnt_i + 1) (ent_i + 1) (kfs_fileid r identifier (entry_path p e0)).2
          (fun i =>
            if i = ent_i then
              { fileid := (kfs_fileid r identifier (entry_path p e0)).1,
                name := some (e0.take H.NAME_MAX), cookie := cnt_i, nextentry := false }
            else if i + 1 = ent_i then { entries i with nextentry := true }
            else entries i)
          hfile.1 (by have := hfile.2; omega) (by omega)
      have hmin : min L.length (cnt_i + 1 + room) = min L.length (cnt_i + (room + 1)) := by
        congr 1
        omega
      rw [hmin] at hloop hstored hprev
      have hprev' := hprev (Nat.succ_pos _)
      simp only [Nat.add_sub_cancel, if_true] at hprev'
      refine ⟨r', entries', ?_, hc', ?_, ?_, ?_, ?_⟩
      · rw [readdir_loop_succ H p identifier contents L.length room cnt_i ent_i r entries e0 hlt
          hat]
        exact hloop
      · intro fs j q hq
        exact hkeep fs j q (path_fromid_after_fileid hc identifier fs j _ q hq)
      · intro i hi
        rw [hbelow i (by omega)]
        have h1 : ¬ i = ent_i := by omega
        have h2 : ¬ i + 1 = ent_i := by omega
        simp only [h1, h2, if_false]
      · intro hpos
        rw [hbelow (ent_i - 1) (by omega)]
        have h1 : ¬ ent_i - 1 = ent_i := by omega
        have h2 : ent_i - 1 + 1 = ent_i := by omega
        have h3 : cnt_i < min L.length (cnt_i + (room + 1)) := by
          rw [Nat.lt_min]; omega
        simp only [h1, h2, h3, if_true, if_false]
      · intro k e hk he'
        cases k with
        | zero =>
          rw [Nat.add_zero] at he' hk ⊢
          rw [he] at he'
          simp only [Option.some.injEq] at he'
          subst he'
          have hbound : (path_fromid r' identifier
              (kfs_fileid r identifier (entry_path p e0)).1).1 = some (entry_path p e0) :=
            hkeep identifier _ _ (path_fromid_kfs_fileid hc identifier (entry_path p e0))
          rw [Nat.add_zero, hprev']
          by_cases hnext : cnt_i + 1 < min L.length (cnt_i + (room + 1))
          · simp only [hnext, if_true, decide_True]
            exact ⟨trivial, trivial, trivial, hbound⟩
          · simp only [hnext, if_false, decide_False]
            exact ⟨trivial, trivial, trivial, hbound⟩
        | succ k =>
          have e1 : cnt_i + 1 + k = cnt_i + (k + 1) := by omega
          have e2 : ent_i + 1 + k = ent_i + (k + 1) := by omega
          have := hstored k e (by omega) (by rw [e1]; exact he')
          rw [e1, e2] at this
          exact this
    · have heq : cnt_i = L.length := by omega
      refine ⟨r, entries, ?_, hc, fun _ _ _ h => h, fun _ _ => rfl, ?_, ?_⟩
      · rw [readdir_loop_done H _ identifier contents L.length _ cnt_i ent_i r entries hlt,
          Nat.min_eq_left (by omega), heq]
      · intro _
        rw [if_neg (by rw [Nat.lt_min]; omega)]
      · intro k e hk
        rw [Nat.lt_min] at hk
        omega

/-- The list a reply denotes when the first `K` elements of the array are
linked one to the next and the last of them to nothing. -/
theorem entry_chain_eq (entries : Nat → entry3) (K : Nat)
    (hnext : ∀ k, k < K → (entries k).nextentry = decide (k + 1 < K)) :
    ∀ (fuel i : Nat), i < K → K - i ≤ fuel →
      entry_chain entries fuel i = (List.range' i (K - i)).map entries := by
  intro fuel
  induction fuel with
  | zero =>
    intro i hi hf
    omega
  | succ fuel ih =>
    intro i hi hf
    rw [entry_chain, hnext i hi]
    have hK : K - i = (K - (i + 1)) + 1 := by omega
    rw [hK, List.range'_succ, List.map_cons]
    congr 1
    by_cases hlast : i + 1 < K
    · simp only [hlast, decide_True, if_true]
      exact ih (i + 1) hlast (by omega)
    · have h0 : K - (i + 1) = 0 := by omega
      simp [hlast, h0]

/-- C21: for a READDIR whose verifier check passes (cookie 0 with an empty
verifier, or the verifier of the directory's mtime), whose handle resolves to a
mount and a path, and whose `readdir` callback returns `true` with a listing
`L` of fewer than `2 ^ 32` names, each shorter than `NAME_MAX`, with
`cookie < L.length` and `1 ≤ count`, in a consistent registry with room for
`L.length` more ids: the reply is `NFS3_OK`; with `m = min count 4096` it has
`min L.length (cookie + m) - cookie` entries, the `k`-th of which carries the
name `L[cookie + k]`, the cookie `cookie + k` and the file id that the registry
binds to the composed path of that name; and `eof` is set if and only if
`min L.length (cookie + m) = L.length`. -/
theorem readdir_entries_from_cookie {σ : Type} (H : Host) (s s0 s1 : Server σ) (dir : CStr)
    (cookie : Nat) (cookieverf : CStr) (count : Nat) (st : nfsstat3) (written : Option fattr3)
    (filesystem : kfsfilesystem σ) (p : CStr) (identifier : Nat) (readdir : kfsreaddir_f σ)
    (L : List CStr)
    (hattr : get_fattr H s dir = some ((st, written), s0))
    (hverf : (cookie = 0 ∧ cookieverf = []) ∨
      cookieverf = cookieverf_of (written.getD fattr3.zero).mtime.seconds)
    (hfs : get_filesystem s0 dir = some ((some filesystem, some p, identifier), s1))
    (hrd : filesystem.readdir = some readdir)
    (hout : (readdir (some p) filesystem.context s1.world).value = (true, L))
    (hL : L.length < 2 ^ 32) (hnames : ∀ e, e ∈ L → e.length < H.NAME_MAX)
    (hcookie : cookie < L.length) (hcount : 1 ≤ count)
    (hc : s1.registry.Consistent) (hroom : s1.registry.id + L.length < 2 ^ 64) :
    ∃ reply s' resok,
      nfsproc3_readdir_3_svc H s dir cookie cookieverf count = some (reply, s') ∧
      reply.status = NFS3_OK ∧ reply.resok = some resok ∧
      resok.entries.length = min L.length (cookie + min count 4096) - cookie ∧
      (∀ k e, cookie + k < min L.length (cookie + min count 4096) → L[cookie + k]? = some e →
        ∃ ent, resok.entries[k]? = some ent ∧ ent.name = some e ∧ ent.cookie = cookie + k ∧
          (path_fromid s'.registry identifier ent.fileid).1 = some (entry_path p e) ∧
          (kfs_fileid s'.registry identifier (entry_path p e)).1 = ent.fileid) ∧
      resok.eof = decide (min L.length (cookie + min count 4096) = L.length) := by
  have hvalid : (!((decide (cookie = 0) && decide (cookieverf.length = 0)) == false &&
      decide (cookieverf ≠ cookieverf_of (written.getD fattr3.zero).mtime.seconds))) = true := by
    rcases hverf with ⟨h0, hv⟩ | hv
    · subst h0 hv
      simp
    · rw [← hv]
      simp
  have hent : (if count > DIR_MAX_LEN then DIR_MAX_LEN else count) = min count 4096 := by
    unfold DIR_MAX_LEN
    split <;> omega
  have hcnt : kfscontents_count (L.foldl kfscontents_append kfscontents_create) = L.length := by
    have := (kfscontents_fold L kfscontents_create (by
      show 0 + L.length < 2 ^ 32
      omega)).1
    unfold kfscontents_count
    rw [this]
    show 0 + L.length = L.length
    omega
  obtain ⟨r', entries', hloop, hc', _, _, _, hstored⟩ :=
    readdir_loop_spec H p identifier (L.foldl kfscontents_append kfscontents_create) L
      (kfscontents_at_fold L hL) (min count 4096) cookie 0 s1.registry s1.readdir_entries hc
      (by omega) (le_of_lt hcookie)
  have hM : cookie < min L.length (cookie + min count 4096) := by
    rw [Nat.lt_min]
    have : 1 ≤ min count 4096 := by rw [Nat.le_min]; omega
    omega
  have hMle : min L.length (cookie + min count 4096) ≤ L.length := Nat.min_le_left _ _
  have hMle' : min L.length (cookie + min count 4096) ≤ cookie + 4096 := by
    have : min count 4096 ≤ 4096 := Nat.min_le_right _ _
    have := Nat.min_le_right L.length (cookie + min count 4096)
    omega
  have hat : ∀ k, cookie + k < min L.length (cookie + min count 4096) →
      ∃ e, L[cookie + k]? = some e ∧ e ∈ L := by
    intro k hk
    have hlt : cookie + k < L.length := by omega
    exact ⟨L.get ⟨cookie + k, hlt⟩, List.getElem?_eq_getElem hlt, List.get_mem _ _ _⟩
  have hchain : entry_chain entries' DIR_MAX_LEN 0 =
      (List.range' 0 (min L.length (cookie + min count 4096) - cookie)).map entries' := by
    refine entry_chain_eq entries' (min L.length (cookie + min count 4096) - cookie) ?_
      DIR_MAX_LEN 0 (by omega) (by unfold DIR_MAX_LEN; omega)
    intro k hk
    obtain ⟨e, he, _⟩ := hat k (by omega)
    have := (hstored k e (by omega) he).2.2.1
    rw [Nat.zero_add] at this
    rw [this]
    apply decide_eq_decide.mpr
    omega
  refine ⟨{ status := NFS3_OK
            resok := some { dir_attributes := get_post_op
                            cookieverf := cookieverf_of (written.getD fattr3.zero).mtime.seconds
                            entries := entry_chain entries' DIR_MAX_LEN 0
                            eof := decide (min L.length (cookie + min count 4096) = L.length) } },
    { s1.called (.readdir (some p)) (readdir (some p) filesystem.context s1.world).world with
      registry := r', readdir_entries := entries' },
    { dir_attributes := get_post_op
      cookieverf := cookieverf_of (written.getD fattr3.zero).mtime.seconds
      entries := entry_chain entries' DIR_MAX_LEN 0
      eof := decide (min L.length (cookie + min count 4096) = L.length) },
    ?_, ?_, rfl, ?_, ?_, ?_⟩
  · unfold nfsproc3_readdir_3_svc
    rw [hattr]
    simp only
    rw [if_pos hvalid, hfs]
    simp only [hrd, hout, if_true, hent, hcnt, Server.called]
    rw [hloop]
  · rfl
  · simp only [hchain, List.length_map, List.length_range']
  · intro k e hk he
    have hst := hstored k e hk he
    rw [Nat.zero_add] at hst
    obtain ⟨e', he', hin⟩ := hat k hk
    have hin' : e ∈ L := by
      rw [he] at he'
      simp only [Option.some.injEq] at he'
      rw [he']
      exact hin
    refine ⟨entries' k, ?_, ?_, hst.2.1, hst.2.2.2, ?_⟩
    · have hk' : k < min L.length (cookie + min count 4096) - cookie := by omega
      simp only [hchain, List.getElem?_map, List.getElem?_range' _ _ hk', Option.map_some']
      congr 2
      omega
    · rw [hst.1, List.take_of_length_le (le_of_lt (hnames e hin'))]
    · have := kfs_fileid_of_path_fromid hc' identifier _ _ hst.2.2.2
      rw [this]
  · rfl

theorem readdir_entries_from_cookie_witness :
    ∃ reply s' resok,
      nfsproc3_readdir_3_svc darwin (mounted (listfs abc) 5) ['0'] 1 ['5'] 2
        = some (reply, s') ∧
      reply.status = NFS3_OK ∧ reply.resok = some resok ∧
      resok.entries.length = min abc.length (1 + min 2 4096) - 1 ∧
      (∀ k e, 1 + k < min abc.length (1 + min 2 4096) → abc[1 + k]? = some e →
        ∃ ent, resok.entries[k]? = some ent ∧ ent.name = some e ∧ ent.cookie = 1 + k ∧
          (path_fromid s'.registry 0 ent.fileid).1 = some (entry_path ['/'] e) ∧
          (kfs_fileid s'.registry 0 (entry_path ['/'] e)).1 = ent.fileid) ∧
      resok.eof = decide (min abc.length (1 + min 2 4096) = abc.length) :=
  readdir_entries_from_cookie darwin (mounted (listfs abc) 5)
    { mounted (listfs abc) 5 with registry := memRegistry1, trace := [.stat (some ['/'])] }
    { mounted (listfs abc) 5 with registry := memRegistry1, trace := [.stat (some ['/'])] }
    ['0'] 1 ['5'] 2 NFS3_OK
    (some (fattr3_of_stat darwin
      { type := .KFS_DIR, mode := 0x755, size := 0, used := 0, atime := ⟨0, 0⟩,
        mtime := ⟨5, 0⟩, ctime := ⟨0, 0⟩ } 1))
    (install_noimp (kfsfilesystem_duplicate (listfs abc))) ['/'] 0
    (fun _ _ w => ⟨(true, abc), none, w⟩) abc
    rfl (Or.inr (by decide)) rfl rfl rfl (by decide) (by decide) (by decide) (by decide)
    (Registry.Consistent.at_init.after_fileid (by decide) 0 ['/']).1 (by decide)

/-! ## READDIR: resumption and the verifier -/

/-- C22, the code at failing inputs: on a directory that lists `a`, `b`, `c`, a
client that asks for 2 entries at a time and passes back the cookie of the
last entry it received gets `a`, `b`, `b`, `c` and then eof: the first reply
holds `a` and `b` with the cookies 0 and 1, and the call with cookie 1 begins
at index 1 again.  Asking for 1 entry at a time, six calls return six times
`a`, and eof is not reached. -/
theorem readdir_resumption_repeats :
    readdir_client darwin ['0'] 2 10 (mounted (listfs abc) 5) 0 []
        = ([some ['a'], some ['b'], some ['b'], some ['c']], true) ∧
      readdir_client darwin ['0'] 1 6 (mounted (listfs abc) 5) 0 []
        = ([some ['a'], some ['a'], some ['a'], some ['a'], some ['a'], some ['a']], false) ∧
      (nfsproc3_readdir_3_svc darwin (mounted (listfs abc) 5) ['0'] 0 [] 2).map
          (fun r => (r.1.status,
            r.1.resok.map (fun k => (k.entries.map (fun e => (e.name, e.cookie)), k.eof))))
        = some (NFS3_OK, some ([(some ['a'], 0), (some ['b'], 1)], false)) ∧
      ((nfsproc3_readdir_3_svc darwin (mounted (listfs abc) 5) ['0'] 0 [] 2).bind
          (fun r => (nfsproc3_readdir_3_svc darwin r.2 ['0'] 1 ['5'] 2).map
            (fun r => (r.1.status,
              r.1.resok.map (fun k => (k.entries.map (fun e => (e.name, e.cookie)), k.eof)))))
        = some (NFS3_OK, some ([(some ['b'], 1), (some ['c'], 2)], true))) := by
  refine ⟨by decide, by decide, rfl, rfl⟩

/-- C23, the code at failing inputs: the modification times `0x10000000` and
`0x10000001` differ modulo `2 ^ 32` but get the same verifier, the seven
characters `1000000` (the eight digits that `%x` prints are cut to seven by
the size 8 given to `snprintf`); so a READDIR with cookie 1 and the verifier
issued for `0x10000000` on a directory whose mtime is `0x10000001` replies
`NFS3_OK`, while with the mtime `0x10000010` it replies
`NFS3ERR_BAD_COOKIE`. -/
theorem cookieverf_drops_a_digit :
    cookieverf_of 0x10000000 = cookieverf_of 0x10000001 ∧
      0x10000000 % 2 ^ 32 ≠ 0x10000001 % 2 ^ 32 ∧
      cookieverf_of 0x10000000 = ['1', '0', '0', '0', '0', '0', '0'] ∧
      format_x (0x10000000 &&& timemask) = ['1', '0', '0', '0', '0', '0', '0', '0'] ∧
      (nfsproc3_readdir_3_svc darwin (mounted (listfs abc) 0x10000001) ['0'] 1
          (cookieverf_of 0x10000000) 2).map
          (fun r => (r.1.status,
            r.1.resok.map (fun k => (k.entries.map (fun e => (e.name, e.cookie)), k.eof))))
        = some (NFS3_OK, some ([(some ['b'], 1), (some ['c'], 2)], true)) ∧
      (nfsproc3_readdir_3_svc darwin (mounted (listfs abc) 0x10000010) ['0'] 1
          (cookieverf_of 0x10000000) 2).map (fun r => r.1.status)
        = some NFS3ERR_BAD_COOKIE := by
  refine ⟨by decide, by decide, by decide, by decide, rfl, by decide⟩

/-! ## RENAME across mounts -/

/-- The bindings a handle resolution can add: only that of `/` in the
handle's filesystem, and only for a handle without a file id. -/
theorem get_filesystem_bindings {σ : Type} (s s1 : Server σ) (object : CStr)
    (f : Option (kfsfilesystem σ)) (path : Option CStr) (fsid : Nat)
    (h : get_filesystem s object = some ((f, path, fsid), s1)) (hc : s.registry.Consistent) :
    ∀ fs' j q, (path_fromid s1.registry fs' j).1 = some q →
      (path_fromid s.registry fs' j).1 = some q ∨
        (q = ['/'] ∧ fs' = fsid ∧ (strsep ':' object).2 = none) := by
  unfold get_filesystem get_filesystem_from_path at h
  simp only at h
  cases hget : kfstable_get s.table (to_int64 (to_uint64 (atoll (strsep ':' object).1))) with
  | none => rw [hget] at h; cases h
  | some f0 =>
    rw [hget] at h
    simp only [Option.some.injEq, Prod.mk.injEq] at h
    obtain ⟨⟨hf, hp, hfs⟩, hs⟩ := h
    subst hfs hf
    intro fs' j q hq
    rw [← hs] at hq
    simp only at hq
    cases hstr : (strsep ':' object).2 with
    | some str =>
      simp only [hstr] at hq
      rw [path_fromid_after_path_fromid] at hq
      exact Or.inl hq
    | none =>
      simp only [hstr] at hq
      rw [path_fromid_after_path_fromid, path_fromid_fileid_cases hc] at hq
      split at hq
      · rename_i hcase
        simp only [Option.some.injEq] at hq
        exact Or.inr ⟨hq.symm, hcase.1.symm, rfl⟩
      · exact Or.inl hq

/-- C28, the claim at a failing input: with the example application mounted
as filesystem 0 and a registry without bindings, a RENAME from the root handle
`0` to the root handle `1`, which names no mount, replies
`NFS3ERR_BADHANDLE` and invokes no callback, but the registry has gained the
bindings of `/` to the id 1 in filesystem 0 and to the id 2 in filesystem 1. -/
theorem rename_badhandle_binds_root :
    (nfsproc3_rename_3_svc darwin memServer ['0'] ['a'] ['1'] ['b']).map
        (fun r => (r.1.status, r.2.trace, (path_fromid r.2.registry 0 1).1,
          (path_fromid r.2.registry 1 2).1))
      = some (NFS3ERR_BADHANDLE, [], some ['/'], some ['/']) ∧
    kfstable_get memServer.table 1 = some none ∧
    (path_fromid memServer.registry 0 1).1 = none ∧
    (path_fromid memServer.registry 1 2).1 = none := by
  refine ⟨by decide, rfl, by decide, by decide⟩

/-- C28, as amended: in a consistent registry with room for two more ids, when
the two directory handles of a RENAME resolve but not to live descriptors of
the same filesystem identifier (one resolves to no descriptor, or the
identifiers differ), the reply is `NFS3ERR_BADHANDLE`, no callback is invoked
and the application's state is as before, every id that had a path keeps it,
and an id that has a path afterwards either had it before or is the id of `/`
in the filesystem of a handle that carries no file id. -/
theorem rename_across_mounts {σ : Type} (H : Host) (s s1 s2 : Server σ)
    (from_dir from_name to_dir to_name : CStr) (f1 f2 : Option (kfsfilesystem σ))
    (p1 p2 : Option CStr) (id1 id2 : Nat)
    (hc : s.registry.Consistent) (hroom : s.registry.id + 2 < 2 ^ 64)
    (h1 : get_filesystem s from_dir = some ((f1, p1, id1), s1))
    (h2 : get_filesystem s1 to_dir = some ((f2, p2, id2), s2))
    (hdiff : f1 = none ∨ f2 = none ∨ id1 ≠ id2) :
    nfsproc3_rename_3_svc H s from_dir from_name to_dir to_name
        = some ({ status := NFS3ERR_BADHANDLE, resok := none }, s2) ∧
      s2.trace = s.trace ∧ s2.world = s.world ∧
      (∀ fs j q, (path_fromid s.registry fs j).1 = some q →
        (path_fromid s2.registry fs j).1 = some q) ∧
      (∀ fs j q, (path_fromid s2.registry fs j).1 = some q →
        (path_fromid s.registry fs j).1 = some q ∨
          (q = ['/'] ∧ ((fs = id1 ∧ (strsep ':' from_dir).2 = none) ∨
            (fs = id2 ∧ (strsep ':' to_dir).2 = none)))) := by
  obtain ⟨_, _, hs1, hk1⟩ := get_filesystem_some s s1 from_dir f1 p1 id1 h1
  obtain ⟨hc1, hid1, hkeep1⟩ := hk1 hc (by omega)
  obtain ⟨_, _, hs2, hk2⟩ := get_filesystem_some s1 s2 to_dir f2 p2 id2 h2
  obtain ⟨_, _, hkeep2⟩ := hk2 hc1 (by omega)
  refine ⟨?_, ?_, ?_, ?_, ?_⟩
  · unfold nfsproc3_rename_3_svc
    rw [h1]
    simp only
    rw [h2]
    simp only
    cases f1 with
    | none => rfl
    | some d1 =>
      cases f2 with
      | none => rfl
      | some d2 =>
        have hne : id1 ≠ id2 := by
          rcases hdiff with h | h | h
          · cases h
          · cases h
          · exact h
        simp only
        rw [if_neg (fun h => hne h.2)]
  · rw [hs2, hs1]
  · rw [hs2, hs1]
  · intro fs j q hq
    exact hkeep2 fs j q (hkeep1 fs j q hq)
  · intro fs j q hq
    rcases get_filesystem_bindings s1 s2 to_dir f2 p2 id2 h2 hc1 fs j q hq with h | ⟨hq', hfs, hstr⟩
    · rcases get_filesystem_bindings s s1 from_dir f1 p1 id1 h1 hc fs j q h with h | ⟨hq', hfs, hstr⟩
      · exact Or.inl h
      · exact Or.inr ⟨hq', Or.inl ⟨hfs, hstr⟩⟩
    · exact Or.inr ⟨hq', Or.inr ⟨hfs, hstr⟩⟩

theorem rename_across_mounts_witness :
    nfsproc3_rename_3_svc darwin memServer ['0'] ['a'] ['1'] ['b']
        = some ({ status := NFS3ERR_BADHANDLE, resok := none },
            { memServer with registry :=
                { filesystemMap :=
                    [(0, { idMap := [(1, ['/'])], pathMap := [(['/'], 1)] }),
                     (1, { idMap := [(2, ['/'])], pathMap := [(['/'], 2)] })]
                  id := 3 } }) ∧
      ({ memServer with registry :=
          { filesystemMap :=
              [(0, { idMap := [(1, ['/'])], pathMap := [(['/'], 1)] }),
               (1, { idMap := [(2, ['/'])], pathMap := [(['/'], 2)] })]
            id := 3 } } : Server (List CStr)).trace = memServer.trace ∧
      ({ memServer with registry :=
          { filesystemMap :=
              [(0, { idMap := [(1, ['/'])], pathMap := [(['/'], 1)] }),
               (1, { idMap := [(2, ['/'])], pathMap := [(['/'], 2)] })]
            id := 3 } } : Server (List CStr)).world = memServer.world ∧
      (∀ fs j q, (path_fromid memServer.registry fs j).1 = some q →
        (path_fromid
          { filesystemMap :=
              [(0, { idMap := [(1, ['/'])], pathMap := [(['/'], 1)] }),
               (1, { idMap := [(2, ['/'])], pathMap := [(['/'], 2)] })]
            id := 3 } fs j).1 = some q) ∧
      (∀ fs j q,
        (path_fromid
          { filesystemMap :=
              [(0, { idMap := [(1, ['/'])], pathMap := [(['/'], 1)] }),
               (1, { idMap := [(2, ['/'])], pathMap := [(['/'], 2)] })]
            id := 3 } fs j).1 = some q →
        (path_fromid memServer.registry fs j).1 = some q ∨
          (q = ['/'] ∧ ((fs = 0 ∧ (strsep ':' ['0']).2 = none) ∨
            (fs = 1 ∧ (strsep ':' ['1']).2 = none)))) :=
  rename_across_mounts darwin memServer
    { memServer with registry := memRegistry1 }
    { memServer with registry :=
        { filesystemMap :=
            [(0, { idMap := [(1, ['/'])], pathMap := [(['/'], 1)] }),
             (1, { idMap := [(2, ['/'])], pathMap := [(['/'], 2)] })]
          id := 3 } }
    ['0'] ['a'] ['1'] ['b'] (memServer.table.table 0) none (some ['/']) (some ['/']) 0 1
    Registry.Consistent.at_init (by decide) rfl rfl (Or.inr (Or.inl rfl))

/-! ## Iterating the table -/

/-- The loop of `kfstable_iterate_nolock`, entered at the `k`-th slot after
`start` with every slot before it empty: it returns `false` with the
identifier back at `start` when every remaining slot is empty too, and
otherwise `true` with the first slot that holds a descriptor. -/
theorem kfstable_iterate_loop_first {σ : Type} (t : Table σ) (start : Nat)
    (hstart : start < MAX_FIELSYSTEMS) :
    ∀ fuel k, k + fuel = MAX_FIELSYSTEMS → 0 < fuel →
      (∀ j, j < k → t.table ((start + j) % MAX_FIELSYSTEMS) = none) →
      (kfstable_iterate_loop t (start : Int) fuel (((start + k) % MAX_FIELSYSTEMS : Nat) : Int)
            = some (false, (start : Int)) ∧
          ∀ j, j < MAX_FIELSYSTEMS → t.table ((start + j) % MAX_FIELSYSTEMS) = none) ∨
        ∃ n, n < MAX_FIELSYSTEMS ∧
          kfstable_iterate_loop t (start : Int) fuel (((start + k) % MAX_FIELSYSTEMS : Nat) : Int)
            = some (true, (((start + n) % MAX_FIELSYSTEMS : Nat) : Int)) ∧
          t.table ((start + n) % MAX_FIELSYSTEMS) ≠ none ∧
          ∀ j, j < n → t.table ((start + j) % MAX_FIELSYSTEMS) = none := by
  intro fuel
  induction fuel with
  | zero => intro k _ h; omega
  | succ f ih =>
    intro k hk _ hbefore
    have hlt : (start + k) % MAX_FIELSYSTEMS < MAX_FIELSYSTEMS :=
      Nat.mod_lt _ (by unfold MAX_FIELSYSTEMS; omega)
    have hnext : ((((start + k) % MAX_FIELSYSTEMS : Nat) : Int) + 1) % (MAX_FIELSYSTEMS : Int)
        = (((start + (k + 1)) % MAX_FIELSYSTEMS : Nat) : Int) := by
      unfold MAX_FIELSYSTEMS
      omega
    rw [kfstable_iterate_loop, Table.slot_natCast t _ hlt]
    cases hslot : t.table ((start + k) % MAX_FIELSYSTEMS) with
    | some d =>
      right
      exact ⟨k, by omega, rfl, by rw [hslot]; simp, hbefore⟩
    | none =>
      simp only [hnext]
      have hbefore' : ∀ j, j < k + 1 → t.table ((start + j) % MAX_FIELSYSTEMS) = none := by
        intro j hj
        rcases Nat.lt_succ_iff_lt_or_eq.mp hj with h | h
        · exact hbefore j h
        · subst h; exact hslot
      by_cases hwrap : (start + (k + 1)) % MAX_FIELSYSTEMS = start
      · have hk1 : k + 1 = MAX_FIELSYSTEMS := by
          unfold MAX_FIELSYSTEMS at hk hstart hwrap ⊢
          omega
        left
        refine ⟨?_, fun j hj => hbefore' j (by omega)⟩
        rw [hwrap]
        simp
      · have hf : 0 < f := by
          rcases Nat.eq_zero_or_pos f with h0 | h0
          · exfalso
            apply hwrap
            subst h0
            unfold MAX_FIELSYSTEMS at hk hstart ⊢
            omega
          · exact h0
        have hne : ¬ (((start + (k + 1)) % MAX_FIELSYSTEMS : Nat) : Int) = (start : Int) := by
          intro h
          exact hwrap (by exact_mod_cast h)
        rw [if_neg hne]
        exact ih (k + 1) (by omega) hf hbefore'

/-- `kfstable_iterate` with the identifier inside the table: `false`, the
identifier unchanged and every slot empty; or `true` with the first slot in
cyclic order from the identifier that holds a descriptor. -/
theorem kfstable_iterate_first {σ : Type} (t : Table σ) (c : Nat) (hc : c < MAX_FIELSYSTEMS) :
    (kfstable_iterate t (c : Int) = some (false, (c : Int)) ∧
        ∀ j, j < MAX_FIELSYSTEMS → t.table j = none) ∨
      ∃ n, n < MAX_FIELSYSTEMS ∧
        kfstable_iterate t (c : Int) = some (true, (((c + n) % MAX_FIELSYSTEMS : Nat) : Int)) ∧
        t.table ((c + n) % MAX_FIELSYSTEMS) ≠ none ∧
        ∀ j, j < n → t.table ((c + j) % MAX_FIELSYSTEMS) = none := by
  have hsan : ¬ (c : Int) > (MAX_FIELSYSTEMS : Int) := by
    have : (c : Int) < (MAX_FIELSYSTEMS : Int) := by exact_mod_cast hc
    omega
  have h0 : (((c + 0) % MAX_FIELSYSTEMS : Nat) : Int) = (c : Int) := by
    rw [Nat.add_zero, Nat.mod_eq_of_lt hc]
  have key := kfstable_iterate_loop_first t c hc MAX_FIELSYSTEMS 0 (by omega)
    (by unfold MAX_FIELSYSTEMS; omega) (fun j hj => absurd hj (by omega))
  rw [h0] at key
  unfold kfstable_iterate kfstable_iterate_nolock
  simp only [hsan, if_false]
  rcases key with ⟨h1, h2⟩ | ⟨n, hn, h1, h2, h3⟩
  · left
    refine ⟨h1, ?_⟩
    intro j hj
    have := h2 ((j + MAX_FIELSYSTEMS - c) % MAX_FIELSYSTEMS)
      (Nat.mod_lt _ (by unfold MAX_FIELSYSTEMS; omega))
    have e : (c + (j + MAX_FIELSYSTEMS - c) % MAX_FIELSYSTEMS) % MAX_FIELSYSTEMS = j := by
      unfold MAX_FIELSYSTEMS at hj hc ⊢
      omega
    rw [e] at this
    exact this
  · right
    exact ⟨n, hn, h1, h2, h3⟩

/-- On a slot that holds a descriptor `kfstable_iterate` returns `true` and
leaves the identifier where it is. -/
theorem kfstable_iterate_live {σ : Type} (t : Table σ) (c : Nat) (hc : c < MAX_FIELSYSTEMS)
    (hlive : t.table c ≠ none) : kfstable_iterate t (c : Int) = some (true, (c : Int)) := by
  have hsan : ¬ (c : Int) > (MAX_FIELSYSTEMS : Int) := by
    have : (c : Int) < (MAX_FIELSYSTEMS : Int) := by exact_mod_cast hc
    omega
  unfold kfstable_iterate kfstable_iterate_nolock
  simp only [hsan, if_false]
  have hM : MAX_FIELSYSTEMS = 1023 + 1 := rfl
  rw [hM, kfstable_iterate_loop, Table.slot_natCast t c hc]
  cases h : t.table c with
  | none => exact absurd h hlive
  | some d => rfl

set_option maxRecDepth 20000 in
/-- The live identifiers of the example with two mounts. -/
theorem live_identifiers_twoMounts : live_identifiers twoMounts.table = [0, 1] := by
  decide

/-- C31, the code at failing inputs: with descriptors in the slots 0 and 1 and
no removal, `kfstable_iterate` called with the identifier 0 returns `true` and
leaves the identifier at 0, and so do a second and a third call with the
identifier the call before left; the identifier 1, whose slot holds a
descriptor, is not returned.  (Called with the identifier 1 it returns 1.) -/
theorem iterate_stays_on_live_slot :
    kfstable_iterate twoMounts.table 0 = some (true, 0) ∧
      (kfstable_iterate twoMounts.table 0).bind
          (fun r => kfstable_iterate twoMounts.table r.2) = some (true, 0) ∧
      ((kfstable_iterate twoMounts.table 0).bind
          (fun r => kfstable_iterate twoMounts.table r.2)).bind
          (fun r => kfstable_iterate twoMounts.table r.2) = some (true, 0) ∧
      (kfstable_get twoMounts.table 0).map (Option.isSome) = some true ∧
      (kfstable_get twoMounts.table 1).map (Option.isSome) = some true ∧
      kfstable_iterate twoMounts.table 1 = some (true, 1) := by
  refine ⟨by decide, by decide, by decide, by decide, by decide, by decide⟩

/-! ## Finalization -/

/-- `kfs_unmount` of a slot that holds a descriptor: the slot is emptied, the
filesystem's dictionaries are dropped, and the rest of the state stays. -/
theorem kfs_unmount_slot {σ : Type} (s : Server σ) (j : Nat) (hj : j < MAX_FIELSYSTEMS)
    (d : kfsfilesystem σ) (hd : s.table.table j = some d) :
    kfs_unmount s (j : Int) =
      some ({ s with
              table := { s.table with table := fun i => if i = j then none else s.table.table i }
              registry := kfs_idclear s.registry (to_uint64 (j : Int)) },
        some d.options.mountpoint) := by
  unfold kfs_unmount kfstable_get kfstable_get_nolock kfstable_remove kfstable_remove_nolock
  rw [Table.slot_natCast s.table j hj, hd]
  simp

theorem live_identifiers_from_nil {σ : Type} (t : Table σ) (c : Nat)
    (h : ∀ j, c ≤ j → j < MAX_FIELSYSTEMS → t.table j = none) :
    live_identifiers_from t c = [] := by
  unfold live_identifiers_from
  rw [List.map_eq_nil_iff, List.filter_eq_nil_iff]
  intro j hj
  rw [List.mem_range'_1] at hj
  rw [h j hj.1 (by omega)]
  simp

/-- The live identifiers from `c` on, when `j` is the first of them: `j`, and
then those of any table that agrees above `j` and has the slot `j` empty. -/
theorem live_identifiers_from_cons {σ : Type} (t t' : Table σ) (c j : Nat) (hcj : c ≤ j)
    (hj : j < MAX_FIELSYSTEMS) (hlive : t.table j ≠ none)
    (hbefore : ∀ i, c ≤ i → i < j → t.table i = none)
    (hgone : t'.table j = none) (hsame : ∀ i, j < i → t'.table i = t.table i) :
    live_identifiers_from t c = (j : Int) :: live_identifiers_from t' j := by
  have hsplit : List.range' c (MAX_FIELSYSTEMS - c)
      = List.range' c (j - c) ++ (j :: List.range' (j + 1) (MAX_FIELSYSTEMS - (j + 1))) := by
    have e1 : MAX_FIELSYSTEMS - c = ((MAX_FIELSYSTEMS - (j + 1)) + 1) + (j - c) := by omega
    have e2 : j = c + (j - c) := by omega
    rw [e1, ← List.range'_append_1, ← e2, List.range'_succ]
  have hsplit' : List.range' j (MAX_FIELSYSTEMS - j)
      = j :: List.range' (j + 1) (MAX_FIELSYSTEMS - (j + 1)) := by
    have e1 : MAX_FIELSYSTEMS - j = (MAX_FIELSYSTEMS - (j + 1)) + 1 := by omega
    rw [e1, List.range'_succ]
  have hfirst : (List.range' c (j - c)).filter (fun i => (t.table i).isSome) = [] := by
    rw [List.filter_eq_nil_iff]
    intro i hi
    rw [List.mem_range'_1] at hi
    rw [hbefore i hi.1 (by omega)]
    simp
  have hrest : (List.range' (j + 1) (MAX_FIELSYSTEMS - (j + 1))).filter
        (fun i => (t'.table i).isSome)
      = (List.range' (j + 1) (MAX_FIELSYSTEMS - (j + 1))).filter
        (fun i => (t.table i).isSome) := by
    apply List.filter_congr
    intro i hi
    rw [List.mem_range'_1] at hi
    rw [hsame i (by omega)]
  have hj1 : (t.table j).isSome = true := by
    cases h : t.table j with
    | none => exact absurd h hlive
    | some d => rfl
  unfold live_identifiers_from
  rw [hsplit, hsplit', List.filter_append, hfirst, List.nil_append, List.filter_cons,
    List.filter_cons, hj1, hgone, hrest]
  simp

/-- The loop of `finalize`, entered with the identifier `c` above empty slots
and with more fuel than live identifiers: it unmounts the live identifiers
from `c` on in ascending order and leaves every slot empty. -/
theorem finalize_loop_spec {σ : Type} :
    ∀ (fuel : Nat) (s : Server σ) (c : Nat), c < MAX_FIELSYSTEMS →
      (∀ j, j < c → s.table.table j = none) →
      (live_identifiers_from s.table c).length < fuel →
      ∃ s', finalize_loop fuel s (c : Int) = some (s', live_identifiers_from s.table c) ∧
        (∀ j, j < MAX_FIELSYSTEMS → s'.table.table j = none) ∧ s'.world = s.world ∧
        s'.trace = s.trace := by
  intro fuel
  induction fuel with
  | zero => intro s c _ _ h; omega
  | succ fuel ih =>
    intro s c hc hbelow hlen
    rw [finalize_loop]
    rcases kfstable_iterate_first s.table c hc with ⟨hit, hall⟩ | ⟨n, hn, hit, hlive, hbefore⟩
    · rw [hit]
      simp only
      rw [live_identifiers_from_nil s.table c (fun j _ hj => hall j hj)]
      exact ⟨s, rfl, hall, rfl, rfl⟩
    · have hnowrap : c + n < MAX_FIELSYSTEMS := by
        by_contra hge
        apply hlive
        apply hbelow
        unfold MAX_FIELSYSTEMS at hge hn hc ⊢
        omega
      have hmod : (c + n) % MAX_FIELSYSTEMS = c + n := Nat.mod_eq_of_lt hnowrap
      rw [hmod] at hit hlive
      have hbefore' : ∀ i, c ≤ i → i < c + n → s.table.table i = none := by
        intro i h1 h2
        have := hbefore (i - c) (by omega)
        rw [Nat.mod_eq_of_lt (by omega)] at this
        rw [← this]
        congr 1
        omega
      obtain ⟨d, hd⟩ := Option.ne_none_iff_exists'.mp hlive
      rw [hit]
      simp only
      rw [kfs_unmount_slot s (c + n) hnowrap d hd]
      simp only
      have hcons := live_identifiers_from_cons s.table
        { s.table with table := fun i => if i = c + n then none else s.table.table i }
        c (c + n) (by omega) hnowrap hlive hbefore' (by simp)
        (fun i hi => by
          have : ¬ i = c + n := by omega
          simp [this])
      rw [hcons] at hlen ⊢
      simp only [List.length_cons] at hlen
      obtain ⟨s', hs', hempty, hw, htr⟩ := ih
        { s with
          table := { s.table with table := fun i => if i = c + n then none else s.table.table i }
          registry := kfs_idclear s.registry (to_uint64 ((c + n : Nat) : Int)) }
        (c + n) hnowrap
        (fun j hj => by
          have : ¬ j = c + n := by omega
          simp only [this, if_false]
          by_cases hjc : j < c
          · exact hbelow j hjc
          · exact hbefore' j (by omega) hj)
        (Nat.lt_of_succ_lt_succ hlen)
      refine ⟨s', ?_, hempty, hw, htr⟩
      rw [hs']
      rfl

/-- C37: for every state of the server, `finalize` with more calls of
`kfstable_iterate` allowed than there are live identifiers returns; it
unmounts the live identifiers, each once and in ascending order (so in as many
rounds as there are live mounts), and leaves every slot of the table empty. -/
theorem finalize_unmounts_all {σ : Type} (s : Server σ) (fuel : Nat)
    (hfuel : (live_identifiers s.table).length < fuel) :
    ∃ s', finalize fuel s = some (s', live_identifiers s.table) ∧
      (∀ j, j < 1024 → s'.table.table j = none) ∧
      (live_identifiers s.table).Nodup ∧
      (∀ j : Nat, (j : Int) ∈ live_identifiers s.table ↔ j < 1024 ∧ s.table.table j ≠ none) := by
  obtain ⟨s', h1, h2, _, _⟩ := finalize_loop_spec fuel s 0 (by unfold MAX_FIELSYSTEMS; omega)
    (fun j hj => absurd hj (by omega)) hfuel
  refine ⟨s', h1, h2, ?_, ?_⟩
  · unfold live_identifiers live_identifiers_from
    apply List.Nodup.map
    · intro a b hab
      exact Int.ofNat.inj hab
    · exact (List.nodup_range' _ _).filter _
  · intro j
    unfold live_identifiers live_identifiers_from
    simp only [List.mem_map, List.mem_filter, List.mem_range'_1]
    constructor
    · rintro ⟨i, ⟨⟨_, hi⟩, hsome⟩, hij⟩
      have : i = j := Int.ofNat.inj hij
      subst this
      refine ⟨by unfold MAX_FIELSYSTEMS at hi; omega, ?_⟩
      intro hnone
      rw [hnone] at hsome
      simp at hsome
    · rintro ⟨hj, hne⟩
      refine ⟨j, ⟨⟨by omega, by unfold MAX_FIELSYSTEMS; omega⟩, ?_⟩, rfl⟩
      cases h : s.table.table j with
      | none => exact absurd h hne
      | some d => rfl

theorem finalize_unmounts_all_witness :
    ∃ s', finalize 3 twoMounts = some (s', live_identifiers twoMounts.table) ∧
      (∀ j, j < 1024 → s'.table.table j = none) ∧
      (live_identifiers twoMounts.table).Nodup ∧
      (∀ j : Nat, (j : Int) ∈ live_identifiers twoMounts.table ↔
        j < 1024 ∧ twoMounts.table.table j ≠ none) :=
  finalize_unmounts_all twoMounts 3 (by rw [live_identifiers_twoMounts]; decide)

/-! ## The listing buffer -/

/-- The capacity of a listing buffer after appends, as long as the count stays
below `2 ^ 31`: 0 for the empty buffer, and otherwise a power of two that is
at least the count and less than twice the count. -/
theorem kfscontents_fold_capacity (L : List CStr) :
    ∀ (C : kfscontents), C.count + L.length < 2 ^ 31 →
      ((C.count = 0 ∧ C.capacity = 0) ∨
        (0 < C.count ∧ ∃ e, C.capacity = 2 ^ e ∧ C.count ≤ 2 ^ e ∧ (e = 0 ∨ 2 ^ (e - 1) < C.count))) →
      ((L.foldl kfscontents_append C).count = 0 ∧ (L.foldl kfscontents_append C).capacity = 0) ∨
        (0 < (L.foldl kfscontents_append C).count ∧
          ∃ e, (L.foldl kfscontents_append C).capacity = 2 ^ e ∧
            (L.foldl kfscontents_append C).count ≤ 2 ^ e ∧
            (e = 0 ∨ 2 ^ (e - 1) < (L.foldl kfscontents_append C).count)) := by
  induction L with
  | nil => intro C _ h; exact h
  | cons x xs ih =>
    intro C hC hinv
    simp only [List.length_cons] at hC
    simp only [List.foldl_cons]
    have hcount : (kfscontents_append C x).count = C.count + 1 := by
      unfold kfscontents_append
      simp only
      exact Nat.mod_eq_of_lt (by omega)
    apply ih (kfscontents_append C x) (by rw [hcount]; omega)
    right
    refine ⟨by rw [hcount]; omega, ?_⟩
    rw [hcount]
    rcases hinv with ⟨h0, hcap⟩ | ⟨hpos, e, hcap, hle, hmin⟩
    · refine ⟨0, ?_, by rw [h0]; simp, Or.inl rfl⟩
      unfold kfscontents_append
      simp [hcap, h0]
    · have he : e ≤ 31 := by
        by_contra hge
        rcases hmin with h | h
        · omega
        · have h2 : 2 ^ 31 ≤ 2 ^ (e - 1) := Nat.pow_le_pow_right (by omega) (by omega)
          omega
      have hcap32 : 2 ^ e < 2 ^ 32 := Nat.pow_lt_pow_right (by omega) (by omega)
      have hpos2 : 0 < 2 ^ e := Nat.two_pow_pos e
      by_cases hfull : 2 ^ e < C.count + 1
      · refine ⟨e + 1, ?_, ?_, Or.inr ?_⟩
        · unfold kfscontents_append
          simp only [hcap]
          rw [Nat.mod_eq_of_lt hcap32, Nat.mod_eq_of_lt (show C.count + 1 < 2 ^ 32 by omega),
            if_pos hfull, if_neg (by omega), Nat.pow_succ]
          exact Nat.mod_eq_of_lt (by omega)
        · rw [Nat.pow_succ]; omega
        · simp only [Nat.add_sub_cancel]; omega
      · refine ⟨e, ?_, by omega, ?_⟩
        · unfold kfscontents_append
          simp only [hcap]
          rw [Nat.mod_eq_of_lt hcap32, Nat.mod_eq_of_lt (show C.count + 1 < 2 ^ 32 by omega),
            if_neg hfull]
        · rcases hmin with h | h
          · subst h
            simp only [pow_zero] at hle hfull
            omega
          · right; omega

/-- C32: for a listing buffer made by `kfscontents_create` and then given the
names of a list `L` of fewer than `2 ^ 31` names by `kfscontents_append`, in
order: `kfscontents_count` is the length of `L`; `kfscontents_at` gives the
`i`-th name for every `i` below the length and `NULL` for every other `i`; the
capacity is 0 when `L` is empty and otherwise the smallest power of two that
is at least the length; and the count does not exceed the capacity. -/
theorem kfscontents_after_appends (L : List CStr) (hL : L.length < 2 ^ 31) :
    kfscontents_count (L.foldl kfscontents_append kfscontents_create) = L.length ∧
      (∀ i, i < L.length →
        ∃ e, L[i]? = some e ∧
          kfscontents_at (L.foldl kfscontents_append kfscontents_create) i = some e) ∧
      (∀ i, L.length ≤ i →
        kfscontents_at (L.foldl kfscontents_append kfscontents_create) i = none) ∧
      (L.length = 0 → (L.foldl kfscontents_append kfscontents_create).capacity = 0) ∧
      (0 < L.length →
        ∃ e, (L.foldl kfscontents_append kfscontents_create).capacity = 2 ^ e ∧
          L.length ≤ 2 ^ e ∧ ∀ e', L.length ≤ 2 ^ e' → e ≤ e') ∧
      kfscontents_count (L.foldl kfscontents_append kfscontents_create)
        ≤ (L.foldl kfscontents_append kfscontents_create).capacity := by
  have hL32 : L.length < 2 ^ 32 := by omega
  have hzero : kfscontents_create.count = 0 := rfl
  have hcount : kfscontents_count (L.foldl kfscontents_append kfscontents_create) = L.length := by
    have := (kfscontents_fold L kfscontents_create (by rw [hzero]; omega)).1
    unfold kfscontents_count
    rw [this, hzero, Nat.zero_add]
  have hcap := kfscontents_fold_capacity L kfscontents_create (by rw [hzero]; omega)
    (Or.inl ⟨rfl, rfl⟩)
  unfold kfscontents_count at hcount
  rw [hcount] at hcap
  refine ⟨hcount, ?_, ?_, ?_, ?_, ?_⟩
  · intro i hi
    refine ⟨L.get ⟨i, hi⟩, List.getElem?_eq_getElem hi, ?_⟩
    rw [kfscontents_at_fold L hL32, List.getElem?_eq_getElem hi]
    rfl
  · intro i hi
    rw [kfscontents_at_fold L hL32]
    exact List.getElem?_eq_none hi
  · intro h0
    rcases hcap with ⟨_, h⟩ | ⟨h, _⟩
    · exact h
    · omega
  · intro hpos
    rcases hcap with ⟨h, _⟩ | ⟨_, e, h1, h2, h3⟩
    · omega
    · refine ⟨e, h1, h2, ?_⟩
      intro e' he'
      by_contra hlt
      rcases h3 with h | h
      · omega
      · have : 2 ^ e' ≤ 2 ^ (e - 1) := Nat.pow_le_pow_right (by omega) (by omega)
        omega
  · unfold kfscontents_count
    rw [hcount]
    rcases hcap with ⟨h, _⟩ | ⟨_, e, h1, h2, _⟩
    · omega
    · rw [h1]; exact h2

theorem kfscontents_after_appends_witness :
    kfscontents_count (abc.foldl kfscontents_append kfscontents_create) = abc.length ∧
      (∀ i, i < abc.length →
        ∃ e, abc[i]? = some e ∧
          kfscontents_at (abc.foldl kfscontents_append kfscontents_create) i = some e) ∧
      (∀ i, abc.length ≤ i →
        kfscontents_at (abc.foldl kfscontents_append kfscontents_create) i = none) ∧
      (abc.length = 0 → (abc.foldl kfscontents_append kfscontents_create).capacity = 0) ∧
      (0 < abc.length →
        ∃ e, (abc.foldl kfscontents_append kfscontents_create).capacity = 2 ^ e ∧
          abc.length ≤ 2 ^ e ∧ ∀ e', abc.length ≤ 2 ^ e' → e ≤ e') ∧
      kfscontents_count (abc.foldl kfscontents_append kfscontents_create)
        ≤ (abc.foldl kfscontents_append kfscontents_create).capacity :=
  kfscontents_after_appends abc (by decide)

/-! ## Failing callbacks and the whitelists -/

/-- A status among the labels passes the `switch` unchanged. -/
theorem filter_status_of_mem (labels : List nfsstat3) (status : nfsstat3) (h : status ∈ labels) :
    filter_status labels status = status := by
  unfold filter_status
  rw [if_pos h]

/-- The status `get_fattr` returns when `stat` fails. -/
theorem get_fattr_stat_fails {σ : Type} (H : Host) (s s1 : Server σ) (object : CStr)
    (fs : kfsfilesystem σ) (path : Option CStr) (id : Nat) (stat : kfsstat_f σ)
    (hfs : get_filesystem s object = some ((some fs, path, id), s1)) (hstat : fs.stat = some stat)
    (hfail : (stat path fs.context s1.world).value = none) :
    get_fattr H s object =
      some ((convert_status H ((stat path fs.context s1.world).error.getD 0) NFS3ERR_NOENT, none),
        s1.called (.stat path) (stat path fs.context s1.world).world) := by
  unfold get_fattr
  rw [hfs]
  simp only [hstat, hfail]

/-- When the callback of a request fails, the status of the reply is the
mapped host code after the procedure's `switch`. -/
theorem serve_of_callback_fails {σ : Type} (H : Host) (s : Server σ) (req : Request)
    (error : Int) (hfail : callback_fails H s req error) :
    (req.serve H s).map (·.1)
      = some (filter_status req.labels (convert_status H error req.default)) := by
  cases req with
  | LOOKUP dir name =>
    obtain ⟨fs, p, id, s1, fs2, path2, id2, s2, stat, h1, h2, h3, h4, h5⟩ := hfail
    have hattr := get_fattr_stat_fails H _ s2 _ fs2 path2 id2 stat h2 h3 h4
    simp only [Request.serve, Request.labels, Request.default, nfsproc3_lookup_3_svc, h1,
      get_required_post_op, hattr, h5, Option.map_some']
  | READLINK symlink =>
    obtain ⟨fs, path, id, s1, f, h1, h2, h3, h4⟩ := hfail
    simp [Request.serve, Request.labels, Request.default, nfsproc3_readlink_3_svc, h1, h2, h3, h4]
  | READ file offset count =>
    obtain ⟨fs, path, id, s1, f, h1, h2, h3, h4⟩ := hfail
    simp [Request.serve, Request.labels, Request.default, nfsproc3_read_3_svc, h1, h2, h3, h4]
  | WRITE file offset count data =>
    obtain ⟨fs, path, id, s1, f, h1, h2, h3, h4⟩ := hfail
    simp [Request.serve, Request.labels, Request.default, nfsproc3_write_3_svc, h1, h2, h3, h4]
  | CREATE dir name how =>
    obtain ⟨fs, p, id, s1, s2, f, attrs, h1, h2, h3, h4, h5, h6⟩ := hfail
    simp [Request.serve, Request.labels, Request.default, nfsproc3_create_3_svc, h1, h2, h3, h4,
      h5, h6]
  | MKDIR dir name attributes =>
    obtain ⟨fs, p, id, s1, f, h1, h2, h3, h4⟩ := hfail
    simp [Request.serve, Request.labels, Request.default, nfsproc3_mkdir_3_svc, h1, h2, h3, h4]
  | SYMLINK dir name symlink_data symlink_attributes =>
    obtain ⟨fs, p, id, s1, f, h1, h2, h3, h4⟩ := hfail
    simp [Request.serve, Request.labels, Request.default, nfsproc3_symlink_3_svc, h1, h2, h3, h4]
  | REMOVE dir name =>
    obtain ⟨fs, p, id, s1, f, h1, h2, h3, h4⟩ := hfail
    simp [Request.serve, Request.labels, Request.default, nfsproc3_remove_3_svc, h1, h2, h3, h4]
  | RMDIR dir name =>
    obtain ⟨fs, p, id, s1, f, h1, h2, h3, h4⟩ := hfail
    simp [Request.serve, Request.labels, Request.default, nfsproc3_rmdir_3_svc, h1, h2, h3, h4]
  | RENAME from_dir from_name to_dir to_name =>
    obtain ⟨fs, fs2, p1, p2, id, s1, s2, f, h1, h2, h3, h4, h5⟩ := hfail
    simp [Request.serve, Request.labels, Request.default, nfsproc3_rename_3_svc, h1, h2, h3, h4,
      h5]
  | READDIR dir cookie cookieverf count =>
    obtain ⟨st, written, s0, fs, path, id, s1, f, h1, hv, h2, h3, h4, h5⟩ := hfail
    have hvalid : (!((decide (cookie = 0) && decide (cookieverf.length = 0)) == false &&
        decide (cookieverf ≠ cookieverf_of (written.getD fattr3.zero).mtime.seconds))) = true := by
      rcases hv with ⟨h0, hv⟩ | hv
      · subst h0 hv
        simp
      · rw [← hv]
        simp
    simp only [Request.serve, Request.labels, Request.default, nfsproc3_readdir_3_svc, h1]
    rw [if_pos hvalid, h2]
    simp [h3, h4, h5]
  | FSSTAT fsroot =>
    obtain ⟨fs, path, id, s1, f, h1, h2, h3, h4⟩ := hfail
    simp [Request.serve, Request.labels, Request.default, nfsproc3_fsstat_3_svc, h1, h2, h3, h4]

/-- The status `convert_status` gives a host code of its table, on a host
whose codes are distinct. -/
theorem convert_status_of_case (H : Host) (hd : H.codes.Nodup) (err : Int) (status d : nfsstat3)
    (h : (err, status) ∈ convert_status_cases H) : convert_status H err d = status := by
  rw [convert_status_eq_first_case]
  exact first_case_of_mem err status d _ hd h

/-- C33: when the callback of a request for one of the twelve procedures with
a `switch` fails leaving the host code `error`, and the status that
`convert_status` maps it to (with the procedure's default) is among the labels
of the procedure's `switch`, the reply carries that status.  On a host with
distinct codes, in particular, `EEXIST` from the callback of SYMLINK or MKDIR
yields `NFS3ERR_EXIST`, `ENOTEMPTY` from that of RMDIR yields
`NFS3ERR_NOTEMPTY`, and `ENOENT` from that of REMOVE or RMDIR yields
`NFS3ERR_NOENT`. -/
theorem whitelisted_status_passes {σ : Type} (H : Host) (s : Server σ) (req : Request)
    (error : Int) (hfail : callback_fails H s req error) :
    (convert_status H error req.default ∈ req.labels →
        (req.serve H s).map (·.1) = some (convert_status H error req.default)) ∧
      (H.codes.Nodup → error = H.EEXIST →
        ((∃ dir name data attrs, req = .SYMLINK dir name data attrs) ∨
          ∃ dir name attrs, req = .MKDIR dir name attrs) →
        (req.serve H s).map (·.1) = some NFS3ERR_EXIST) ∧
      (H.codes.Nodup → error = H.ENOTEMPTY → (∃ dir name, req = .RMDIR dir name) →
        (req.serve H s).map (·.1) = some NFS3ERR_NOTEMPTY) ∧
      (H.codes.Nodup → error = H.ENOENT →
        ((∃ dir name, req = .REMOVE dir name) ∨ ∃ dir name, req = .RMDIR dir name) →
        (req.serve H s).map (·.1) = some NFS3ERR_NOENT) := by
  have key := serve_of_callback_fails H s req error hfail
  refine ⟨?_, ?_, ?_, ?_⟩
  · intro hin
    rw [key, filter_status_of_mem _ _ hin]
  · intro hd he hreq
    rw [key, he, convert_status_of_case H hd H.EEXIST NFS3ERR_EXIST _
      (by simp [convert_status_cases])]
    rcases hreq with ⟨_, _, _, _, rfl⟩ | ⟨_, _, _, rfl⟩ <;>
      exact congrArg some
        (filter_status_of_mem CREATE_labels _ (show NFS3ERR_EXIST ∈ CREATE_labels by decide))
  · intro hd he hreq
    rw [key, he, convert_status_of_case H hd H.ENOTEMPTY NFS3ERR_NOTEMPTY _
      (by simp [convert_status_cases])]
    obtain ⟨_, _, rfl⟩ := hreq
    exact congrArg some
      (filter_status_of_mem RMDIR_labels _ (show NFS3ERR_NOTEMPTY ∈ RMDIR_labels by decide))
  · intro hd he hreq
    rw [key, he, convert_status_of_case H hd H.ENOENT NFS3ERR_NOENT _
      (by simp [convert_status_cases])]
    rcases hreq with ⟨_, _, rfl⟩ | ⟨_, _, rfl⟩
    · exact congrArg some
        (filter_status_of_mem REMOVE_labels _ (show NFS3ERR_NOENT ∈ REMOVE_labels by decide))
    · exact congrArg some
        (filter_status_of_mem RMDIR_labels _ (show NFS3ERR_NOENT ∈ RMDIR_labels by decide))

theorem whitelisted_status_passes_witness :
    (convert_status darwin 66 (Request.RMDIR ['0'] ['d']).default
          ∈ (Request.RMDIR ['0'] ['d']).labels →
        ((Request.RMDIR ['0'] ['d']).serve darwin (mounted (errfs 66) ())).map (·.1)
          = some (convert_status darwin 66 (Request.RMDIR ['0'] ['d']).default)) ∧
      (darwin.codes.Nodup → (66 : Int) = darwin.EEXIST →
        ((∃ dir name data attrs, Request.RMDIR ['0'] ['d'] = .SYMLINK dir name data attrs) ∨
          ∃ dir name attrs, Request.RMDIR ['0'] ['d'] = .MKDIR dir name attrs) →
        ((Request.RMDIR ['0'] ['d']).serve darwin (mounted (errfs 66) ())).map (·.1)
          = some NFS3ERR_EXIST) ∧
      (darwin.codes.Nodup → (66 : Int) = darwin.ENOTEMPTY →
        (∃ dir name, Request.RMDIR ['0'] ['d'] = .RMDIR dir name) →
        ((Request.RMDIR ['0'] ['d']).serve darwin (mounted (errfs 66) ())).map (·.1)
          = some NFS3ERR_NOTEMPTY) ∧
      (darwin.codes.Nodup → (66 : Int) = darwin.ENOENT →
        ((∃ dir name, Request.RMDIR ['0'] ['d'] = .REMOVE dir name) ∨
          ∃ dir name, Request.RMDIR ['0'] ['d'] = .RMDIR dir name) →
        ((Request.RMDIR ['0'] ['d']).serve darwin (mounted (errfs 66) ())).map (·.1)
          = some NFS3ERR_NOENT) :=
  whitelisted_status_passes darwin (mounted (errfs 66) ()) (.RMDIR ['0'] ['d']) 66
    ⟨install_noimp (kfsfilesystem_duplicate (errfs 66)), ['/'], 0,
      { mounted (errfs 66) () with registry := memRegistry1 },
      fun _ _ w => ⟨false, some 66, w⟩, rfl, rfl, rfl, rfl⟩

/-! ## RENAME and the ids below a directory -/

/-- C35, the claim at a failing input: with `/d` bound to the id 2 and `/d/x`
to the id 3, a RENAME of `d` to `e` in the root replies `NFS3_OK`; afterwards
the id 2 resolves to `/e`, and the id 3 still resolves to `/d/x`, not to
`/e/x`. -/
theorem rename_leaves_descendants :
    (nfsproc3_rename_3_svc darwin dirServer ['0'] ['d'] ['0'] ['e']).map
        (fun r => (r.1.status, (path_fromid r.2.registry 0 2).1, (path_fromid r.2.registry 0 3).1))
      = some (NFS3_OK, some ['/', 'e'], some ['/', 'd', '/', 'x']) ∧
    (path_fromid dirServer.registry 0 2).1 = some ['/', 'd'] ∧
    (path_fromid dirServer.registry 0 3).1 = some (['/', 'd'] ++ '/' :: ['x']) ∧
    (nfsproc3_rename_3_svc darwin dirServer ['0'] ['d'] ['0'] ['e']).map
        (fun r => (path_fromid r.2.registry 0 3).1) ≠ some (some (['/', 'e'] ++ '/' :: ['x'])) := by
  refine ⟨by decide, by decide, by decide, by decide⟩

/-- C35, as amended: in a consistent registry with room for four more ids,
after a RENAME whose two directory handles resolve in one mount to registered
paths and whose callback returns `true` on the composed paths `f` and `t`, the
reply is `NFS3_OK`, every id that was bound to `f` resolves to `t`, and every
id that was bound to a path other than `f` and `t` resolves to the path it
had; in particular an id bound to `f` followed by `/` and `rest` still
resolves to that path. -/
theorem rename_moves_one_id {σ : Type} (H : Host) (s s1 s2 : Server σ)
    (from_dir from_name to_dir to_name dfrom dto : CStr) (fs fs2 : kfsfilesystem σ) (fsid : Nat)
    (rename : kfsrename_f σ)
    (hreg : s.registry.Consistent) (hid : s.registry.id + 4 < 2 ^ 64)
    (hfrom : get_filesystem s from_dir = some ((some fs, some dfrom, fsid), s1))
    (hto : get_filesystem s1 to_dir = some ((some fs2, some dto, fsid), s2))
    (hrename : fs.rename = some rename)
    (hok : (rename (some (compose_path H dfrom from_name)) (some (compose_path H dto to_name))
      fs.context s2.world).value = true) :
    ∃ reply s',
      nfsproc3_rename_3_svc H s from_dir from_name to_dir to_name = some (reply, s') ∧
      reply.status = NFS3_OK ∧
      (∀ a, (path_fromid s.registry fsid a).1 = some (compose_path H dfrom from_name) →
        (path_fromid s'.registry fsid a).1 = some (compose_path H dto to_name)) ∧
      (∀ j q, (path_fromid s.registry fsid j).1 = some q →
        q ≠ compose_path H dfrom from_name → q ≠ compose_path H dto to_name →
        (path_fromid s'.registry fsid j).1 = some q) ∧
      (∀ j rest,
        (path_fromid s.registry fsid j).1 = some (compose_path H dfrom from_name ++ '/' :: rest) →
        compose_path H dfrom from_name ++ '/' :: rest ≠ compose_path H dto to_name →
        (path_fromid s'.registry fsid j).1
          = some (compose_path H dfrom from_name ++ '/' :: rest)) := by
  generalize hsrc : compose_path H dfrom from_name = src at hok ⊢
  generalize hdst : compose_path H dto to_name = dst at hok ⊢
  obtain ⟨_, _, _, hcons1⟩ := get_filesystem_some s s1 from_dir _ _ fsid hfrom
  obtain ⟨hc1, hid1, hkeep1⟩ := hcons1 hreg (by omega)
  obtain ⟨_, _, _, hcons2⟩ := get_filesystem_some s1 s2 to_dir _ _ fsid hto
  obtain ⟨hc2, hid2, hkeep2⟩ := hcons2 hc1 (by omega)
  have hc3 := hc2.after_fileid (by omega) fsid src
  have hc4 := hc3.1.after_fileid (by omega) fsid dst
  have hone : (path_fromid (kfs_fileid (kfs_fileid s2.registry fsid src).2 fsid dst).2 fsid
      (kfs_fileid s2.registry fsid src).1).1 = some src :=
    path_fromid_after_fileid hc3.1 fsid fsid _ dst src (path_fromid_kfs_fileid hc2 fsid src)
  have htwo := path_fromid_kfs_fileid hc3.1 fsid dst
  obtain ⟨r, hswap, h1, h2, h3, h4, hother, _⟩ := kfs_idswap_spec hc4.1 fsid _ _ src dst hone htwo
  have hkeep : ∀ j q, (path_fromid s.registry fsid j).1 = some q →
      (path_fromid (kfs_fileid (kfs_fileid s2.registry fsid src).2 fsid dst).2 fsid j).1
        = some q := by
    intro j q hq
    exact path_fromid_after_fileid hc3.1 fsid fsid j dst q
      (path_fromid_after_fileid hc2 fsid fsid j src q (hkeep2 fsid j q (hkeep1 fsid j q hq)))
  have hrest : ∀ j q, (path_fromid s.registry fsid j).1 = some q → q ≠ src → q ≠ dst →
      (path_fromid r fsid j).1 = some q := by
    intro j q hq hqs hqd
    have hj := hkeep j q hq
    rw [hother j ?_ ?_]
    · exact hj
    · intro hja
      rw [hja, hone] at hj
      exact hqs (Option.some.inj hj).symm
    · intro hjb
      rw [hjb, htwo] at hj
      exact hqd (Option.some.inj hj).symm
  refine ⟨{ status := NFS3_OK, resok := some (get_post_op, get_post_op) },
    { s2.called (.rename (some src) (some dst))
        (rename (some src) (some dst) fs.context s2.world).world with registry := r },
    ?_, rfl, ?_, hrest, ?_⟩
  · unfold nfsproc3_rename_3_svc
    rw [hfrom]
    simp only []
    rw [hto]
    simp only [and_self, if_true, hrename, hsrc, hdst]
    rw [if_pos hok]
    simp only [Server.called, hswap]
  · intro a ha
    have := hkeep2 fsid a src (hkeep1 fsid a src ha)
    have ha' : a = (kfs_fileid s2.registry fsid src).1 := by
      rw [kfs_fileid_of_path_fromid hc2 fsid a src this]
    rw [ha']
    exact h1
  · intro j rest hq hne
    refine hrest j _ hq ?_ hne
    intro h
    have := congrArg List.length h
    simp at this

theorem rename_moves_one_id_witness :
    ∃ reply s',
      nfsproc3_rename_3_svc darwin dirServer ['0'] ['d'] ['0'] ['e'] = some (reply, s') ∧
      reply.status = NFS3_OK ∧
      (∀ a, (path_fromid dirServer.registry 0 a).1 = some (compose_path darwin ['/'] ['d']) →
        (path_fromid s'.registry 0 a).1 = some (compose_path darwin ['/'] ['e'])) ∧
      (∀ j q, (path_fromid dirServer.registry 0 j).1 = some q →
        q ≠ compose_path darwin ['/'] ['d'] → q ≠ compose_path darwin ['/'] ['e'] →
        (path_fromid s'.registry 0 j).1 = some q) ∧
      (∀ j rest,
        (path_fromid dirServer.registry 0 j).1
          = some (compose_path darwin ['/'] ['d'] ++ '/' :: rest) →
        compose_path darwin ['/'] ['d'] ++ '/' :: rest ≠ compose_path darwin ['/'] ['e'] →
        (path_fromid s'.registry 0 j).1
          = some (compose_path darwin ['/'] ['d'] ++ '/' :: rest)) :=
  rename_moves_one_id darwin dirServer dirServer dirServer ['0'] ['d'] ['0'] ['e'] ['/'] ['/']
    (install_noimp (kfsfilesystem_duplicate memfs)) (install_noimp (kfsfilesystem_duplicate memfs))
    0 (memfs.rename.getD noimp_rename)
    (Registry.Consistent.after_runCalls
      [.fileid 0 ['/'], .fileid 0 ['/', 'd'], .fileid 0 ['/', 'd', '/', 'x']]
      Registry.init dirServer.registry Registry.Consistent.at_init (by decide) (by decide)).1
    (by decide) rfl rfl rfl (by decide)

/-! ## The two maps of a filesystem -/

/-- C36: in every registry reached from the initial one by `fileid`,
`path_from`, `swap` and `clear` calls that allocate fewer than `2 ^ 64 - 1`
ids, for every filesystem: the path map sends `p` to `i` exactly when the id
map sends `i` to `p`; two ids with the same path are equal; `kfs_fileid` of
the path of a live id returns that id; an id that was never allocated, or
that has a path in another filesystem, has no path; and `kfs_fileid` on the
path of a live id leaves the counter, the path of every id and the id of
every path as they are. -/
theorem registry_maps_inverse (cs : List RegistryCall) (r : Registry)
    (hrun : runCalls Registry.init cs = some r)
    (hcount : (allocated Registry.init cs).length < 2 ^ 64 - 1) (fs : Nat) :
    (∀ p i, CFDictionaryGetValue (GetDictionariesForFilesystemWithID r fs).1.pathMap p = some i ↔
        CFDictionaryGetValue (GetDictionariesForFilesystemWithID r fs).1.idMap i = some p) ∧
      (∀ i j p, (path_fromid r fs i).1 = some p → (path_fromid r fs j).1 = some p → i = j) ∧
      (∀ i p, (path_fromid r fs i).1 = some p → (kfs_fileid r fs p).1 = i) ∧
      (∀ i, i ∉ allocated Registry.init cs → (path_fromid r fs i).1 = none) ∧
      (∀ fs' i, fs' ≠ fs → (path_fromid r fs' i).1 ≠ none → (path_fromid r fs i).1 = none) ∧
      (∀ i p, (path_fromid r fs i).1 = some p →
        (kfs_fileid r fs p).1 = i ∧ (kfs_fileid r fs p).2.id = r.id ∧
          (∀ fs' j, (path_fromid (kfs_fileid r fs p).2 fs' j).1 = (path_fromid r fs' j).1) ∧
          ∀ fs' q, (kfs_fileid (kfs_fileid r fs p).2 fs' q).1 = (kfs_fileid r fs' q).1) := by
  have hinit : Registry.init.Consistent := Registry.Consistent.at_init
  have hroom : Registry.init.id + (allocated Registry.init cs).length < 2 ^ 64 := by
    have : Registry.init.id = 1 := rfl
    omega
  obtain ⟨hc, hid, hall, _, _⟩ := runCalls_issued cs Registry.init r hinit hroom hrun
  have hown := runCalls_owner cs Registry.init r hinit hroom hrun
    (fun fs1 fs2 j h1 _ => absurd (path_fromid_init fs1 j) h1)
  have hfileid : ∀ i p, (path_fromid r fs i).1 = some p → (kfs_fileid r fs p).1 = i := by
    intro i p hp
    rw [kfs_fileid_of_path_fromid hc fs i p hp]
  refine ⟨?_, ?_, hfileid, ?_, ?_, ?_⟩
  · intro p i
    exact ⟨(hc.2.2 fs).to_id p i, (hc.2.2 fs).to_path i p⟩
  · intro i j p hi hj
    rw [← hfileid i p hi, ← hfileid j p hj]
  · intro i hi
    cases hp : (path_fromid r fs i).1 with
    | none => rfl
    | some p =>
      exfalso
      apply hi
      rw [path_fromid_fst] at hp
      have hrange := (hc.2.2 fs).range i p hp
      rw [hall, List.mem_range'_1]
      have : Registry.init.id = 1 := rfl
      omega
  · intro fs' i hne hb
    by_contra hb'
    exact hne (hown fs' fs i hb hb')
  · intro i p hp
    have hstep := kfs_fileid_of_path_fromid hc fs i p hp
    rw [hstep]
    refine ⟨rfl, GetDictionaries_id r fs, ?_, ?_⟩
    · intro fs' j
      exact path_fromid_after_getDictionaries r fs' fs j
    · intro fs' q
      rw [kfs_fileid_fst, kfs_fileid_fst, GetDictionaries_snd, GetDictionaries_id]

theorem registry_maps_inverse_witness :
    (∀ p i, CFDictionaryGetValue (GetDictionariesForFilesystemWithID threePaths 0).1.pathMap p
          = some i ↔
        CFDictionaryGetValue (GetDictionariesForFilesystemWithID threePaths 0).1.idMap i
          = some p) ∧
      (∀ i j p, (path_fromid threePaths 0 i).1 = some p → (path_fromid threePaths 0 j).1 = some p →
        i = j) ∧
      (∀ i p, (path_fromid threePaths 0 i).1 = some p → (kfs_fileid threePaths 0 p).1 = i) ∧
      (∀ i, i ∉ allocated Registry.init
          [.fileid 0 ['/'], .fileid 0 ['/', 'a'], .fileid 0 ['/', 'b']] →
        (path_fromid threePaths 0 i).1 = none) ∧
      (∀ fs' i, fs' ≠ 0 → (path_fromid threePaths fs' i).1 ≠ none →
        (path_fromid threePaths 0 i).1 = none) ∧
      (∀ i p, (path_fromid threePaths 0 i).1 = some p →
        (kfs_fileid threePaths 0 p).1 = i ∧ (kfs_fileid threePaths 0 p).2.id = threePaths.id ∧
          (∀ fs' j, (path_fromid (kfs_fileid threePaths 0 p).2 fs' j).1
            = (path_fromid threePaths fs' j).1) ∧
          ∀ fs' q, (kfs_fileid (kfs_fileid threePaths 0 p).2 fs' q).1
            = (kfs_fileid threePaths fs' q).1) :=
  registry_maps_inverse [.fileid 0 ['/'], .fileid 0 ['/', 'a'], .fileid 0 ['/', 'b']] threePaths
    (by decide) (by decide) 0

/-! ## GETATTR and SETATTR without a `switch` -/

/-- C34, the code at failing inputs: on a mount whose callbacks all fail with
`EXDEV`, GETATTR replies `NFS3ERR_XDEV` and so does a SETATTR that asks for a
size; when they fail with `ENOTEMPTY` the two reply `NFS3ERR_NOTEMPTY`:
neither procedure has a `switch`.  READ and REMOVE, which have one, reply
`NFS3ERR_SERVERFAULT` on the first mount. -/
theorem getattr_setattr_unfiltered :
    (nfsproc3_getattr_3_svc darwin (mounted (errfs darwin.EXDEV) ()) ['0']).map
        (fun r => (r.1.status, r.2.trace)) = some (NFS3ERR_XDEV, [.stat (some ['/'])]) ∧
    (nfsproc3_getattr_3_svc darwin (mounted (errfs darwin.ENOTEMPTY) ()) ['0']).map
        (fun r => r.1.status) = some NFS3ERR_NOTEMPTY ∧
    (nfsproc3_setattr_3_svc darwin (mounted (errfs darwin.ENOTEMPTY) ()) ['0'] sattr3.sample
        ⟨false, ⟨0, 0⟩⟩ fattr3.zero).map (fun r => (r.1.status, r.2.trace))
      = some (NFS3ERR_NOTEMPTY, [.truncate (some ['/']) 3]) ∧
    (nfsproc3_setattr_3_svc darwin (mounted (errfs darwin.EXDEV) ()) ['0'] sattr3.sample
        ⟨false, ⟨0, 0⟩⟩ fattr3.zero).map (fun r => r.1.status) = some NFS3ERR_XDEV ∧
    (nfsproc3_read_3_svc darwin (mounted (errfs darwin.EXDEV) ()) ['0'] 0 10).map
        (fun r => r.1.status) = some NFS3ERR_SERVERFAULT ∧
    (nfsproc3_remove_3_svc darwin (mounted (errfs darwin.EXDEV) ()) ['0'] ['a']).map
        (fun r => r.1.status) = some NFS3ERR_SERVERFAULT := by
  refine ⟨by decide, by decide, by decide, by decide, by decide, by decide⟩

/-! ## READDIR with nothing to emit -/

/-- C38, the code at failing inputs: a READDIR on a directory with an empty
listing replies `NFS3_OK` with one entry, the first element of the static
array, which has no name; so does a READDIR with count 0; and a READDIR with
the cookie 3 on a listing of three names, served after a READDIR that sent
the three names, replies with those three entries again. -/
theorem readdir_empty_sends_array :
    (nfsproc3_readdir_3_svc darwin (mounted (listfs []) 5) ['0'] 0 [] 10).map
        (fun r => (r.1.status, r.1.resok.map (fun k => (k.entries, k.eof))))
      = some (NFS3_OK,
          some ([{ fileid := 0, name := none, cookie := 0, nextentry := false }], true)) ∧
    (nfsproc3_readdir_3_svc darwin (mounted (listfs abc) 5) ['0'] 0 [] 0).map
        (fun r => (r.1.status, r.1.resok.map (fun k => (k.entries, k.eof))))
      = some (NFS3_OK,
          some ([{ fileid := 0, name := none, cookie := 0, nextentry := false }], false)) ∧
    ((nfsproc3_readdir_3_svc darwin (mounted (listfs abc) 5) ['0'] 0 [] 10).bind fun r =>
        (nfsproc3_readdir_3_svc darwin r.2 ['0'] 3 ['5'] 10).map
          (fun r => (r.1.status,
            r.1.resok.map (fun k => (k.entries.map (fun e => (e.name, e.cookie)), k.eof)))))
      = some (NFS3_OK,
          some ([(some ['a'], 0), (some ['b'], 1), (some ['c'], 2)], true)) := by
  refine ⟨rfl, rfl, rfl⟩

/-! ## Handles whose file id has no path -/

/-- C39, the code at failing inputs: with the example application mounted as
filesystem 0, the file ids 7 and 0 have no path; GETATTR on the handles `0:7`
and `0:0` invokes `stat` with a `NULL` path, and READ on `0:7` invokes `read`
with a `NULL` path and replies `NFS3_OK`; with an application whose `stat`
succeeds GETATTR hands the `NULL` path to `kfs_fileid`, and LOOKUP and CREATE
hand it to `strcmp` (no reply is defined). -/
theorem unbound_fileid_reaches_callback :
    (path_fromid memServer.registry 0 7).1 = none ∧
    (kfstable_get memServer.table 0).map Option.isSome = some true ∧
    (nfsproc3_getattr_3_svc darwin memServer ['0', ':', '7']).map
        (fun r => (r.1.status, r.2.trace)) = some (NFS3ERR_NOENT, [.stat none]) ∧
    (nfsproc3_getattr_3_svc darwin memServer ['0', ':', '0']).map
        (fun r => (r.1.status, r.2.trace)) = some (NFS3ERR_NOENT, [.stat none]) ∧
    (nfsproc3_read_3_svc darwin memServer ['0', ':', '7'] 0 10).map
        (fun r => (r.1.status, r.2.trace)) = some (NFS3_OK, [.read none 0 10]) ∧
    (nfsproc3_getattr_3_svc darwin (mounted (fixedfs (stat_of_mode 0x644) true true true) ())
        ['0', ':', '7']).isNone = true ∧
    (nfsproc3_lookup_3_svc darwin memServer ['0', ':', '7'] ['a']).isNone = true ∧
    (nfsproc3_create_3_svc darwin memServer ['0', ':', '7'] ['a']
        (.UNCHECKED sattr3.nothing)).isNone = true := by
  refine ⟨by decide, by decide, by decide, by decide, by decide, by decide, by decide, by decide⟩

/-! ## Guarded SETATTR on an object without attributes -/

/-- C40, the code at failing inputs: on a mount whose `stat` fails, `get_fattr`
stores no attributes, and a SETATTR with the guard ctime (0, 0) replies
`NFS3ERR_XDEV` after invoking `truncate` when the uninitialised record holds
the ctime (0, 0), and `NFS3ERR_NOT_SYNC` when it holds the ctime (1, 0); on a
handle that names no mount the same two contents give `NFS3ERR_BADHANDLE` and
`NFS3ERR_NOT_SYNC`. -/
theorem guarded_setattr_reads_stack :
    (get_fattr darwin (mounted (errfs darwin.EXDEV) ()) ['0']).map
        (fun r => (r.1.1, r.1.2.isSome)) = some (NFS3ERR_XDEV, false) ∧
    (nfsproc3_setattr_3_svc darwin (mounted (errfs darwin.EXDEV) ()) ['0'] sattr3.sample
        ⟨true, ⟨0, 0⟩⟩ fattr3.zero).map (fun r => (r.1.status, r.2.trace))
      = some (NFS3ERR_XDEV, [.stat (some ['/']), .truncate (some ['/']) 3]) ∧
    (nfsproc3_setattr_3_svc darwin (mounted (errfs darwin.EXDEV) ()) ['0'] sattr3.sample
        ⟨true, ⟨0, 0⟩⟩ { fattr3.zero with ctime := ⟨1, 0⟩ }).map (fun r => (r.1.status, r.2.trace))
      = some (NFS3ERR_NOT_SYNC, [.stat (some ['/'])]) ∧
    (nfsproc3_setattr_3_svc darwin memServer ['1'] sattr3.sample
        ⟨true, ⟨0, 0⟩⟩ fattr3.zero).map (fun r => (r.1.status, r.2.trace))
      = some (NFS3ERR_BADHANDLE, []) ∧
    (nfsproc3_setattr_3_svc darwin memServer ['1'] sattr3.sample
        ⟨true, ⟨0, 0⟩⟩ { fattr3.zero with ctime := ⟨1, 0⟩ }).map (fun r => (r.1.status, r.2.trace))
      = some (NFS3ERR_NOT_SYNC, []) := by
  refine ⟨by decide, by decide, by decide, by decide, by decide⟩

/-! ## The statuses of the replies -/

/-- The status of every reply to a request is one of the `case` labels of the
procedure's `switch`. -/
theorem serve_status_mem {σ : Type} (H : Host) (s s' : Server σ) (req : Request)
    (status : nfsstat3) (h : req.serve H s = some (status, s')) : status ∈ req.labels := by
  cases req <;>
    simp only [Request.serve, Option.map_eq_some', Prod.mk.injEq] at h <;>
    obtain ⟨r, hr, rfl, _⟩ := h
  · exact (lookup_status_in H s _ _).of_eq r hr
  · exact (readlink_status_in H s _).of_eq r hr
  · exact (read_status_in H s _ _ _).of_eq r hr
  · exact (write_status_in H s _ _ _ _).of_eq r hr
  · exact (create_status_in H s _ _ _).of_eq r hr
  · exact (mkdir_status_in H s _ _ _).of_eq r hr
  · exact (symlink_status_in H s _ _ _ _).of_eq r hr
  · exact (remove_status_in H s _ _).of_eq r hr
  · exact (rmdir_status_in H s _ _).of_eq r hr
  · exact (rename_status_in H s _ _ _ _).of_eq r hr
  · exact (readdir_status_in H s _ _ _ _).of_eq r hr
  · exact (fsstat_status_in H s _).of_eq r hr

/-- A handle whose fs-id part names a slot of the table is resolved, to what
the slot holds, and the table is left as it is. -/
theorem get_filesystem_of_slot {σ : Type} (s : Server σ) (handle : CStr)
    (slot : Option (kfsfilesystem σ)) (h : handle_slot s handle = some slot) :
    ∃ path identifier s1, get_filesystem s handle = some ((slot, path, identifier), s1) ∧
      s1.table = s.table := by
  unfold handle_slot at h
  unfold get_filesystem get_filesystem_from_path
  simp only [h]
  exact ⟨_, _, _, rfl, rfl⟩

/-- The slot a handle names depends on the table only. -/
theorem handle_slot_congr {σ : Type} (s s1 : Server σ) (handle : CStr) (h : s1.table = s.table) :
    handle_slot s1 handle = handle_slot s handle := by
  unfold handle_slot
  rw [h]

/-- A request with a handle that names no mount is answered, with
`NFS3ERR_BADHANDLE`; READDIR answers `NFS3ERR_BAD_COOKIE` instead when the
verifier of a request that is not a new one is not that of the zero record. -/
theorem serve_of_no_mount {σ : Type} (H : Host) (s : Server σ) (req : Request)
    (h : names_no_mount s req) :
    ∃ status s', req.serve H s = some (status, s') ∧
      (status = NFS3ERR_BADHANDLE ∨
        ((∃ dir cookie cookieverf count, req = .READDIR dir cookie cookieverf count) ∧
          status = NFS3ERR_BAD_COOKIE)) := by
  cases req with
  | LOOKUP dir name =>
    obtain ⟨p, i, s1, h1, _⟩ := get_filesystem_of_slot s dir none h
    exact ⟨_, s1, by simp [Request.serve, nfsproc3_lookup_3_svc, h1], Or.inl rfl⟩
  | READLINK symlink =>
    obtain ⟨p, i, s1, h1, _⟩ := get_filesystem_of_slot s symlink none h
    exact ⟨_, s1, by simp [Request.serve, nfsproc3_readlink_3_svc, h1], Or.inl rfl⟩
  | READ file offset count =>
    obtain ⟨p, i, s1, h1, _⟩ := get_filesystem_of_slot s file none h
    exact ⟨_, s1, by simp [Request.serve, nfsproc3_read_3_svc, h1], Or.inl rfl⟩
  | WRITE file offset count data =>
    obtain ⟨p, i, s1, h1, _⟩ := get_filesystem_of_slot s file none h
    exact ⟨_, s1, by simp [Request.serve, nfsproc3_write_3_svc, h1], Or.inl rfl⟩
  | CREATE dir name how =>
    obtain ⟨p, i, s1, h1, _⟩ := get_filesystem_of_slot s dir none h
    exact ⟨_, s1, by simp [Request.serve, nfsproc3_create_3_svc, h1], Or.inl rfl⟩
  | MKDIR dir name attributes =>
    obtain ⟨p, i, s1, h1, _⟩ := get_filesystem_of_slot s dir none h
    exact ⟨_, s1, by simp [Request.serve, nfsproc3_mkdir_3_svc, h1], Or.inl rfl⟩
  | SYMLINK dir name symlink_data symlink_attributes =>
    obtain ⟨p, i, s1, h1, _⟩ := get_filesystem_of_slot s dir none h
    exact ⟨_, s1, by simp [Request.serve, nfsproc3_symlink_3_svc, h1], Or.inl rfl⟩
  | REMOVE dir name =>
    obtain ⟨p, i, s1, h1, _⟩ := get_filesystem_of_slot s dir none h
    exact ⟨_, s1, by simp [Request.serve, nfsproc3_remove_3_svc, h1], Or.inl rfl⟩
  | RMDIR dir name =>
    obtain ⟨p, i, s1, h1, _⟩ := get_filesystem_of_slot s dir none h
    exact ⟨_, s1, by simp [Request.serve, nfsproc3_rmdir_3_svc, h1], Or.inl rfl⟩
  | RENAME from_dir from_name to_dir to_name =>
    rcases h with ⟨hf, ht⟩ | ⟨hf, ht⟩
    · obtain ⟨p, i, s1, h1, ht1⟩ := get_filesystem_of_slot s from_dir none hf
      obtain ⟨slot, hslot⟩ := Option.isSome_iff_exists.mp ht
      obtain ⟨p2, i2, s2, h2, _⟩ := get_filesystem_of_slot s1 to_dir slot
        ((handle_slot_congr s s1 to_dir ht1).trans hslot)
      exact ⟨_, s2, by simp [Request.serve, nfsproc3_rename_3_svc, h1, h2], Or.inl rfl⟩
    · obtain ⟨slot, hslot⟩ := Option.isSome_iff_exists.mp hf
      obtain ⟨p, i, s1, h1, ht1⟩ := get_filesystem_of_slot s from_dir slot hslot
      obtain ⟨p2, i2, s2, h2, _⟩ := get_filesystem_of_slot s1 to_dir none
        ((handle_slot_congr s s1 to_dir ht1).trans ht)
      refine ⟨_, s2, ?_, Or.inl rfl⟩
      cases slot <;> simp [Request.serve, nfsproc3_rename_3_svc, h1, h2]
  | READDIR dir cookie cookieverf count =>
    obtain ⟨p, i, s1, h1, ht1⟩ := get_filesystem_of_slot s dir none h
    obtain ⟨p2, i2, s2, h2, _⟩ := get_filesystem_of_slot s1 dir none
      ((handle_slot_congr s s1 dir ht1).trans h)
    have hattr : get_fattr H s dir = some ((NFS3ERR_BADHANDLE, none), s1) := by
      unfold get_fattr
      rw [h1]
    by_cases hvalid : (!((decide (cookie = 0) && decide (cookieverf.length = 0)) == false &&
        decide (cookieverf ≠ cookieverf_of (fattr3.zero).mtime.seconds))) = true
    · refine ⟨NFS3ERR_BADHANDLE, s2, ?_, Or.inl rfl⟩
      simp only [Request.serve, nfsproc3_readdir_3_svc, hattr, Option.getD_none]
      rw [if_pos hvalid, h2]
      rfl
    · refine ⟨NFS3ERR_BAD_COOKIE, s1, ?_, Or.inr ⟨⟨_, _, _, _, rfl⟩, rfl⟩⟩
      simp only [Request.serve, nfsproc3_readdir_3_svc, hattr, Option.getD_none]
      rw [if_neg hvalid]
      rfl
  | FSSTAT fsroot =>
    obtain ⟨p, i, s1, h1, _⟩ := get_filesystem_of_slot s fsroot none h
    exact ⟨_, s1, by simp [Request.serve, nfsproc3_fsstat_3_svc, h1], Or.inl rfl⟩

/-- C5: for each of LOOKUP, READLINK, READ, WRITE, CREATE, MKDIR, SYMLINK, REMOVE,
RMDIR, RENAME, READDIR and FSSTAT, in every state of the server and of the
application, for every handle and every argument: the status of every reply is
one of the `case` labels of the procedure's `switch` (for LOOKUP: OK, IO,
NOENT, ACCES, NAMETOOLONG, STALE, BADHANDLE, SERVERFAULT); when the callback
fails leaving a host code, whatever the code, there is a reply, its status is
what the `switch` makes of the mapped code and is one of the labels, and it is
`NFS3ERR_SERVERFAULT` when the mapped status is no label; and when a handle
names no mount there is a reply, with a status among the labels
(`NFS3ERR_BADHANDLE`, or `NFS3ERR_BAD_COOKIE` from READDIR). -/
theorem reply_status_in_whitelist {σ : Type} (H : Host) (s : Server σ) (req : Request) :
    (∀ status s', req.serve H s = some (status, s') → status ∈ req.labels) ∧
      (∀ dir name, req = .LOOKUP dir name →
        req.labels = [NFS3_OK, NFS3ERR_IO, NFS3ERR_NOENT, NFS3ERR_ACCES, NFS3ERR_NAMETOOLONG,
          NFS3ERR_STALE, NFS3ERR_BADHANDLE, NFS3ERR_SERVERFAULT]) ∧
      (∀ error, callback_fails H s req error →
        ∃ s', req.serve H s
            = some (filter_status req.labels (convert_status H error req.default), s') ∧
          filter_status req.labels (convert_status H error req.default) ∈ req.labels ∧
          (convert_status H error req.default ∉ req.labels →
            req.serve H s = some (NFS3ERR_SERVERFAULT, s'))) ∧
      (names_no_mount s req →
        ∃ status s', req.serve H s = some (status, s') ∧ status ∈ req.labels ∧
          (status = NFS3ERR_BADHANDLE ∨
            ((∃ dir cookie cookieverf count, req = .READDIR dir cookie cookieverf count) ∧
              status = NFS3ERR_BAD_COOKIE))) := by
  refine ⟨fun status s' h => serve_status_mem H s s' req status h, ?_, ?_, ?_⟩
  · intro dir name hreq
    subst hreq
    rfl
  · intro error hfail
    have hmap := serve_of_callback_fails H s req error hfail
    cases hserve : req.serve H s with
    | none => rw [hserve] at hmap; cases hmap
    | some r =>
      obtain ⟨status, s'⟩ := r
      rw [hserve] at hmap
      simp only [Option.map_some', Option.some.injEq] at hmap
      subst hmap
      refine ⟨s', rfl, serve_status_mem H s s' req _ hserve, ?_⟩
      intro hnot
      unfold filter_status
      rw [if_neg hnot]
  · intro hno
    obtain ⟨status, s', hserve, hstatus⟩ := serve_of_no_mount H s req hno
    exact ⟨status, s', hserve, serve_status_mem H s s' req status hserve, hstatus⟩

theorem reply_status_in_whitelist_witness :
    (path_fromid (mounted (errfs darwin.EXDEV) ()).registry 0 7).1 = none ∧
      convert_status darwin darwin.EXDEV (Request.READ ['0', ':', '7'] 0 10).default
        = NFS3ERR_XDEV ∧
      ∃ s', (Request.READ ['0', ':', '7'] 0 10).serve darwin (mounted (errfs darwin.EXDEV) ())
        = some (NFS3ERR_SERVERFAULT, s') := by
  obtain ⟨s', _, _, h⟩ :=
    (reply_status_in_whitelist darwin (mounted (errfs darwin.EXDEV) ())
      (.READ ['0', ':', '7'] 0 10)).2.2.1 darwin.EXDEV
      ⟨install_noimp (kfsfilesystem_duplicate (errfs darwin.EXDEV)), none, 0, _,
        fun _ _ _ _ w => ⟨(-1, []), some darwin.EXDEV, w⟩, rfl, rfl, by decide, rfl⟩
  exact ⟨by decide, by decide, s', h (by decide)⟩

end KFS
